import Mathlib

/-!
# Card resource service: reader manager, profile manager and service coordinator

A shallow embedding of the allocation core of the Keyple card resource service
(`ReaderManagerAdapter`, `CardProfileManagerAdapter`, `CardResourceServiceAdapter`).

Conventions of the embedding.

* A `std::shared_ptr<T>` that may be null is an `Option T`; a handle that the code
  never receives null is a plain `T`.  A handle carries the address of its object
  (`id`) together with the immutable attributes of that object, so comparing two
  pointers is comparing two handles.
* Every interaction with the outside (the wall clock, the card selection run by a
  profile extension, the addresses returned by `std::make_shared`) is taken from an
  `Env` oracle, indexed by the number of interactions already made, which is
  recorded in a `World`.  Each call may therefore answer anything.
* Times are milliseconds as natural numbers; the readings of the clock and the usage
  timeout are far below `2 ^ 63`, so the conversions to `uint64_t` are exact.
* A C++ exception is an `Except.error`; a function that changes its object before
  throwing returns the changed object next to the error.
-/

namespace Keyple

/-! ## Handles -/

/-- Handle of a `Plugin`; `pool` tells whether `dynamic_pointer_cast<PoolPlugin>`
succeeds, `observable` whether `dynamic_pointer_cast<ObservablePlugin>` does. -/
structure Plugin where
  id : Nat
  name : String
  pool : Bool := false
  observable : Bool := false
deriving DecidableEq, Repr

/-- Handle of a `CardReader`; `observable` tells whether
`dynamic_pointer_cast<ObservableCardReader>` succeeds, `keypleReader` whether
`dynamic_pointer_cast<Reader>` does (it does for every reader a plugin provides). -/
structure CardReader where
  id : Nat
  name : String
  observable : Bool := false
  keypleReader : Bool := true
deriving DecidableEq, Repr

/-- Handle of a `SmartCard` with the two attributes the service reads. -/
structure SmartCard where
  id : Nat
  powerOnData : String
  selectApplicationResponse : List Nat
deriving DecidableEq, Repr

/-- The `CardResource` POJO: a reader and a smart card, both non-null
(`CardResource.cpp`, the constructor asserts it). -/
structure CardResource where
  id : Nat
  mReader : CardReader
  mSmartCard : SmartCard
deriving DecidableEq, Repr

namespace CardResource

/-- `CardResource::getReader`. -/
def getReader (c : CardResource) : CardReader := c.mReader

/-- `CardResource::getSmartCard`. -/
def getSmartCard (c : CardResource) : SmartCard := c.mSmartCard

end CardResource

/-- The abnormal outcomes: the two exceptions the service throws, and `Undefined`,
which is not an exception but marks an execution that leaves defined behaviour (a
null pointer dereferenced, a destroyed vector slot read through a stale iterator). -/
inductive Exception where
  | IllegalStateException
  | IllegalArgumentException
  | Undefined
deriving DecidableEq, Repr

/-! ## The outside world -/

/-- Outcome of `PoolPlugin::allocateReader`: a reader, `nullptr`, or a
`KeyplePluginException`. -/
inductive Allocation where
  | reader (r : CardReader)
  | null
  | pluginException
deriving DecidableEq, Repr

/-- The answers of the outside world.  `clock n` is the `n`-th reading of
`System::currentTimeMillis()`, `select n extension reader` the smart card returned by
the `n`-th call of `CardResourceProfileExtension::matches` (made with that extension
on that reader; `none` is `nullptr`), `allocateReader n plugin group` the outcome of
the `n`-th call of `PoolPlugin::allocateReader`, `regexMatches pattern name` the
answer of `Pattern::compile(pattern)->matcher(name)->matches()`, `getPlugin n name` the
answer of the `n`-th call of `SmartCardService::getPlugin`, `pluginGetReader n plugin
name` that of the `n`-th call of `Plugin::getReader` and `pluginGetReaders n plugin` that
of the `n`-th call of `Plugin::getReaders`.
`shuffle l` is the content of a vector `l` after
`std::shuffle(begin, end, std::default_random_engine {})`, and `rotateBeforeBegin l k`
its content after `std::rotate(begin, begin - k, end)` with `k >= 1`, a call that
`std::rotate` does not define (its middle iterator precedes `begin`). -/
structure Env where
  clock : Nat → Nat
  select : Nat → Nat → CardReader → Option SmartCard
  allocateReader : Nat → Plugin → String → Allocation
  regexMatches : String → String → Bool
  getPlugin : Nat → String → Option Plugin
  pluginGetReader : Nat → Plugin → String → Option CardReader
  shuffle : List CardResource → List CardResource
  rotateBeforeBegin : List CardResource → Nat → List CardResource
  pluginGetReaders : Nat → Plugin → List CardReader

/-- A call made on an observable reader or plugin by the service. -/
inductive ObservationCall where
  | startReaderObservation (reader : CardReader)
  | removeReaderObserver (reader : CardReader)
  | startPluginObservation (plugin : Plugin)
  | removePluginObserver (plugin : Plugin)
deriving DecidableEq, Repr

/-- What has been consumed from the outside world so far, and what has been done to
it: the number of clock readings, of card selections, of objects allocated by
`std::make_shared<CardResource>`, of `allocateReader`, `getPlugin`,
`Plugin::getReader` and `Plugin::getReaders` calls; the readers on which
`ReaderConfiguratorSpi::setupReader` has been invoked, the pool plugin and reader of
every `PoolPlugin::releaseReader` call, the duration of every `Thread::sleep` and the
calls made on observable readers and plugins, oldest first. -/
structure World where
  clockReads : Nat := 0
  selections : Nat := 0
  allocations : Nat := 0
  poolAllocations : Nat := 0
  pluginQueries : Nat := 0
  readerQueries : Nat := 0
  readerListQueries : Nat := 0
  setupReaderLog : List CardReader := []
  releaseReaderLog : List (Plugin × CardReader) := []
  sleepLog : List Nat := []
  observationLog : List ObservationCall := []
deriving DecidableEq, Repr

/-! ## Helpers of `keyple::core::util::cpp::Arrays` -/

namespace Arrays

/-- Modelled from the spec: `Arrays::equals` of the utility library is not part of the
sources; the select application responses are compared as byte sequences
("byte-exact `selectApplicationResponse`"). -/
def equals (a b : List Nat) : Bool := a == b

/-- Modelled from the spec: `Arrays::remove` of the utility library is not part of the
sources; "removes `r` from the list": the first element equal to `b` is erased. -/
def remove {α : Type} [DecidableEq α] (a : List α) (b : α) : List α := a.erase b

/-- Modelled from the spec: `Arrays::contains` of the utility library is not part of
the sources; membership test ("unless already present"). -/
def contains {α : Type} [DecidableEq α] (a : List α) (b : α) : Bool := decide (b ∈ a)

/-- Modelled from the spec: `Arrays::indexOf` of the utility library is not part of
the sources; the position of the first element equal to `b`. -/
def indexOf {α : Type} [DecidableEq α] (a : List α) (b : α) : Nat := a.indexOf b

/-- Modelled from the spec: `Arrays::addAll` of the utility library is not part of the
sources; the elements of `b` are added at the end of the ordered list `a` (the lists
of the configuration are "ordered lists"). -/
def addAll {α : Type} (a b : List α) : List α := a ++ b

/-- Modelled from the spec: `Arrays::containsAll` of the utility library is not part of
the sources; whether every element of `b` is in `a` ("any plugin named by a profile is
known globally"). -/
def containsAll {α : Type} [DecidableEq α] (a b : List α) : Bool :=
  b.all (fun x => decide (x ∈ a))

/-- Modelled from the spec: `Arrays::removeAll` of the utility library is not part of
the sources; the elements of `b` are removed from `a` ("unused globally-configured
plugins are silently pruned"). -/
def removeAll {α : Type} [DecidableEq α] (a b : List α) : List α :=
  a.filter (fun x => decide (x ∉ b))

end Arrays

/-! ## ReaderManagerAdapter -/

/-- The fields of `ReaderManagerAdapter` (`ReaderManagerAdapter.h`).
`mReaderConfiguratorSpi` is the handle of the reader configurator, `none` when
`registerReader` found no configured plugin.  `mUsageTimeoutMillis` is never
negative: the builder accepts only values `>= 1` and defaults to `0`. -/
structure ReaderManagerAdapter where
  mReader : CardReader
  mPlugin : Plugin
  mCardResources : List CardResource := []
  mReaderConfiguratorSpi : Option Nat := none
  mUsageTimeoutMillis : Nat := 0
  mLockMaxTimeMillis : Nat := 0
  mSelectedCardResource : Option CardResource := none
  mIsBusy : Bool := false
  mIsActive : Bool := false
deriving DecidableEq, Repr

namespace ReaderManagerAdapter

/-- The constructor: "creates a new reader manager not active by default". -/
def create (reader : CardReader) (plugin : Plugin) (readerConfiguratorSpi : Option Nat)
    (usageTimeoutMillis : Nat) : ReaderManagerAdapter :=
  { mReader := reader
    mPlugin := plugin
    mCardResources := []
    mReaderConfiguratorSpi := readerConfiguratorSpi
    mUsageTimeoutMillis := usageTimeoutMillis
    mLockMaxTimeMillis := 0
    mSelectedCardResource := none
    mIsBusy := false
    mIsActive := false }

/-- `ReaderManagerAdapter::getReader`. -/
def getReader (rm : ReaderManagerAdapter) : CardReader := rm.mReader

/-- `ReaderManagerAdapter::getPlugin`. -/
def getPlugin (rm : ReaderManagerAdapter) : Plugin := rm.mPlugin

/-- `ReaderManagerAdapter::getCardResources`. -/
def getCardResources (rm : ReaderManagerAdapter) : List CardResource := rm.mCardResources

/-- `ReaderManagerAdapter::isActive`. -/
def isActive (rm : ReaderManagerAdapter) : Bool := rm.mIsActive

/-- `ReaderManagerAdapter::activate`: the reader is set up on the first activation
only; `mReaderConfiguratorSpi->setupReader` dereferences a null pointer when the
manager has no configurator. -/
def activate (w : World) (rm : ReaderManagerAdapter) :
    Except Exception Unit × ReaderManagerAdapter × World :=
  if !rm.mIsActive then
    match rm.mReaderConfiguratorSpi with
    | none => (.error Exception.Undefined, rm, w)
    | some _ =>
      (.ok (), { rm with mIsActive := true },
       { w with setupReaderLog := w.setupReaderLog ++ [rm.mReader] })
  else
    (.ok (), { rm with mIsActive := true }, w)

/-- `ReaderManagerAdapter::areEquals`: same pointer, or both non-null with the same
power-on data (both empty, or non-empty and equal) and the same select application
response. -/
def areEquals (s1 s2 : Option SmartCard) : Bool :=
  if s1 = s2 then true
  else
    match s1, s2 with
    | some a, some b =>
      let hasSamePowerOnData :=
        (a.powerOnData == "" && b.powerOnData == "") ||
        (a.powerOnData != "" && a.powerOnData == b.powerOnData)
      let hasSameFci := Arrays.equals a.selectApplicationResponse b.selectApplicationResponse
      hasSamePowerOnData && hasSameFci
    | _, _ => false

/-- `ReaderManagerAdapter::unlock`. -/
def unlock (rm : ReaderManagerAdapter) : ReaderManagerAdapter :=
  { rm with mIsBusy := false }

/-- `ReaderManagerAdapter::getOrCreateCardResource`: the first card resource of the
list whose smart card is identical to the provided one, else a new card resource
(allocated at the next free address) pushed at the back of the list. -/
def getOrCreateCardResource (w : World) (rm : ReaderManagerAdapter) (smartCard : SmartCard) :
    CardResource × ReaderManagerAdapter × World :=
  match rm.mCardResources.find? (fun cardResource =>
      areEquals (some cardResource.getSmartCard) (some smartCard)) with
  | some cardResource => (cardResource, rm, w)
  | none =>
    let cardResource : CardResource :=
      { id := w.allocations, mReader := rm.mReader, mSmartCard := smartCard }
    (cardResource,
     { rm with mCardResources := rm.mCardResources ++ [cardResource] },
     { w with allocations := w.allocations + 1 })

end ReaderManagerAdapter

/-- `ReaderManagerAdapter::matches`: runs the selection of the extension on the
reader; when a card is selected its card resource becomes the selected one; the
reader is unlocked in any case. -/
def ReaderManagerAdapter.matches (env : Env) (w : World) (rm : ReaderManagerAdapter) (extension : Nat) :
    Option CardResource × ReaderManagerAdapter × World :=
  let smartCard := env.select w.selections extension rm.mReader
  let w1 := { w with selections := w.selections + 1 }
  match smartCard with
  | some sc =>
    let r := ReaderManagerAdapter.getOrCreateCardResource w1 rm sc
    (some r.1, ReaderManagerAdapter.unlock { r.2.1 with mSelectedCardResource := some r.1 }, r.2.2)
  | none => (none, ReaderManagerAdapter.unlock rm, w1)

namespace ReaderManagerAdapter

/-- `ReaderManagerAdapter::lock`.  The clock is read a first time only when the
reader is busy, and once more when the deadline is set.  When the re-selection does
not give the smart card of the resource, the selection is cleared and
`IllegalStateException` is thrown. -/
def lock (env : Env) (w : World) (rm : ReaderManagerAdapter) (cardResource : CardResource)
    (extension : Nat) : Except Exception Bool × ReaderManagerAdapter × World :=
  let w1 := if rm.mIsBusy then { w with clockReads := w.clockReads + 1 } else w
  if rm.mIsBusy = true ∧ env.clock w.clockReads < rm.mLockMaxTimeMillis then
    (.ok false, rm, w1)
  else
    if rm.mSelectedCardResource ≠ some cardResource then
      let smartCard := env.select w1.selections extension rm.mReader
      let w2 := { w1 with selections := w1.selections + 1 }
      if !areEquals (some cardResource.getSmartCard) smartCard then
        (.error Exception.IllegalStateException, { rm with mSelectedCardResource := none }, w2)
      else
        (.ok true,
         { rm with
           mSelectedCardResource := some cardResource
           mLockMaxTimeMillis := env.clock w2.clockReads + rm.mUsageTimeoutMillis
           mIsBusy := true },
         { w2 with clockReads := w2.clockReads + 1 })
    else
      (.ok true,
       { rm with
         mLockMaxTimeMillis := env.clock w1.clockReads + rm.mUsageTimeoutMillis
         mIsBusy := true },
       { w1 with clockReads := w1.clockReads + 1 })

/-- `ReaderManagerAdapter::removeCardResource`. -/
def removeCardResource (rm : ReaderManagerAdapter) (cardResource : CardResource) :
    ReaderManagerAdapter :=
  let l := Arrays.remove rm.mCardResources cardResource
  if rm.mSelectedCardResource = some cardResource then
    { rm with mCardResources := l, mSelectedCardResource := none }
  else
    { rm with mCardResources := l }

end ReaderManagerAdapter

/-! ## std::map -/

/-- A `std::map` as the list of its entries in iteration order (ascending keys). -/
abbrev StdMap (κ ν : Type) := List (κ × ν)

namespace StdMap

variable {κ ν : Type} [DecidableEq κ]

/-- `std::map::find`: the value mapped to the key, if any. -/
def find : StdMap κ ν → κ → Option ν
  | [], _ => none
  | (k, v) :: m, x => if k = x then some v else find m x

/-- `std::map::insert`: nothing happens when the key is present; else the entry is
placed in key order (`lt` is the order of the keys). -/
def insert (lt : κ → κ → Bool) : StdMap κ ν → κ → ν → StdMap κ ν
  | [], x, v => [(x, v)]
  | (k, u) :: m, x, v =>
    if k = x then (k, u) :: m
    else if lt x k then (x, v) :: (k, u) :: m
    else (k, u) :: insert lt m x v

/-- `std::map::erase` of a key. -/
def erase : StdMap κ ν → κ → StdMap κ ν
  | [], _ => []
  | (k, u) :: m, x => if k = x then erase m x else (k, u) :: erase m x

/-- The map after the object mapped to `x` has been mutated into `v` (the map holds a
shared pointer to the object; a key that is absent maps to nothing afterwards either). -/
def assign : StdMap κ ν → κ → ν → StdMap κ ν
  | [], _, _ => []
  | (k, u) :: m, x, v => if k = x then (k, v) :: assign m x v else (k, u) :: assign m x v

end StdMap

/-- Order of `std::shared_ptr<CardReader>` keys: the order of the addresses. -/
def CardReader.lt (a b : CardReader) : Bool := decide (a.id < b.id)

/-- Order of `std::shared_ptr<Plugin>` keys. -/
def Plugin.lt (a b : Plugin) : Bool := decide (a.id < b.id)

/-- Order of `std::shared_ptr<CardResource>` keys. -/
def CardResource.lt (a b : CardResource) : Bool := decide (a.id < b.id)

/-! ## Configuration -/

/-- `PluginsConfigurator::AllocationStrategy`. -/
inductive AllocationStrategy where
  | FIRST
  | CYCLIC
  | RANDOM
deriving DecidableEq, Repr

/-- `PluginsConfigurator::ConfiguredPlugin`; the two exception handlers are kept as
optional handles. -/
structure ConfiguredPlugin where
  mPlugin : Plugin
  mReaderConfiguratorSpi : Option Nat
  mWithPluginMonitoring : Bool := false
  mWithReaderMonitoring : Bool := false
  mPluginObservationExceptionHandlerSpi : Option Nat := none
  mReaderObservationExceptionHandlerSpi : Option Nat := none
deriving DecidableEq, Repr

/-- `CardResourceProfileConfigurator`: the descriptor of a profile.  The extension is
a non-null handle (the builder asserts it). -/
structure CardResourceProfileConfigurator where
  mProfileName : String
  mCardResourceProfileExtension : Nat
  mPlugins : List Plugin := []
  mReaderNameRegex : String := ""
  mReaderGroupReference : String := ""
deriving DecidableEq, Repr

/-- The fields of `CardResourceServiceConfiguratorAdapter`, the global configuration. -/
structure CardResourceServiceConfiguratorAdapter where
  mPlugins : List Plugin := []
  mConfiguredPlugins : List ConfiguredPlugin := []
  mAllocationStrategy : AllocationStrategy := AllocationStrategy.FIRST
  mUsageTimeoutMillis : Nat := 0
  mPoolPlugins : List Plugin := []
  mUsePoolFirst : Bool := false
  mCardResourceProfileConfigurators : List CardResourceProfileConfigurator := []
  mIsBlockingAllocationMode : Bool := false
  mCycleDurationMillis : Nat := 0
  mTimeoutMillis : Nat := 0
deriving DecidableEq, Repr

/-! ## State of the profile managers and of the service -/

/-- The fields of `CardProfileManagerAdapter`.  The compiled pattern
`mReaderNameRegexPattern` is null exactly when the regex of the profile is empty. -/
structure CardProfileManagerAdapter where
  mCardProfile : CardResourceProfileConfigurator
  mGlobalConfiguration : CardResourceServiceConfiguratorAdapter
  mPlugins : List Plugin := []
  mPoolPlugins : List Plugin := []
  mCardResources : List CardResource := []
deriving DecidableEq, Repr

/-- The fields of `CardResourceServiceAdapter`. -/
structure CardResourceServiceAdapter where
  mConfigurator : Option CardResourceServiceConfiguratorAdapter := none
  mReaderToReaderManagerMap : StdMap CardReader ReaderManagerAdapter := []
  mCardProfileNameToCardProfileManagerMap : StdMap String CardProfileManagerAdapter := []
  mCardResourceToPoolPluginMap : StdMap CardResource Plugin := []
  mPluginToObservableReadersMap : StdMap Plugin (List CardReader) := []
  mIsStarted : Bool := false
deriving DecidableEq, Repr

/-! ## CardProfileManagerAdapter: the operations that need no service -/

namespace CardProfileManagerAdapter

/-- `CardProfileManagerAdapter::removeCardResource`: `std::find` then `erase`. -/
def removeCardResource (pm : CardProfileManagerAdapter) (cardResource : CardResource) :
    CardProfileManagerAdapter :=
  { pm with mCardResources := pm.mCardResources.erase cardResource }

/-- `CardProfileManagerAdapter::isReaderAccepted`. -/
def isReaderAccepted (env : Env) (pm : CardProfileManagerAdapter) (reader : CardReader) : Bool :=
  pm.mCardProfile.mReaderNameRegex == "" ||
  env.regexMatches pm.mCardProfile.mReaderNameRegex reader.name

/-- `CardProfileManagerAdapter::initializeCardResource`: on an accepted reader the
manager is activated and asked for the card resource of the inserted card, which is
pushed at the back of the list of the profile unless it is already there. -/
def initializeCardResource (env : Env) (w : World) (pm : CardProfileManagerAdapter)
    (readerManager : ReaderManagerAdapter) :
    Except Exception Unit × (CardProfileManagerAdapter × ReaderManagerAdapter) × World :=
  if isReaderAccepted env pm readerManager.getReader then
    match readerManager.activate w with
    | (.error e, rm1, w1) => (.error e, (pm, rm1), w1)
    | (.ok _, rm1, w1) =>
      let m := rm1.matches env w1 pm.mCardProfile.mCardResourceProfileExtension
      match m.1 with
      | some cardResource =>
        if !Arrays.contains pm.mCardResources cardResource then
          (.ok (), ({ pm with mCardResources := pm.mCardResources ++ [cardResource] }, m.2.1),
           m.2.2)
        else
          (.ok (), (pm, m.2.1), m.2.2)
      | none => (.ok (), (pm, m.2.1), m.2.2)
  else
    (.ok (), (pm, readerManager), w)

/-- `CardProfileManagerAdapter::onReaderConnected`: with an explicit plugin list the
profile acts only on a reader of one of its plugins. -/
def onReaderConnected (env : Env) (w : World) (pm : CardProfileManagerAdapter)
    (readerManager : ReaderManagerAdapter) :
    Except Exception Unit × (CardProfileManagerAdapter × ReaderManagerAdapter) × World :=
  if !pm.mCardProfile.mPlugins.isEmpty then
    if pm.mCardProfile.mPlugins.any (fun profilePlugin =>
        decide (profilePlugin = readerManager.getPlugin)) then
      initializeCardResource env w pm readerManager
    else
      (.ok (), (pm, readerManager), w)
  else
    initializeCardResource env w pm readerManager

/-- `CardProfileManagerAdapter::onCardInserted`. -/
def onCardInserted (env : Env) (w : World) (pm : CardProfileManagerAdapter)
    (readerManager : ReaderManagerAdapter) :
    Except Exception Unit × (CardProfileManagerAdapter × ReaderManagerAdapter) × World :=
  onReaderConnected env w pm readerManager

/-- `CardProfileManagerAdapter::updateCardResourcesOrder`.  Under `CYCLIC` the call is
`std::rotate(begin, begin - cardResourceIndex - 1, end)`. -/
def updateCardResourcesOrder (env : Env) (pm : CardProfileManagerAdapter)
    (cardResourceIndex : Nat) : CardProfileManagerAdapter :=
  if pm.mGlobalConfiguration.mAllocationStrategy = AllocationStrategy.CYCLIC then
    { pm with mCardResources := env.rotateBeforeBegin pm.mCardResources (cardResourceIndex + 1) }
  else if pm.mGlobalConfiguration.mAllocationStrategy = AllocationStrategy.RANDOM then
    { pm with mCardResources := env.shuffle pm.mCardResources }
  else
    pm

end CardProfileManagerAdapter

/-! ## CardResourceServiceAdapter: lookup, release and removal -/

namespace CardResourceServiceAdapter

/-- `CardResourceServiceAdapter::getReaderManager`. -/
def getReaderManager (svc : CardResourceServiceAdapter) (reader : CardReader) :
    Option ReaderManagerAdapter :=
  if !reader.keypleReader then none
  else StdMap.find svc.mReaderToReaderManagerMap reader

/-- `CardResourceServiceAdapter::registerPoolCardResource`. -/
def registerPoolCardResource (svc : CardResourceServiceAdapter) (cardResource : CardResource)
    (poolPlugin : Plugin) : CardResourceServiceAdapter :=
  { svc with
    mCardResourceToPoolPluginMap :=
      StdMap.insert CardResource.lt svc.mCardResourceToPoolPluginMap cardResource poolPlugin }

/-- `CardResourceServiceAdapter::releaseCardResource`: the manager of a registered
reader is unlocked; else a pool resource is unmapped and its reader given back to the
pool plugin. -/
def releaseCardResource (w : World) (svc : CardResourceServiceAdapter)
    (cardResource : Option CardResource) :
    Except Exception Unit × CardResourceServiceAdapter × World :=
  if !svc.mIsStarted then (.error Exception.IllegalStateException, svc, w)
  else
    match cardResource with
    | none => (.error Exception.IllegalArgumentException, svc, w)
    | some c =>
      match StdMap.find svc.mReaderToReaderManagerMap c.getReader with
      | some readerManager =>
        (.ok (),
         { svc with
           mReaderToReaderManagerMap :=
             StdMap.assign svc.mReaderToReaderManagerMap c.getReader readerManager.unlock },
         w)
      | none =>
        match StdMap.find svc.mCardResourceToPoolPluginMap c with
        | some poolPlugin =>
          (.ok (),
           { svc with
             mCardResourceToPoolPluginMap := StdMap.erase svc.mCardResourceToPoolPluginMap c },
           { w with releaseReaderLog := w.releaseReaderLog ++ [(poolPlugin, c.getReader)] })
        | none => (.ok (), svc, w)

/-- `CardResourceServiceAdapter::removeCardResource`: release, then (regular reader
only) removal from the reader manager and from every profile manager. -/
def removeCardResource (w : World) (svc : CardResourceServiceAdapter)
    (cardResource : Option CardResource) :
    Except Exception Unit × CardResourceServiceAdapter × World :=
  match releaseCardResource w svc cardResource with
  | (.error e, svc1, w1) => (.error e, svc1, w1)
  | (.ok _, svc1, w1) =>
    match cardResource with
    | none => (.error Exception.IllegalArgumentException, svc1, w1)
    | some c =>
      if !c.getReader.keypleReader then (.error Exception.IllegalArgumentException, svc1, w1)
      else
        match StdMap.find svc1.mReaderToReaderManagerMap c.getReader with
        | some readerManager =>
          (.ok (),
           { svc1 with
             mReaderToReaderManagerMap :=
               StdMap.assign svc1.mReaderToReaderManagerMap c.getReader
                 (readerManager.removeCardResource c)
             mCardProfileNameToCardProfileManagerMap :=
               svc1.mCardProfileNameToCardProfileManagerMap.map
                 (fun pair => (pair.1, pair.2.removeCardResource c)) },
           w1)
        | none => (.ok (), svc1, w1)

/-- The loop `for (cardResource : unusableCardResources) removeCardResource(cardResource)`;
an exception ends it. -/
def removeCardResources :
    World → CardResourceServiceAdapter → List CardResource →
      Except Exception Unit × CardResourceServiceAdapter × World
  | w, svc, [] => (.ok (), svc, w)
  | w, svc, c :: rest =>
    match removeCardResource w svc (some c) with
    | (.ok _, svc1, w1) => removeCardResources w1 svc1 rest
    | (.error e, svc1, w1) => (.error e, svc1, w1)

end CardResourceServiceAdapter

/-! ## CardProfileManagerAdapter: the search of a card resource

The profile manager is the one registered in the service under `profileName`; its
methods run on the state of the whole service, which they change through `mService`. -/

namespace CardProfileManagerAdapter

/-- The `for` loop of `getRegularCardResource` from position `i` on, `rest` being the
elements of `mCardResources` not yet visited.  It ends at the first card resource
whose reader manager grants the lock, and gives the position and the card resource
handed to `lock`; a card resource whose reader has no manager, or whose `lock` throws
`IllegalStateException`, joins `unusable`; another exception leaves the loop. -/
def lockFirstAvailable (env : Env) (extension : Nat) :
    List CardResource → Nat → World → CardResourceServiceAdapter → List CardResource →
      Except Exception (Option (Nat × CardResource)) × List CardResource ×
        CardResourceServiceAdapter × World
  | [], _, w, svc, unusable => (.ok none, unusable, svc, w)
  | cardResource :: rest, i, w, svc, unusable =>
    match svc.getReaderManager cardResource.getReader with
    | some readerManager =>
      let l := readerManager.lock env w cardResource extension
      let svc1 : CardResourceServiceAdapter :=
        { svc with
          mReaderToReaderManagerMap :=
            StdMap.assign svc.mReaderToReaderManagerMap cardResource.getReader l.2.1 }
      match l.1 with
      | .ok true => (.ok (some (i, cardResource)), unusable, svc1, l.2.2)
      | .ok false => lockFirstAvailable env extension rest (i + 1) l.2.2 svc1 unusable
      | .error Exception.IllegalStateException =>
        lockFirstAvailable env extension rest (i + 1) l.2.2 svc1 (unusable ++ [cardResource])
      | .error e => (.error e, unusable, svc1, l.2.2)
    | none =>
      lockFirstAvailable env extension rest (i + 1) w svc (unusable ++ [cardResource])

/-- `CardProfileManagerAdapter::getRegularCardResource`.  The loop variable
`cardResource` is a reference to the slot of `mCardResources` under the iterator:
`result = cardResource` is executed after `updateCardResourcesOrder` and reads
position `i` of the reordered vector.  The unusable card resources are removed from
the service after the loop. -/
def getRegularCardResource (env : Env) (w : World) (svc : CardResourceServiceAdapter)
    (profileName : String) :
    Except Exception (Option CardResource) × CardResourceServiceAdapter × World :=
  match StdMap.find svc.mCardProfileNameToCardProfileManagerMap profileName with
  | none => (.ok none, svc, w)
  | some pm =>
    let walk := lockFirstAvailable env pm.mCardProfile.mCardResourceProfileExtension
      pm.mCardResources 0 w svc []
    match walk.1 with
    | .error e => (.error e, walk.2.2.1, walk.2.2.2)
    | .ok found =>
      let taken : Option CardResource × CardResourceServiceAdapter :=
        match found with
        | some (i, cardResource) =>
          let cardResourceIndex := Arrays.indexOf pm.mCardResources cardResource
          let pm1 := updateCardResourcesOrder env pm cardResourceIndex
          (pm1.mCardResources[i]?,
           { walk.2.2.1 with
             mCardProfileNameToCardProfileManagerMap :=
               StdMap.assign walk.2.2.1.mCardProfileNameToCardProfileManagerMap profileName pm1 })
        | none => (none, walk.2.2.1)
      match CardResourceServiceAdapter.removeCardResources walk.2.2.2 taken.2 walk.2.1 with
      | (.error e, svc3, w3) => (.error e, svc3, w3)
      | (.ok _, svc3, w3) => (.ok taken.1, svc3, w3)

/-- The `for` loop of `getPoolCardResource` over the pool plugins not yet tried. -/
def allocateFromPools (env : Env) (pm : CardProfileManagerAdapter) :
    List Plugin → World → CardResourceServiceAdapter →
      Option CardResource × CardResourceServiceAdapter × World
  | [], w, svc => (none, svc, w)
  | poolPlugin :: rest, w, svc =>
    let w1 := { w with poolAllocations := w.poolAllocations + 1 }
    match env.allocateReader w.poolAllocations poolPlugin pm.mCardProfile.mReaderGroupReference with
    | Allocation.reader reader =>
      let w2 := { w1 with selections := w1.selections + 1 }
      match env.select w1.selections pm.mCardProfile.mCardResourceProfileExtension reader with
      | some smartCard =>
        let cardResource : CardResource :=
          { id := w2.allocations, mReader := reader, mSmartCard := smartCard }
        (some cardResource, svc.registerPoolCardResource cardResource poolPlugin,
         { w2 with allocations := w2.allocations + 1 })
      | none => allocateFromPools env pm rest w2 svc
    | Allocation.null => allocateFromPools env pm rest w1 svc
    | Allocation.pluginException => allocateFromPools env pm rest w1 svc

/-- `CardProfileManagerAdapter::getPoolCardResource`. -/
def getPoolCardResource (env : Env) (w : World) (svc : CardResourceServiceAdapter)
    (profileName : String) :
    Except Exception (Option CardResource) × CardResourceServiceAdapter × World :=
  match StdMap.find svc.mCardProfileNameToCardProfileManagerMap profileName with
  | none => (.ok none, svc, w)
  | some pm =>
    let r := allocateFromPools env pm pm.mPoolPlugins w svc
    (.ok r.1, r.2.1, r.2.2)

/-- `CardProfileManagerAdapter::getRegularOrPoolCardResource`. -/
def getRegularOrPoolCardResource (env : Env) (w : World) (svc : CardResourceServiceAdapter)
    (profileName : String) (usePoolFirst : Bool) :
    Except Exception (Option CardResource) × CardResourceServiceAdapter × World :=
  if usePoolFirst then
    match getPoolCardResource env w svc profileName with
    | (.ok none, svc1, w1) => getRegularCardResource env w1 svc1 profileName
    | r => r
  else
    match getRegularCardResource env w svc profileName with
    | (.ok none, svc1, w1) => getPoolCardResource env w1 svc1 profileName
    | r => r

/-- One turn of the `do` loop of `getCardResource` before `pauseIfNeeded`, for the
profile manager `pm` registered under `profileName`. -/
def searchOnce (env : Env) (w : World) (svc : CardResourceServiceAdapter)
    (profileName : String) (pm : CardProfileManagerAdapter) :
    Except Exception (Option CardResource) × CardResourceServiceAdapter × World :=
  if !pm.mPlugins.isEmpty then
    if !pm.mPoolPlugins.isEmpty then
      getRegularOrPoolCardResource env w svc profileName pm.mGlobalConfiguration.mUsePoolFirst
    else
      getRegularCardResource env w svc profileName
  else
    getPoolCardResource env w svc profileName

/-- The `do ... while` loop of `getCardResource`, run for at most `fuel` turns; the
outer `none` says that the loop is still running after `fuel` turns.  Each turn
searches once, sleeps one cycle when nothing was found in blocking mode
(`pauseIfNeeded`), and goes on while nothing was found, the mode is blocking and the
clock, read then, is not after `maxTime`. -/
def searchLoop (env : Env) (profileName : String) (pm : CardProfileManagerAdapter)
    (maxTime : Nat) :
    Nat → World → CardResourceServiceAdapter →
      Option (Except Exception (Option CardResource)) × CardResourceServiceAdapter × World
  | 0, w, svc => (none, svc, w)
  | fuel + 1, w, svc =>
    match searchOnce env w svc profileName pm with
    | (.error e, svc1, w1) => (some (.error e), svc1, w1)
    | (.ok (some cardResource), svc1, w1) => (some (.ok (some cardResource)), svc1, w1)
    | (.ok none, svc1, w1) =>
      if pm.mGlobalConfiguration.mIsBlockingAllocationMode then
        let w2 := { w1 with
          sleepLog := w1.sleepLog ++ [pm.mGlobalConfiguration.mCycleDurationMillis] }
        let w3 := { w2 with clockReads := w2.clockReads + 1 }
        if env.clock w2.clockReads ≤ maxTime then
          searchLoop env profileName pm maxTime fuel w3 svc1
        else
          (some (.ok none), svc1, w3)
      else
        (some (.ok none), svc1, w1)

/-- `CardProfileManagerAdapter::getCardResource` of the profile manager `pm`
registered under `profileName`, its loop bounded by `fuel` turns. -/
def getCardResource (env : Env) (fuel : Nat) (w : World) (svc : CardResourceServiceAdapter)
    (profileName : String) (pm : CardProfileManagerAdapter) :
    Option (Except Exception (Option CardResource)) × CardResourceServiceAdapter × World :=
  let maxTime := env.clock w.clockReads + pm.mGlobalConfiguration.mTimeoutMillis
  searchLoop env profileName pm maxTime fuel { w with clockReads := w.clockReads + 1 } svc

end CardProfileManagerAdapter

/-! ## CardResourceServiceAdapter: allocation and reader events -/

/-- `CardReaderEvent::Type`. -/
inductive CardReaderEventType where
  | CARD_INSERTED
  | CARD_MATCHED
  | CARD_REMOVED
  | UNREGISTERED
deriving DecidableEq, Repr

/-- A `CardReaderEvent`. -/
structure CardReaderEvent where
  readerName : String
  type : CardReaderEventType
deriving DecidableEq, Repr

namespace CardResourceServiceAdapter

/-- `CardResourceServiceAdapter::getCardResource`, the loop of the profile manager
bounded by `fuel` turns. -/
def getCardResource (env : Env) (fuel : Nat) (w : World) (svc : CardResourceServiceAdapter)
    (cardResourceProfileName : String) :
    Option (Except Exception (Option CardResource)) × CardResourceServiceAdapter × World :=
  if !svc.mIsStarted then (some (.error Exception.IllegalStateException), svc, w)
  else if cardResourceProfileName == "" then
    (some (.error Exception.IllegalArgumentException), svc, w)
  else
    match StdMap.find svc.mCardProfileNameToCardProfileManagerMap cardResourceProfileName with
    | none => (some (.error Exception.IllegalArgumentException), svc, w)
    | some cardProfileManager =>
      cardProfileManager.getCardResource env fuel w svc cardResourceProfileName

/-- `CardResourceServiceAdapter::getReader`: the first registered reader, in map
order, that has the name. -/
def getReader (svc : CardResourceServiceAdapter) (readerName : String) : Option CardReader :=
  (svc.mReaderToReaderManagerMap.find? (fun pair => pair.1.name == readerName)).map
    (fun pair => pair.1)

/-- The loop of `onCardInserted` over the entries of the profile manager map not yet
visited; it gives the entries back, each profile manager as `onCardInserted` left it. -/
def notifyCardInserted (env : Env) :
    StdMap String CardProfileManagerAdapter → ReaderManagerAdapter → World →
      Except Exception Unit × StdMap String CardProfileManagerAdapter ×
        ReaderManagerAdapter × World
  | [], rm, w => (.ok (), [], rm, w)
  | (name, pm) :: rest, rm, w =>
    match pm.onCardInserted env w rm with
    | (.ok _, (pm1, rm1), w1) =>
      let r := notifyCardInserted env rest rm1 w1
      (r.1, (name, pm1) :: r.2.1, r.2.2.1, r.2.2.2)
    | (.error e, (pm1, rm1), w1) => (.error e, (name, pm1) :: rest, rm1, w1)

/-- `CardResourceServiceAdapter::onCardInserted` for the manager `readerManager`
registered under `reader`. -/
def onCardInserted (env : Env) (w : World) (svc : CardResourceServiceAdapter)
    (reader : CardReader) (readerManager : ReaderManagerAdapter) :
    Except Exception Unit × CardResourceServiceAdapter × World :=
  let r := notifyCardInserted env svc.mCardProfileNameToCardProfileManagerMap readerManager w
  (r.1,
   { svc with
     mCardProfileNameToCardProfileManagerMap := r.2.1
     mReaderToReaderManagerMap := StdMap.assign svc.mReaderToReaderManagerMap reader r.2.2.1 },
   r.2.2.2)

/-- The range-based `for` of `onCardRemoved` over the vector of the manager registered
under `reader`, `steps` turns before the end iterator taken at the start, at position
`i`.  The vector shrinks under the loop: each turn reads the slot `i` of the vector as
it is then, and a slot past its end is a destroyed element. -/
def removeCardResourcesOf (reader : CardReader) :
    Nat → Nat → World → CardResourceServiceAdapter →
      Except Exception Unit × CardResourceServiceAdapter × World
  | 0, _, w, svc => (.ok (), svc, w)
  | steps + 1, i, w, svc =>
    match StdMap.find svc.mReaderToReaderManagerMap reader with
    | none => (.ok (), svc, w)
    | some readerManager =>
      match readerManager.getCardResources[i]? with
      | none => (.error Exception.Undefined, svc, w)
      | some cardResource =>
        match removeCardResource w svc (some cardResource) with
        | (.ok _, svc1, w1) => removeCardResourcesOf reader steps (i + 1) w1 svc1
        | (.error e, svc1, w1) => (.error e, svc1, w1)

/-- `CardResourceServiceAdapter::onCardRemoved` for the manager `readerManager`
registered under `reader`. -/
def onCardRemoved (w : World) (svc : CardResourceServiceAdapter) (reader : CardReader)
    (readerManager : ReaderManagerAdapter) :
    Except Exception Unit × CardResourceServiceAdapter × World :=
  removeCardResourcesOf reader readerManager.getCardResources.length 0 w svc

/-- `CardResourceServiceAdapter::onReaderEvent`. -/
def onReaderEvent (env : Env) (w : World) (svc : CardResourceServiceAdapter)
    (readerEvent : CardReaderEvent) :
    Except Exception Unit × CardResourceServiceAdapter × World :=
  if !svc.mIsStarted then (.ok (), svc, w)
  else
    match svc.getReader readerEvent.readerName with
    | none => (.ok (), svc, w)
    | some reader =>
      match StdMap.find svc.mReaderToReaderManagerMap reader with
      | none => (.ok (), svc, w)
      | some readerManager =>
        if readerEvent.type = CardReaderEventType.CARD_INSERTED ∨
            readerEvent.type = CardReaderEventType.CARD_MATCHED then
          onCardInserted env w svc reader readerManager
        else
          onCardRemoved w svc reader readerManager

/-! ### Plugin events -/

/-- `CardResourceServiceAdapter::registerReader`, `cfg` being the configurator that
`mConfigurator` points to.  `std::map::insert` keeps the manager already registered
for the reader, if any; the new manager is returned in any case. -/
def registerReader (cfg : CardResourceServiceConfiguratorAdapter)
    (svc : CardResourceServiceAdapter) (reader : CardReader) (plugin : Plugin) :
    ReaderManagerAdapter × CardResourceServiceAdapter :=
  let readerConfiguratorSpi : Option Nat :=
    match cfg.mConfiguredPlugins.find? (fun configuredPlugin =>
        decide (configuredPlugin.mPlugin = plugin)) with
    | some configuredPlugin => configuredPlugin.mReaderConfiguratorSpi
    | none => none
  let readerManager :=
    ReaderManagerAdapter.create reader plugin readerConfiguratorSpi cfg.mUsageTimeoutMillis
  let observableReaders :=
    if reader.observable then
      match StdMap.find svc.mPluginToObservableReadersMap plugin with
      | some readers => StdMap.assign svc.mPluginToObservableReadersMap plugin (readers ++ [reader])
      | none => StdMap.insert Plugin.lt svc.mPluginToObservableReadersMap plugin [reader]
    else svc.mPluginToObservableReadersMap
  (readerManager,
   { svc with
     mReaderToReaderManagerMap :=
       StdMap.insert CardReader.lt svc.mReaderToReaderManagerMap reader readerManager
     mPluginToObservableReadersMap := observableReaders })

/-- `CardResourceServiceAdapter::unregisterReader`; `plugin` is null when
`getPlugin` did not find the plugin of the event. -/
def unregisterReader (w : World) (svc : CardResourceServiceAdapter) (reader : CardReader)
    (plugin : Option Plugin) : CardResourceServiceAdapter × World :=
  let svc1 : CardResourceServiceAdapter :=
    { svc with
      mReaderToReaderManagerMap := StdMap.erase svc.mReaderToReaderManagerMap reader }
  match plugin with
  | none => (svc1, w)
  | some p =>
    match StdMap.find svc1.mPluginToObservableReadersMap p with
    | none => (svc1, w)
    | some readers =>
      if reader.observable then
        ({ svc1 with
           mPluginToObservableReadersMap :=
             StdMap.assign svc1.mPluginToObservableReadersMap p
               (readers.filter (fun r => decide (r ≠ reader))) },
         { w with
           observationLog := w.observationLog ++ [ObservationCall.removeReaderObserver reader] })
      else (svc1, w)

/-- `CardResourceServiceAdapter::startMonitoring(reader, plugin)`: the observation of
the reader is started once for every configured plugin entry of the plugin that asks
for reader monitoring. -/
def startMonitoring (cfg : CardResourceServiceConfiguratorAdapter) (w : World)
    (reader : CardReader) (plugin : Plugin) : World :=
  if reader.observable then
    { w with
      observationLog := w.observationLog ++
        ((cfg.mConfiguredPlugins.filter (fun configuredPlugin =>
            decide (configuredPlugin.mPlugin = plugin) &&
              configuredPlugin.mWithReaderMonitoring)).map
          (fun _ => ObservationCall.startReaderObservation reader)) }
  else w

/-- The loop of `onReaderConnected` over the entries of the profile manager map not
yet visited. -/
def notifyReaderConnected (env : Env) :
    StdMap String CardProfileManagerAdapter → ReaderManagerAdapter → World →
      Except Exception Unit × StdMap String CardProfileManagerAdapter ×
        ReaderManagerAdapter × World
  | [], rm, w => (.ok (), [], rm, w)
  | (name, pm) :: rest, rm, w =>
    match pm.onReaderConnected env w rm with
    | (.ok _, (pm1, rm1), w1) =>
      let r := notifyReaderConnected env rest rm1 w1
      (r.1, (name, pm1) :: r.2.1, r.2.2.1, r.2.2.2)
    | (.error e, (pm1, rm1), w1) => (.error e, (name, pm1) :: rest, rm1, w1)

/-- `CardResourceServiceAdapter::onReaderConnected`.  The profile managers work on the
manager returned by `registerReader`, which is the registered one only when the reader
was not registered before; `mConfigurator` is dereferenced. -/
def onReaderConnected (env : Env) (w : World) (svc : CardResourceServiceAdapter)
    (reader : CardReader) (plugin : Plugin) :
    Except Exception Unit × CardResourceServiceAdapter × World :=
  match svc.mConfigurator with
  | none => (.error Exception.Undefined, svc, w)
  | some cfg =>
    let registered := (StdMap.find svc.mReaderToReaderManagerMap reader).isSome
    let reg := registerReader cfg svc reader plugin
    let r := notifyReaderConnected env reg.2.mCardProfileNameToCardProfileManagerMap reg.1 w
    let svc2 : CardResourceServiceAdapter :=
      { reg.2 with
        mCardProfileNameToCardProfileManagerMap := r.2.1
        mReaderToReaderManagerMap :=
          if registered then reg.2.mReaderToReaderManagerMap
          else StdMap.assign reg.2.mReaderToReaderManagerMap reader r.2.2.1 }
    match r.1 with
    | .error e => (.error e, svc2, r.2.2.2)
    | .ok _ =>
      if r.2.2.1.isActive then
        (.ok (), svc2, startMonitoring cfg r.2.2.2 reader plugin)
      else
        let u := unregisterReader r.2.2.2 svc2 reader (some plugin)
        (.ok (), u.1, u.2)

/-- `CardResourceServiceAdapter::onReaderDisconnected`. -/
def onReaderDisconnected (w : World) (svc : CardResourceServiceAdapter) (reader : CardReader)
    (plugin : Option Plugin) : Except Exception Unit × CardResourceServiceAdapter × World :=
  match StdMap.find svc.mReaderToReaderManagerMap reader with
  | none => (.ok (), svc, w)
  | some readerManager =>
    match onCardRemoved w svc reader readerManager with
    | (.error e, svc1, w1) => (.error e, svc1, w1)
    | (.ok _, svc1, w1) =>
      let u := unregisterReader w1 svc1 reader plugin
      (.ok (), u.1, u.2)

end CardResourceServiceAdapter

/-- `PluginEvent::Type`. -/
inductive PluginEventType where
  | READER_CONNECTED
  | READER_DISCONNECTED
deriving DecidableEq, Repr

/-- A `PluginEvent`. -/
structure PluginEvent where
  pluginName : String
  readerNames : List String
  type : PluginEventType
deriving DecidableEq, Repr

namespace CardResourceServiceAdapter

/-- The loop of `onPluginEvent` for `READER_CONNECTED` over the reader names not yet
handled: the reader is asked to the plugin (a null plugin is dereferenced). -/
def connectReaders (env : Env) (plugin : Option Plugin) :
    List String → World → CardResourceServiceAdapter →
      Except Exception Unit × CardResourceServiceAdapter × World
  | [], w, svc => (.ok (), svc, w)
  | readerName :: rest, w, svc =>
    match plugin with
    | none => (.error Exception.Undefined, svc, w)
    | some p =>
      let w1 := { w with readerQueries := w.readerQueries + 1 }
      match env.pluginGetReader w.readerQueries p readerName with
      | none => connectReaders env plugin rest w1 svc
      | some reader =>
        match onReaderConnected env w1 svc reader p with
        | (.error e, svc1, w2) => (.error e, svc1, w2)
        | (.ok _, svc1, w2) => connectReaders env plugin rest w2 svc1

/-- The loop of `onPluginEvent` for the other events over the reader names not yet
handled: the reader is the registered reader of that name. -/
def disconnectReaders (plugin : Option Plugin) :
    List String → World → CardResourceServiceAdapter →
      Except Exception Unit × CardResourceServiceAdapter × World
  | [], w, svc => (.ok (), svc, w)
  | readerName :: rest, w, svc =>
    match svc.getReader readerName with
    | none => disconnectReaders plugin rest w svc
    | some reader =>
      match onReaderDisconnected w svc reader plugin with
      | (.error e, svc1, w1) => (.error e, svc1, w1)
      | (.ok _, svc1, w1) => disconnectReaders plugin rest w1 svc1

/-- `CardResourceServiceAdapter::onPluginEvent`. -/
def onPluginEvent (env : Env) (w : World) (svc : CardResourceServiceAdapter)
    (pluginEvent : PluginEvent) : Except Exception Unit × CardResourceServiceAdapter × World :=
  if !svc.mIsStarted then (.ok (), svc, w)
  else
    let plugin := env.getPlugin w.pluginQueries pluginEvent.pluginName
    let w1 := { w with pluginQueries := w.pluginQueries + 1 }
    if pluginEvent.type = PluginEventType.READER_CONNECTED then
      connectReaders env plugin pluginEvent.readerNames w1 svc
    else
      disconnectReaders plugin pluginEvent.readerNames w1 svc

end CardResourceServiceAdapter

/-! ## Construction of the profile managers -/

namespace CardProfileManagerAdapter

/-- The loop of `CardProfileManagerAdapter::initializeCardResources` over the readers of
the plugin not yet visited.  `mService->getReaderManager(reader)` is null for a reader
that is not registered, and `initializeCardResource` dereferences it. -/
def initializeCardResources (env : Env) :
    List CardReader → World → CardResourceServiceAdapter → CardProfileManagerAdapter →
      Except Exception Unit × (CardProfileManagerAdapter × CardResourceServiceAdapter) × World
  | [], w, svc, pm => (.ok (), (pm, svc), w)
  | reader :: rest, w, svc, pm =>
    match svc.getReaderManager reader with
    | none => (.error Exception.Undefined, (pm, svc), w)
    | some readerManager =>
      let r := pm.initializeCardResource env w readerManager
      let svc1 : CardResourceServiceAdapter :=
        { svc with
          mReaderToReaderManagerMap :=
            StdMap.assign svc.mReaderToReaderManagerMap reader r.2.1.2 }
      match r.1 with
      | .ok _ => initializeCardResources env rest r.2.2 svc1 r.2.1.1
      | .error e => (.error e, (r.2.1.1, svc1), r.2.2)

/-- The loop of `initializeCardResourcesUsingProfilePlugins` over the plugins of the
profile not yet visited: a pool plugin joins `mPoolPlugins`, another plugin joins
`mPlugins` and the card resources of its readers are initialized. -/
def initializeCardResourcesUsingProfilePlugins (env : Env) :
    List Plugin → World → CardResourceServiceAdapter → CardProfileManagerAdapter →
      Except Exception Unit × (CardProfileManagerAdapter × CardResourceServiceAdapter) × World
  | [], w, svc, pm => (.ok (), (pm, svc), w)
  | plugin :: rest, w, svc, pm =>
    if plugin.pool then
      initializeCardResourcesUsingProfilePlugins env rest w svc
        { pm with mPoolPlugins := pm.mPoolPlugins ++ [plugin] }
    else
      let readers := env.pluginGetReaders w.readerListQueries plugin
      let w1 := { w with readerListQueries := w.readerListQueries + 1 }
      match initializeCardResources env readers w1 svc
          { pm with mPlugins := pm.mPlugins ++ [plugin] } with
      | (.ok _, (pm1, svc1), w2) =>
        initializeCardResourcesUsingProfilePlugins env rest w2 svc1 pm1
      | (.error e, (pm1, svc1), w2) => (.error e, (pm1, svc1), w2)

/-- The loop of `initializeCardResourcesUsingDefaultPlugins` over the plugins of the
global configuration not yet visited. -/
def initializeCardResourcesUsingDefaultPlugins (env : Env) :
    List Plugin → World → CardResourceServiceAdapter → CardProfileManagerAdapter →
      Except Exception Unit × (CardProfileManagerAdapter × CardResourceServiceAdapter) × World
  | [], w, svc, pm => (.ok (), (pm, svc), w)
  | plugin :: rest, w, svc, pm =>
    let readers := env.pluginGetReaders w.readerListQueries plugin
    let w1 := { w with readerListQueries := w.readerListQueries + 1 }
    match initializeCardResources env readers w1 svc
        { pm with mPlugins := pm.mPlugins ++ [plugin] } with
    | (.ok _, (pm1, svc1), w2) =>
      initializeCardResourcesUsingDefaultPlugins env rest w2 svc1 pm1
    | (.error e, (pm1, svc1), w2) => (.error e, (pm1, svc1), w2)

/-- The constructor of `CardProfileManagerAdapter`, run on the service `mService`: with
a plugin list in the profile the card resources are initialized from these plugins,
else from the global ones, after the global pool plugins have been copied. -/
def create (env : Env) (w : World) (svc : CardResourceServiceAdapter)
    (cardProfile : CardResourceProfileConfigurator)
    (globalConfiguration : CardResourceServiceConfiguratorAdapter) :
    Except Exception Unit × (CardProfileManagerAdapter × CardResourceServiceAdapter) × World :=
  let pm : CardProfileManagerAdapter :=
    { mCardProfile := cardProfile, mGlobalConfiguration := globalConfiguration }
  if !cardProfile.mPlugins.isEmpty then
    initializeCardResourcesUsingProfilePlugins env cardProfile.mPlugins w svc pm
  else
    initializeCardResourcesUsingDefaultPlugins env globalConfiguration.mPlugins w svc
      { pm with mPoolPlugins := pm.mPoolPlugins ++ globalConfiguration.mPoolPlugins }

end CardProfileManagerAdapter

/-! ## CardResourceServiceAdapter: configuration, start and stop -/

namespace CardResourceServiceAdapter

/-- `CardResourceServiceAdapter::stopMonitoring`, `cfg` being the configurator that
`mConfigurator` points to: for every configured plugin, the observer is removed from
the plugin when its monitoring was asked for and it is observable, and from the
observable readers registered for the plugin when reader monitoring was asked for. -/
def stopMonitoring (cfg : CardResourceServiceConfiguratorAdapter)
    (svc : CardResourceServiceAdapter) : List ConfiguredPlugin → World → World
  | [], w => w
  | configuredPlugin :: rest, w =>
    let w1 : World :=
      if configuredPlugin.mWithPluginMonitoring && configuredPlugin.mPlugin.observable then
        { w with
          observationLog := w.observationLog ++
            [ObservationCall.removePluginObserver configuredPlugin.mPlugin] }
      else w
    let w2 : World :=
      match StdMap.find svc.mPluginToObservableReadersMap configuredPlugin.mPlugin with
      | some readers =>
        if configuredPlugin.mWithReaderMonitoring then
          { w1 with
            observationLog := w1.observationLog ++
              readers.map ObservationCall.removeReaderObserver }
        else w1
      | none => w1
    stopMonitoring cfg svc rest w2

/-- `CardResourceServiceAdapter::stop`: `mIsStarted` is reset, the observations are
stopped (`mConfigurator` is dereferenced) and the four maps are cleared. -/
def stop (w : World) (svc : CardResourceServiceAdapter) :
    Except Exception Unit × CardResourceServiceAdapter × World :=
  let svc1 : CardResourceServiceAdapter := { svc with mIsStarted := false }
  match svc1.mConfigurator with
  | none => (.error Exception.Undefined, svc1, w)
  | some cfg =>
    (.ok (),
     { svc1 with
       mReaderToReaderManagerMap := []
       mCardProfileNameToCardProfileManagerMap := []
       mCardResourceToPoolPluginMap := []
       mPluginToObservableReadersMap := [] },
     stopMonitoring cfg svc1 cfg.mConfiguredPlugins w)

/-- The inner loop of `initializeReaderManagers` over the readers of the plugin not
yet registered. -/
def registerReaders (cfg : CardResourceServiceConfiguratorAdapter) (plugin : Plugin) :
    List CardReader → CardResourceServiceAdapter → CardResourceServiceAdapter
  | [], svc => svc
  | reader :: rest, svc => registerReaders cfg plugin rest (registerReader cfg svc reader plugin).2

/-- `CardResourceServiceAdapter::initializeReaderManagers`, as a loop over the plugins
of the configuration not yet visited. -/
def initializeReaderManagers (env : Env) (cfg : CardResourceServiceConfiguratorAdapter) :
    List Plugin → World → CardResourceServiceAdapter → CardResourceServiceAdapter × World
  | [], w, svc => (svc, w)
  | plugin :: rest, w, svc =>
    let readers := env.pluginGetReaders w.readerListQueries plugin
    initializeReaderManagers env cfg rest
      { w with readerListQueries := w.readerListQueries + 1 }
      (registerReaders cfg plugin readers svc)

/-- `CardResourceServiceAdapter::initializeCardProfileManagers`, as a loop over the
profiles not yet visited: the profile manager is constructed, then inserted under the
name of the profile (a name already present keeps its profile manager). -/
def initializeCardProfileManagers (env : Env) (cfg : CardResourceServiceConfiguratorAdapter) :
    List CardResourceProfileConfigurator → World → CardResourceServiceAdapter →
      Except Exception Unit × CardResourceServiceAdapter × World
  | [], w, svc => (.ok (), svc, w)
  | profile :: rest, w, svc =>
    match CardProfileManagerAdapter.create env w svc profile cfg with
    | (.ok _, (pm, svc1), w1) =>
      initializeCardProfileManagers env cfg rest w1
        { svc1 with
          mCardProfileNameToCardProfileManagerMap :=
            StdMap.insert (fun a b => decide (a < b))
              svc1.mCardProfileNameToCardProfileManagerMap profile.mProfileName pm }
    | (.error e, (_, svc1), w1) => (.error e, svc1, w1)

/-- The second loop of `removeUnusedReaderManagers`, over the managers collected from
the map and not yet visited: a manager that is not active is unregistered. -/
def unregisterInactive :
    List ReaderManagerAdapter → World → CardResourceServiceAdapter →
      CardResourceServiceAdapter × World
  | [], w, svc => (svc, w)
  | readerManager :: rest, w, svc =>
    if !readerManager.isActive then
      let u := unregisterReader w svc readerManager.getReader (some readerManager.getPlugin)
      unregisterInactive rest u.2 u.1
    else
      unregisterInactive rest w svc

/-- `CardResourceServiceAdapter::removeUnusedReaderManagers`. -/
def removeUnusedReaderManagers (w : World) (svc : CardResourceServiceAdapter) :
    CardResourceServiceAdapter × World :=
  unregisterInactive (svc.mReaderToReaderManagerMap.map (fun pair => pair.2)) w svc

/-- `CardResourceServiceAdapter::startMonitoring()`, as a loop over the configured
plugins not yet visited: the observation of the plugin is started when it was asked
for and the plugin is observable, that of the observable readers registered for the
plugin when reader monitoring was asked for. -/
def startMonitoringOfPlugins (svc : CardResourceServiceAdapter) :
    List ConfiguredPlugin → World → World
  | [], w => w
  | configuredPlugin :: rest, w =>
    let w1 : World :=
      if configuredPlugin.mWithPluginMonitoring && configuredPlugin.mPlugin.observable then
        { w with
          observationLog := w.observationLog ++
            [ObservationCall.startPluginObservation configuredPlugin.mPlugin] }
      else w
    let w2 : World :=
      match StdMap.find svc.mPluginToObservableReadersMap configuredPlugin.mPlugin with
      | some readers =>
        if configuredPlugin.mWithReaderMonitoring then
          { w1 with
            observationLog := w1.observationLog ++
              readers.map ObservationCall.startReaderObservation }
        else w1
      | none => w1
    startMonitoringOfPlugins svc rest w2

/-- `CardResourceServiceAdapter::start`: `IllegalStateException` without
configuration; a started service is stopped first; then the reader managers and the
profile managers are created, the managers left inactive are unregistered, the
observations are started and `mIsStarted` is set. -/
def start (env : Env) (w : World) (svc : CardResourceServiceAdapter) :
    Except Exception Unit × CardResourceServiceAdapter × World :=
  match svc.mConfigurator with
  | none => (.error Exception.IllegalStateException, svc, w)
  | some cfg =>
    let stopped : Except Exception Unit × CardResourceServiceAdapter × World :=
      if svc.mIsStarted then stop w svc else (.ok (), svc, w)
    match stopped with
    | (.error e, svc1, w1) => (.error e, svc1, w1)
    | (.ok _, svc1, w1) =>
      let managers := initializeReaderManagers env cfg cfg.mPlugins w1 svc1
      match initializeCardProfileManagers env cfg cfg.mCardResourceProfileConfigurators
          managers.2 managers.1 with
      | (.error e, svc2, w2) => (.error e, svc2, w2)
      | (.ok _, svc2, w2) =>
        let used := removeUnusedReaderManagers w2 svc2
        (.ok (), { used.1 with mIsStarted := true },
         startMonitoringOfPlugins used.1 cfg.mConfiguredPlugins used.2)

/-- `CardResourceServiceAdapter::configure`: a started service is stopped under its
former configuration and started again under the new one. -/
def configure (env : Env) (w : World) (svc : CardResourceServiceAdapter)
    (configurator : CardResourceServiceConfiguratorAdapter) :
    Except Exception Unit × CardResourceServiceAdapter × World :=
  if svc.mIsStarted then
    match stop w svc with
    | (.error e, svc1, w1) => (.error e, svc1, w1)
    | (.ok _, svc1, w1) => start env w1 { svc1 with mConfigurator := some configurator }
  else
    (.ok (), { svc with mConfigurator := some configurator }, w)

end CardResourceServiceAdapter

/-! ## The builders of the configuration -/

/-- The fields of `PluginsConfigurator`. -/
structure PluginsConfigurator where
  mAllocationStrategy : AllocationStrategy
  mUsageTimeoutMillis : Nat
  mPlugins : List Plugin
  mConfiguredPlugins : List ConfiguredPlugin
deriving DecidableEq, Repr

/-- The fields of `PluginsConfigurator::Builder`, as its constructor sets them. -/
structure PluginsConfigurator.Builder where
  mAllocationStrategyConfigured : Bool := false
  mUsageTimeoutMillisConfigured : Bool := false
  mUsageTimeoutMillis : Nat := 0
  mAllocationStrategy : AllocationStrategy := AllocationStrategy.FIRST
  mPlugins : List Plugin := []
  mConfiguredPlugins : List ConfiguredPlugin := []
deriving DecidableEq, Repr

/-- The constructor of `ConfiguredPlugin`: a monitoring is asked for when its
exception handler is provided. -/
def ConfiguredPlugin.create (plugin : Plugin) (readerConfiguratorSpi : Option Nat)
    (pluginObservationExceptionHandlerSpi readerObservationExceptionHandlerSpi : Option Nat) :
    ConfiguredPlugin :=
  { mPlugin := plugin
    mReaderConfiguratorSpi := readerConfiguratorSpi
    mWithPluginMonitoring := pluginObservationExceptionHandlerSpi.isSome
    mWithReaderMonitoring := readerObservationExceptionHandlerSpi.isSome
    mPluginObservationExceptionHandlerSpi := pluginObservationExceptionHandlerSpi
    mReaderObservationExceptionHandlerSpi := readerObservationExceptionHandlerSpi }

namespace PluginsConfigurator.Builder

/-- `Builder::withAllocationStrategy`. -/
def withAllocationStrategy (b : Builder) (allocationStrategy : AllocationStrategy) :
    Except Exception Builder :=
  if b.mAllocationStrategyConfigured then .error Exception.IllegalStateException
  else
    .ok { b with
      mAllocationStrategy := allocationStrategy
      mAllocationStrategyConfigured := true }

/-- `Builder::withUsageTimeout`: the value must be at least `1`. -/
def withUsageTimeout (b : Builder) (usageTimeoutMillis : Int) : Except Exception Builder :=
  if usageTimeoutMillis < 1 then .error Exception.IllegalArgumentException
  else if b.mUsageTimeoutMillisConfigured then .error Exception.IllegalStateException
  else
    .ok { b with
      mUsageTimeoutMillis := usageTimeoutMillis.toNat
      mUsageTimeoutMillisConfigured := true }

/-- `Builder::addPluginWithMonitoring`: the plugin and the reader configurator must not
be null, the plugin must not be a pool plugin nor be configured already. -/
def addPluginWithMonitoring (b : Builder) (plugin : Option Plugin)
    (readerConfiguratorSpi : Option Nat)
    (pluginObservationExceptionHandlerSpi readerObservationExceptionHandlerSpi : Option Nat) :
    Except Exception Builder :=
  match plugin, readerConfiguratorSpi with
  | some p, some spi =>
    if p.pool then .error Exception.IllegalArgumentException
    else if Arrays.contains b.mPlugins p then .error Exception.IllegalStateException
    else
      .ok { b with
        mPlugins := b.mPlugins ++ [p]
        mConfiguredPlugins := b.mConfiguredPlugins ++
          [ConfiguredPlugin.create p (some spi) pluginObservationExceptionHandlerSpi
            readerObservationExceptionHandlerSpi] }
  | _, _ => .error Exception.IllegalArgumentException

/-- `Builder::addPlugin`. -/
def addPlugin (b : Builder) (plugin : Option Plugin) (readerConfiguratorSpi : Option Nat) :
    Except Exception Builder :=
  addPluginWithMonitoring b plugin readerConfiguratorSpi none none

/-- `Builder::build`: at least one plugin must have been added; the strategy defaults
to `FIRST` and the usage timeout to `0`. -/
def build (b : Builder) : Except Exception PluginsConfigurator :=
  if b.mPlugins.isEmpty then .error Exception.IllegalStateException
  else
    .ok { mAllocationStrategy :=
            if b.mAllocationStrategyConfigured then b.mAllocationStrategy
            else AllocationStrategy.FIRST
          mUsageTimeoutMillis :=
            if b.mUsageTimeoutMillisConfigured then b.mUsageTimeoutMillis else 0
          mPlugins := b.mPlugins
          mConfiguredPlugins := b.mConfiguredPlugins }

end PluginsConfigurator.Builder

/-- The fields of `PoolPluginsConfigurator`. -/
structure PoolPluginsConfigurator where
  mUsePoolFirst : Bool
  mPoolPlugins : List Plugin
deriving DecidableEq, Repr

/-- The fields of `PoolPluginsConfigurator::Builder`; the pool plugins are handles of
`PoolPlugin` objects. -/
structure PoolPluginsConfigurator.Builder where
  mUsePoolFirst : Bool := false
  mUsePoolFirstConfigured : Bool := false
  mPoolPlugins : List Plugin := []
deriving DecidableEq, Repr

namespace PoolPluginsConfigurator.Builder

/-- `Builder::usePoolFirst`. -/
def usePoolFirst (b : Builder) : Except Exception Builder :=
  if b.mUsePoolFirstConfigured then .error Exception.IllegalStateException
  else .ok { b with mUsePoolFirst := true, mUsePoolFirstConfigured := true }

/-- `Builder::addPoolPlugin`. -/
def addPoolPlugin (b : Builder) (poolPlugin : Option Plugin) : Except Exception Builder :=
  match poolPlugin with
  | none => .error Exception.IllegalArgumentException
  | some p =>
    if Arrays.contains b.mPoolPlugins p then .error Exception.IllegalStateException
    else .ok { b with mPoolPlugins := b.mPoolPlugins ++ [p] }

/-- `Builder::build`: at least one pool plugin must have been added. -/
def build (b : Builder) : Except Exception PoolPluginsConfigurator :=
  if b.mPoolPlugins.isEmpty then .error Exception.IllegalStateException
  else
    .ok { mUsePoolFirst := if b.mUsePoolFirstConfigured then b.mUsePoolFirst else false
          mPoolPlugins := b.mPoolPlugins }

end PoolPluginsConfigurator.Builder

/-- The fields of `CardResourceProfileConfigurator::Builder`. -/
structure CardResourceProfileConfigurator.Builder where
  mProfileName : String
  mCardResourceProfileExtension : Nat
  mPlugins : List Plugin := []
  mReaderNameRegex : String := ""
  mReaderGroupReference : String := ""
deriving DecidableEq, Repr

namespace CardResourceProfileConfigurator

/-- `CardResourceProfileConfigurator::builder`, that is the constructor of `Builder`:
the only assertion is that the extension is not null. -/
def builder (profileName : String) (cardResourceProfileExtension : Option Nat) :
    Except Exception Builder :=
  match cardResourceProfileExtension with
  | none => .error Exception.IllegalArgumentException
  | some extension =>
    .ok { mProfileName := profileName, mCardResourceProfileExtension := extension }

/-- `Builder::withPlugins`: the plugins are pushed one by one, a null plugin stops the
loop with `IllegalArgumentException`. -/
def Builder.withPlugins (b : Builder) : List (Option Plugin) → Except Exception Unit × Builder
  | [] => (.ok (), b)
  | none :: _ => (.error Exception.IllegalArgumentException, b)
  | some plugin :: rest =>
    Builder.withPlugins { b with mPlugins := b.mPlugins ++ [plugin] } rest

/-- `Builder::build`, that is the constructor of `CardResourceProfileConfigurator`. -/
def Builder.build (b : Builder) : CardResourceProfileConfigurator :=
  { mProfileName := b.mProfileName
    mCardResourceProfileExtension := b.mCardResourceProfileExtension
    mPlugins := b.mPlugins
    mReaderNameRegex := b.mReaderNameRegex
    mReaderGroupReference := b.mReaderGroupReference }

/-- `CardResourceProfileConfigurator::getProfileName`. -/
def getProfileName (profile : CardResourceProfileConfigurator) : String := profile.mProfileName

end CardResourceProfileConfigurator

/-! ## CardResourceServiceConfiguratorAdapter: the setters and `configure` -/

namespace CardResourceServiceConfiguratorAdapter

/-- `CardResourceServiceConfiguratorAdapter::withPlugins`: a null configurator is
refused, then a configurator whose plugin list is not empty any more. -/
def withPlugins (cfg : CardResourceServiceConfiguratorAdapter)
    (pluginsConfigurator : Option PluginsConfigurator) :
    Except Exception Unit × CardResourceServiceConfiguratorAdapter :=
  match pluginsConfigurator with
  | none => (.error Exception.IllegalArgumentException, cfg)
  | some pc =>
    if !cfg.mPlugins.isEmpty then (.error Exception.IllegalStateException, cfg)
    else
      (.ok (),
       { cfg with
         mPlugins := pc.mPlugins
         mConfiguredPlugins := pc.mConfiguredPlugins
         mAllocationStrategy := pc.mAllocationStrategy
         mUsageTimeoutMillis := pc.mUsageTimeoutMillis })

/-- `CardResourceServiceConfiguratorAdapter::withPoolPlugins`. -/
def withPoolPlugins (cfg : CardResourceServiceConfiguratorAdapter)
    (poolPluginsConfigurator : Option PoolPluginsConfigurator) :
    Except Exception Unit × CardResourceServiceConfiguratorAdapter :=
  match poolPluginsConfigurator with
  | none => (.error Exception.IllegalArgumentException, cfg)
  | some ppc =>
    if !cfg.mPoolPlugins.isEmpty then (.error Exception.IllegalStateException, cfg)
    else
      (.ok (), { cfg with mPoolPlugins := ppc.mPoolPlugins, mUsePoolFirst := ppc.mUsePoolFirst })

/-- The loop of `withCardResourceProfiles` over the profiles not yet added; a null
profile stops it with `IllegalArgumentException`. -/
def addCardResourceProfiles (cfg : CardResourceServiceConfiguratorAdapter) :
    List (Option CardResourceProfileConfigurator) →
      Except Exception Unit × CardResourceServiceConfiguratorAdapter
  | [] => (.ok (), cfg)
  | none :: _ => (.error Exception.IllegalArgumentException, cfg)
  | some configurator :: rest =>
    addCardResourceProfiles
      { cfg with
        mCardResourceProfileConfigurators :=
          cfg.mCardResourceProfileConfigurators ++ [configurator] } rest

/-- `CardResourceServiceConfiguratorAdapter::withCardResourceProfiles`: refused when the
list of profiles of the configurator is not empty. -/
def withCardResourceProfiles (cfg : CardResourceServiceConfiguratorAdapter)
    (cardResourceProfileConfigurators : List (Option CardResourceProfileConfigurator)) :
    Except Exception Unit × CardResourceServiceConfiguratorAdapter :=
  if !cfg.mCardResourceProfileConfigurators.isEmpty then
    (.error Exception.IllegalStateException, cfg)
  else addCardResourceProfiles cfg cardResourceProfileConfigurators

/-- `CardResourceServiceConfiguratorAdapter::withBlockingAllocationMode`: both values
must be at least `1`. -/
def withBlockingAllocationMode (cfg : CardResourceServiceConfiguratorAdapter)
    (cycleDurationMillis timeoutMillis : Int) :
    Except Exception Unit × CardResourceServiceConfiguratorAdapter :=
  if cycleDurationMillis < 1 ∨ timeoutMillis < 1 then
    (.error Exception.IllegalArgumentException, cfg)
  else if cfg.mIsBlockingAllocationMode then (.error Exception.IllegalStateException, cfg)
  else
    (.ok (),
     { cfg with
       mIsBlockingAllocationMode := true
       mCycleDurationMillis := cycleDurationMillis.toNat
       mTimeoutMillis := timeoutMillis.toNat })

/-- The loop of `computeUsedPlugins` over the profiles not yet visited: the plugins of
a profile are added to `usedPlugins`; a profile without plugin list ends the loop with
all the configured plugins. -/
def usedPluginsFrom (configuredPlugins : List Plugin) :
    List CardResourceProfileConfigurator → List Plugin → List Plugin
  | [], usedPlugins => usedPlugins
  | profile :: rest, usedPlugins =>
    if !profile.mPlugins.isEmpty then
      usedPluginsFrom configuredPlugins rest (Arrays.addAll usedPlugins profile.mPlugins)
    else configuredPlugins

/-- `CardResourceServiceConfiguratorAdapter::computeUsedPlugins`. -/
def computeUsedPlugins (cfg : CardResourceServiceConfiguratorAdapter)
    (configuredPlugins : List Plugin) : List Plugin :=
  usedPluginsFrom configuredPlugins cfg.mCardResourceProfileConfigurators []

/-- `CardResourceServiceConfiguratorAdapter::extractPoolPlugins`. -/
def extractPoolPlugins (plugins : List Plugin) : List Plugin :=
  plugins.filter (fun plugin => plugin.pool)

/-- `CardResourceServiceConfiguratorAdapter::getConfiguredPlugins(plugins)`: the
configured plugin entries of the given plugins. -/
def getConfiguredPluginsOf (cfg : CardResourceServiceConfiguratorAdapter)
    (plugins : List Plugin) : List ConfiguredPlugin :=
  cfg.mConfiguredPlugins.filter (fun configuredRegularPlugin =>
    Arrays.contains plugins configuredRegularPlugin.mPlugin)

/-- The loop of `configure` that checks the profiles not yet visited: the name must
not be among the names seen so far, and the plugins must all be among `allPlugins`. -/
def checkProfiles (allPlugins : List Plugin) :
    List CardResourceProfileConfigurator → List String → Except Exception Unit
  | [], _ => .ok ()
  | profile :: rest, profileNames =>
    if decide (profile.getProfileName ∈ profileNames) then
      .error Exception.IllegalStateException
    else if !Arrays.containsAll allPlugins profile.mPlugins then
      .error Exception.IllegalStateException
    else checkProfiles allPlugins rest (profileNames ++ [profile.getProfileName])

/-- The configurator after the step "remove plugins not used by at least one card
profile" of `configure`: nothing is done when `usedPlugins` and `allPlugins` have the
same size. -/
def withoutUnusedPlugins (cfg : CardResourceServiceConfiguratorAdapter) :
    CardResourceServiceConfiguratorAdapter :=
  let allPlugins := Arrays.addAll (Arrays.addAll [] cfg.mPlugins) cfg.mPoolPlugins
  let usedPlugins := cfg.computeUsedPlugins allPlugins
  if usedPlugins.length ≠ allPlugins.length then
    let unusedPlugins := Arrays.removeAll allPlugins usedPlugins
    { cfg with
      mPlugins := Arrays.removeAll cfg.mPlugins unusedPlugins
      mConfiguredPlugins :=
        Arrays.removeAll cfg.mConfiguredPlugins (cfg.getConfiguredPluginsOf unusedPlugins)
      mPoolPlugins := Arrays.removeAll cfg.mPoolPlugins (extractPoolPlugins unusedPlugins) }
  else cfg

/-- `CardResourceServiceConfiguratorAdapter::configure`, on the service `svc` that
`CardResourceServiceAdapter::getInstance()` returns: the checks, the removal of the
unused plugins, then `configure` of the service with this configurator. -/
def configure (env : Env) (w : World) (svc : CardResourceServiceAdapter)
    (cfg : CardResourceServiceConfiguratorAdapter) :
    Except Exception Unit ×
      (CardResourceServiceConfiguratorAdapter × CardResourceServiceAdapter) × World :=
  let allPlugins := Arrays.addAll (Arrays.addAll [] cfg.mPlugins) cfg.mPoolPlugins
  if allPlugins.isEmpty then (.error Exception.IllegalStateException, (cfg, svc), w)
  else if cfg.mCardResourceProfileConfigurators.isEmpty then
    (.error Exception.IllegalStateException, (cfg, svc), w)
  else
    match checkProfiles allPlugins cfg.mCardResourceProfileConfigurators [] with
    | .error e => (.error e, (cfg, svc), w)
    | .ok _ =>
      let r := svc.configure env w cfg.withoutUnusedPlugins
      (r.1, (cfg.withoutUnusedPlugins, r.2.1), r.2.2)

end CardResourceServiceConfiguratorAdapter

/-! ## Operations on the service over its life -/

/-- An operation on the service: `configure`, `start`, `stop`, a client call or the
delivery of an event. -/
inductive ServiceOperation where
  | configure (configurator : CardResourceServiceConfiguratorAdapter)
  | start
  | stop
  | getCardResource (cardResourceProfileName : String) (fuel : Nat)
  | releaseCardResource (cardResource : Option CardResource)
  | removeCardResource (cardResource : Option CardResource)
  | onReaderEvent (readerEvent : CardReaderEvent)
  | onPluginEvent (pluginEvent : PluginEvent)
deriving DecidableEq, Repr

/-- The exception an outcome stands for, if any. -/
def Exception.thrown {α : Type} : Except Exception α → Option Exception
  | .ok _ => none
  | .error e => some e

namespace CardResourceServiceAdapter

/-- Runs one operation: the exception it throws, if any, and the service and world
it leaves (a `getCardResource` whose loop is still running after `fuel` turns has
thrown nothing). -/
def perform (env : Env) (w : World) (svc : CardResourceServiceAdapter) :
    ServiceOperation → Option Exception × CardResourceServiceAdapter × World
  | ServiceOperation.configure configurator =>
    (Exception.thrown (svc.configure env w configurator).1, (svc.configure env w configurator).2)
  | ServiceOperation.start => (Exception.thrown (svc.start env w).1, (svc.start env w).2)
  | ServiceOperation.stop => (Exception.thrown (svc.stop w).1, (svc.stop w).2)
  | ServiceOperation.getCardResource name fuel =>
    ((match (svc.getCardResource env fuel w name).1 with
      | some outcome => Exception.thrown outcome
      | none => none), (svc.getCardResource env fuel w name).2)
  | ServiceOperation.releaseCardResource cardResource =>
    (Exception.thrown (svc.releaseCardResource w cardResource).1,
     (svc.releaseCardResource w cardResource).2)
  | ServiceOperation.removeCardResource cardResource =>
    (Exception.thrown (svc.removeCardResource w cardResource).1,
     (svc.removeCardResource w cardResource).2)
  | ServiceOperation.onReaderEvent readerEvent =>
    (Exception.thrown (svc.onReaderEvent env w readerEvent).1,
     (svc.onReaderEvent env w readerEvent).2)
  | ServiceOperation.onPluginEvent pluginEvent =>
    (Exception.thrown (svc.onPluginEvent env w pluginEvent).1,
     (svc.onPluginEvent env w pluginEvent).2)

/-- The service and the world after a sequence of operations; `none` when one of them
runs into undefined behaviour, after which there is no state to speak of. -/
def performAll (env : Env) :
    World → CardResourceServiceAdapter → List ServiceOperation →
      Option (CardResourceServiceAdapter × World)
  | w, svc, [] => some (svc, w)
  | w, svc, operation :: rest =>
    if (svc.perform env w operation).1 = some Exception.Undefined then none
    else performAll env (svc.perform env w operation).2.2 (svc.perform env w operation).2.1 rest

/-- The part of the service that only `configure`, `start` and `stop` change. -/
def lifeCycle (svc : CardResourceServiceAdapter) :
    Bool × Option CardResourceServiceConfiguratorAdapter :=
  (svc.mIsStarted, svc.mConfigurator)

/-- A service that is not started has its four maps empty, and a started service is
configured. -/
def Invariant (svc : CardResourceServiceAdapter) : Prop :=
  (svc.mIsStarted = false →
    svc.mReaderToReaderManagerMap = [] ∧ svc.mCardProfileNameToCardProfileManagerMap = [] ∧
      svc.mCardResourceToPoolPluginMap = [] ∧ svc.mPluginToObservableReadersMap = []) ∧
  (svc.mIsStarted = true → svc.mConfigurator ≠ none)

end CardResourceServiceAdapter

/-! ## The turn of one pool plugin -/

namespace CardProfileManagerAdapter

/-- What the pool plugin offers when its turn comes in the world `w`: the reader it
allocates and the smart card selected on it by the extension of the profile, when it
allocates a reader and the card matches; nothing when `allocateReader` returns null
or throws, or when the card does not match. -/
def poolOffer (env : Env) (pm : CardProfileManagerAdapter) (w : World) (poolPlugin : Plugin) :
    Option (CardReader × SmartCard) :=
  match env.allocateReader w.poolAllocations poolPlugin pm.mCardProfile.mReaderGroupReference with
  | Allocation.reader reader =>
    (env.select w.selections pm.mCardProfile.mCardResourceProfileExtension reader).map
      (fun smartCard => (reader, smartCard))
  | _ => none

/-- The world after the turn of a pool plugin: one `allocateReader` call, and one card
selection when a reader was allocated. -/
def afterPoolTurn (env : Env) (pm : CardProfileManagerAdapter) (w : World)
    (poolPlugin : Plugin) : World :=
  match env.allocateReader w.poolAllocations poolPlugin pm.mCardProfile.mReaderGroupReference with
  | Allocation.reader _ =>
    { w with poolAllocations := w.poolAllocations + 1, selections := w.selections + 1 }
  | _ => { w with poolAllocations := w.poolAllocations + 1 }

/-- The world after the turns of the pool plugins of a list, in order. -/
def afterPoolTurns (env : Env) (pm : CardProfileManagerAdapter) :
    World → List Plugin → World
  | w, [] => w
  | w, poolPlugin :: rest => afterPoolTurns env pm (afterPoolTurn env pm w poolPlugin) rest

end CardProfileManagerAdapter

/-! ## Sequences of calls on the service -/

/-- A call made on the started service by a client or by an observed plugin or
reader; `fuel` bounds the turns of the waiting loop of `getCardResource`. -/
inductive ServiceCall where
  | getCardResource (cardResourceProfileName : String) (fuel : Nat)
  | releaseCardResource (cardResource : Option CardResource)
  | removeCardResource (cardResource : Option CardResource)
  | onReaderEvent (readerEvent : CardReaderEvent)
  | onPluginEvent (pluginEvent : PluginEvent)
deriving DecidableEq, Repr

namespace CardResourceServiceAdapter

/-- The card resource returned by the call, if it is a `getCardResource` that returns
one, with the service and the world after the call. -/
def call (env : Env) (w : World) (svc : CardResourceServiceAdapter) :
    ServiceCall → Option CardResource × CardResourceServiceAdapter × World
  | ServiceCall.getCardResource name fuel =>
    let r := svc.getCardResource env fuel w name
    ((match r.1 with
      | some (.ok (some cardResource)) => some cardResource
      | _ => none), r.2)
  | ServiceCall.releaseCardResource cardResource =>
    (none, (svc.releaseCardResource w cardResource).2)
  | ServiceCall.removeCardResource cardResource =>
    (none, (svc.removeCardResource w cardResource).2)
  | ServiceCall.onReaderEvent readerEvent => (none, (svc.onReaderEvent env w readerEvent).2)
  | ServiceCall.onPluginEvent pluginEvent => (none, (svc.onPluginEvent env w pluginEvent).2)

/-- The card resources returned by the calls of a sequence, in order, with the
service and the world after the sequence. -/
def run (env : Env) :
    World → CardResourceServiceAdapter → List ServiceCall →
      List CardResource × CardResourceServiceAdapter × World
  | w, svc, [] => ([], svc, w)
  | w, svc, c :: rest =>
    let r := svc.call env w c
    let t := run env r.2.2 r.2.1 rest
    (r.1.toList ++ t.1, t.2)

end CardResourceServiceAdapter

/-! ## Sequences of calls on one reader manager -/

/-- A call of one of the operations of a reader manager. -/
inductive ReaderManagerCall where
  | activate
  | matches (extension : Nat)
  | lock (cardResource : CardResource) (extension : Nat)
  | unlock
  | removeCardResource (cardResource : CardResource)
deriving DecidableEq, Repr

/-- Whether the call is a `removeCardResource`. -/
def ReaderManagerCall.isRemoval : ReaderManagerCall → Bool
  | ReaderManagerCall.removeCardResource _ => true
  | _ => false

namespace ReaderManagerAdapter

/-- The manager and the world after one call (whatever the call returned or threw). -/
def call (env : Env) (w : World) (rm : ReaderManagerAdapter) :
    ReaderManagerCall → ReaderManagerAdapter × World
  | ReaderManagerCall.activate => (rm.activate w).2
  | ReaderManagerCall.matches extension => (rm.matches env w extension).2
  | ReaderManagerCall.lock cardResource extension => (rm.lock env w cardResource extension).2
  | ReaderManagerCall.unlock => (rm.unlock, w)
  | ReaderManagerCall.removeCardResource cardResource => (rm.removeCardResource cardResource, w)

/-- The manager and the world after a sequence of calls. -/
def run (env : Env) : World → ReaderManagerAdapter → List ReaderManagerCall →
    ReaderManagerAdapter × World
  | w, rm, [] => (rm, w)
  | w, rm, c :: rest => run env (rm.call env w c).2 (rm.call env w c).1 rest

end ReaderManagerAdapter

/-- Every `lock` of the sequence is given a card resource that the manager, as the
calls before have left it, owns. -/
def ReaderManagerAdapter.LocksOwn (env : Env) :
    World → ReaderManagerAdapter → List ReaderManagerCall → Prop
  | _, _, [] => True
  | w, rm, c :: rest =>
    (match c with
     | ReaderManagerCall.lock cardResource _ => cardResource ∈ rm.mCardResources
     | _ => True) ∧
    ReaderManagerAdapter.LocksOwn env (rm.call env w c).2 (rm.call env w c).1 rest

/-- `n` repetitions of a `getCardResource` of the profile followed by the release of the
card resource `h`. -/
def ServiceCall.allocateAndRelease (cardResourceProfileName : String) (fuel : Nat)
    (h : CardResource) : Nat → List ServiceCall
  | 0 => []
  | n + 1 =>
    ServiceCall.getCardResource cardResourceProfileName fuel ::
      ServiceCall.releaseCardResource (some h) ::
        ServiceCall.allocateAndRelease cardResourceProfileName fuel h n

/-- Whether the call leaves the reader `x` alone: it is not the release or the removal
of a card resource of `x`, and not an event that names `x`. -/
def ServiceCall.sparesReader (x : CardReader) : ServiceCall → Bool
  | ServiceCall.getCardResource _ _ => true
  | ServiceCall.releaseCardResource cardResource =>
    match cardResource with
    | some c => decide (c.getReader ≠ x)
    | none => true
  | ServiceCall.removeCardResource cardResource =>
    match cardResource with
    | some c => decide (c.getReader ≠ x)
    | none => true
  | ServiceCall.onReaderEvent readerEvent => decide (readerEvent.readerName ≠ x.name)
  | ServiceCall.onPluginEvent pluginEvent => decide (x.name ∉ pluginEvent.readerNames)

/-- The reader manager manages another reader than `x` and owns no card resource of
`x`. -/
def ReaderManagerAdapter.Avoids (x : CardReader) (rm : ReaderManagerAdapter) : Prop :=
  rm.mReader ≠ x ∧ ∀ c ∈ rm.mCardResources, c.mReader ≠ x

/-- The reader `x` is registered with the manager `held`, the managers registered for
the other readers manage other readers and own card resources of other readers, and
every profile manager allocates under `FIRST`. -/
def CardResourceServiceAdapter.Holds (x : CardReader) (held : ReaderManagerAdapter)
    (svc : CardResourceServiceAdapter) : Prop :=
  StdMap.find svc.mReaderToReaderManagerMap x = some held ∧
  (∀ p ∈ svc.mReaderToReaderManagerMap, p.1 ≠ x → p.2.Avoids x) ∧
  (∀ p ∈ svc.mCardProfileNameToCardProfileManagerMap,
    p.2.mGlobalConfiguration.mAllocationStrategy = AllocationStrategy.FIRST)

/-- The manager of a configured reader between two calls: it has a reader
configurator, it is not busy, and its card resources are card resources of its
reader. -/
def ReaderManagerAdapter.AtRest (rm : ReaderManagerAdapter) : Prop :=
  rm.mReaderConfiguratorSpi ≠ none ∧ rm.mIsBusy = false ∧
    ∀ c ∈ rm.mCardResources, c.getReader = rm.mReader

/-- Every card resource listed by a profile manager is the card resource of a reader
that `dynamic_pointer_cast<Reader>` accepts, as the readers provided by plugins are. -/
def CardResourceServiceAdapter.ListsKeypleReaders (svc : CardResourceServiceAdapter) : Prop :=
  ∀ p ∈ svc.mCardProfileNameToCardProfileManagerMap,
    ∀ c ∈ p.2.mCardResources, c.getReader.keypleReader = true

/-- The reorderings of the outside world bring no new element into a vector. -/
def Env.ReordersInPlace (env : Env) : Prop :=
  (∀ l c, c ∈ env.shuffle l → c ∈ l) ∧ (∀ l k c, c ∈ env.rotateBeforeBegin l k → c ∈ l)

/-! ## Concrete states used as instances -/

namespace Scenario

/-- A regular plugin. -/
def plugin1 : Plugin := { id := 1, name := "plugin1" }

/-- Reader `X` of `plugin1`. -/
def readerX : CardReader := { id := 1, name := "X", observable := true }

/-- Reader `Y` of `plugin1`. -/
def readerY : CardReader := { id := 2, name := "Y", observable := true }

/-- A card without power-on data. -/
def cardA : SmartCard := { id := 10, powerOnData := "", selectApplicationResponse := [1] }

/-- Another card, with power-on data. -/
def cardB : SmartCard := { id := 11, powerOnData := "3B", selectApplicationResponse := [2] }

/-- A distinct object equivalent to `cardB`. -/
def cardB2 : SmartCard := { id := 12, powerOnData := "3B", selectApplicationResponse := [2] }

/-- The card resource of `cardA` on reader `X`. -/
def resourceA : CardResource := { id := 100, mReader := readerX, mSmartCard := cardA }

/-- The card resource of `cardB` on reader `X`. -/
def resourceB : CardResource := { id := 101, mReader := readerX, mSmartCard := cardB }

/-- The card resource of `cardB` on reader `Y`. -/
def resourceY : CardResource := { id := 102, mReader := readerY, mSmartCard := cardB }

/-- A world in which the card `cardB` is selected by every extension on every reader,
the clock reads `1000`, `1001`, ..., no pool plugin allocates a reader, every regex
matches, a shuffle reverses the vector and the undefined rotation leaves it as it is. -/
def envB : Env where
  clock := fun n => 1000 + n
  select := fun _ _ _ => some cardB
  allocateReader := fun _ _ _ => Allocation.null
  regexMatches := fun _ _ => true
  getPlugin := fun _ _ => some plugin1
  pluginGetReader := fun _ _ _ => none
  shuffle := fun l => l.reverse
  rotateBeforeBegin := fun l _ => l
  pluginGetReaders := fun _ _ => []

/-- The world of `envB` seen `150` ms later. -/
def envLater : Env where
  clock := fun n => 1150 + n
  select := fun _ _ _ => some cardB
  allocateReader := fun _ _ _ => Allocation.null
  regexMatches := fun _ _ => true
  getPlugin := fun _ _ => some plugin1
  pluginGetReader := fun _ _ _ => none
  shuffle := fun l => l.reverse
  rotateBeforeBegin := fun l _ => l
  pluginGetReaders := fun _ _ => []

/-- The world of `envB` in which every selection after the first gives `cardB2`, a
distinct object equivalent to `cardB`. -/
def envB2 : Env where
  clock := fun n => 1000 + n
  select := fun n _ _ => if n = 0 then some cardB else some cardB2
  allocateReader := fun _ _ _ => Allocation.null
  regexMatches := fun _ _ => true
  getPlugin := fun _ _ => some plugin1
  pluginGetReader := fun _ _ _ => none
  shuffle := fun l => l.reverse
  rotateBeforeBegin := fun l _ => l
  pluginGetReaders := fun _ _ => []

/-- The manager of reader `X`, active and free, with a usage timeout of `100` ms,
owning `resourceA` and `resourceB`, the latter selected. -/
def managerX : ReaderManagerAdapter :=
  { mReader := readerX
    mPlugin := plugin1
    mCardResources := [resourceA, resourceB]
    mReaderConfiguratorSpi := some 1
    mUsageTimeoutMillis := 100
    mSelectedCardResource := some resourceB
    mIsActive := true }

/-- The manager of reader `X` locked until `2000`. -/
def managerXBusy : ReaderManagerAdapter :=
  { managerX with mIsBusy := true, mLockMaxTimeMillis := 2000 }

/-- The profile `P1`, without plugin list nor reader name filter. -/
def profile1 : CardResourceProfileConfigurator :=
  { mProfileName := "P1", mCardResourceProfileExtension := 7 }

/-- A global configuration of `plugin1` and `profile1`, non-blocking. -/
def configuration (strategy : AllocationStrategy) (usageTimeoutMillis : Nat) :
    CardResourceServiceConfiguratorAdapter :=
  { mPlugins := [plugin1]
    mConfiguredPlugins := [{ mPlugin := plugin1, mReaderConfiguratorSpi := some 1 }]
    mAllocationStrategy := strategy
    mUsageTimeoutMillis := usageTimeoutMillis
    mCardResourceProfileConfigurators := [profile1] }

/-- The profile manager of `profile1` with the candidate list `resources`. -/
def profileManager (strategy : AllocationStrategy) (usageTimeoutMillis : Nat)
    (resources : List CardResource) : CardProfileManagerAdapter :=
  { mCardProfile := profile1
    mGlobalConfiguration := configuration strategy usageTimeoutMillis
    mPlugins := [plugin1]
    mCardResources := resources }

/-- A started service with the given reader managers and, for `profile1`, the given
candidate list. -/
def service (strategy : AllocationStrategy) (usageTimeoutMillis : Nat)
    (managers : StdMap CardReader ReaderManagerAdapter) (resources : List CardResource) :
    CardResourceServiceAdapter :=
  { mConfigurator := some (configuration strategy usageTimeoutMillis)
    mReaderToReaderManagerMap := managers
    mCardProfileNameToCardProfileManagerMap :=
      [("P1", profileManager strategy usageTimeoutMillis resources)]
    mIsStarted := true }

/-- The manager of reader `X` in the default configuration (usage timeout `0`), free,
owning only `resourceB`, which is selected. -/
def managerXOnlyB (usageTimeoutMillis : Nat) : ReaderManagerAdapter :=
  { mReader := readerX
    mPlugin := plugin1
    mCardResources := [resourceB]
    mReaderConfiguratorSpi := some 1
    mUsageTimeoutMillis := usageTimeoutMillis
    mSelectedCardResource := some resourceB
    mIsActive := true }

/-- The manager of reader `Y`, free, owning `resourceY`, which is selected. -/
def managerY (usageTimeoutMillis : Nat) : ReaderManagerAdapter :=
  { mReader := readerY
    mPlugin := plugin1
    mCardResources := [resourceY]
    mReaderConfiguratorSpi := some 1
    mUsageTimeoutMillis := usageTimeoutMillis
    mSelectedCardResource := some resourceY
    mIsActive := true }

/-- The default configuration (`FIRST`, no usage timeout configured): reader `X` holds
the card of `resourceB`, the only candidate of `P1`. -/
def serviceDefault : CardResourceServiceAdapter :=
  service AllocationStrategy.FIRST 0 [(readerX, managerXOnlyB 0)] [resourceB]

/-- Reader `X` has seen two cards: `resourceA` and `resourceB` are both candidates of
`P1`; the card of `resourceB` is the one inserted (see `envB`). -/
def serviceTwoCards : CardResourceServiceAdapter :=
  service AllocationStrategy.FIRST 100 [(readerX, managerX)] [resourceA, resourceB]

/-- Strategy `RANDOM`: readers `X` and `Y` each hold a matching card. -/
def serviceRandom : CardResourceServiceAdapter :=
  service AllocationStrategy.RANDOM 100
    [(readerX, managerXOnlyB 100), (readerY, managerY 100)] [resourceB, resourceY]

/-- The world of `envB` in which the first selection gives `cardA` and the later
ones `cardB`: the card of the reader has been changed. -/
def envTwoCards : Env where
  clock := fun n => 1000 + n
  select := fun n _ _ => if n = 0 then some cardA else some cardB
  allocateReader := fun _ _ _ => Allocation.null
  regexMatches := fun _ _ => true
  getPlugin := fun _ _ => some plugin1
  pluginGetReader := fun _ _ _ => none
  shuffle := fun l => l.reverse
  rotateBeforeBegin := fun l _ => l
  pluginGetReaders := fun _ _ => []

/-- The manager of reader `X`, active, before any card has been seen. -/
def managerXNoCard : ReaderManagerAdapter :=
  { mReader := readerX
    mPlugin := plugin1
    mReaderConfiguratorSpi := some 1
    mUsageTimeoutMillis := 100
    mIsActive := true }

/-- The service started with reader `X` empty: `P1` has no candidate yet. -/
def serviceNoCard : CardResourceServiceAdapter :=
  service AllocationStrategy.FIRST 100 [(readerX, managerXNoCard)] []

/-- Two `CARD_INSERTED` events of reader `X` (see `envTwoCards`), then two client
calls without release. -/
def callsAfterTwoInsertions : List ServiceCall :=
  [ServiceCall.onReaderEvent
     { readerName := "X", type := CardReaderEventType.CARD_INSERTED },
   ServiceCall.onReaderEvent
     { readerName := "X", type := CardReaderEventType.CARD_INSERTED },
   ServiceCall.getCardResource "P1" 1,
   ServiceCall.getCardResource "P1" 1]

/-- Usage timeout `100`: reader `X` is free and holds the card of `resourceB`, the
only candidate of `P1`. -/
def serviceOneReader : CardResourceServiceAdapter :=
  service AllocationStrategy.FIRST 100 [(readerX, managerXOnlyB 100)] [resourceB]

/-- A client call, a `CARD_INSERTED` event of reader `X`, and a second client call;
nothing is released or removed and the service is not stopped. -/
def callsWithCardInserted : List ServiceCall :=
  [ServiceCall.getCardResource "P1" 1,
   ServiceCall.onReaderEvent
     { readerName := "X", type := CardReaderEventType.CARD_INSERTED },
   ServiceCall.getCardResource "P1" 1]

/-- A world like `envB` whose clock stays at `1000`. -/
def envSteady : Env where
  clock := fun _ => 1000
  select := fun _ _ _ => some cardB
  allocateReader := fun _ _ _ => Allocation.null
  regexMatches := fun _ _ => true
  getPlugin := fun _ _ => some plugin1
  pluginGetReader := fun _ _ _ => none
  shuffle := fun l => l.reverse
  rotateBeforeBegin := fun l _ => l
  pluginGetReaders := fun _ _ => []

/-- The manager of reader `X` locked for `resourceB` until `1100`. -/
def managerXHeld : ReaderManagerAdapter :=
  { managerXOnlyB 100 with mIsBusy := true, mLockMaxTimeMillis := 1100 }

/-- Reader `X` is held by a caller, reader `Y` is free; both resources are candidates
of `P1`. -/
def serviceHeld : CardResourceServiceAdapter :=
  service AllocationStrategy.FIRST 100
    [(readerX, managerXHeld), (readerY, managerY 100)] [resourceB, resourceY]

/-- Calls that do not concern reader `X`: allocations, an insertion event and the
release for reader `Y`, the disconnection of reader `Y`. -/
def callsSparingX : List ServiceCall :=
  [ServiceCall.getCardResource "P1" 1,
   ServiceCall.getCardResource "P1" 1,
   ServiceCall.onReaderEvent
     { readerName := "Y", type := CardReaderEventType.CARD_INSERTED },
   ServiceCall.getCardResource "P1" 1,
   ServiceCall.releaseCardResource (some resourceY),
   ServiceCall.onPluginEvent
     { pluginName := "plugin1", readerNames := ["Y"],
       type := PluginEventType.READER_DISCONNECTED },
   ServiceCall.getCardResource "P1" 1]

/-- Strategy `CYCLIC`: readers `X` and `Y` each hold a matching card. -/
def serviceCyclic : CardResourceServiceAdapter :=
  service AllocationStrategy.CYCLIC 100
    [(readerX, managerXOnlyB 100), (readerY, managerY 100)] [resourceB, resourceY]

/-- Three allocations, each of the first two followed by the release of the card
resource it returned. -/
def callsAllocateRelease : List ServiceCall :=
  [ServiceCall.getCardResource "P1" 1,
   ServiceCall.releaseCardResource (some resourceB),
   ServiceCall.getCardResource "P1" 1,
   ServiceCall.releaseCardResource (some resourceB),
   ServiceCall.getCardResource "P1" 1]

/-- A world like `envB` in which `plugin1` knows the reader `X` under its name. -/
def envHotPlug : Env where
  clock := fun n => 1000 + n
  select := fun _ _ _ => some cardB
  allocateReader := fun _ _ _ => Allocation.null
  regexMatches := fun _ _ => true
  getPlugin := fun _ _ => some plugin1
  pluginGetReader := fun _ _ name => if name = "X" then some readerX else none
  shuffle := fun l => l.reverse
  rotateBeforeBegin := fun l _ => l
  pluginGetReaders := fun _ _ => []

/-- The plugin reports the reader `X`, already registered, as connected, then as
disconnected. -/
def callsReconnectDisconnect : List ServiceCall :=
  [ServiceCall.onPluginEvent
     { pluginName := "plugin1", readerNames := ["X"],
       type := PluginEventType.READER_CONNECTED },
   ServiceCall.onPluginEvent
     { pluginName := "plugin1", readerNames := ["X"],
       type := PluginEventType.READER_DISCONNECTED }]

/-- A pool plugin. -/
def poolPlugin : Plugin := { id := 2, name := "pool", pool := true }

/-- A reader allocated by `poolPlugin`. -/
def readerPool : CardReader := { id := 3, name := "pooled" }

/-- The card resource of `cardB` on the pool reader. -/
def resourcePool : CardResource := { id := 200, mReader := readerPool, mSmartCard := cardB }

/-- `Scenario.serviceOneReader` after a pool allocation: `resourcePool` is mapped to
`poolPlugin`. -/
def servicePoolAllocated : CardResourceServiceAdapter :=
  { serviceOneReader with mCardResourceToPoolPluginMap := [(resourcePool, poolPlugin)] }

/-- Another pool plugin. -/
def poolPluginFailing : Plugin := { id := 3, name := "failing pool", pool := true }

/-- A world like `envB` in which `poolPlugin` allocates `readerPool` and every other
pool plugin throws. -/
def envPool : Env where
  clock := fun n => 1000 + n
  select := fun _ _ _ => some cardB
  allocateReader := fun _ p _ =>
    if p = poolPlugin then Allocation.reader readerPool else Allocation.pluginException
  regexMatches := fun _ _ => true
  getPlugin := fun _ _ => some plugin1
  pluginGetReader := fun _ _ _ => none
  shuffle := fun l => l.reverse
  rotateBeforeBegin := fun l _ => l
  pluginGetReaders := fun _ _ => []

/-- A profile manager of `profile1` that uses the two pool plugins only. -/
def profileManagerPools : CardProfileManagerAdapter :=
  { mCardProfile := profile1
    mGlobalConfiguration :=
      { mPoolPlugins := [poolPluginFailing, poolPlugin]
        mCardResourceProfileConfigurators := [profile1] }
    mPoolPlugins := [poolPluginFailing, poolPlugin] }

/-- A started service whose only profile is served by the two pool plugins. -/
def servicePools : CardResourceServiceAdapter :=
  { mConfigurator := some profileManagerPools.mGlobalConfiguration
    mCardProfileNameToCardProfileManagerMap := [("P1", profileManagerPools)]
    mIsStarted := true }

/-- A started service in which `P1` still lists `resourceB` while its reader `X` has
no manager any more. -/
def serviceReaderGone : CardResourceServiceAdapter :=
  service AllocationStrategy.FIRST 100 [] [resourceB]

/-- A started service without any reader: no manager, and `P1` has no candidate. -/
def serviceNoReader : CardResourceServiceAdapter :=
  service AllocationStrategy.FIRST 100 [] []

/-- The plugin `plugin1` reports the reader named `X` as connected. -/
def eventReaderXConnected : PluginEvent :=
  { pluginName := "plugin1", readerNames := ["X"], type := PluginEventType.READER_CONNECTED }

/-- A world like `envB` in which `plugin1` has the reader `X`. -/
def envStart : Env where
  clock := fun n => 1000 + n
  select := fun _ _ _ => some cardB
  allocateReader := fun _ _ _ => Allocation.null
  regexMatches := fun _ _ => true
  getPlugin := fun _ _ => some plugin1
  pluginGetReader := fun _ _ _ => none
  shuffle := fun l => l.reverse
  rotateBeforeBegin := fun l _ => l
  pluginGetReaders := fun _ plugin => if plugin = plugin1 then [readerX] else []

/-- A life of the service: it is configured, started, asked for a card resource of `P1`,
told that a card was inserted in reader `X`, and stopped. -/
def lifeOperations : List ServiceOperation :=
  [ServiceOperation.configure (configuration AllocationStrategy.FIRST 100),
   ServiceOperation.start,
   ServiceOperation.getCardResource "P1" 1,
   ServiceOperation.onReaderEvent
     { readerName := "X", type := CardReaderEventType.CARD_INSERTED },
   ServiceOperation.stop]

/-- The service at the end of `lifeOperations`: configured, stopped. -/
def serviceAfterLife : CardResourceServiceAdapter :=
  { mConfigurator := some (configuration AllocationStrategy.FIRST 100) }

/-- The world at the end of `lifeOperations` in `envStart`. -/
def worldAfterLife : World :=
  { clockReads := 2
    selections := 2
    allocations := 1
    readerListQueries := 2
    setupReaderLog := [readerX] }

/-- The card resource that a new manager of reader `X` creates for the card `cardB` in a
new world. -/
def resourceFirst : CardResource := { id := 0, mReader := readerX, mSmartCard := cardB }

/-- A selection, the removal of the card resource it created, and a `lock` for that
card resource. -/
def callsLockRemoved : List ReaderManagerCall :=
  [ReaderManagerCall.matches 7,
   ReaderManagerCall.removeCardResource resourceFirst,
   ReaderManagerCall.lock resourceFirst 7]

/-- A selection, a `lock` for the card resource it created, an `unlock` and the removal
of that card resource. -/
def callsLockOwned : List ReaderManagerCall :=
  [ReaderManagerCall.matches 7,
   ReaderManagerCall.lock resourceFirst 7,
   ReaderManagerCall.unlock,
   ReaderManagerCall.removeCardResource resourceFirst]

/-- The card resource that the first pool allocation of a new world creates. -/
def resourcePoolFirst : CardResource := { id := 0, mReader := readerPool, mSmartCard := cardB }

/-- The service is configured with the two pool plugins, started, and asked for a card
resource of `P1`. -/
def lifeWithPoolResource : List ServiceOperation :=
  [ServiceOperation.configure profileManagerPools.mGlobalConfiguration,
   ServiceOperation.start,
   ServiceOperation.getCardResource "P1" 1]

/-- A second regular plugin. -/
def plugin2 : Plugin := { id := 4, name := "plugin2" }

/-- The profile `P1` restricted to `plugin1`. -/
def profileOnPlugin1 : CardResourceProfileConfigurator :=
  { mProfileName := "P1", mCardResourceProfileExtension := 7, mPlugins := [plugin1] }

/-- A profile `P2`, restricted to `plugin1` too. -/
def profile2OnPlugin1 : CardResourceProfileConfigurator :=
  { mProfileName := "P2", mCardResourceProfileExtension := 8, mPlugins := [plugin1] }

/-- The plugins configurator built from `plugin1` and `plugin2`. -/
def pluginsConfiguratorTwo : PluginsConfigurator :=
  { mAllocationStrategy := AllocationStrategy.FIRST
    mUsageTimeoutMillis := 0
    mPlugins := [plugin1, plugin2]
    mConfiguredPlugins :=
      [ConfiguredPlugin.create plugin1 (some 1) none none,
       ConfiguredPlugin.create plugin2 (some 2) none none] }

/-- A configurator with the regular plugins `plugin1` and `plugin2` and the given
profiles. -/
def configuratorTwoPlugins (profiles : List CardResourceProfileConfigurator) :
    CardResourceServiceConfiguratorAdapter :=
  { mPlugins := [plugin1, plugin2]
    mConfiguredPlugins :=
      [ConfiguredPlugin.create plugin1 (some 1) none none,
       ConfiguredPlugin.create plugin2 (some 2) none none]
    mCardResourceProfileConfigurators := profiles }

/-- A configurator with a plugin and no profile. -/
def configuratorNoProfile : CardResourceServiceConfiguratorAdapter :=
  { mPlugins := [plugin1]
    mConfiguredPlugins := [ConfiguredPlugin.create plugin1 (some 1) none none] }

/-- A reader allocated by `poolPluginFailing`. -/
def readerStray : CardReader := { id := 4, name := "stray" }

/-- A world like `envPool` in which `poolPluginFailing` allocates `readerStray`, whose
card no extension selects, and `poolPlugin` allocates `readerPool` with `cardB`. -/
def envPoolMismatch : Env where
  clock := fun n => 1000 + n
  select := fun _ _ reader => if reader = readerPool then some cardB else none
  allocateReader := fun _ p _ =>
    if p = poolPlugin then Allocation.reader readerPool
    else if p = poolPluginFailing then Allocation.reader readerStray
    else Allocation.pluginException
  regexMatches := fun _ _ => true
  getPlugin := fun _ _ => some plugin1
  pluginGetReader := fun _ _ _ => none
  shuffle := fun l => l.reverse
  rotateBeforeBegin := fun l _ => l
  pluginGetReaders := fun _ _ => []

/-- The configuration of `plugin1` and `profile1` in blocking allocation mode: a cycle
of `50` ms and a timeout of `100` ms. -/
def configurationBlocking : CardResourceServiceConfiguratorAdapter :=
  { configuration AllocationStrategy.FIRST 100 with
    mIsBlockingAllocationMode := true
    mCycleDurationMillis := 50
    mTimeoutMillis := 100 }

/-- The profile manager of `profile1` in blocking mode, without candidate. -/
def profileManagerBlocking : CardProfileManagerAdapter :=
  { mCardProfile := profile1
    mGlobalConfiguration := configurationBlocking
    mPlugins := [plugin1] }

/-- A started service in blocking mode without any reader. -/
def serviceBlocking : CardResourceServiceAdapter :=
  { mConfigurator := some configurationBlocking
    mCardProfileNameToCardProfileManagerMap := [("P1", profileManagerBlocking)]
    mIsStarted := true }

/-- A world like `envB` whose clock advances by `60` ms from a reading to the next. -/
def envSlowClock : Env where
  clock := fun n => 1000 + 60 * n
  select := fun _ _ _ => some cardB
  allocateReader := fun _ _ _ => Allocation.null
  regexMatches := fun _ _ => true
  getPlugin := fun _ _ => some plugin1
  pluginGetReader := fun _ _ _ => none
  shuffle := fun l => l.reverse
  rotateBeforeBegin := fun l _ => l
  pluginGetReaders := fun _ _ => []

/-- The service is configured, started and asked for a card resource of `P1`. -/
def lifeStarted : List ServiceOperation :=
  [ServiceOperation.configure (configuration AllocationStrategy.FIRST 100),
   ServiceOperation.start,
   ServiceOperation.getCardResource "P1" 1]

/-- The manager of reader `X` at the end of `lifeStarted` in `envStart`: it owns the card
resource created at the start, locked by the allocation. -/
def managerXAllocated : ReaderManagerAdapter :=
  { mReader := readerX
    mPlugin := plugin1
    mCardResources := [resourceFirst]
    mReaderConfiguratorSpi := some 1
    mUsageTimeoutMillis := 100
    mLockMaxTimeMillis := 1101
    mSelectedCardResource := some resourceFirst
    mIsBusy := true
    mIsActive := true }

/-- The service at the end of `lifeStarted` in `envStart`. -/
def serviceStartedOnX : CardResourceServiceAdapter :=
  { mConfigurator := some (configuration AllocationStrategy.FIRST 100)
    mReaderToReaderManagerMap := [(readerX, managerXAllocated)]
    mCardProfileNameToCardProfileManagerMap :=
      [("P1", profileManager AllocationStrategy.FIRST 100 [resourceFirst])]
    mPluginToObservableReadersMap := [(plugin1, [readerX])]
    mIsStarted := true }

/-- The world at the end of `lifeStarted` in `envStart`. -/
def worldStartedOnX : World :=
  { clockReads := 2
    selections := 1
    allocations := 1
    readerListQueries := 2
    setupReaderLog := [readerX] }

/-- The profile `P1` with the reader name filter `X`. -/
def profileRegexX : CardResourceProfileConfigurator :=
  { mProfileName := "P1", mCardResourceProfileExtension := 7, mReaderNameRegex := "X" }

/-- The configuration of `plugin1` and of the profile `profileRegexX`. -/
def configurationRegex : CardResourceServiceConfiguratorAdapter :=
  { configuration AllocationStrategy.FIRST 100 with
    mCardResourceProfileConfigurators := [profileRegexX] }

/-- A world like `envB` in which `plugin1` has the readers `X` and `Y` and a pattern
matches the reader names equal to it. -/
def envRegex : Env where
  clock := fun n => 1000 + n
  select := fun _ _ _ => some cardB
  allocateReader := fun _ _ _ => Allocation.null
  regexMatches := fun pattern name => pattern == name
  getPlugin := fun _ _ => some plugin1
  pluginGetReader := fun _ plugin name =>
    if plugin = plugin1 then
      if name = "X" then some readerX else if name = "Y" then some readerY else none
    else none
  shuffle := fun l => l.reverse
  rotateBeforeBegin := fun l _ => l
  pluginGetReaders := fun _ plugin => if plugin = plugin1 then [readerX, readerY] else []

/-- The service is configured with `configurationRegex` and started. -/
def lifeRegex : List ServiceOperation :=
  [ServiceOperation.configure configurationRegex, ServiceOperation.start]

/-- The manager of reader `X` at the end of `lifeRegex` in `envRegex`: active and free, it
owns the card resource created at the start. -/
def managerXStarted : ReaderManagerAdapter :=
  { mReader := readerX
    mPlugin := plugin1
    mCardResources := [resourceFirst]
    mReaderConfiguratorSpi := some 1
    mUsageTimeoutMillis := 100
    mSelectedCardResource := some resourceFirst
    mIsActive := true }

/-- The service at the end of `lifeRegex` in `envRegex`: reader `Y`, whose name the
filter of `P1` refuses, is not registered. -/
def serviceRegexStarted : CardResourceServiceAdapter :=
  { mConfigurator := some configurationRegex
    mReaderToReaderManagerMap := [(readerX, managerXStarted)]
    mCardProfileNameToCardProfileManagerMap :=
      [("P1", { mCardProfile := profileRegexX
                mGlobalConfiguration := configurationRegex
                mPlugins := [plugin1]
                mCardResources := [resourceFirst] })]
    mPluginToObservableReadersMap := [(plugin1, [readerX])]
    mIsStarted := true }

/-- The world at the end of `lifeRegex` in `envRegex`. -/
def worldRegexStarted : World :=
  { selections := 1
    allocations := 1
    readerListQueries := 2
    setupReaderLog := [readerX]
    observationLog := [ObservationCall.removeReaderObserver readerY] }

/-- A world like `envB` in which the out-of-contract rotation of `CYCLIC` overwrites the
second slot of the vector with the first. -/
def envRotateOverrun : Env where
  clock := fun n => 1000 + n
  select := fun _ _ _ => some cardB
  allocateReader := fun _ _ _ => Allocation.null
  regexMatches := fun _ _ => true
  getPlugin := fun _ _ => some plugin1
  pluginGetReader := fun _ _ _ => none
  shuffle := fun l => l.reverse
  rotateBeforeBegin := fun l _ =>
    match l with
    | a :: _ :: rest => a :: a :: rest
    | short => short
  pluginGetReaders := fun _ _ => []

/-- The configuration of `plugin1`, of the pool plugin `poolPlugin`, asked first, and of
`profile1`, under the given strategy. -/
def configurationPoolFirst (strategy : AllocationStrategy) :
    CardResourceServiceConfiguratorAdapter :=
  { configuration strategy 100 with mPoolPlugins := [poolPlugin], mUsePoolFirst := true }

/-- The profile manager of `profile1` under `configurationPoolFirst`, with the
candidate list `resources`. -/
def profileManagerPoolFirst (strategy : AllocationStrategy) (resources : List CardResource) :
    CardProfileManagerAdapter :=
  { mCardProfile := profile1
    mGlobalConfiguration := configurationPoolFirst strategy
    mPlugins := [plugin1]
    mPoolPlugins := [poolPlugin]
    mCardResources := resources }

/-- A started service under `configurationPoolFirst` with the given reader managers and
candidate list. -/
def servicePoolFirst (strategy : AllocationStrategy)
    (managers : StdMap CardReader ReaderManagerAdapter) (resources : List CardResource) :
    CardResourceServiceAdapter :=
  { mConfigurator := some (configurationPoolFirst strategy)
    mReaderToReaderManagerMap := managers
    mCardProfileNameToCardProfileManagerMap :=
      [("P1", profileManagerPoolFirst strategy resources)]
    mIsStarted := true }

/-- The card resource that `getPoolCardResource` creates in a new world for the reader
that `poolPlugin` allocates. -/
def resourcePoolNew : CardResource := { id := 0, mReader := readerPool, mSmartCard := cardB }

/-- A world like `envHotPlug` in which `poolPlugin` allocates `readerPool`. -/
def envHotPlugPool : Env where
  clock := fun n => 1000 + n
  select := fun _ _ _ => some cardB
  allocateReader := fun _ p _ =>
    if p = poolPlugin then Allocation.reader readerPool else Allocation.pluginException
  regexMatches := fun _ _ => true
  getPlugin := fun _ _ => some plugin1
  pluginGetReader := fun _ _ name => if name = "X" then some readerX else none
  shuffle := fun l => l.reverse
  rotateBeforeBegin := fun l _ => l
  pluginGetReaders := fun _ _ => []

/-- A card resource of another reader, whose handle lies behind the storage of a
vector. -/
def resourceStray : CardResource := { id := 300, mReader := readerStray, mSmartCard := cardA }

/-- A world like `envHotPlug` in which the out-of-contract rotation of `CYCLIC` fills the
slots of the vector with what lay behind its storage, the handle `resourceStray`. -/
def envHotPlugOverrun : Env where
  clock := fun n => 1000 + n
  select := fun _ _ _ => some cardB
  allocateReader := fun _ _ _ => Allocation.null
  regexMatches := fun _ _ => true
  getPlugin := fun _ _ => some plugin1
  pluginGetReader := fun _ _ name => if name = "X" then some readerX else none
  shuffle := fun l => l.reverse
  rotateBeforeBegin := fun l _ => l.map (fun _ => resourceStray)
  pluginGetReaders := fun _ _ => []

end Scenario

/-- No two card resources of the list, taken in order, carry equivalent smart cards
(`ReaderManagerAdapter::areEquals`). -/
def ReaderManagerAdapter.Unequivalent (l : List CardResource) : Prop :=
  l.Pairwise (fun a b =>
    ReaderManagerAdapter.areEquals (some a.getSmartCard) (some b.getSmartCard) = false)

/-- The world `w2` follows `w1` without a sleep: the log of the `Thread::sleep` calls is
the same and no reading of the clock has been undone. -/
def World.FollowsAwake (w1 w2 : World) : Prop :=
  w2.sleepLog = w1.sleepLog ∧ w1.clockReads ≤ w2.clockReads

namespace CardProfileManagerAdapter

/-- The service and the world after a turn of the loop of `getCardResource` that found
nothing in blocking mode: the search pass, the sleep of one cycle in `pauseIfNeeded`
and the reading of the clock in the loop condition. -/
def afterIdleTurn (env : Env) (profileName : String) (pm : CardProfileManagerAdapter)
    (s : CardResourceServiceAdapter × World) : CardResourceServiceAdapter × World :=
  let r := searchOnce env s.2 s.1 profileName pm
  (r.2.1,
   { r.2.2 with
     sleepLog := r.2.2.sleepLog ++ [pm.mGlobalConfiguration.mCycleDurationMillis]
     clockReads := r.2.2.clockReads + 1 })

/-- The service and the world after `n` such turns. -/
def afterIdleTurns (env : Env) (profileName : String) (pm : CardProfileManagerAdapter) :
    Nat → CardResourceServiceAdapter × World → CardResourceServiceAdapter × World
  | 0, s => s
  | n + 1, s => afterIdleTurns env profileName pm n (afterIdleTurn env profileName pm s)

/-- The `n` first passes of the loop found nothing and each was followed by a reading
of the clock not after `maxTime`, so that the loop went on. -/
def IdleUntil (env : Env) (profileName : String) (pm : CardProfileManagerAdapter)
    (maxTime : Nat) (s : CardResourceServiceAdapter × World) (n : Nat) : Prop :=
  ∀ k, k < n →
    (searchOnce env (afterIdleTurns env profileName pm k s).2
      (afterIdleTurns env profileName pm k s).1 profileName pm).1 = .ok none ∧
    env.clock (searchOnce env (afterIdleTurns env profileName pm k s).2
      (afterIdleTurns env profileName pm k s).1 profileName pm).2.2.clockReads ≤ maxTime

end CardProfileManagerAdapter

/-- The manager `b` is the manager `a` after some calls among `activate`, `matches`,
`lock`, `unlock` and `removeCardResource`, each made in any world. -/
inductive ReaderManagerAdapter.Reaches :
    ReaderManagerAdapter → ReaderManagerAdapter → Prop where
  | refl (a : ReaderManagerAdapter) : ReaderManagerAdapter.Reaches a a
  | step (env : Env) (w : World) (c : ReaderManagerCall) {a b : ReaderManagerAdapter} :
    ReaderManagerAdapter.Reaches a b → ReaderManagerAdapter.Reaches a (b.call env w c).1

/-- The card resources of the manager are card resources of its reader. -/
def ReaderManagerAdapter.Owns (rm : ReaderManagerAdapter) : Prop :=
  ∀ c ∈ rm.mCardResources, c.getReader = rm.mReader

/-- The property `Q` of the map of the reader managers and the property `L` of the
list of a profile (given with the descriptor of the profile) are kept by the steps
through which the service changes them: for the map, the calls made on a registered
manager and the removal of an entry; for a list,
the addition at the back of a card resource that is not in it, of a reader that the
reader name filter of the profile accepts, the removal of a card resource and the two
reorderings of the outside world.  `Q` holds of the empty map and says at least that
every registered manager owns its card resources; `L` holds of the empty list. -/
structure CardResourceServiceAdapter.Preserved (env : Env)
    (Q : StdMap CardReader ReaderManagerAdapter → Prop)
    (L : CardResourceProfileConfigurator → List CardResource → Prop) : Prop where
  emptyMap : Q []
  called : ∀ (m : StdMap CardReader ReaderManagerAdapter) (k : CardReader)
    (u v : ReaderManagerAdapter), Q m → (k, u) ∈ m → ReaderManagerAdapter.Reaches u v →
    Q (StdMap.assign m k v)
  unregistered : ∀ (m : StdMap CardReader ReaderManagerAdapter) (k : CardReader), Q m →
    Q (StdMap.erase m k)
  owned : ∀ (m : StdMap CardReader ReaderManagerAdapter), Q m → ∀ p ∈ m, p.2.Owns
  emptyList : ∀ profile : CardResourceProfileConfigurator, L profile []
  added : ∀ (profile : CardResourceProfileConfigurator) (l : List CardResource)
    (c : CardResource), L profile l →
    (profile.mReaderNameRegex = "" ∨
      env.regexMatches profile.mReaderNameRegex c.getReader.name = true) →
    c ∉ l → L profile (l ++ [c])
  removed : ∀ (profile : CardResourceProfileConfigurator) (l : List CardResource)
    (c : CardResource), L profile l → L profile (l.erase c)
  shuffled : ∀ (profile : CardResourceProfileConfigurator) (l : List CardResource),
    L profile l → L profile (env.shuffle l)
  rotated : ∀ (profile : CardResourceProfileConfigurator) (l : List CardResource) (k : Nat),
    L profile l → L profile (env.rotateBeforeBegin l k)

/-- The property `Q` of the map of the reader managers is kept by the registration of
a new manager, as its constructor makes it. -/
def CardResourceServiceAdapter.Registers
    (Q : StdMap CardReader ReaderManagerAdapter → Prop) : Prop :=
  ∀ (m : StdMap CardReader ReaderManagerAdapter) (k : CardReader) (plugin : Plugin)
    (spi : Option Nat) (usageTimeoutMillis : Nat), Q m →
    Q (StdMap.insert CardReader.lt m k
      (ReaderManagerAdapter.create k plugin spi usageTimeoutMillis))

/-- The map of the reader managers has the property `Q` and the list of every profile
manager the property `L`. -/
def CardResourceServiceAdapter.Sound
    (Q : StdMap CardReader ReaderManagerAdapter → Prop)
    (L : CardResourceProfileConfigurator → List CardResource → Prop)
    (svc : CardResourceServiceAdapter) : Prop :=
  Q svc.mReaderToReaderManagerMap ∧
  ∀ p ∈ svc.mCardProfileNameToCardProfileManagerMap, L p.2.mCardProfile p.2.mCardResources

/-- The map is a `std::map` of managers keyed by their readers: every reader is mapped to
a manager of that reader whose card resources are card resources of that reader, the
keys are in the order of their addresses and no key occurs twice. -/
def CardResourceServiceAdapter.WellKeyed (m : StdMap CardReader ReaderManagerAdapter) : Prop :=
  (∀ p ∈ m, p.2.mReader = p.1 ∧ p.2.Owns) ∧
  (m.map Prod.fst).Pairwise (fun a b => a.id ≤ b.id) ∧ (m.map Prod.fst).Nodup

/-- The map is well keyed and every registered manager is active. -/
def CardResourceServiceAdapter.Active (m : StdMap CardReader ReaderManagerAdapter) : Prop :=
  CardResourceServiceAdapter.WellKeyed m ∧ ∀ p ∈ m, p.2.mIsActive = true

/-- Whether the profile manager acts on a connected reader of the plugin, that is
whether `onReaderConnected` reaches `activate`: the plugin is one of the plugins of the
profile when the profile lists plugins, and `isReaderAccepted` holds of the reader. -/
def CardProfileManagerAdapter.actsOn (env : Env) (pm : CardProfileManagerAdapter)
    (reader : CardReader) (plugin : Plugin) : Bool :=
  (pm.mCardProfile.mPlugins.isEmpty ||
    pm.mCardProfile.mPlugins.any (fun profilePlugin => decide (profilePlugin = plugin))) &&
  pm.isReaderAccepted env reader

/-! # Theorems -/

namespace ReaderManagerAdapter

theorem areEquals_some_iff (a b : SmartCard) :
    areEquals (some a) (some b) = true ↔
      a.powerOnData = b.powerOnData ∧
        a.selectApplicationResponse = b.selectApplicationResponse := by
  unfold areEquals Arrays.equals
  by_cases h : (some a : Option SmartCard) = some b
  · simp only [h, if_true, true_iff]
    cases h
    exact ⟨rfl, rfl⟩
  · simp only [h, if_false]
    by_cases hp : a.powerOnData = b.powerOnData
    · by_cases he : b.powerOnData = ""
      · simp [hp, he]
      · simp [hp, he]
    · by_cases he : a.powerOnData = ""
      · have hb : ¬ b.powerOnData = "" := fun hb => hp (he.trans hb.symm)
        have hb2 : ¬ "" = b.powerOnData := fun h2 => hb h2.symm
        simp [he, hb, hb2]
      · simp [hp, he]

end ReaderManagerAdapter

namespace ReaderManagerAdapter

/-- C9: `areEquals s1 s2` is true exactly when `s1` and `s2` are the same pointer, or
both are non-null with equal select application responses and power-on data that are
both empty or both non-empty and equal; it is false when exactly one is null. -/
theorem areEquals_spec :
    (∀ s1 s2 : Option SmartCard,
      areEquals s1 s2 = true ↔
        (s1 = s2 ∨ ∃ a b, s1 = some a ∧ s2 = some b ∧
          a.selectApplicationResponse = b.selectApplicationResponse ∧
          ((a.powerOnData = "" ∧ b.powerOnData = "") ∨
           (a.powerOnData ≠ "" ∧ b.powerOnData ≠ "" ∧ a.powerOnData = b.powerOnData)))) ∧
    (∀ a : SmartCard, areEquals none (some a) = false ∧ areEquals (some a) none = false) := by
  refine ⟨?_, ?_⟩
  · intro s1 s2
    constructor
    · intro h
      cases s1 with
      | none =>
        cases s2 with
        | none => exact Or.inl rfl
        | some b => simp [areEquals] at h
      | some a =>
        cases s2 with
        | none => simp [areEquals] at h
        | some b =>
          right
          obtain ⟨hp, hf⟩ := (areEquals_some_iff a b).1 h
          refine ⟨a, b, rfl, rfl, hf, ?_⟩
          by_cases he : a.powerOnData = ""
          · exact Or.inl ⟨he, hp ▸ he⟩
          · exact Or.inr ⟨he, hp ▸ he, hp⟩
    · rintro (h | ⟨a, b, rfl, rfl, hf, hp⟩)
      · subst h
        simp [areEquals]
      · refine (areEquals_some_iff a b).2 ⟨?_, hf⟩
        rcases hp with ⟨h1, h2⟩ | ⟨_, _, h3⟩
        · rw [h1, h2]
        · exact h3
  · intro a
    simp [areEquals]

theorem lock_of_busy_before_deadline (env : Env) (w : World) (rm : ReaderManagerAdapter)
    (cardResource : CardResource) (extension : Nat)
    (hbusy : rm.mIsBusy = true)
    (hnow : env.clock w.clockReads < rm.mLockMaxTimeMillis) :
    rm.lock env w cardResource extension =
      (.ok false, rm, { w with clockReads := w.clockReads + 1 }) := by
  simp [lock, hbusy, hnow]

/-- C4: on a busy reader manager, while the clock reads less than the lock deadline,
`lock` returns false for every card resource, makes no card selection (the selection
count of the world is unchanged, only one clock reading is consumed) and leaves the
whole manager, so `busy`, the deadline, the selection and the card resources, as it
was. -/
theorem lock_refused_before_deadline (env : Env) (w : World) (rm : ReaderManagerAdapter)
    (cardResource : CardResource) (extension : Nat)
    (hbusy : rm.mIsBusy = true)
    (hnow : env.clock w.clockReads < rm.mLockMaxTimeMillis) :
    rm.lock env w cardResource extension =
      (.ok false, rm, { w with clockReads := w.clockReads + 1 }) :=
  lock_of_busy_before_deadline env w rm cardResource extension hbusy hnow

theorem lock_refused_before_deadline_witness :
    Scenario.managerXBusy.mIsBusy = true ∧
    Scenario.envB.clock 0 < Scenario.managerXBusy.mLockMaxTimeMillis ∧
    Scenario.managerXBusy.lock Scenario.envB {} Scenario.resourceB 7 =
      (.ok false, Scenario.managerXBusy, { clockReads := 1 }) :=
  ⟨rfl, by decide,
   lock_refused_before_deadline Scenario.envB {} Scenario.managerXBusy Scenario.resourceB 7
     rfl (by decide)⟩

/-- C5: for every usage timeout `U` (so for every `U >= 1`), when the reader is free, or busy with the clock
at or after the lock deadline, and `r` is the selected card resource or the extension
selects a card equivalent to the smart card of `r`, `lock` returns true and leaves the
manager busy, `r` selected and the deadline at the clock reading taken when it is set
plus `U` (that is `now + U` when the readings of the call are all `now`); with
`U = 100`, a later `lock` of `r` on the manager so left, at `150` ms after that
reading, is granted again. -/
theorem lock_granted (env : Env) (w : World) (rm : ReaderManagerAdapter) (r : CardResource)
    (ext : Nat)
    (hfree : rm.mIsBusy = false ∨
      (rm.mIsBusy = true ∧ rm.mLockMaxTimeMillis ≤ env.clock w.clockReads))
    (hsel : rm.mSelectedCardResource = some r ∨
      ∃ s, env.select w.selections ext rm.mReader = some s ∧
        areEquals (some r.getSmartCard) (some s) = true) :
    (rm.lock env w r ext).1 = .ok true ∧
    (rm.lock env w r ext).2.1.mIsBusy = true ∧
    (rm.lock env w r ext).2.1.mSelectedCardResource = some r ∧
    (rm.lock env w r ext).2.1.mLockMaxTimeMillis =
      env.clock (w.clockReads + (if rm.mIsBusy then 1 else 0)) + rm.mUsageTimeoutMillis ∧
    (∀ now, env.clock w.clockReads = now → env.clock (w.clockReads + 1) = now →
      (rm.lock env w r ext).2.1.mLockMaxTimeMillis = now + rm.mUsageTimeoutMillis) ∧
    (rm.mUsageTimeoutMillis = 100 → ∀ (env' : Env) (w' : World) (ext' : Nat),
      env'.clock w'.clockReads =
        env.clock (w.clockReads + (if rm.mIsBusy then 1 else 0)) + 150 →
      ((rm.lock env w r ext).2.1.lock env' w' r ext').1 = .ok true) := by
  have hguard : ¬ (rm.mIsBusy = true ∧ env.clock w.clockReads < rm.mLockMaxTimeMillis) := by
    rintro ⟨hb, hlt⟩
    rcases hfree with hf | ⟨_, hle⟩
    · rw [hf] at hb
      exact Bool.noConfusion hb
    · omega
  have hselw : ∀ b : Bool,
      (if b = true then ({ w with clockReads := w.clockReads + 1 } : World) else w).selections =
        w.selections := by
    intro b
    cases b <;> rfl
  have hclk : ∀ b : Bool,
      (if b = true then ({ w with clockReads := w.clockReads + 1 } : World) else w).clockReads =
        w.clockReads + (if b = true then 1 else 0) := by
    intro b
    cases b <;> rfl
  have key : (rm.lock env w r ext).1 = .ok true ∧
      (rm.lock env w r ext).2.1.mIsBusy = true ∧
      (rm.lock env w r ext).2.1.mSelectedCardResource = some r ∧
      (rm.lock env w r ext).2.1.mLockMaxTimeMillis =
        env.clock (w.clockReads + (if rm.mIsBusy then 1 else 0)) + rm.mUsageTimeoutMillis := by
    by_cases hs : rm.mSelectedCardResource = some r
    · simp [lock, hguard, hs, hclk]
    · rcases hsel with h | ⟨s, hs1, hs2⟩
      · exact absurd h hs
      · simp [lock, hguard, hs, hselw, hclk, hs1, hs2]
  obtain ⟨k1, k2, k3, k4⟩ := key
  refine ⟨k1, k2, k3, k4, ?_, ?_⟩
  · intro now h0 h1
    rw [k4]
    cases hb : rm.mIsBusy
    · simp [h0]
    · simp [h1]
  · intro h100 env' w' ext' hlater
    have hg : ¬ ((rm.lock env w r ext).2.1.mIsBusy = true ∧
        env'.clock w'.clockReads < (rm.lock env w r ext).2.1.mLockMaxTimeMillis) := by
      rintro ⟨_, hlt⟩
      rw [k4, hlater, h100] at hlt
      omega
    generalize (rm.lock env w r ext).2.1 = rm' at k3 hg
    simp [lock, hg, k3]

theorem lock_granted_witness :
    (Scenario.managerX.lock Scenario.envB {} Scenario.resourceB 7).1 = .ok true ∧
    (Scenario.managerX.lock Scenario.envB {} Scenario.resourceB 7).2.1.mLockMaxTimeMillis =
      1000 + 100 ∧
    ((Scenario.managerX.lock Scenario.envB {} Scenario.resourceB 7).2.1.lock
        Scenario.envLater {} Scenario.resourceB 7).1 = .ok true :=
  have h := lock_granted Scenario.envB {} Scenario.managerX Scenario.resourceB 7
    (Or.inl rfl) (Or.inl rfl)
  ⟨h.1, h.2.2.2.1, h.2.2.2.2.2 rfl Scenario.envLater {} 7 rfl⟩

/-- C6: `lock` throws `IllegalStateException` exactly when the reader is not (busy with
the clock before the deadline), `r` is not the selected card resource, and the card
selected by the extension is absent or not equivalent to the smart card of `r`; it
throws nothing else, and whenever it throws the selection is cleared and the card
resources are unchanged. -/
theorem lock_throws_iff (env : Env) (w : World) (rm : ReaderManagerAdapter) (r : CardResource)
    (ext : Nat) :
    ((rm.lock env w r ext).1 = .error Exception.IllegalStateException ↔
      (¬ (rm.mIsBusy = true ∧ env.clock w.clockReads < rm.mLockMaxTimeMillis) ∧
       rm.mSelectedCardResource ≠ some r ∧
       (env.select w.selections ext rm.mReader = none ∨
        ∃ s, env.select w.selections ext rm.mReader = some s ∧
          areEquals (some r.getSmartCard) (some s) = false))) ∧
    (∀ e, (rm.lock env w r ext).1 = .error e →
      e = Exception.IllegalStateException ∧
      (rm.lock env w r ext).2.1.mSelectedCardResource = none ∧
      (rm.lock env w r ext).2.1.mCardResources = rm.mCardResources) := by
  have hselw : ∀ b : Bool,
      (if b = true then ({ w with clockReads := w.clockReads + 1 } : World) else w).selections =
        w.selections := by
    intro b
    cases b <;> rfl
  have hnone : areEquals (some r.getSmartCard) none = false := by simp [areEquals]
  by_cases hg : rm.mIsBusy = true ∧ env.clock w.clockReads < rm.mLockMaxTimeMillis
  · simp [lock, hg]
  · by_cases hs : rm.mSelectedCardResource = some r
    · simp [lock, hg, hs]
    · cases hsel : env.select w.selections ext rm.mReader with
      | none => simp [lock, hg, hs, hselw, hsel, hnone]
      | some s =>
        cases hq : areEquals (some r.getSmartCard) (some s) <;>
          simp [lock, hg, hs, hselw, hsel, hq]

theorem lock_throws_iff_witness :
    (Scenario.managerX.lock Scenario.envB {} Scenario.resourceA 7).1 =
      .error Exception.IllegalStateException ∧
    (Scenario.managerX.lock Scenario.envB {} Scenario.resourceA 7).2.1.mSelectedCardResource =
      none ∧
    (Scenario.managerX.lock Scenario.envB {} Scenario.resourceA 7).2.1.mCardResources =
      Scenario.managerX.mCardResources :=
  have h := (lock_throws_iff Scenario.envB {} Scenario.managerX Scenario.resourceA 7).2
    Exception.IllegalStateException rfl
  ⟨rfl, h.2.1, h.2.2⟩

/-- C7: after `matches` the reader manager is not busy, whatever its state and the
outcome of the selection; when a card is selected a card resource is returned and it
is the selected one afterwards; when no card is selected the result is null and the
selection and the card resources are unchanged. -/
theorem matches_unlocks (env : Env) (w : World) (rm : ReaderManagerAdapter) (ext : Nat) :
    (rm.matches env w ext).2.1.mIsBusy = false ∧
    (match env.select w.selections ext rm.mReader with
     | some _ =>
       (rm.matches env w ext).1.isSome = true ∧
       (rm.matches env w ext).2.1.mSelectedCardResource = (rm.matches env w ext).1
     | none =>
       (rm.matches env w ext).1 = none ∧
       (rm.matches env w ext).2.1.mSelectedCardResource = rm.mSelectedCardResource ∧
       (rm.matches env w ext).2.1.mCardResources = rm.mCardResources) := by
  cases h : env.select w.selections ext rm.mReader with
  | none => simp [ReaderManagerAdapter.matches, h, unlock]
  | some s => simp [ReaderManagerAdapter.matches, h, unlock]

theorem areEquals_pred_congr (s1 s2 : SmartCard) (h : areEquals (some s1) (some s2) = true) :
    (fun c : CardResource => areEquals (some c.getSmartCard) (some s2)) =
      (fun c : CardResource => areEquals (some c.getSmartCard) (some s1)) := by
  funext c
  obtain ⟨hp, hf⟩ := (areEquals_some_iff s1 s2).1 h
  cases h2 : areEquals (some c.getSmartCard) (some s2) with
  | true =>
    obtain ⟨hp2, hf2⟩ := (areEquals_some_iff _ _).1 h2
    exact ((areEquals_some_iff _ _).2 ⟨hp2.trans hp.symm, hf2.trans hf.symm⟩).symm
  | false =>
    cases h1 : areEquals (some c.getSmartCard) (some s1) with
    | false => rfl
    | true =>
      obtain ⟨hp1, hf1⟩ := (areEquals_some_iff _ _).1 h1
      rw [(areEquals_some_iff _ _).2 ⟨hp1.trans hp, hf1.trans hf⟩] at h2
      exact Bool.noConfusion h2

theorem getOrCreateCardResource_find (w : World) (rm : ReaderManagerAdapter) (s : SmartCard) :
    (getOrCreateCardResource w rm s).2.1.mCardResources.find?
        (fun c => areEquals (some c.getSmartCard) (some s)) =
      some (getOrCreateCardResource w rm s).1 := by
  unfold getOrCreateCardResource
  cases h : rm.mCardResources.find? (fun c => areEquals (some c.getSmartCard) (some s)) with
  | some c => simpa using h
  | none =>
    have hs : areEquals (some s) (some s) = true := by simp [areEquals]
    simp only [CardResource.getSmartCard] at h ⊢
    simp [List.find?_append, h, hs]

theorem matches_find (env : Env) (w : World) (rm : ReaderManagerAdapter) (ext : Nat)
    (s : SmartCard) (h : env.select w.selections ext rm.mReader = some s) :
    (rm.matches env w ext).2.1.mCardResources.find?
        (fun c => areEquals (some c.getSmartCard) (some s)) = (rm.matches env w ext).1 := by
  simp only [ReaderManagerAdapter.matches, h, unlock]
  exact getOrCreateCardResource_find _ rm s

theorem matches_of_find (env : Env) (w : World) (rm : ReaderManagerAdapter) (ext : Nat)
    (s : SmartCard) (a : CardResource)
    (h : env.select w.selections ext rm.mReader = some s)
    (hf : rm.mCardResources.find? (fun c => areEquals (some c.getSmartCard) (some s)) = some a) :
    (rm.matches env w ext).1 = some a ∧
      (rm.matches env w ext).2.1.mCardResources = rm.mCardResources := by
  simp [ReaderManagerAdapter.matches, h, unlock, getOrCreateCardResource, hf]

theorem matches_cardResources (env : Env) (w : World) (rm : ReaderManagerAdapter) (ext : Nat) :
    (rm.matches env w ext).2.1.mCardResources = rm.mCardResources ∨
    ∃ s, env.select w.selections ext rm.mReader = some s ∧
      (∀ c ∈ rm.mCardResources, areEquals (some c.getSmartCard) (some s) = false) ∧
      (rm.matches env w ext).2.1.mCardResources =
        rm.mCardResources ++ [{ id := w.allocations, mReader := rm.mReader, mSmartCard := s }] ∧
      (rm.matches env w ext).1 =
        some { id := w.allocations, mReader := rm.mReader, mSmartCard := s } := by
  cases h : env.select w.selections ext rm.mReader with
  | none => left; simp [ReaderManagerAdapter.matches, h, unlock]
  | some s =>
    cases hf : rm.mCardResources.find? (fun c => areEquals (some c.getSmartCard) (some s)) with
    | some a => left; exact (matches_of_find env w rm ext s a h hf).2
    | none =>
      right
      refine ⟨s, rfl, ?_, ?_, ?_⟩
      · intro c hc
        have := List.find?_eq_none.1 hf c hc
        simpa using this
      · simp [ReaderManagerAdapter.matches, h, unlock, getOrCreateCardResource, hf]
      · simp [ReaderManagerAdapter.matches, h, unlock, getOrCreateCardResource, hf]

theorem lock_frame (env : Env) (w : World) (rm : ReaderManagerAdapter) (r : CardResource)
    (ext : Nat) :
    (rm.lock env w r ext).2.1.mCardResources = rm.mCardResources ∧
    (rm.lock env w r ext).2.1.mReader = rm.mReader ∧
    (rm.lock env w r ext).2.1.mPlugin = rm.mPlugin ∧
    (rm.lock env w r ext).2.1.mIsActive = rm.mIsActive ∧
    (rm.lock env w r ext).2.1.mUsageTimeoutMillis = rm.mUsageTimeoutMillis ∧
    (rm.lock env w r ext).2.1.mReaderConfiguratorSpi = rm.mReaderConfiguratorSpi := by
  simp only [lock]
  split_ifs <;> simp

theorem call_cardResources_append (env : Env) (w : World) (rm : ReaderManagerAdapter)
    (c : ReaderManagerCall) (hc : c.isRemoval = false) :
    ∃ extra, (rm.call env w c).1.mCardResources = rm.mCardResources ++ extra := by
  match c, hc with
  | ReaderManagerCall.activate, _ =>
    refine ⟨[], ?_⟩
    simp only [call, activate]
    split
    · split <;> simp
    · simp
  | ReaderManagerCall.matches ext, _ =>
    rcases matches_cardResources env w rm ext with h | ⟨s, _, _, h, _⟩
    · exact ⟨[], by simp [call, h]⟩
    · exact ⟨_, by simp only [call]; exact h⟩
  | ReaderManagerCall.lock r ext, _ =>
    exact ⟨[], by simp [call, (lock_frame env w rm r ext).1]⟩
  | ReaderManagerCall.unlock, _ => exact ⟨[], by simp [call, unlock]⟩

theorem run_find (env : Env) (p : CardResource → Bool) (a : CardResource)
    (calls : List ReaderManagerCall) :
    ∀ (w : World) (rm : ReaderManagerAdapter),
      (∀ c ∈ calls, c.isRemoval = false) →
      rm.mCardResources.find? p = some a →
      (run env w rm calls).1.mCardResources.find? p = some a := by
  induction calls with
  | nil => intro w rm _ h; simpa [run] using h
  | cons c rest ih =>
    intro w rm hc h
    simp only [run]
    apply ih
    · intro c' hc'
      exact hc c' (List.mem_cons_of_mem _ hc')
    · obtain ⟨extra, he⟩ := call_cardResources_append env w rm c (hc c (List.mem_cons_self _ _))
      rw [he, List.find?_append, h]
      rfl

/-- C8: match equivalence.  When `matches` returns the card resource `a` for a selected
card `s1`, and after any calls of `activate`, `matches`, `lock` and `unlock` (no
`removeCardResource`) a `matches` selects a card `s2` equivalent to `s1`, this call
returns the same `a` and leaves the list of card resources as it was; and, in every
state, `matches` changes the list only by pushing at its back a new card resource of
the selected card, which it returns, when no card resource of the list carries an
equivalent card. -/
theorem matches_equivalent_card (env : Env) (w : World) (rm : ReaderManagerAdapter) (ext : Nat)
    (s1 : SmartCard) (a : CardResource) (calls : List ReaderManagerCall) (ext' : Nat)
    (s2 : SmartCard)
    (h1 : env.select w.selections ext rm.mReader = some s1)
    (ha : (rm.matches env w ext).1 = some a)
    (hcalls : ∀ c ∈ calls, c.isRemoval = false)
    (h2 : env.select (run env (rm.matches env w ext).2.2 (rm.matches env w ext).2.1 calls).2.selections
        ext' (run env (rm.matches env w ext).2.2 (rm.matches env w ext).2.1 calls).1.mReader =
      some s2)
    (heq : areEquals (some s1) (some s2) = true) :
    ((run env (rm.matches env w ext).2.2 (rm.matches env w ext).2.1 calls).1.matches env
        (run env (rm.matches env w ext).2.2 (rm.matches env w ext).2.1 calls).2 ext').1 = some a ∧
    ((run env (rm.matches env w ext).2.2 (rm.matches env w ext).2.1 calls).1.matches env
        (run env (rm.matches env w ext).2.2 (rm.matches env w ext).2.1 calls).2
        ext').2.1.mCardResources =
      (run env (rm.matches env w ext).2.2 (rm.matches env w ext).2.1 calls).1.mCardResources ∧
    (∀ (env0 : Env) (w0 : World) (rm0 : ReaderManagerAdapter) (ext0 : Nat),
      (rm0.matches env0 w0 ext0).2.1.mCardResources = rm0.mCardResources ∨
      ∃ s, env0.select w0.selections ext0 rm0.mReader = some s ∧
        (∀ c ∈ rm0.mCardResources, areEquals (some c.getSmartCard) (some s) = false) ∧
        (rm0.matches env0 w0 ext0).2.1.mCardResources =
          rm0.mCardResources ++
            [{ id := w0.allocations, mReader := rm0.mReader, mSmartCard := s }] ∧
        (rm0.matches env0 w0 ext0).1 =
          some { id := w0.allocations, mReader := rm0.mReader, mSmartCard := s }) := by
  have hf1 := matches_find env w rm ext s1 h1
  rw [ha] at hf1
  have hf2 := run_find env _ a calls (rm.matches env w ext).2.2 (rm.matches env w ext).2.1
    hcalls hf1
  rw [← areEquals_pred_congr s1 s2 heq] at hf2
  have hm := matches_of_find env _ _ ext' s2 a h2 hf2
  exact ⟨hm.1, hm.2, fun env0 w0 rm0 ext0 => matches_cardResources env0 w0 rm0 ext0⟩

theorem matches_equivalent_card_witness :
    ((run Scenario.envB2 (Scenario.managerX.matches Scenario.envB2 {} 7).2.2
        (Scenario.managerX.matches Scenario.envB2 {} 7).2.1
        [ReaderManagerCall.lock Scenario.resourceB 7, ReaderManagerCall.unlock]).1.matches
        Scenario.envB2
        (run Scenario.envB2 (Scenario.managerX.matches Scenario.envB2 {} 7).2.2
          (Scenario.managerX.matches Scenario.envB2 {} 7).2.1
          [ReaderManagerCall.lock Scenario.resourceB 7, ReaderManagerCall.unlock]).2 8).1 =
      some Scenario.resourceB :=
  (matches_equivalent_card Scenario.envB2 {} Scenario.managerX 7 Scenario.cardB
    Scenario.resourceB [ReaderManagerCall.lock Scenario.resourceB 7, ReaderManagerCall.unlock]
    8 Scenario.cardB2 rfl rfl (by decide) rfl rfl).1

end ReaderManagerAdapter

namespace CardProfileManagerAdapter

/-- C3, evaluated on the default configuration (usage timeout `0`, documented as
infinite): a `lock` granted at time `1000` is granted again at time `1001` without any
`unlock` or `matches` in between, and a second `getCardResource` without release
returns the same card resource again instead of null. -/
theorem zero_usage_timeout_expires_at_once :
    (Scenario.managerXOnlyB 0).mUsageTimeoutMillis = 0 ∧
    ((Scenario.managerXOnlyB 0).lock Scenario.envB {} Scenario.resourceB 7).1 = .ok true ∧
    (((Scenario.managerXOnlyB 0).lock Scenario.envB {} Scenario.resourceB 7).2.1.lock
        Scenario.envB ((Scenario.managerXOnlyB 0).lock Scenario.envB {} Scenario.resourceB 7).2.2
        Scenario.resourceB 7).1 = .ok true ∧
    (CardResourceServiceAdapter.getCardResource Scenario.envB 1 {} Scenario.serviceDefault
        "P1").1 = some (.ok (some Scenario.resourceB)) ∧
    (CardResourceServiceAdapter.getCardResource Scenario.envB 1
        (CardResourceServiceAdapter.getCardResource Scenario.envB 1 {} Scenario.serviceDefault
          "P1").2.2
        (CardResourceServiceAdapter.getCardResource Scenario.envB 1 {} Scenario.serviceDefault
          "P1").2.1
        "P1").1 = some (.ok (some Scenario.resourceB)) := by
  refine ⟨rfl, rfl, rfl, rfl, rfl⟩

/-- C1, evaluated on `Scenario.serviceTwoCards`: the walk finds `resourceA` unusable,
locks reader `X` for `resourceB` and returns `resourceB`; the removal of `resourceA`,
a card resource of the same reader, has released the reader: on return its manager is
not busy.  The same from a service started with an empty reader `X`: after two
`CARD_INSERTED` events with different cards, two `getCardResource` calls without
release both return the card resource of the second card. -/
theorem returned_resource_left_unlocked :
    (getRegularCardResource Scenario.envB {} Scenario.serviceTwoCards "P1").1 =
      .ok (some Scenario.resourceB) ∧
    ((getRegularCardResource Scenario.envB {} Scenario.serviceTwoCards
        "P1").2.1.getReaderManager Scenario.resourceB.getReader).map
      (fun rm => (rm.mIsBusy, rm.mSelectedCardResource)) =
      some (false, some Scenario.resourceB) ∧
    (CardResourceServiceAdapter.run Scenario.envTwoCards {} Scenario.serviceNoCard
        Scenario.callsAfterTwoInsertions).1 =
      [{ id := 1, mReader := Scenario.readerX, mSmartCard := Scenario.cardB },
       { id := 1, mReader := Scenario.readerX, mSmartCard := Scenario.cardB }] := by
  refine ⟨rfl, rfl, rfl⟩

/-- C10, evaluated on `Scenario.serviceRandom`: the lock is granted for `resourceB`,
the first element, on reader `X`; after the shuffle position `0` holds `resourceY`,
and `resourceY`, whose reader `Y` is not locked, is what is returned. -/
theorem returned_resource_is_slot_after_reordering :
    (lockFirstAvailable Scenario.envB 7 [Scenario.resourceB, Scenario.resourceY] 0 {}
        Scenario.serviceRandom []).1 = .ok (some (0, Scenario.resourceB)) ∧
    (getRegularCardResource Scenario.envB {} Scenario.serviceRandom "P1").1 =
      .ok (some Scenario.resourceY) ∧
    Scenario.resourceY ≠ Scenario.resourceB ∧
    ((getRegularCardResource Scenario.envB {} Scenario.serviceRandom
        "P1").2.1.getReaderManager Scenario.readerY).map (fun rm => rm.mIsBusy) =
      some false ∧
    ((getRegularCardResource Scenario.envB {} Scenario.serviceRandom
        "P1").2.1.getReaderManager Scenario.readerX).map (fun rm => rm.mIsBusy) =
      some true := by
  refine ⟨rfl, rfl, by decide, rfl, rfl⟩

end CardProfileManagerAdapter

/-! ## The maps -/

namespace StdMap

variable {κ ν : Type} [DecidableEq κ]

theorem find_assign_ne (m : StdMap κ ν) (k x : κ) (v : ν) (h : k ≠ x) :
    find (assign m k v) x = find m x := by
  induction m with
  | nil => rfl
  | cons p m ih =>
    obtain ⟨a, b⟩ := p
    simp only [assign]
    split_ifs with hak
    · have hax : ¬ a = x := fun e => h (hak.symm.trans e)
      simp only [find, hax, if_false]
      exact ih
    · simp only [find]
      split_ifs
      · rfl
      · exact ih

theorem find_assign_self (m : StdMap κ ν) (k : κ) (v u : ν) (h : find m k = some u) :
    find (assign m k v) k = some v := by
  induction m with
  | nil => simp [find] at h
  | cons p m ih =>
    obtain ⟨a, b⟩ := p
    simp only [find] at h
    simp only [assign]
    split_ifs at h ⊢ with hak
    · simp [find, hak]
    · simp only [find, hak, if_false]
      exact ih h

theorem mem_assign (m : StdMap κ ν) (k : κ) (v : ν) (p : κ × ν) (h : p ∈ assign m k v) :
    p ∈ m ∨ p = (k, v) := by
  induction m with
  | nil => simp [assign] at h
  | cons q m ih =>
    obtain ⟨a, b⟩ := q
    simp only [assign] at h
    split_ifs at h with hak
    · rcases List.mem_cons.1 h with h | h
      · exact Or.inr (hak ▸ h)
      · rcases ih h with h | h
        · exact Or.inl (List.mem_cons_of_mem _ h)
        · exact Or.inr h
    · rcases List.mem_cons.1 h with h | h
      · exact Or.inl (h ▸ List.mem_cons_self _ _)
      · rcases ih h with h | h
        · exact Or.inl (List.mem_cons_of_mem _ h)
        · exact Or.inr h

theorem find_insert_ne (lt : κ → κ → Bool) (m : StdMap κ ν) (k x : κ) (v : ν) (h : k ≠ x) :
    find (insert lt m k v) x = find m x := by
  induction m with
  | nil => simp [insert, find, h]
  | cons p m ih =>
    obtain ⟨a, b⟩ := p
    simp only [insert]
    split_ifs with h1 h2
    · rfl
    · simp [find, h]
    · simp only [find]
      split_ifs
      · rfl
      · exact ih

theorem mem_insert (lt : κ → κ → Bool) (m : StdMap κ ν) (k : κ) (v : ν) (p : κ × ν)
    (h : p ∈ insert lt m k v) : p ∈ m ∨ p = (k, v) := by
  induction m with
  | nil =>
    simp only [insert, List.mem_singleton] at h
    exact Or.inr h
  | cons q m ih =>
    obtain ⟨a, b⟩ := q
    simp only [insert] at h
    split_ifs at h with h1 h2
    · exact Or.inl h
    · rcases List.mem_cons.1 h with h | h
      · exact Or.inr h
      · exact Or.inl h
    · rcases List.mem_cons.1 h with h | h
      · exact Or.inl (h ▸ List.mem_cons_self _ _)
      · rcases ih h with h | h
        · exact Or.inl (List.mem_cons_of_mem _ h)
        · exact Or.inr h

theorem find_erase_ne (m : StdMap κ ν) (k x : κ) (h : k ≠ x) :
    find (erase m k) x = find m x := by
  induction m with
  | nil => rfl
  | cons p m ih =>
    obtain ⟨a, b⟩ := p
    simp only [erase]
    split_ifs with hak
    · have hax : ¬ a = x := fun e => h (hak.symm.trans e)
      simp only [find, hax, if_false]
      exact ih
    · simp only [find]
      split_ifs
      · rfl
      · exact ih

theorem mem_erase (m : StdMap κ ν) (k : κ) (p : κ × ν) (h : p ∈ erase m k) : p ∈ m := by
  induction m with
  | nil => simp [erase] at h
  | cons q m ih =>
    obtain ⟨a, b⟩ := q
    simp only [erase] at h
    split_ifs at h
    · exact List.mem_cons_of_mem _ (ih h)
    · rcases List.mem_cons.1 h with h | h
      · exact h ▸ List.mem_cons_self _ _
      · exact List.mem_cons_of_mem _ (ih h)

theorem mem_of_find (m : StdMap κ ν) (k : κ) (v : ν) (h : find m k = some v) : (k, v) ∈ m := by
  induction m with
  | nil => simp [find] at h
  | cons p m ih =>
    obtain ⟨a, b⟩ := p
    simp only [find] at h
    split_ifs at h with hak
    · cases h
      subst hak
      exact List.mem_cons_self _ _
    · exact List.mem_cons_of_mem _ (ih h)

end StdMap

/-! ## A reader whose manager is left alone -/

namespace ReaderManagerAdapter

theorem lock_avoids (x : CardReader) (env : Env) (w : World) (rm : ReaderManagerAdapter)
    (r : CardResource) (ext : Nat) (h : rm.Avoids x) : (rm.lock env w r ext).2.1.Avoids x := by
  obtain ⟨h1, h2, _⟩ := lock_frame env w rm r ext
  exact ⟨h2 ▸ h.1, h1 ▸ h.2⟩

theorem unlock_avoids (x : CardReader) (rm : ReaderManagerAdapter) (h : rm.Avoids x) :
    rm.unlock.Avoids x := h

theorem removeCardResource_avoids (x : CardReader) (rm : ReaderManagerAdapter)
    (r : CardResource) (h : rm.Avoids x) : (rm.removeCardResource r).Avoids x := by
  have hl : ∀ c ∈ Arrays.remove rm.mCardResources r, c.mReader ≠ x :=
    fun c hc => h.2 c (List.mem_of_mem_erase hc)
  unfold removeCardResource
  split_ifs
  · exact ⟨h.1, hl⟩
  · exact ⟨h.1, hl⟩

theorem activate_avoids (x : CardReader) (w : World) (rm : ReaderManagerAdapter)
    (h : rm.Avoids x) : (rm.activate w).2.1.Avoids x := by
  unfold activate
  split_ifs
  · split
    · exact h
    · exact h
  · exact h

theorem matches_reader (env : Env) (w : World) (rm : ReaderManagerAdapter) (ext : Nat) :
    (rm.matches env w ext).2.1.mReader = rm.mReader := by
  simp only [ReaderManagerAdapter.matches, unlock, getOrCreateCardResource]
  split
  · split <;> rfl
  · rfl

theorem matches_avoids (x : CardReader) (env : Env) (w : World) (rm : ReaderManagerAdapter)
    (ext : Nat) (h : rm.Avoids x) : (rm.matches env w ext).2.1.Avoids x := by
  refine ⟨(matches_reader env w rm ext) ▸ h.1, ?_⟩
  rcases matches_cardResources env w rm ext with hl | ⟨s, _, _, hl, _⟩
  · rw [hl]
    exact h.2
  · rw [hl]
    intro c hc
    rcases List.mem_append.1 hc with hc | hc
    · exact h.2 c hc
    · rw [List.mem_singleton.1 hc]
      exact h.1

theorem create_avoids (x reader : CardReader) (plugin : Plugin) (spi : Option Nat) (u : Nat)
    (h : reader ≠ x) : (create reader plugin spi u).Avoids x :=
  ⟨h, fun c hc => by simp [create] at hc⟩

end ReaderManagerAdapter

namespace CardProfileManagerAdapter

theorem initializeCardResource_spec (x : CardReader) (env : Env) (w : World)
    (pm : CardProfileManagerAdapter) (rm : ReaderManagerAdapter) (h : rm.Avoids x) :
    (initializeCardResource env w pm rm).2.1.1.mGlobalConfiguration = pm.mGlobalConfiguration ∧
    (initializeCardResource env w pm rm).2.1.2.Avoids x := by
  unfold initializeCardResource
  split_ifs
  · have ha := ReaderManagerAdapter.activate_avoids x w rm h
    split
    · next e rm1 w1 heq =>
      rw [heq] at ha
      exact ⟨rfl, ha⟩
    · next u rm1 w1 heq =>
      rw [heq] at ha
      have hm := ReaderManagerAdapter.matches_avoids x env w1 rm1
        pm.mCardProfile.mCardResourceProfileExtension ha
      dsimp only
      split
      · split_ifs
        · exact ⟨rfl, hm⟩
        · exact ⟨rfl, hm⟩
      · exact ⟨rfl, hm⟩
  · exact ⟨rfl, h⟩

theorem onReaderConnected_spec (x : CardReader) (env : Env) (w : World)
    (pm : CardProfileManagerAdapter) (rm : ReaderManagerAdapter) (h : rm.Avoids x) :
    (onReaderConnected env w pm rm).2.1.1.mGlobalConfiguration = pm.mGlobalConfiguration ∧
    (onReaderConnected env w pm rm).2.1.2.Avoids x := by
  unfold onReaderConnected
  split_ifs
  · exact initializeCardResource_spec x env w pm rm h
  · exact ⟨rfl, h⟩
  · exact initializeCardResource_spec x env w pm rm h

theorem updateCardResourcesOrder_first (env : Env) (pm : CardProfileManagerAdapter) (i : Nat)
    (h : pm.mGlobalConfiguration.mAllocationStrategy = AllocationStrategy.FIRST) :
    updateCardResourcesOrder env pm i = pm := by
  simp [updateCardResourcesOrder, h]

end CardProfileManagerAdapter

namespace CardResourceServiceAdapter

theorem assign_avoids (x : CardReader) (m : StdMap CardReader ReaderManagerAdapter)
    (k : CardReader) (v : ReaderManagerAdapter)
    (hm : ∀ p ∈ m, p.1 ≠ x → p.2.Avoids x) (hv : k ≠ x → v.Avoids x) :
    ∀ p ∈ StdMap.assign m k v, p.1 ≠ x → p.2.Avoids x := by
  intro p hp hpx
  rcases StdMap.mem_assign m k v p hp with h | h
  · exact hm p h hpx
  · subst h
    exact hv hpx

theorem find_assign_held (x : CardReader) (held : ReaderManagerAdapter)
    (m : StdMap CardReader ReaderManagerAdapter) (k : CardReader) (v : ReaderManagerAdapter)
    (hm : StdMap.find m x = some held) (hv : k = x → v = held) :
    StdMap.find (StdMap.assign m k v) x = some held := by
  by_cases hk : k = x
  · subst hk
    rw [hv rfl]
    exact StdMap.find_assign_self m k held held hm
  · rw [StdMap.find_assign_ne m k x v hk]
    exact hm

theorem avoids_of_find (x : CardReader) (held : ReaderManagerAdapter)
    (svc : CardResourceServiceAdapter) (h : svc.Holds x held) (k : CardReader)
    (rm : ReaderManagerAdapter) (hk : k ≠ x)
    (hf : StdMap.find svc.mReaderToReaderManagerMap k = some rm) : rm.Avoids x :=
  h.2.1 (k, rm) (StdMap.mem_of_find _ _ _ hf) hk

theorem releaseCardResource_holds (x : CardReader) (held : ReaderManagerAdapter) (w : World)
    (svc : CardResourceServiceAdapter) (c : Option CardResource) (h : svc.Holds x held)
    (hc : ∀ r, c = some r → r.getReader ≠ x) :
    (releaseCardResource w svc c).2.1.Holds x held := by
  unfold releaseCardResource
  split_ifs
  · exact h
  · split
    · exact h
    · next r =>
      have hne : r.getReader ≠ x := hc r rfl
      split
      · next rm hrm =>
        refine ⟨find_assign_held x held _ _ _ h.1 (fun e => absurd e hne), ?_, h.2.2⟩
        exact assign_avoids x _ _ _ h.2.1
          (fun _ => ReaderManagerAdapter.unlock_avoids x rm (avoids_of_find x held svc h _ rm hne hrm))
      · split
        · exact ⟨h.1, h.2.1, h.2.2⟩
        · exact h

theorem removeCardResource_holds (x : CardReader) (held : ReaderManagerAdapter) (w : World)
    (svc : CardResourceServiceAdapter) (c : Option CardResource) (h : svc.Holds x held)
    (hc : ∀ r, c = some r → r.getReader ≠ x) :
    (removeCardResource w svc c).2.1.Holds x held := by
  have hr := releaseCardResource_holds x held w svc c h hc
  unfold removeCardResource
  split
  · next e svc1 w1 heq =>
    rw [heq] at hr
    exact hr
  · next u svc1 w1 heq =>
    rw [heq] at hr
    have hr' : svc1.Holds x held := hr
    split
    · exact hr'
    · next r =>
      have hne : r.getReader ≠ x := hc r rfl
      split_ifs
      · exact hr'
      · split
        · next rm hrm =>
          refine ⟨find_assign_held x held _ _ _ hr'.1 (fun e => absurd e hne), ?_, ?_⟩
          · exact assign_avoids x _ _ _ hr'.2.1
              (fun _ => ReaderManagerAdapter.removeCardResource_avoids x rm r
                (avoids_of_find x held svc1 hr' _ rm hne hrm))
          · intro p hp
            obtain ⟨q, hq, rfl⟩ := List.mem_map.1 hp
            exact hr'.2.2 q hq
        · exact hr'

theorem removeCardResources_holds (x : CardReader) (held : ReaderManagerAdapter)
    (l : List CardResource) :
    ∀ (w : World) (svc : CardResourceServiceAdapter), svc.Holds x held →
      (∀ c ∈ l, c.getReader ≠ x) → (removeCardResources w svc l).2.1.Holds x held := by
  induction l with
  | nil => intro w svc h _; exact h
  | cons c rest ih =>
    intro w svc h hl
    have hr := removeCardResource_holds x held w svc (some c) h
      (fun r hr => by cases hr; exact hl c (List.mem_cons_self _ _))
    simp only [removeCardResources]
    split
    · next u svc1 w1 heq =>
      rw [heq] at hr
      exact ih w1 svc1 hr (fun c' hc' => hl c' (List.mem_cons_of_mem _ hc'))
    · next e svc1 w1 heq =>
      rw [heq] at hr
      exact hr

end CardResourceServiceAdapter

namespace CardProfileManagerAdapter

theorem lockFirstAvailable_holds (x : CardReader) (held : ReaderManagerAdapter) (env : Env)
    (ext : Nat) (hx : x.keypleReader = true) (hbusy : held.mIsBusy = true)
    (hclock : ∀ n, env.clock n < held.mLockMaxTimeMillis) (l : List CardResource) :
    ∀ (i : Nat) (w : World) (svc : CardResourceServiceAdapter) (unusable : List CardResource),
      svc.Holds x held → (∀ c ∈ unusable, c.getReader ≠ x) →
      (lockFirstAvailable env ext l i w svc unusable).2.2.1.Holds x held ∧
      (∀ c ∈ (lockFirstAvailable env ext l i w svc unusable).2.1, c.getReader ≠ x) ∧
      (∀ j c, (lockFirstAvailable env ext l i w svc unusable).1 = .ok (some (j, c)) →
        c.getReader ≠ x ∧ i ≤ j ∧ l[j - i]? = some c) := by
  induction l with
  | nil =>
    intro i w svc unusable h hu
    refine ⟨h, hu, ?_⟩
    intro j c hjc
    simp [lockFirstAvailable] at hjc
  | cons c rest ih =>
    intro i w svc unusable h hu
    have hext : ∀ (w' : World) (svc' : CardResourceServiceAdapter) (un' : List CardResource),
        svc'.Holds x held → (∀ c ∈ un', c.getReader ≠ x) →
        (lockFirstAvailable env ext rest (i + 1) w' svc' un').2.2.1.Holds x held ∧
        (∀ c ∈ (lockFirstAvailable env ext rest (i + 1) w' svc' un').2.1, c.getReader ≠ x) ∧
        (∀ j c', (lockFirstAvailable env ext rest (i + 1) w' svc' un').1 = .ok (some (j, c')) →
          c'.getReader ≠ x ∧ i ≤ j ∧ (c :: rest)[j - i]? = some c') := by
      intro w' svc' un' h' hu'
      obtain ⟨a1, a2, a3⟩ := ih (i + 1) w' svc' un' h' hu'
      refine ⟨a1, a2, ?_⟩
      intro j c' hjc
      obtain ⟨b1, b2, b3⟩ := a3 j c' hjc
      refine ⟨b1, by omega, ?_⟩
      have hj : j - i = (j - (i + 1)) + 1 := by omega
      rw [hj, List.getElem?_cons_succ]
      exact b3
    have hun : ∀ (hc : c.getReader ≠ x), ∀ c' ∈ unusable ++ [c], c'.getReader ≠ x := by
      intro hc c' hc'
      rcases List.mem_append.1 hc' with h1 | h1
      · exact hu c' h1
      · rw [List.mem_singleton.1 h1]
        exact hc
    simp only [lockFirstAvailable]
    split
    · next rm hrm =>
      by_cases hcx : c.getReader = x
      · -- the reader is the held one: the lock is refused and nothing changes
        have hrm' : rm = held := by
          simp only [CardResourceServiceAdapter.getReaderManager, hcx, hx, Bool.not_true, Bool.false_eq_true, if_false] at hrm
          rw [h.1] at hrm
          exact (Option.some.inj hrm).symm
        subst hrm'
        have hl := ReaderManagerAdapter.lock_of_busy_before_deadline env w rm c ext hbusy
          (hclock _)
        rw [hl]
        apply hext
        · exact ⟨CardResourceServiceAdapter.find_assign_held x rm _ _ _ h.1 (fun _ => rfl),
            CardResourceServiceAdapter.assign_avoids x _ _ _ h.2.1 (fun hne => absurd hcx hne), h.2.2⟩
        · exact hu
      · have hav : rm.Avoids x := by
          have hf : StdMap.find svc.mReaderToReaderManagerMap c.getReader = some rm := by
            simp only [CardResourceServiceAdapter.getReaderManager] at hrm
            split_ifs at hrm
            exact hrm
          exact CardResourceServiceAdapter.avoids_of_find x held svc h _ rm hcx hf
        have hav' := ReaderManagerAdapter.lock_avoids x env w rm c ext hav
        have hsvc1 : CardResourceServiceAdapter.Holds x held
            { svc with
              mReaderToReaderManagerMap :=
                StdMap.assign svc.mReaderToReaderManagerMap c.getReader
                  (rm.lock env w c ext).2.1 } :=
          ⟨CardResourceServiceAdapter.find_assign_held x held _ _ _ h.1 (fun e => absurd e hcx),
            CardResourceServiceAdapter.assign_avoids x _ _ _ h.2.1 (fun _ => hav'), h.2.2⟩
        split
        · refine ⟨hsvc1, hu, ?_⟩
          intro j c' hjc
          simp only [Except.ok.injEq, Option.some.injEq, Prod.mk.injEq] at hjc
          obtain ⟨rfl, rfl⟩ := hjc
          exact ⟨hcx, le_refl _, by simp⟩
        · exact hext _ _ _ hsvc1 hu
        · exact hext _ _ _ hsvc1 (hun hcx)
        · refine ⟨hsvc1, hu, ?_⟩
          intro j c' hjc
          simp at hjc
    · next hrm =>
      have hcx : c.getReader ≠ x := by
        intro hcx
        simp only [CardResourceServiceAdapter.getReaderManager, hcx, hx, Bool.not_true, Bool.false_eq_true, if_false] at hrm
        rw [h.1] at hrm
        exact Option.noConfusion hrm
      exact hext _ _ _ h (hun hcx)

theorem getRegularCardResource_holds (x : CardReader) (held : ReaderManagerAdapter) (env : Env)
    (hx : x.keypleReader = true) (hbusy : held.mIsBusy = true)
    (hclock : ∀ n, env.clock n < held.mLockMaxTimeMillis) (w : World)
    (svc : CardResourceServiceAdapter) (name : String) (h : svc.Holds x held) :
    (getRegularCardResource env w svc name).2.1.Holds x held ∧
    (∀ c, (getRegularCardResource env w svc name).1 = .ok (some c) → c.getReader ≠ x) := by
  unfold getRegularCardResource
  split
  · exact ⟨h, fun c hc => by simp at hc⟩
  · next pm hpm =>
    have hfirst : pm.mGlobalConfiguration.mAllocationStrategy = AllocationStrategy.FIRST :=
      h.2.2 (name, pm) (StdMap.mem_of_find _ _ _ hpm)
    obtain ⟨a1, a2, a3⟩ := lockFirstAvailable_holds x held env
      pm.mCardProfile.mCardResourceProfileExtension hx hbusy hclock pm.mCardResources 0 w svc []
      h (fun c hc => by simp at hc)
    generalize lockFirstAvailable env pm.mCardProfile.mCardResourceProfileExtension
      pm.mCardResources 0 w svc [] = walk at a1 a2 a3
    obtain ⟨found, unusable, svc1, w1⟩ := walk
    dsimp only at a1 a2 a3 ⊢
    cases found with
    | error e => exact ⟨a1, fun c hc => by simp at hc⟩
    | ok found =>
      dsimp only
      cases found with
      | none =>
        dsimp only
        have hr := CardResourceServiceAdapter.removeCardResources_holds x held unusable w1 svc1 a1 a2
        split
        · next e svc3 w3 heq =>
          rw [heq] at hr
          exact ⟨hr, fun c hc => by simp at hc⟩
        · next u svc3 w3 heq =>
          rw [heq] at hr
          exact ⟨hr, fun c hc => by simp at hc⟩
      | some ic =>
        obtain ⟨i, c⟩ := ic
        obtain ⟨b1, _, b3⟩ := a3 i c rfl
        dsimp only
        rw [updateCardResourcesOrder_first env pm _ hfirst]
        have hsvc2 : CardResourceServiceAdapter.Holds x held
            { svc1 with
              mCardProfileNameToCardProfileManagerMap :=
                StdMap.assign svc1.mCardProfileNameToCardProfileManagerMap name pm } := by
          refine ⟨a1.1, a1.2.1, ?_⟩
          intro p hp
          rcases StdMap.mem_assign _ _ _ p hp with hp | hp
          · exact a1.2.2 p hp
          · rw [hp]
            exact hfirst
        have hr := CardResourceServiceAdapter.removeCardResources_holds x held unusable w1 _ hsvc2 a2
        split
        · next e svc3 w3 heq =>
          rw [heq] at hr
          exact ⟨hr, fun c hc => by simp at hc⟩
        · next u svc3 w3 heq =>
          rw [heq] at hr
          refine ⟨hr, ?_⟩
          intro c' hc'
          simp only [Nat.sub_zero] at b3
          rw [b3] at hc'
          simp only [Except.ok.injEq, Option.some.injEq] at hc'
          rw [← hc']
          exact b1

theorem allocateFromPools_holds (x : CardReader) (held : ReaderManagerAdapter) (env : Env)
    (hpool : ∀ n p g, env.allocateReader n p g ≠ Allocation.reader x)
    (pm : CardProfileManagerAdapter) (l : List Plugin) :
    ∀ (w : World) (svc : CardResourceServiceAdapter), svc.Holds x held →
      (allocateFromPools env pm l w svc).2.1.Holds x held ∧
      (∀ c, (allocateFromPools env pm l w svc).1 = some c → c.getReader ≠ x) := by
  induction l with
  | nil =>
    intro w svc h
    exact ⟨h, fun c hc => by simp [allocateFromPools] at hc⟩
  | cons p rest ih =>
    intro w svc h
    simp only [allocateFromPools]
    split
    · next reader hr =>
      have hne : reader ≠ x := by
        intro e
        rw [e] at hr
        exact hpool _ _ _ hr
      split
      · refine ⟨⟨h.1, h.2.1, h.2.2⟩, ?_⟩
        intro c hc
        simp only [Option.some.injEq] at hc
        rw [← hc]
        exact hne
      · exact ih _ svc h
    · exact ih _ svc h
    · exact ih _ svc h

theorem getPoolCardResource_holds (x : CardReader) (held : ReaderManagerAdapter) (env : Env)
    (hpool : ∀ n p g, env.allocateReader n p g ≠ Allocation.reader x) (w : World)
    (svc : CardResourceServiceAdapter) (name : String) (h : svc.Holds x held) :
    (getPoolCardResource env w svc name).2.1.Holds x held ∧
    (∀ c, (getPoolCardResource env w svc name).1 = .ok (some c) → c.getReader ≠ x) := by
  unfold getPoolCardResource
  split
  · exact ⟨h, fun c hc => by simp at hc⟩
  · next pm hpm =>
    obtain ⟨a1, a2⟩ := allocateFromPools_holds x held env hpool pm pm.mPoolPlugins w svc h
    refine ⟨a1, ?_⟩
    intro c hc
    simp only [Except.ok.injEq] at hc
    exact a2 c hc

theorem getRegularOrPoolCardResource_holds (x : CardReader) (held : ReaderManagerAdapter)
    (env : Env) (hx : x.keypleReader = true) (hbusy : held.mIsBusy = true)
    (hclock : ∀ n, env.clock n < held.mLockMaxTimeMillis)
    (hpool : ∀ n p g, env.allocateReader n p g ≠ Allocation.reader x) (w : World)
    (svc : CardResourceServiceAdapter) (name : String) (usePoolFirst : Bool)
    (h : svc.Holds x held) :
    (getRegularOrPoolCardResource env w svc name usePoolFirst).2.1.Holds x held ∧
    (∀ c, (getRegularOrPoolCardResource env w svc name usePoolFirst).1 = .ok (some c) →
      c.getReader ≠ x) := by
  unfold getRegularOrPoolCardResource
  split_ifs
  · have hp := getPoolCardResource_holds x held env hpool w svc name h
    split
    · next svc1 w1 heq =>
      rw [heq] at hp
      exact getRegularCardResource_holds x held env hx hbusy hclock w1 svc1 name hp.1
    · exact hp
  · have hp := getRegularCardResource_holds x held env hx hbusy hclock w svc name h
    split
    · next svc1 w1 heq =>
      rw [heq] at hp
      exact getPoolCardResource_holds x held env hpool w1 svc1 name hp.1
    · exact hp

theorem searchOnce_holds (x : CardReader) (held : ReaderManagerAdapter)
    (env : Env) (hx : x.keypleReader = true) (hbusy : held.mIsBusy = true)
    (hclock : ∀ n, env.clock n < held.mLockMaxTimeMillis)
    (hpool : ∀ n p g, env.allocateReader n p g ≠ Allocation.reader x) (w : World)
    (svc : CardResourceServiceAdapter) (name : String) (pm : CardProfileManagerAdapter)
    (h : svc.Holds x held) :
    (searchOnce env w svc name pm).2.1.Holds x held ∧
    (∀ c, (searchOnce env w svc name pm).1 = .ok (some c) → c.getReader ≠ x) := by
  unfold searchOnce
  split_ifs
  · exact getRegularOrPoolCardResource_holds x held env hx hbusy hclock hpool w svc name _ h
  · exact getRegularCardResource_holds x held env hx hbusy hclock w svc name h
  · exact getPoolCardResource_holds x held env hpool w svc name h

theorem searchLoop_holds (x : CardReader) (held : ReaderManagerAdapter)
    (env : Env) (hx : x.keypleReader = true) (hbusy : held.mIsBusy = true)
    (hclock : ∀ n, env.clock n < held.mLockMaxTimeMillis)
    (hpool : ∀ n p g, env.allocateReader n p g ≠ Allocation.reader x)
    (name : String) (pm : CardProfileManagerAdapter) (maxTime : Nat) (fuel : Nat) :
    ∀ (w : World) (svc : CardResourceServiceAdapter), svc.Holds x held →
      (searchLoop env name pm maxTime fuel w svc).2.1.Holds x held ∧
      (∀ c, (searchLoop env name pm maxTime fuel w svc).1 = some (.ok (some c)) →
        c.getReader ≠ x) := by
  induction fuel with
  | zero =>
    intro w svc h
    exact ⟨h, fun c hc => by simp [searchLoop] at hc⟩
  | succ fuel ih =>
    intro w svc h
    have hs := searchOnce_holds x held env hx hbusy hclock hpool w svc name pm h
    simp only [searchLoop]
    split
    · next e svc1 w1 heq =>
      rw [heq] at hs
      exact ⟨hs.1, fun c hc => by simp at hc⟩
    · next c1 svc1 w1 heq =>
      rw [heq] at hs
      refine ⟨hs.1, ?_⟩
      intro c hc
      simp only [Option.some.injEq, Except.ok.injEq] at hc
      exact hs.2 c (by simp [hc])
    · next svc1 w1 heq =>
      rw [heq] at hs
      split_ifs
      · exact ih _ svc1 hs.1
      · exact ⟨hs.1, fun c hc => by simp at hc⟩
      · exact ⟨hs.1, fun c hc => by simp at hc⟩

theorem profileGetCardResource_holds (x : CardReader) (held : ReaderManagerAdapter)
    (env : Env) (hx : x.keypleReader = true) (hbusy : held.mIsBusy = true)
    (hclock : ∀ n, env.clock n < held.mLockMaxTimeMillis)
    (hpool : ∀ n p g, env.allocateReader n p g ≠ Allocation.reader x)
    (fuel : Nat) (w : World) (svc : CardResourceServiceAdapter) (name : String)
    (pm : CardProfileManagerAdapter) (h : svc.Holds x held) :
    (getCardResource env fuel w svc name pm).2.1.Holds x held ∧
    (∀ c, (getCardResource env fuel w svc name pm).1 = some (.ok (some c)) →
      c.getReader ≠ x) :=
  searchLoop_holds x held env hx hbusy hclock hpool name pm _ fuel _ svc h

end CardProfileManagerAdapter

namespace CardResourceServiceAdapter

theorem getCardResource_holds (x : CardReader) (held : ReaderManagerAdapter)
    (env : Env) (hx : x.keypleReader = true) (hbusy : held.mIsBusy = true)
    (hclock : ∀ n, env.clock n < held.mLockMaxTimeMillis)
    (hpool : ∀ n p g, env.allocateReader n p g ≠ Allocation.reader x)
    (fuel : Nat) (w : World) (svc : CardResourceServiceAdapter) (name : String)
    (h : svc.Holds x held) :
    (getCardResource env fuel w svc name).2.1.Holds x held ∧
    (∀ c, (getCardResource env fuel w svc name).1 = some (.ok (some c)) →
      c.getReader ≠ x) := by
  unfold getCardResource
  split_ifs
  · exact ⟨h, fun c hc => by simp at hc⟩
  · exact ⟨h, fun c hc => by simp at hc⟩
  · split
    · exact ⟨h, fun c hc => by simp at hc⟩
    · next pm hpm =>
      exact CardProfileManagerAdapter.profileGetCardResource_holds x held env hx hbusy hclock hpool
        fuel w svc name pm h

theorem getReader_name (svc : CardResourceServiceAdapter) (name : String) (r : CardReader)
    (h : svc.getReader name = some r) : r.name = name := by
  unfold getReader at h
  cases hf : svc.mReaderToReaderManagerMap.find? (fun pair => pair.1.name == name) with
  | none => simp [hf] at h
  | some p =>
    rw [hf] at h
    simp only [Option.map_some', Option.some.injEq] at h
    have := List.find?_some hf
    rw [← h]
    simpa using this

theorem notifyReaderConnected_spec (x : CardReader) (env : Env)
    (pms : StdMap String CardProfileManagerAdapter) :
    ∀ (rm : ReaderManagerAdapter) (w : World), rm.Avoids x →
      (∀ p ∈ pms, p.2.mGlobalConfiguration.mAllocationStrategy = AllocationStrategy.FIRST) →
      (∀ p ∈ (notifyReaderConnected env pms rm w).2.1,
        p.2.mGlobalConfiguration.mAllocationStrategy = AllocationStrategy.FIRST) ∧
      (notifyReaderConnected env pms rm w).2.2.1.Avoids x := by
  induction pms with
  | nil =>
    intro rm w h _
    exact ⟨fun p hp => by simp [notifyReaderConnected] at hp, h⟩
  | cons q rest ih =>
    intro rm w h hpm
    obtain ⟨name, pm⟩ := q
    have hs := CardProfileManagerAdapter.onReaderConnected_spec x env w pm rm h
    have hq := hpm (name, pm) (List.mem_cons_self _ _)
    have hrest : ∀ p ∈ rest,
        p.2.mGlobalConfiguration.mAllocationStrategy = AllocationStrategy.FIRST :=
      fun p hp => hpm p (List.mem_cons_of_mem _ hp)
    simp only [notifyReaderConnected]
    split
    · next u pm1 rm1 w1 heq =>
      rw [heq] at hs
      obtain ⟨b1, b2⟩ := ih rm1 w1 hs.2 hrest
      refine ⟨?_, b2⟩
      intro p hp
      rcases List.mem_cons.1 hp with hp | hp
      · rw [hp]
        show pm1.mGlobalConfiguration.mAllocationStrategy = _
        rw [hs.1]
        exact hq
      · exact b1 p hp
    · next e pm1 rm1 w1 heq =>
      rw [heq] at hs
      refine ⟨?_, hs.2⟩
      intro p hp
      rcases List.mem_cons.1 hp with hp | hp
      · rw [hp]
        show pm1.mGlobalConfiguration.mAllocationStrategy = _
        rw [hs.1]
        exact hq
      · exact hrest p hp

theorem notifyCardInserted_eq (env : Env) (pms : StdMap String CardProfileManagerAdapter) :
    ∀ (rm : ReaderManagerAdapter) (w : World),
      notifyCardInserted env pms rm w = notifyReaderConnected env pms rm w := by
  induction pms with
  | nil => intro rm w; rfl
  | cons q rest ih =>
    intro rm w
    obtain ⟨name, pm⟩ := q
    simp only [notifyCardInserted, notifyReaderConnected,
      CardProfileManagerAdapter.onCardInserted, ih]

theorem onCardInserted_holds (x : CardReader) (held : ReaderManagerAdapter) (env : Env)
    (w : World) (svc : CardResourceServiceAdapter) (reader : CardReader)
    (rm : ReaderManagerAdapter) (h : svc.Holds x held) (hr : reader ≠ x) (hrm : rm.Avoids x) :
    (onCardInserted env w svc reader rm).2.1.Holds x held := by
  unfold onCardInserted
  rw [notifyCardInserted_eq]
  obtain ⟨b1, b2⟩ := notifyReaderConnected_spec x env
    svc.mCardProfileNameToCardProfileManagerMap rm w hrm h.2.2
  exact ⟨find_assign_held x held _ _ _ h.1 (fun e => absurd e hr),
    assign_avoids x _ _ _ h.2.1 (fun _ => b2), b1⟩

theorem removeCardResourcesOf_holds (x : CardReader) (held : ReaderManagerAdapter)
    (reader : CardReader) (hr : reader ≠ x) (steps : Nat) :
    ∀ (i : Nat) (w : World) (svc : CardResourceServiceAdapter), svc.Holds x held →
      (removeCardResourcesOf reader steps i w svc).2.1.Holds x held := by
  induction steps with
  | zero => intro i w svc h; exact h
  | succ steps ih =>
    intro i w svc h
    simp only [removeCardResourcesOf]
    split
    · exact h
    · next rm hrm =>
      have hav := avoids_of_find x held svc h reader rm hr hrm
      split
      · exact h
      · next c hc =>
        have hcx : c.getReader ≠ x := hav.2 c (List.getElem?_mem hc)
        have hrem := removeCardResource_holds x held w svc (some c) h
          (fun r hr' => by cases hr'; exact hcx)
        split
        · next u svc1 w1 heq =>
          rw [heq] at hrem
          exact ih _ w1 svc1 hrem
        · next e svc1 w1 heq =>
          rw [heq] at hrem
          exact hrem

theorem onReaderEvent_holds (x : CardReader) (held : ReaderManagerAdapter) (env : Env)
    (w : World) (svc : CardResourceServiceAdapter) (e : CardReaderEvent)
    (h : svc.Holds x held) (he : e.readerName ≠ x.name) :
    (onReaderEvent env w svc e).2.1.Holds x held := by
  unfold onReaderEvent
  by_cases hst : (!svc.mIsStarted) = true
  · rw [if_pos hst]
    exact h
  · rw [if_neg hst]
    split
    · exact h
    · next reader hreader =>
      have hr : reader ≠ x := by
        intro hrx
        exact he ((getReader_name svc _ reader hreader).symm.trans (by rw [hrx]))
      split
      · exact h
      · next rm hrm =>
        have hav := avoids_of_find x held svc h reader rm hr hrm
        split_ifs
        · exact onCardInserted_holds x held env w svc reader rm h hr hav
        · exact removeCardResourcesOf_holds x held reader hr _ 0 w svc h

theorem registerReader_spec (x : CardReader) (held : ReaderManagerAdapter)
    (cfg : CardResourceServiceConfiguratorAdapter) (svc : CardResourceServiceAdapter)
    (reader : CardReader) (plugin : Plugin) (h : svc.Holds x held) (hr : reader ≠ x) :
    (registerReader cfg svc reader plugin).2.Holds x held ∧
    (registerReader cfg svc reader plugin).1.Avoids x := by
  have hav := ReaderManagerAdapter.create_avoids x reader plugin
  unfold registerReader
  refine ⟨⟨?_, ?_, h.2.2⟩, hav _ _ hr⟩
  · show StdMap.find (StdMap.insert CardReader.lt svc.mReaderToReaderManagerMap reader _) x = _
    rw [StdMap.find_insert_ne _ _ _ _ _ hr]
    exact h.1
  · intro p hp hpx
    rcases StdMap.mem_insert _ _ _ _ p hp with hp | hp
    · exact h.2.1 p hp hpx
    · rw [hp]
      exact hav _ _ hr

theorem unregisterReader_maps (w : World) (svc : CardResourceServiceAdapter)
    (reader : CardReader) (plugin : Option Plugin) :
    (unregisterReader w svc reader plugin).1.mReaderToReaderManagerMap =
      StdMap.erase svc.mReaderToReaderManagerMap reader ∧
    (unregisterReader w svc reader plugin).1.mCardProfileNameToCardProfileManagerMap =
      svc.mCardProfileNameToCardProfileManagerMap := by
  unfold unregisterReader
  cases plugin with
  | none => exact ⟨rfl, rfl⟩
  | some p =>
    dsimp only
    cases StdMap.find svc.mPluginToObservableReadersMap p with
    | none => exact ⟨rfl, rfl⟩
    | some readers =>
      dsimp only
      cases reader.observable <;> exact ⟨rfl, rfl⟩

theorem unregisterReader_holds (x : CardReader) (held : ReaderManagerAdapter) (w : World)
    (svc : CardResourceServiceAdapter) (reader : CardReader) (plugin : Option Plugin)
    (h : svc.Holds x held) (hr : reader ≠ x) :
    (unregisterReader w svc reader plugin).1.Holds x held := by
  obtain ⟨e1, e2⟩ := unregisterReader_maps w svc reader plugin
  unfold Holds
  rw [e1, e2]
  refine ⟨?_, ?_, h.2.2⟩
  · rw [StdMap.find_erase_ne _ _ _ hr]
    exact h.1
  · intro p hp hpx
    exact h.2.1 p (StdMap.mem_erase _ _ p hp) hpx

theorem onReaderConnected_holds (x : CardReader) (held : ReaderManagerAdapter) (env : Env)
    (w : World) (svc : CardResourceServiceAdapter) (reader : CardReader) (plugin : Plugin)
    (h : svc.Holds x held) (hr : reader ≠ x) :
    (onReaderConnected env w svc reader plugin).2.1.Holds x held := by
  unfold onReaderConnected
  cases hcfg : svc.mConfigurator with
  | none => exact h
  | some cfg =>
    dsimp only
    obtain ⟨a1, a2⟩ := registerReader_spec x held cfg svc reader plugin h hr
    obtain ⟨b1, b2⟩ := notifyReaderConnected_spec x env
      (registerReader cfg svc reader plugin).2.mCardProfileNameToCardProfileManagerMap
      (registerReader cfg svc reader plugin).1 w a2 a1.2.2
    generalize notifyReaderConnected env
      (registerReader cfg svc reader plugin).2.mCardProfileNameToCardProfileManagerMap
      (registerReader cfg svc reader plugin).1 w = r at b1 b2 ⊢
    generalize registerReader cfg svc reader plugin = reg at a1 a2 b1 b2 ⊢
    obtain ⟨r1, pms, rm', w'⟩ := r
    obtain ⟨rm0, svc0⟩ := reg
    dsimp only at a1 a2 b1 b2 ⊢
    have hsvc2 : ∀ b : Bool, CardResourceServiceAdapter.Holds x held
        { svc0 with
          mCardProfileNameToCardProfileManagerMap := pms
          mReaderToReaderManagerMap :=
            if b = true then svc0.mReaderToReaderManagerMap
            else StdMap.assign svc0.mReaderToReaderManagerMap reader rm' } := by
      intro b
      cases b
      · exact ⟨find_assign_held x held _ _ _ a1.1 (fun e => absurd e hr),
          assign_avoids x _ _ _ a1.2.1 (fun _ => b2), b1⟩
      · exact ⟨a1.1, a1.2.1, b1⟩
    cases r1 with
    | error e => exact hsvc2 _
    | ok u =>
      dsimp only
      cases rm'.isActive with
      | true => exact hsvc2 _
      | false => exact unregisterReader_holds x held _ _ reader (some plugin) (hsvc2 _) hr

theorem onReaderDisconnected_holds (x : CardReader) (held : ReaderManagerAdapter)
    (w : World) (svc : CardResourceServiceAdapter) (reader : CardReader)
    (plugin : Option Plugin) (h : svc.Holds x held) (hr : reader ≠ x) :
    (onReaderDisconnected w svc reader plugin).2.1.Holds x held := by
  unfold onReaderDisconnected
  split
  · exact h
  · next rm hrm =>
    have hc : (onCardRemoved w svc reader rm).2.1.Holds x held :=
      removeCardResourcesOf_holds x held reader hr _ 0 w svc h
    split
    · next e svc1 w1 heq =>
      rw [heq] at hc
      exact hc
    · next u svc1 w1 heq =>
      rw [heq] at hc
      exact unregisterReader_holds x held w1 svc1 reader plugin hc hr

theorem connectReaders_holds (x : CardReader) (held : ReaderManagerAdapter) (env : Env)
    (hname : ∀ n p name r, env.pluginGetReader n p name = some r → r.name = name)
    (plugin : Option Plugin) (names : List String) :
    ∀ (w : World) (svc : CardResourceServiceAdapter), svc.Holds x held → x.name ∉ names →
      (connectReaders env plugin names w svc).2.1.Holds x held := by
  induction names with
  | nil => intro w svc h _; exact h
  | cons name rest ih =>
    intro w svc h hn
    have hrest : x.name ∉ rest := fun hm => hn (List.mem_cons_of_mem _ hm)
    simp only [connectReaders]
    split
    · exact h
    · next p =>
      split
      · exact ih _ svc h hrest
      · next reader hreader =>
        have hr : reader ≠ x := by
          intro hrx
          apply hn
          rw [← hrx, hname _ _ _ _ hreader]
          exact List.mem_cons_self _ _
        have hc := onReaderConnected_holds x held env
          { w with readerQueries := w.readerQueries + 1 } svc reader p h hr
        split
        · next e svc1 w2 heq =>
          rw [heq] at hc
          exact hc
        · next u svc1 w2 heq =>
          rw [heq] at hc
          exact ih w2 svc1 hc hrest

theorem disconnectReaders_holds (x : CardReader) (held : ReaderManagerAdapter)
    (plugin : Option Plugin) (names : List String) :
    ∀ (w : World) (svc : CardResourceServiceAdapter), svc.Holds x held → x.name ∉ names →
      (disconnectReaders plugin names w svc).2.1.Holds x held := by
  induction names with
  | nil => intro w svc h _; exact h
  | cons name rest ih =>
    intro w svc h hn
    have hrest : x.name ∉ rest := fun hm => hn (List.mem_cons_of_mem _ hm)
    simp only [disconnectReaders]
    split
    · exact ih w svc h hrest
    · next reader hreader =>
      have hr : reader ≠ x := by
        intro hrx
        apply hn
        rw [← hrx, getReader_name svc _ reader hreader]
        exact List.mem_cons_self _ _
      have hc := onReaderDisconnected_holds x held w svc reader plugin h hr
      split
      · next e svc1 w1 heq =>
        rw [heq] at hc
        exact hc
      · next u svc1 w1 heq =>
        rw [heq] at hc
        exact ih w1 svc1 hc hrest

theorem onPluginEvent_holds (x : CardReader) (held : ReaderManagerAdapter) (env : Env)
    (hname : ∀ n p name r, env.pluginGetReader n p name = some r → r.name = name)
    (w : World) (svc : CardResourceServiceAdapter) (e : PluginEvent)
    (h : svc.Holds x held) (he : x.name ∉ e.readerNames) :
    (onPluginEvent env w svc e).2.1.Holds x held := by
  unfold onPluginEvent
  split_ifs
  · exact h
  · exact connectReaders_holds x held env hname _ _ _ svc h he
  · exact disconnectReaders_holds x held _ _ _ svc h he

theorem call_holds (x : CardReader) (held : ReaderManagerAdapter) (env : Env)
    (hx : x.keypleReader = true) (hbusy : held.mIsBusy = true)
    (hclock : ∀ n, env.clock n < held.mLockMaxTimeMillis)
    (hpool : ∀ n p g, env.allocateReader n p g ≠ Allocation.reader x)
    (hname : ∀ n p name r, env.pluginGetReader n p name = some r → r.name = name)
    (w : World) (svc : CardResourceServiceAdapter) (c : ServiceCall)
    (h : svc.Holds x held) (hc : c.sparesReader x = true) :
    (call env w svc c).2.1.Holds x held ∧
    (∀ r, (call env w svc c).1 = some r → r.getReader ≠ x) := by
  match c, hc with
  | ServiceCall.getCardResource name fuel, _ =>
    obtain ⟨a1, a2⟩ := getCardResource_holds x held env hx hbusy hclock hpool fuel w svc name h
    refine ⟨a1, ?_⟩
    intro r hr
    simp only [call] at hr
    split at hr
    · next c' heq =>
      simp only [Option.some.injEq] at hr
      rw [← hr]
      exact a2 c' heq
    · exact Option.noConfusion hr
  | ServiceCall.releaseCardResource cr, hc =>
    refine ⟨releaseCardResource_holds x held w svc cr h ?_, fun r hr => by simp [call] at hr⟩
    intro r hr
    subst hr
    simpa [ServiceCall.sparesReader] using hc
  | ServiceCall.removeCardResource cr, hc =>
    refine ⟨removeCardResource_holds x held w svc cr h ?_, fun r hr => by simp [call] at hr⟩
    intro r hr
    subst hr
    simpa [ServiceCall.sparesReader] using hc
  | ServiceCall.onReaderEvent e, hc =>
    refine ⟨onReaderEvent_holds x held env w svc e h ?_, fun r hr => by simp [call] at hr⟩
    simpa [ServiceCall.sparesReader] using hc
  | ServiceCall.onPluginEvent e, hc =>
    refine ⟨onPluginEvent_holds x held env hname w svc e h ?_, fun r hr => by simp [call] at hr⟩
    simpa [ServiceCall.sparesReader] using hc

theorem run_holds (x : CardReader) (held : ReaderManagerAdapter) (env : Env)
    (hx : x.keypleReader = true) (hbusy : held.mIsBusy = true)
    (hclock : ∀ n, env.clock n < held.mLockMaxTimeMillis)
    (hpool : ∀ n p g, env.allocateReader n p g ≠ Allocation.reader x)
    (hname : ∀ n p name r, env.pluginGetReader n p name = some r → r.name = name)
    (calls : List ServiceCall) :
    ∀ (w : World) (svc : CardResourceServiceAdapter), svc.Holds x held →
      (∀ c ∈ calls, c.sparesReader x = true) →
      (run env w svc calls).2.1.Holds x held ∧
      (∀ r ∈ (run env w svc calls).1, r.getReader ≠ x) := by
  induction calls with
  | nil =>
    intro w svc h _
    exact ⟨h, fun r hr => by simp [run] at hr⟩
  | cons c rest ih =>
    intro w svc h hc
    obtain ⟨a1, a2⟩ := call_holds x held env hx hbusy hclock hpool hname w svc c h
      (hc c (List.mem_cons_self _ _))
    obtain ⟨b1, b2⟩ := ih (call env w svc c).2.2 (call env w svc c).2.1 a1
      (fun c' hc' => hc c' (List.mem_cons_of_mem _ hc'))
    refine ⟨b1, ?_⟩
    intro r hr
    simp only [run, List.mem_append, Option.mem_toList, Option.mem_def] at hr
    rcases hr with hr | hr
    · exact a2 r hr
    · exact b2 r hr

/-- C2, as stated, fails on `Scenario.serviceOneReader`: the first `getCardResource`
returns `resourceB` of reader `X`, locked until `1101`; after a `CARD_INSERTED` event of
reader `X`, with no release, no removal and no stop, the next `getCardResource`
returns `resourceB` of reader `X` again, every clock reading (`1000` to `1003`) being
before the deadline. -/
theorem card_inserted_event_frees_held_reader :
    Scenario.serviceOneReader.mIsStarted = true ∧
    (call Scenario.envB {} Scenario.serviceOneReader
        (ServiceCall.getCardResource "P1" 1)).1 = some Scenario.resourceB ∧
    Scenario.resourceB.getReader = Scenario.readerX ∧
    ((call Scenario.envB {} Scenario.serviceOneReader
        (ServiceCall.getCardResource "P1" 1)).2.1.getReaderManager Scenario.readerX).map
      (fun rm => (rm.mIsBusy, rm.mLockMaxTimeMillis)) = some (true, 1101) ∧
    (run Scenario.envB {} Scenario.serviceOneReader Scenario.callsWithCardInserted).1 =
      [Scenario.resourceB, Scenario.resourceB] ∧
    (run Scenario.envB {} Scenario.serviceOneReader
      Scenario.callsWithCardInserted).2.2.clockReads = 4 ∧
    (∀ n < 4, Scenario.envB.clock n < 1101) := by
  refine ⟨rfl, rfl, rfl, rfl, rfl, rfl, by decide⟩

/-- C2 (amended): let the reader `x` be registered with a manager that is busy, in a
service whose other managers own only card resources of their own readers and whose
profile managers allocate under `FIRST`.  For every sequence of `getCardResource`,
`releaseCardResource`, `removeCardResource` calls, reader events and plugin events in
which no release or removal is for a card resource of `x` and no event names `x`,
every clock reading being before the lock deadline (no pool plugin allocates `x`, and
a plugin returns readers under their names): no `getCardResource` call of the sequence
returns a card resource whose reader is `x`, and the manager of `x` is left as it
was, still locked. -/
theorem held_reader_not_reallocated (env : Env) (x : CardReader) (held : ReaderManagerAdapter)
    (w : World) (svc : CardResourceServiceAdapter) (calls : List ServiceCall)
    (hx : x.keypleReader = true)
    (hreg : StdMap.find svc.mReaderToReaderManagerMap x = some held)
    (hbusy : held.mIsBusy = true)
    (hclock : ∀ n, env.clock n < held.mLockMaxTimeMillis)
    (hown : ∀ p ∈ svc.mReaderToReaderManagerMap, p.1 ≠ x →
      p.2.mReader ≠ x ∧ ∀ c ∈ p.2.mCardResources, c.mReader ≠ x)
    (hfirst : ∀ p ∈ svc.mCardProfileNameToCardProfileManagerMap,
      p.2.mGlobalConfiguration.mAllocationStrategy = AllocationStrategy.FIRST)
    (hpool : ∀ n p g, env.allocateReader n p g ≠ Allocation.reader x)
    (hname : ∀ n p name r, env.pluginGetReader n p name = some r → r.name = name)
    (hcalls : ∀ c ∈ calls, c.sparesReader x = true) :
    (∀ r ∈ (run env w svc calls).1, r.getReader ≠ x) ∧
    StdMap.find (run env w svc calls).2.1.mReaderToReaderManagerMap x = some held := by
  obtain ⟨a1, a2⟩ := run_holds x held env hx hbusy hclock hpool hname calls w svc
    ⟨hreg, hown, hfirst⟩ hcalls
  exact ⟨a2, a1.1⟩

theorem held_reader_not_reallocated_witness :
    (run Scenario.envSteady {} Scenario.serviceHeld Scenario.callsSparingX).1 =
      [Scenario.resourceY, Scenario.resourceY] ∧
    (∀ r ∈ (run Scenario.envSteady {} Scenario.serviceHeld Scenario.callsSparingX).1,
      r.getReader ≠ Scenario.readerX) ∧
    StdMap.find (run Scenario.envSteady {} Scenario.serviceHeld
      Scenario.callsSparingX).2.1.mReaderToReaderManagerMap Scenario.readerX =
      some Scenario.managerXHeld :=
  ⟨rfl,
   held_reader_not_reallocated Scenario.envSteady Scenario.readerX Scenario.managerXHeld {}
    Scenario.serviceHeld Scenario.callsSparingX rfl rfl rfl
    (fun _ => (by decide : 1000 < 1100))
    (by decide) (by decide) (fun _ _ _ h => Allocation.noConfusion h)
    (fun _ _ _ _ h => Option.noConfusion h) (by decide)⟩

end CardResourceServiceAdapter

/-! ## Allocation order, removal of unusable card resources, card removal -/

namespace CardProfileManagerAdapter

/-- C11, evaluated: under `CYCLIC` the list left by a take at index `i` is what
`std::rotate(begin, begin - i - 1, end)` leaves, a call whose middle iterator precedes
`begin` and which `std::rotate` does not define; it is not the rotation to the left by
`i + 1`.  In a world where that call leaves the vector as it is
(`Scenario.serviceCyclic`, two readers each holding a matching card), three
allocations each followed by a release return `resourceB` three times, not
`resourceB`, `resourceY`, `resourceB`. -/
theorem cyclic_order_is_an_undefined_rotate :
    (∀ (env : Env) (pm : CardProfileManagerAdapter) (i : Nat),
      pm.mGlobalConfiguration.mAllocationStrategy = AllocationStrategy.CYCLIC →
      (updateCardResourcesOrder env pm i).mCardResources =
        env.rotateBeforeBegin pm.mCardResources (i + 1)) ∧
    (CardResourceServiceAdapter.run Scenario.envB {} Scenario.serviceCyclic
        Scenario.callsAllocateRelease).1 =
      [Scenario.resourceB, Scenario.resourceB, Scenario.resourceB] ∧
    ((CardResourceServiceAdapter.run Scenario.envB {} Scenario.serviceCyclic
        [ServiceCall.getCardResource "P1" 1]).2.1.mCardProfileNameToCardProfileManagerMap.map
      (fun p => p.2.mCardResources)) = [[Scenario.resourceB, Scenario.resourceY]] := by
  refine ⟨?_, rfl, rfl⟩
  intro env pm i h
  simp [updateCardResourcesOrder, h]

/-- C13, evaluated: a card resource found unusable because its reader has no
registered manager stays in the list of the profile manager after
`getRegularCardResource` (`Scenario.serviceReaderGone`); such a state is reached from
`Scenario.serviceOneReader` when the plugin reports the registered reader `X` as
connected and then as disconnected: the card resource created at the connection
remains in the list of `P1`, also after a `getCardResource`. -/
theorem unusable_resource_of_unregistered_reader_stays :
    (lockFirstAvailable Scenario.envB 7 [Scenario.resourceB] 0 {} Scenario.serviceReaderGone
        []).2.1 = [Scenario.resourceB] ∧
    (getRegularCardResource Scenario.envB {} Scenario.serviceReaderGone "P1").1 = .ok none ∧
    ((getRegularCardResource Scenario.envB {} Scenario.serviceReaderGone
        "P1").2.1.mCardProfileNameToCardProfileManagerMap.map
      (fun p => p.2.mCardResources)) = [[Scenario.resourceB]] ∧
    ((CardResourceServiceAdapter.run Scenario.envHotPlug {} Scenario.serviceOneReader
        Scenario.callsReconnectDisconnect).2.1.mReaderToReaderManagerMap = []) ∧
    ((CardResourceServiceAdapter.run Scenario.envHotPlug {} Scenario.serviceOneReader
        (Scenario.callsReconnectDisconnect ++
          [ServiceCall.getCardResource "P1" 1])).2.1.mCardProfileNameToCardProfileManagerMap.map
      (fun p => p.2.mCardResources)) =
      [[{ id := 0, mReader := Scenario.readerX, mSmartCard := Scenario.cardB }]] := by
  refine ⟨rfl, rfl, rfl, rfl, rfl⟩

end CardProfileManagerAdapter

namespace CardResourceServiceAdapter

/-- C14, evaluated on `Scenario.serviceTwoCards`, where the manager of reader `X` owns
two card resources: the handling of `CARD_REMOVED`, like that of `READER_DISCONNECTED`,
removes `resourceA`, then reads the second slot of a vector that has one element left
and leaves defined behaviour; `resourceB` is still owned by the manager and listed by
`P1`. -/
theorem card_removed_leaves_second_resource :
    (onReaderEvent Scenario.envB {} Scenario.serviceTwoCards
        { readerName := "X", type := CardReaderEventType.CARD_REMOVED }).1 =
      .error Exception.Undefined ∧
    ((onReaderEvent Scenario.envB {} Scenario.serviceTwoCards
        { readerName := "X", type := CardReaderEventType.CARD_REMOVED }).2.1.getReaderManager
      Scenario.readerX).map (fun rm => rm.mCardResources) = some [Scenario.resourceB] ∧
    ((onReaderEvent Scenario.envB {} Scenario.serviceTwoCards
        { readerName := "X",
          type := CardReaderEventType.CARD_REMOVED }).2.1.mCardProfileNameToCardProfileManagerMap.map
      (fun p => p.2.mCardResources)) = [[Scenario.resourceB]] ∧
    (onPluginEvent Scenario.envB {} Scenario.serviceTwoCards
        { pluginName := "plugin1", readerNames := ["X"],
          type := PluginEventType.READER_DISCONNECTED }).1 = .error Exception.Undefined ∧
    ((onPluginEvent Scenario.envB {} Scenario.serviceTwoCards
        { pluginName := "plugin1", readerNames := ["X"],
          type := PluginEventType.READER_DISCONNECTED }).2.1.getReaderManager
      Scenario.readerX).map (fun rm => rm.mCardResources) = some [Scenario.resourceB] := by
  refine ⟨rfl, rfl, rfl, rfl, rfl⟩

end CardResourceServiceAdapter

/-! ## Release and removal -/

namespace StdMap

variable {κ ν : Type} [DecidableEq κ]

theorem find_erase_self (m : StdMap κ ν) (k : κ) : find (erase m k) k = none := by
  induction m with
  | nil => rfl
  | cons p m ih =>
    obtain ⟨a, b⟩ := p
    simp only [erase]
    split_ifs with hak
    · exact ih
    · simp only [find, hak, if_false]
      exact ih

theorem assign_assign (m : StdMap κ ν) (k : κ) (v v' : ν) :
    assign (assign m k v) k v' = assign m k v' := by
  induction m with
  | nil => rfl
  | cons p m ih =>
    obtain ⟨a, b⟩ := p
    simp only [assign]
    split_ifs with hak
    · simp only [assign, hak, if_true, ih]
    · simp only [assign, hak, if_false, ih]

end StdMap

namespace CardResourceServiceAdapter

/-- C16: release idempotence.  On a started service, `releaseCardResource(r)` returns
normally, and a second `releaseCardResource(r)` returns normally and changes neither
the service nor the world.  For a card resource of a registered reader the first call
unlocks the manager of the reader; for a pool card resource it removes the mapping
and invokes `releaseReader` of the pool plugin on the reader, once over the two calls;
for any other card resource it does nothing. -/
theorem release_twice (w : World) (svc : CardResourceServiceAdapter) (r : CardResource)
    (hstarted : svc.mIsStarted = true) :
    (releaseCardResource w svc (some r)).1 = .ok () ∧
    releaseCardResource (releaseCardResource w svc (some r)).2.2
        (releaseCardResource w svc (some r)).2.1 (some r) =
      (.ok (), (releaseCardResource w svc (some r)).2.1,
        (releaseCardResource w svc (some r)).2.2) ∧
    (match StdMap.find svc.mReaderToReaderManagerMap r.getReader with
     | some readerManager =>
       (releaseCardResource w svc (some r)).2 =
         ({ svc with
            mReaderToReaderManagerMap :=
              StdMap.assign svc.mReaderToReaderManagerMap r.getReader readerManager.unlock },
          w)
     | none =>
       match StdMap.find svc.mCardResourceToPoolPluginMap r with
       | some poolPlugin =>
         StdMap.find (releaseCardResource w svc (some r)).2.1.mCardResourceToPoolPluginMap r =
           none ∧
         (releaseCardResource (releaseCardResource w svc (some r)).2.2
           (releaseCardResource w svc (some r)).2.1 (some r)).2.2.releaseReaderLog =
           w.releaseReaderLog ++ [(poolPlugin, r.getReader)]
       | none => (releaseCardResource w svc (some r)).2 = (svc, w)) := by
  cases hm : StdMap.find svc.mReaderToReaderManagerMap r.getReader with
  | some rm =>
    have h1 : releaseCardResource w svc (some r) =
        (.ok (),
         { svc with
           mReaderToReaderManagerMap :=
             StdMap.assign svc.mReaderToReaderManagerMap r.getReader rm.unlock }, w) := by
      simp [releaseCardResource, hstarted, hm]
    rw [h1]
    refine ⟨rfl, ?_, rfl⟩
    have hf := StdMap.find_assign_self svc.mReaderToReaderManagerMap r.getReader rm.unlock rm hm
    simp only [releaseCardResource, hstarted, Bool.not_true, Bool.false_eq_true, if_false, hf,
      StdMap.assign_assign]
    rfl
  | none =>
    cases hp : StdMap.find svc.mCardResourceToPoolPluginMap r with
    | some p =>
      have h1 : releaseCardResource w svc (some r) =
          (.ok (),
           { svc with
             mCardResourceToPoolPluginMap :=
               StdMap.erase svc.mCardResourceToPoolPluginMap r },
           { w with releaseReaderLog := w.releaseReaderLog ++ [(p, r.getReader)] }) := by
        simp [releaseCardResource, hstarted, hm, hp]
      rw [h1]
      have h2 : releaseCardResource
          { w with releaseReaderLog := w.releaseReaderLog ++ [(p, r.getReader)] }
          { svc with
            mCardResourceToPoolPluginMap :=
              StdMap.erase svc.mCardResourceToPoolPluginMap r } (some r) =
          (.ok (),
           { svc with
             mCardResourceToPoolPluginMap :=
               StdMap.erase svc.mCardResourceToPoolPluginMap r },
           { w with releaseReaderLog := w.releaseReaderLog ++ [(p, r.getReader)] }) := by
        simp [releaseCardResource, hstarted, hm, StdMap.find_erase_self]
      refine ⟨rfl, h2, ?_⟩
      dsimp only
      rw [h2]
      exact ⟨StdMap.find_erase_self _ _, rfl⟩
    | none =>
      have h1 : releaseCardResource w svc (some r) = (.ok (), svc, w) := by
        simp [releaseCardResource, hstarted, hm, hp]
      rw [h1]
      exact ⟨rfl, h1, rfl⟩

theorem release_twice_witness :
    StdMap.find (releaseCardResource {} Scenario.servicePoolAllocated
        (some Scenario.resourcePool)).2.1.mCardResourceToPoolPluginMap Scenario.resourcePool =
      none ∧
    (releaseCardResource (releaseCardResource {} Scenario.servicePoolAllocated
          (some Scenario.resourcePool)).2.2
        (releaseCardResource {} Scenario.servicePoolAllocated (some Scenario.resourcePool)).2.1
        (some Scenario.resourcePool)).2.2.releaseReaderLog =
      [(Scenario.poolPlugin, Scenario.readerPool)] :=
  (release_twice {} Scenario.servicePoolAllocated Scenario.resourcePool rfl).2.2

theorem releaseCardResource_of_registered (w : World) (svc : CardResourceServiceAdapter)
    (r : CardResource) (rm : ReaderManagerAdapter) (hstarted : svc.mIsStarted = true)
    (hm : StdMap.find svc.mReaderToReaderManagerMap r.getReader = some rm) :
    releaseCardResource w svc (some r) =
      (.ok (),
       { svc with
         mReaderToReaderManagerMap :=
           StdMap.assign svc.mReaderToReaderManagerMap r.getReader rm.unlock }, w) := by
  simp [releaseCardResource, hstarted, hm]

theorem removeCardResource_of_registered (w : World) (svc : CardResourceServiceAdapter)
    (r : CardResource) (rm : ReaderManagerAdapter) (hstarted : svc.mIsStarted = true)
    (hreader : r.getReader.keypleReader = true)
    (hm : StdMap.find svc.mReaderToReaderManagerMap r.getReader = some rm) :
    removeCardResource w svc (some r) =
      (.ok (),
       { svc with
         mReaderToReaderManagerMap :=
           StdMap.assign svc.mReaderToReaderManagerMap r.getReader
             (rm.unlock.removeCardResource r)
         mCardProfileNameToCardProfileManagerMap :=
           svc.mCardProfileNameToCardProfileManagerMap.map
             (fun pair => (pair.1, pair.2.removeCardResource r)) }, w) := by
  have hf := StdMap.find_assign_self svc.mReaderToReaderManagerMap r.getReader rm.unlock rm hm
  simp only [removeCardResource, releaseCardResource_of_registered w svc r rm hstarted hm,
    hreader, Bool.not_true, Bool.false_eq_true, if_false, hf, StdMap.assign_assign]

theorem removeCardResource_of_unregistered (w : World) (svc : CardResourceServiceAdapter)
    (r : CardResource) (hreader : r.getReader.keypleReader = true)
    (hm : StdMap.find svc.mReaderToReaderManagerMap r.getReader = none) :
    removeCardResource w svc (some r) = releaseCardResource w svc (some r) := by
  have hkeep : (releaseCardResource w svc (some r)).2.1.mReaderToReaderManagerMap =
      svc.mReaderToReaderManagerMap := by
    unfold releaseCardResource
    split_ifs
    · rfl
    · simp only [hm]
      split <;> rfl
  have hok : ∀ e, (releaseCardResource w svc (some r)).1 = .error e →
      removeCardResource w svc (some r) = releaseCardResource w svc (some r) := by
    intro e he
    unfold removeCardResource
    generalize releaseCardResource w svc (some r) = rel at he
    obtain ⟨o, s1, w1⟩ := rel
    cases he
    rfl
  cases ho : (releaseCardResource w svc (some r)).1 with
  | error e => exact hok e ho
  | ok u =>
    unfold removeCardResource
    generalize releaseCardResource w svc (some r) = rel at ho hkeep
    obtain ⟨o, s1, w1⟩ := rel
    cases ho
    dsimp only at hkeep ⊢
    simp only [hreader, Bool.not_true, Bool.false_eq_true, if_false, hkeep, hm]

/-- C15: on a started service whose lists hold no card resource twice, when the reader
of `r` is registered, `removeCardResource(r)` returns normally and afterwards the
manager of the reader is not busy, its list is the former one with `r` erased, `r` is
not in it and is not the selected card resource, the managers of the other readers
are as they were, and the list of every profile manager is the former one with `r`
erased and does not contain `r`; erasing `r` from a list keeps the membership and the
relative order of the other card resources.  When the reader of `r` is not registered
(pool card resource) `removeCardResource(r)` does what `releaseCardResource(r)` does. -/
theorem removeCardResource_spec (w : World) (svc : CardResourceServiceAdapter)
    (r : CardResource) (hstarted : svc.mIsStarted = true)
    (hreader : r.getReader.keypleReader = true)
    (hnodupRM : ∀ p ∈ svc.mReaderToReaderManagerMap, p.2.mCardResources.Nodup)
    (hnodupPM : ∀ p ∈ svc.mCardProfileNameToCardProfileManagerMap, p.2.mCardResources.Nodup) :
    match StdMap.find svc.mReaderToReaderManagerMap r.getReader with
    | some rm =>
      (removeCardResource w svc (some r)).1 = .ok () ∧
      (∃ rm', StdMap.find (removeCardResource w svc (some r)).2.1.mReaderToReaderManagerMap
            r.getReader = some rm' ∧
          rm'.mIsBusy = false ∧ rm'.mCardResources = rm.mCardResources.erase r ∧
          r ∉ rm'.mCardResources ∧ rm'.mSelectedCardResource ≠ some r) ∧
      (∀ k, k ≠ r.getReader →
        StdMap.find (removeCardResource w svc (some r)).2.1.mReaderToReaderManagerMap k =
          StdMap.find svc.mReaderToReaderManagerMap k) ∧
      (removeCardResource w svc (some r)).2.1.mCardProfileNameToCardProfileManagerMap =
        svc.mCardProfileNameToCardProfileManagerMap.map
          (fun p => (p.1, { p.2 with mCardResources := p.2.mCardResources.erase r })) ∧
      (∀ p ∈ (removeCardResource w svc (some r)).2.1.mCardProfileNameToCardProfileManagerMap,
        r ∉ p.2.mCardResources) ∧
      (∀ l : List CardResource,
        (l.erase r).Sublist l ∧ ∀ c, c ≠ r → (c ∈ l.erase r ↔ c ∈ l))
    | none => removeCardResource w svc (some r) = releaseCardResource w svc (some r) := by
  cases hm : StdMap.find svc.mReaderToReaderManagerMap r.getReader with
  | none => exact removeCardResource_of_unregistered w svc r hreader hm
  | some rm =>
    dsimp only
    rw [removeCardResource_of_registered w svc r rm hstarted hreader hm]
    have hnd : rm.mCardResources.Nodup := hnodupRM _ (StdMap.mem_of_find _ _ _ hm)
    refine ⟨rfl, ⟨rm.unlock.removeCardResource r, ?_, ?_, ?_, ?_, ?_⟩, ?_, rfl, ?_, ?_⟩
    · exact StdMap.find_assign_self _ _ _ rm hm
    · unfold ReaderManagerAdapter.removeCardResource
      split_ifs <;> rfl
    · unfold ReaderManagerAdapter.removeCardResource
      split_ifs <;> rfl
    · have : r ∉ rm.mCardResources.erase r := fun h => (hnd.mem_erase_iff.1 h).1 rfl
      unfold ReaderManagerAdapter.removeCardResource
      split_ifs <;> exact this
    · unfold ReaderManagerAdapter.removeCardResource
      split_ifs with h
      · simp
      · exact h
    · intro k hk
      exact StdMap.find_assign_ne _ _ _ _ (Ne.symm hk)
    · intro p hp
      obtain ⟨q, hq, rfl⟩ := List.mem_map.1 hp
      exact fun h => ((hnodupPM q hq).mem_erase_iff.1 h).1 rfl
    · intro l
      refine ⟨List.erase_sublist _ _, ?_⟩
      intro c hc
      exact List.mem_erase_of_ne hc

theorem removeCardResource_spec_witness :
    (removeCardResource {} Scenario.serviceTwoCards (some Scenario.resourceA)).1 = .ok () ∧
    (∀ p ∈ (removeCardResource {} Scenario.serviceTwoCards
        (some Scenario.resourceA)).2.1.mCardProfileNameToCardProfileManagerMap,
      Scenario.resourceA ∉ p.2.mCardResources) :=
  have h := removeCardResource_spec {} Scenario.serviceTwoCards Scenario.resourceA rfl rfl
    (by decide) (by decide)
  ⟨h.1, h.2.2.2.2.1⟩

end CardResourceServiceAdapter

/-! ## Regular and pool search -/

namespace ReaderManagerAdapter

theorem lock_poolAllocations (env : Env) (w : World) (rm : ReaderManagerAdapter)
    (r : CardResource) (ext : Nat) :
    (rm.lock env w r ext).2.2.poolAllocations = w.poolAllocations := by
  simp only [lock]
  split_ifs <;> rfl

end ReaderManagerAdapter

namespace CardResourceServiceAdapter

theorem releaseCardResource_poolAllocations (w : World) (svc : CardResourceServiceAdapter)
    (c : Option CardResource) :
    (releaseCardResource w svc c).2.2.poolAllocations = w.poolAllocations := by
  unfold releaseCardResource
  split_ifs
  · rfl
  · split
    · rfl
    · split
      · rfl
      · split <;> rfl

theorem removeCardResource_poolAllocations (w : World) (svc : CardResourceServiceAdapter)
    (c : Option CardResource) :
    (removeCardResource w svc c).2.2.poolAllocations = w.poolAllocations := by
  have h := releaseCardResource_poolAllocations w svc c
  unfold removeCardResource
  generalize releaseCardResource w svc c = rel at h
  obtain ⟨o, s1, w1⟩ := rel
  cases o with
  | error e => exact h
  | ok u =>
    dsimp only at h ⊢
    split
    · exact h
    · split_ifs
      · exact h
      · split <;> exact h

theorem removeCardResources_poolAllocations (l : List CardResource) :
    ∀ (w : World) (svc : CardResourceServiceAdapter),
      (removeCardResources w svc l).2.2.poolAllocations = w.poolAllocations := by
  induction l with
  | nil => intro w svc; rfl
  | cons c rest ih =>
    intro w svc
    have h := removeCardResource_poolAllocations w svc (some c)
    simp only [removeCardResources]
    generalize removeCardResource w svc (some c) = rem at h
    obtain ⟨o, s1, w1⟩ := rem
    cases o with
    | error e => exact h
    | ok u =>
      dsimp only at h ⊢
      rw [ih w1 s1]
      exact h

end CardResourceServiceAdapter

namespace CardProfileManagerAdapter

theorem lockFirstAvailable_poolAllocations (env : Env) (ext : Nat) (l : List CardResource) :
    ∀ (i : Nat) (w : World) (svc : CardResourceServiceAdapter) (unusable : List CardResource),
      (lockFirstAvailable env ext l i w svc unusable).2.2.2.poolAllocations =
        w.poolAllocations := by
  induction l with
  | nil => intro i w svc unusable; rfl
  | cons c rest ih =>
    intro i w svc unusable
    simp only [lockFirstAvailable]
    split
    · next rm hrm =>
      have hl := ReaderManagerAdapter.lock_poolAllocations env w rm c ext
      split
      · exact hl
      · rw [ih]
        exact hl
      · rw [ih]
        exact hl
      · exact hl
    · exact ih _ _ _ _

theorem getRegularCardResource_poolAllocations (env : Env) (w : World)
    (svc : CardResourceServiceAdapter) (name : String) :
    (getRegularCardResource env w svc name).2.2.poolAllocations = w.poolAllocations := by
  unfold getRegularCardResource
  split
  · rfl
  · next pm hpm =>
    have hw := lockFirstAvailable_poolAllocations env
      pm.mCardProfile.mCardResourceProfileExtension pm.mCardResources 0 w svc []
    generalize lockFirstAvailable env pm.mCardProfile.mCardResourceProfileExtension
      pm.mCardResources 0 w svc [] = walk at hw
    obtain ⟨found, unusable, svc1, w1⟩ := walk
    dsimp only at hw ⊢
    cases found with
    | error e => exact hw
    | ok found =>
      dsimp only
      generalize (match found with
        | some (i, cardResource) =>
          ((updateCardResourcesOrder env pm
              (Arrays.indexOf pm.mCardResources cardResource)).mCardResources[i]?,
            ({ svc1 with
              mCardProfileNameToCardProfileManagerMap :=
                StdMap.assign svc1.mCardProfileNameToCardProfileManagerMap name
                  (updateCardResourcesOrder env pm
                    (Arrays.indexOf pm.mCardResources cardResource)) } :
              CardResourceServiceAdapter))
        | none => (none, svc1)) = taken
      have hr := CardResourceServiceAdapter.removeCardResources_poolAllocations unusable w1
        taken.2
      generalize CardResourceServiceAdapter.removeCardResources w1 taken.2 unusable = rem at hr
      obtain ⟨o, s3, w3⟩ := rem
      cases o with
      | error e => exact hr.trans hw
      | ok u => exact hr.trans hw

theorem allocateFromPools_readers (env : Env) (pm : CardProfileManagerAdapter)
    (l : List Plugin) :
    ∀ (w : World) (svc : CardResourceServiceAdapter),
      (allocateFromPools env pm l w svc).2.1.mReaderToReaderManagerMap =
        svc.mReaderToReaderManagerMap := by
  induction l with
  | nil => intro w svc; rfl
  | cons p rest ih =>
    intro w svc
    simp only [allocateFromPools]
    split
    · split
      · rfl
      · exact ih _ _
    · exact ih _ _
    · exact ih _ _

theorem getPoolCardResource_readers (env : Env) (w : World)
    (svc : CardResourceServiceAdapter) (name : String) :
    (getPoolCardResource env w svc name).2.1.mReaderToReaderManagerMap =
      svc.mReaderToReaderManagerMap := by
  unfold getPoolCardResource
  split
  · rfl
  · exact allocateFromPools_readers env _ _ w svc

/-- C17: one turn of the search of `getCardResource`.  With `P` and `PP` non-empty and
`usePoolFirst = false`, the turn is the regular search whenever this one does not
yield null (no `allocateReader` call is made: the regular search makes none), and is
the pool search run after it when it yields null.  With `usePoolFirst = true` the turn
is the pool search whenever this one does not yield null (the reader managers are as
they were: no regular reader is locked), and the regular search run after it
otherwise.  With `PP` empty the turn is the regular search, with `P` empty the pool
search.  A turn that finds a card resource is the result of `getCardResource`. -/
theorem search_precedence (env : Env) (w : World) (svc : CardResourceServiceAdapter)
    (name : String) (pm : CardProfileManagerAdapter) :
    (pm.mPlugins ≠ [] → pm.mPoolPlugins ≠ [] → pm.mGlobalConfiguration.mUsePoolFirst = false →
      ((getRegularCardResource env w svc name).1 ≠ .ok none →
        searchOnce env w svc name pm = getRegularCardResource env w svc name) ∧
      ((getRegularCardResource env w svc name).1 = .ok none →
        searchOnce env w svc name pm =
          getPoolCardResource env (getRegularCardResource env w svc name).2.2
            (getRegularCardResource env w svc name).2.1 name) ∧
      (getRegularCardResource env w svc name).2.2.poolAllocations = w.poolAllocations) ∧
    (pm.mPlugins ≠ [] → pm.mPoolPlugins ≠ [] → pm.mGlobalConfiguration.mUsePoolFirst = true →
      ((getPoolCardResource env w svc name).1 ≠ .ok none →
        searchOnce env w svc name pm = getPoolCardResource env w svc name) ∧
      ((getPoolCardResource env w svc name).1 = .ok none →
        searchOnce env w svc name pm =
          getRegularCardResource env (getPoolCardResource env w svc name).2.2
            (getPoolCardResource env w svc name).2.1 name) ∧
      (getPoolCardResource env w svc name).2.1.mReaderToReaderManagerMap =
        svc.mReaderToReaderManagerMap) ∧
    (pm.mPlugins ≠ [] → pm.mPoolPlugins = [] →
      searchOnce env w svc name pm = getRegularCardResource env w svc name) ∧
    (pm.mPlugins = [] → searchOnce env w svc name pm = getPoolCardResource env w svc name) ∧
    (∀ (fuel : Nat) (c : CardResource),
      (searchOnce env { w with clockReads := w.clockReads + 1 } svc name pm).1 =
        .ok (some c) →
      getCardResource env (fuel + 1) w svc name pm =
        (some (.ok (some c)),
         (searchOnce env { w with clockReads := w.clockReads + 1 } svc name pm).2)) := by
  refine ⟨?_, ?_, ?_, ?_, ?_⟩
  · intro hp hpp hu
    have hp' : pm.mPlugins.isEmpty = false := by
      cases h : pm.mPlugins with
      | nil => exact absurd h hp
      | cons a l => rfl
    have hpp' : pm.mPoolPlugins.isEmpty = false := by
      cases h : pm.mPoolPlugins with
      | nil => exact absurd h hpp
      | cons a l => rfl
    refine ⟨?_, ?_, getRegularCardResource_poolAllocations env w svc name⟩
    · intro hne
      simp only [searchOnce, hp', hpp', hu, getRegularOrPoolCardResource, Bool.not_false,
        if_true, Bool.false_eq_true, if_false]
      generalize getRegularCardResource env w svc name = reg at hne
      obtain ⟨o, s1, w1⟩ := reg
      split
      · next heq =>
        simp only [Prod.mk.injEq] at heq
        exact absurd heq.1 hne
      · rfl
    · intro he
      simp only [searchOnce, hp', hpp', hu, getRegularOrPoolCardResource, Bool.not_false,
        if_true, Bool.false_eq_true, if_false]
      generalize getRegularCardResource env w svc name = reg at he
      obtain ⟨o, s1, w1⟩ := reg
      dsimp only at he
      subst he
      rfl
  · intro hp hpp hu
    have hp' : pm.mPlugins.isEmpty = false := by
      cases h : pm.mPlugins with
      | nil => exact absurd h hp
      | cons a l => rfl
    have hpp' : pm.mPoolPlugins.isEmpty = false := by
      cases h : pm.mPoolPlugins with
      | nil => exact absurd h hpp
      | cons a l => rfl
    refine ⟨?_, ?_, getPoolCardResource_readers env w svc name⟩
    · intro hne
      simp only [searchOnce, hp', hpp', hu, getRegularOrPoolCardResource, Bool.not_false,
        if_true]
      generalize getPoolCardResource env w svc name = reg at hne
      obtain ⟨o, s1, w1⟩ := reg
      split
      · next heq =>
        simp only [Prod.mk.injEq] at heq
        exact absurd heq.1 hne
      · rfl
    · intro he
      simp only [searchOnce, hp', hpp', hu, getRegularOrPoolCardResource, Bool.not_false,
        if_true]
      generalize getPoolCardResource env w svc name = reg at he
      obtain ⟨o, s1, w1⟩ := reg
      dsimp only at he
      subst he
      rfl
  · intro hp hpp
    have hp' : pm.mPlugins.isEmpty = false := by
      cases h : pm.mPlugins with
      | nil => exact absurd h hp
      | cons a l => rfl
    simp [searchOnce, hp', hpp]
  · intro hp
    simp [searchOnce, hp]
  · intro fuel c hc
    simp only [getCardResource, searchLoop]
    generalize searchOnce env { w with clockReads := w.clockReads + 1 } svc name pm = r at hc
    obtain ⟨o, s1, w1⟩ := r
    dsimp only at hc
    subst hc
    rfl

theorem search_precedence_witness :
    searchOnce Scenario.envB {} Scenario.serviceOneReader "P1"
        (Scenario.profileManager AllocationStrategy.FIRST 100 [Scenario.resourceB]) =
      getRegularCardResource Scenario.envB {} Scenario.serviceOneReader "P1" :=
  (search_precedence Scenario.envB {} Scenario.serviceOneReader "P1"
    (Scenario.profileManager AllocationStrategy.FIRST 100 [Scenario.resourceB])).2.2.1
    (by decide) rfl

theorem allocateFromPools_of_no_offer (env : Env) (pm : CardProfileManagerAdapter) (w : World)
    (svc : CardResourceServiceAdapter) (p : Plugin) (rest : List Plugin)
    (h : poolOffer env pm w p = none) :
    allocateFromPools env pm (p :: rest) w svc =
      allocateFromPools env pm rest (afterPoolTurn env pm w p) svc := by
  simp only [allocateFromPools, afterPoolTurn]
  simp only [poolOffer] at h
  cases ha : env.allocateReader w.poolAllocations p pm.mCardProfile.mReaderGroupReference with
  | reader r =>
    rw [ha] at h
    dsimp only at h ⊢
    cases hs : env.select w.selections pm.mCardProfile.mCardResourceProfileExtension r with
    | none => rfl
    | some sc => simp [hs] at h
  | null => rfl
  | pluginException => rfl

theorem allocateFromPools_of_offer (env : Env) (pm : CardProfileManagerAdapter) (w : World)
    (svc : CardResourceServiceAdapter) (p : Plugin) (rest : List Plugin) (reader : CardReader)
    (sc : SmartCard) (h : poolOffer env pm w p = some (reader, sc)) :
    allocateFromPools env pm (p :: rest) w svc =
      (some { id := w.allocations, mReader := reader, mSmartCard := sc },
       svc.registerPoolCardResource
         { id := w.allocations, mReader := reader, mSmartCard := sc } p,
       { w with
         poolAllocations := w.poolAllocations + 1
         selections := w.selections + 1
         allocations := w.allocations + 1 }) := by
  simp only [allocateFromPools]
  simp only [poolOffer] at h
  cases ha : env.allocateReader w.poolAllocations p pm.mCardProfile.mReaderGroupReference with
  | reader r =>
    rw [ha] at h
    dsimp only at h ⊢
    cases hs : env.select w.selections pm.mCardProfile.mCardResourceProfileExtension r with
    | none => simp [hs] at h
    | some sc' =>
      simp only [hs, Option.map_some', Option.some.injEq, Prod.mk.injEq] at h
      obtain ⟨rfl, rfl⟩ := h
      rfl
  | null => simp [ha] at h
  | pluginException => simp [ha] at h

theorem allocateFromPools_first_offer (env : Env) (pm : CardProfileManagerAdapter)
    (p : Plugin) (post : List Plugin) (reader : CardReader) (sc : SmartCard)
    (pre : List Plugin) :
    ∀ (w : World) (svc : CardResourceServiceAdapter),
      (∀ pre' q rest, pre = pre' ++ q :: rest →
        poolOffer env pm (afterPoolTurns env pm w pre') q = none) →
      poolOffer env pm (afterPoolTurns env pm w pre) p = some (reader, sc) →
      allocateFromPools env pm (pre ++ p :: post) w svc =
        (some { id := (afterPoolTurns env pm w pre).allocations, mReader := reader,
                mSmartCard := sc },
         svc.registerPoolCardResource
           { id := (afterPoolTurns env pm w pre).allocations, mReader := reader,
             mSmartCard := sc } p,
         { afterPoolTurns env pm w pre with
           poolAllocations := (afterPoolTurns env pm w pre).poolAllocations + 1
           selections := (afterPoolTurns env pm w pre).selections + 1
           allocations := (afterPoolTurns env pm w pre).allocations + 1 }) := by
  induction pre with
  | nil =>
    intro w svc _ hp
    exact allocateFromPools_of_offer env pm w svc p post reader sc hp
  | cons q pre ih =>
    intro w svc hpre hp
    have hq : poolOffer env pm w q = none := hpre [] q pre rfl
    rw [List.cons_append, allocateFromPools_of_no_offer env pm w svc q _ hq]
    apply ih
    · intro pre' q' rest he
      exact hpre (q :: pre') q' rest (by rw [he]; rfl)
    · exact hp

theorem allocateFromPools_no_offer (env : Env) (pm : CardProfileManagerAdapter)
    (l : List Plugin) :
    ∀ (w : World) (svc : CardResourceServiceAdapter),
      (∀ pre' q rest, l = pre' ++ q :: rest →
        poolOffer env pm (afterPoolTurns env pm w pre') q = none) →
      allocateFromPools env pm l w svc = (none, svc, afterPoolTurns env pm w l) := by
  induction l with
  | nil => intro w svc _; rfl
  | cons q l ih =>
    intro w svc hl
    have hq : poolOffer env pm w q = none := hl [] q l rfl
    rw [allocateFromPools_of_no_offer env pm w svc q _ hq]
    apply ih
    intro pre' q' rest he
    exact hl (q :: pre') q' rest (by rw [he]; rfl)

theorem afterPoolTurns_poolAllocations (env : Env) (pm : CardProfileManagerAdapter)
    (l : List Plugin) :
    ∀ w : World, (afterPoolTurns env pm w l).poolAllocations = w.poolAllocations + l.length := by
  induction l with
  | nil => intro w; rfl
  | cons q l ih =>
    intro w
    simp only [afterPoolTurns, ih, List.length_cons]
    have : (afterPoolTurn env pm w q).poolAllocations = w.poolAllocations + 1 := by
      unfold afterPoolTurn
      split <;> rfl
    omega

theorem find_insert_of_absent {κ ν : Type} [DecidableEq κ] (lt : κ → κ → Bool)
    (m : StdMap κ ν) (k : κ) (v : ν) (h : StdMap.find m k = none) :
    StdMap.find (StdMap.insert lt m k v) k = some v := by
  induction m with
  | nil => simp [StdMap.insert, StdMap.find]
  | cons p m ih =>
    obtain ⟨a, b⟩ := p
    simp only [StdMap.find] at h
    split_ifs at h with hak
    simp only [StdMap.insert, hak, if_false]
    split_ifs
    · simp [StdMap.find]
    · simp only [StdMap.find, hak, if_false]
      exact ih h

/-- C18: `getPoolCardResource` never throws.  When the pool plugins of the profile
manager are `pre ++ p :: post`, no plugin of `pre` makes an offer at its turn (its
`allocateReader` returns null or throws, or the card of the allocated reader does not
match) and `p` offers a reader and its matching card at its turn, the result is the
new card resource of that reader and card, registered in `cardResourceToPoolPlugin`
(mapped to `p` when it is a new key), and the plugins of `post` are not asked.  When
no pool plugin makes an offer the result is null and the service is unchanged. -/
theorem pool_search_takes_first_offer (env : Env) (w : World)
    (svc : CardResourceServiceAdapter) (name : String) (pm : CardProfileManagerAdapter)
    (hpm : StdMap.find svc.mCardProfileNameToCardProfileManagerMap name = some pm) :
    (∃ o, (getPoolCardResource env w svc name).1 = .ok o) ∧
    (∀ (pre : List Plugin) (p : Plugin) (post : List Plugin) (reader : CardReader)
        (sc : SmartCard),
      pm.mPoolPlugins = pre ++ p :: post →
      (∀ pre' q rest, pre = pre' ++ q :: rest →
        poolOffer env pm (afterPoolTurns env pm w pre') q = none) →
      poolOffer env pm (afterPoolTurns env pm w pre) p = some (reader, sc) →
      (getPoolCardResource env w svc name).1 =
        .ok (some { id := (afterPoolTurns env pm w pre).allocations, mReader := reader,
                    mSmartCard := sc }) ∧
      (getPoolCardResource env w svc name).2.1 =
        svc.registerPoolCardResource
          { id := (afterPoolTurns env pm w pre).allocations, mReader := reader,
            mSmartCard := sc } p ∧
      (getPoolCardResource env w svc name).2.2.poolAllocations =
        w.poolAllocations + pre.length + 1 ∧
      (StdMap.find svc.mCardResourceToPoolPluginMap
          { id := (afterPoolTurns env pm w pre).allocations, mReader := reader,
            mSmartCard := sc } = none →
        StdMap.find (getPoolCardResource env w svc name).2.1.mCardResourceToPoolPluginMap
          { id := (afterPoolTurns env pm w pre).allocations, mReader := reader,
            mSmartCard := sc } = some p)) ∧
    ((∀ pre' q rest, pm.mPoolPlugins = pre' ++ q :: rest →
        poolOffer env pm (afterPoolTurns env pm w pre') q = none) →
      getPoolCardResource env w svc name =
        (.ok none, svc, afterPoolTurns env pm w pm.mPoolPlugins)) := by
  have hget : getPoolCardResource env w svc name =
      (.ok (allocateFromPools env pm pm.mPoolPlugins w svc).1,
       (allocateFromPools env pm pm.mPoolPlugins w svc).2.1,
       (allocateFromPools env pm pm.mPoolPlugins w svc).2.2) := by
    simp only [getPoolCardResource, hpm]
  refine ⟨⟨_, by rw [hget]⟩, ?_, ?_⟩
  · intro pre p post reader sc hsplit hpre hp
    rw [hget, hsplit,
      allocateFromPools_first_offer env pm p post reader sc pre w svc hpre hp]
    refine ⟨rfl, rfl, ?_, ?_⟩
    · show (afterPoolTurns env pm w pre).poolAllocations + 1 = _
      rw [afterPoolTurns_poolAllocations]
    · intro hnew
      exact find_insert_of_absent _ _ _ _ hnew
  · intro hall
    rw [hget, allocateFromPools_no_offer env pm pm.mPoolPlugins w svc hall]

theorem pool_search_takes_first_offer_witness :
    (getPoolCardResource Scenario.envPool {} Scenario.servicePools "P1").1 =
      .ok (some { id := 0, mReader := Scenario.readerPool, mSmartCard := Scenario.cardB }) ∧
    StdMap.find (getPoolCardResource Scenario.envPool {} Scenario.servicePools
        "P1").2.1.mCardResourceToPoolPluginMap
      { id := 0, mReader := Scenario.readerPool, mSmartCard := Scenario.cardB } =
      some Scenario.poolPlugin :=
  have h := (pool_search_takes_first_offer Scenario.envPool {} Scenario.servicePools "P1"
    Scenario.profileManagerPools rfl).2.1 [Scenario.poolPluginFailing] Scenario.poolPlugin []
    Scenario.readerPool Scenario.cardB rfl
    (by
      intro pre' q rest he
      cases pre' with
      | nil =>
        simp only [List.nil_append, List.cons.injEq] at he
        obtain ⟨rfl, _⟩ := he
        rfl
      | cons a l =>
        simp only [List.cons_append, List.cons.injEq] at he
        exact absurd he.2 (by simp))
    rfl
  ⟨h.1, h.2.2.2 rfl⟩

end CardProfileManagerAdapter

/-! ## Order preservation under FIRST -/

namespace StdMap

variable {κ ν : Type} [DecidableEq κ]

theorem find_map_values (m : StdMap κ ν) (f : ν → ν) (k : κ) :
    find (m.map (fun p => (p.1, f p.2))) k = (find m k).map f := by
  induction m with
  | nil => rfl
  | cons p m ih =>
    obtain ⟨a, b⟩ := p
    simp only [List.map_cons, find]
    split_ifs
    · rfl
    · exact ih

end StdMap

namespace ReaderManagerAdapter

theorem lock_of_free (env : Env) (w : World) (rm : ReaderManagerAdapter) (r : CardResource)
    (ext : Nat) (hfree : rm.mIsBusy = false)
    (hsel : rm.mSelectedCardResource = some r ∨
      ∃ s, env.select w.selections ext rm.mReader = some s ∧
        areEquals (some r.getSmartCard) (some s) = true) :
    (rm.lock env w r ext).1 = .ok true ∧
    (rm.lock env w r ext).2.1.mSelectedCardResource = some r := by
  by_cases hs : rm.mSelectedCardResource = some r
  · simp [lock, hfree, hs]
  · rcases hsel with h | ⟨s, hs1, hs2⟩
    · exact absurd h hs
    · simp [lock, hfree, hs, hs1, hs2]

end ReaderManagerAdapter

namespace CardResourceServiceAdapter

theorem releaseCardResource_profiles (w : World) (svc : CardResourceServiceAdapter)
    (c : Option CardResource) :
    (releaseCardResource w svc c).2.1.mCardProfileNameToCardProfileManagerMap =
      svc.mCardProfileNameToCardProfileManagerMap := by
  unfold releaseCardResource
  split_ifs
  · rfl
  · split
    · rfl
    · split
      · rfl
      · split <;> rfl

theorem removeCardResource_profile (w : World) (svc : CardResourceServiceAdapter)
    (c : Option CardResource) (name : String) (pm : CardProfileManagerAdapter)
    (hpm : StdMap.find svc.mCardProfileNameToCardProfileManagerMap name = some pm) :
    ∃ pm', StdMap.find (removeCardResource w svc c).2.1.mCardProfileNameToCardProfileManagerMap
        name = some pm' ∧ pm'.mCardResources.Sublist pm.mCardResources := by
  have h := releaseCardResource_profiles w svc c
  unfold removeCardResource
  generalize releaseCardResource w svc c = rel at h
  obtain ⟨o, s1, w1⟩ := rel
  dsimp only at h
  have hkeep : ∃ pm', StdMap.find s1.mCardProfileNameToCardProfileManagerMap name = some pm' ∧
      pm'.mCardResources.Sublist pm.mCardResources :=
    ⟨pm, by rw [h]; exact hpm, List.Sublist.refl _⟩
  cases o with
  | error e => exact hkeep
  | ok u =>
    dsimp only
    split
    · exact hkeep
    · next r =>
      split_ifs
      · exact hkeep
      · split
        · refine ⟨pm.removeCardResource r, ?_, List.erase_sublist _ _⟩
          show StdMap.find (s1.mCardProfileNameToCardProfileManagerMap.map _) name = _
          rw [StdMap.find_map_values s1.mCardProfileNameToCardProfileManagerMap
            (fun q => CardProfileManagerAdapter.removeCardResource q r) name, h, hpm]
          rfl
        · exact hkeep

theorem removeCardResources_profile (l : List CardResource) (name : String)
    (pm : CardProfileManagerAdapter) :
    ∀ (w : World) (svc : CardResourceServiceAdapter) (pm0 : CardProfileManagerAdapter),
      StdMap.find svc.mCardProfileNameToCardProfileManagerMap name = some pm0 →
      pm0.mCardResources.Sublist pm.mCardResources →
      ∃ pm', StdMap.find
          (removeCardResources w svc l).2.1.mCardProfileNameToCardProfileManagerMap name =
            some pm' ∧ pm'.mCardResources.Sublist pm.mCardResources := by
  induction l with
  | nil => intro w svc pm0 h0 hs; exact ⟨pm0, h0, hs⟩
  | cons c rest ih =>
    intro w svc pm0 h0 hs
    obtain ⟨pm1, h1, hs1⟩ := removeCardResource_profile w svc (some c) name pm0 h0
    simp only [removeCardResources]
    generalize removeCardResource w svc (some c) = rem at h1
    obtain ⟨o, s1, w1⟩ := rem
    cases o with
    | error e => exact ⟨pm1, h1, hs1.trans hs⟩
    | ok u => exact ih w1 s1 pm1 h1 (hs1.trans hs)

end CardResourceServiceAdapter

namespace CardProfileManagerAdapter

theorem lockFirstAvailable_profiles (env : Env) (ext : Nat) (l : List CardResource) :
    ∀ (i : Nat) (w : World) (svc : CardResourceServiceAdapter) (unusable : List CardResource),
      (lockFirstAvailable env ext l i w svc unusable).2.2.1.mCardProfileNameToCardProfileManagerMap =
        svc.mCardProfileNameToCardProfileManagerMap := by
  induction l with
  | nil => intro i w svc unusable; rfl
  | cons c rest ih =>
    intro i w svc unusable
    simp only [lockFirstAvailable]
    split
    · split
      · rfl
      · rw [ih]
      · rw [ih]
      · rfl
    · exact ih _ _ _ _

theorem getRegularCardResource_order (env : Env) (w : World)
    (svc : CardResourceServiceAdapter) (name : String) (pm : CardProfileManagerAdapter)
    (hpm : StdMap.find svc.mCardProfileNameToCardProfileManagerMap name = some pm)
    (hfirst : pm.mGlobalConfiguration.mAllocationStrategy = AllocationStrategy.FIRST) :
    ∃ pm', StdMap.find
        (getRegularCardResource env w svc name).2.1.mCardProfileNameToCardProfileManagerMap
          name = some pm' ∧ pm'.mCardResources.Sublist pm.mCardResources := by
  unfold getRegularCardResource
  rw [hpm]
  dsimp only
  have hw := lockFirstAvailable_profiles env
    pm.mCardProfile.mCardResourceProfileExtension pm.mCardResources 0 w svc []
  generalize lockFirstAvailable env pm.mCardProfile.mCardResourceProfileExtension
    pm.mCardResources 0 w svc [] = walk at hw
  obtain ⟨found, unusable, svc1, w1⟩ := walk
  dsimp only at hw ⊢
  have h1 : StdMap.find svc1.mCardProfileNameToCardProfileManagerMap name = some pm := by
    rw [hw]
    exact hpm
  cases found with
  | error e => exact ⟨pm, h1, List.Sublist.refl _⟩
  | ok found =>
    dsimp only
    have htaken : ∀ taken : Option CardResource × CardResourceServiceAdapter,
        StdMap.find taken.2.mCardProfileNameToCardProfileManagerMap name = some pm →
        ∃ pm', StdMap.find
          (match CardResourceServiceAdapter.removeCardResources w1 taken.2 unusable with
            | (.error e, svc3, w3) => ((.error e : Except Exception (Option CardResource)),
                svc3, w3)
            | (.ok _, svc3, w3) => (.ok taken.1, svc3, w3)).2.1.mCardProfileNameToCardProfileManagerMap
            name = some pm' ∧ pm'.mCardResources.Sublist pm.mCardResources := by
      intro taken ht
      obtain ⟨pm', h', hs'⟩ := CardResourceServiceAdapter.removeCardResources_profile unusable
        name pm w1 taken.2 pm ht (List.Sublist.refl _)
      generalize CardResourceServiceAdapter.removeCardResources w1 taken.2 unusable = rem at h'
      obtain ⟨o, s3, w3⟩ := rem
      cases o with
      | error e => exact ⟨pm', h', hs'⟩
      | ok u => exact ⟨pm', h', hs'⟩
    apply htaken
    cases found with
    | none => exact h1
    | some ic =>
      obtain ⟨i, c⟩ := ic
      dsimp only
      rw [updateCardResourcesOrder_first env pm _ hfirst]
      exact StdMap.find_assign_self _ _ _ pm h1

theorem getRegularCardResource_head (env : Env) (w : World)
    (svc : CardResourceServiceAdapter) (name : String) (pm : CardProfileManagerAdapter)
    (h : CardResource) (rest : List CardResource) (rm : ReaderManagerAdapter)
    (hpm : StdMap.find svc.mCardProfileNameToCardProfileManagerMap name = some pm)
    (horder : ∀ i, updateCardResourcesOrder env pm i = pm)
    (hR : pm.mCardResources = h :: rest)
    (hk : h.getReader.keypleReader = true)
    (hrm : StdMap.find svc.mReaderToReaderManagerMap h.getReader = some rm)
    (hlock : (rm.lock env w h pm.mCardProfile.mCardResourceProfileExtension).1 = .ok true) :
    getRegularCardResource env w svc name =
      (.ok (some h),
       { svc with
         mReaderToReaderManagerMap :=
           StdMap.assign svc.mReaderToReaderManagerMap h.getReader
             (rm.lock env w h pm.mCardProfile.mCardResourceProfileExtension).2.1
         mCardProfileNameToCardProfileManagerMap :=
           StdMap.assign svc.mCardProfileNameToCardProfileManagerMap name pm },
       (rm.lock env w h pm.mCardProfile.mCardResourceProfileExtension).2.2) := by
  have hg : svc.getReaderManager h.getReader = some rm := by
    simp [CardResourceServiceAdapter.getReaderManager, hk, hrm]
  have hwalk : lockFirstAvailable env pm.mCardProfile.mCardResourceProfileExtension
      (h :: rest) 0 w svc [] =
      (.ok (some (0, h)), [],
       { svc with
         mReaderToReaderManagerMap :=
           StdMap.assign svc.mReaderToReaderManagerMap h.getReader
             (rm.lock env w h pm.mCardProfile.mCardResourceProfileExtension).2.1 },
       (rm.lock env w h pm.mCardProfile.mCardResourceProfileExtension).2.2) := by
    simp only [lockFirstAvailable, hg, hlock]
  simp only [getRegularCardResource, hpm, hR, hwalk]
  rw [← hR, horder]
  simp [hR, CardResourceServiceAdapter.removeCardResources]

theorem getCardResource_head (env : Env) (fuel : Nat) (w : World)
    (svc : CardResourceServiceAdapter) (name : String) (pm : CardProfileManagerAdapter)
    (h : CardResource) (rest : List CardResource) (rm : ReaderManagerAdapter)
    (hpm : StdMap.find svc.mCardProfileNameToCardProfileManagerMap name = some pm)
    (horder : ∀ i, updateCardResourcesOrder env pm i = pm)
    (hP : pm.mPlugins ≠ [])
    (hpool : pm.mPoolPlugins = [] ∨ pm.mGlobalConfiguration.mUsePoolFirst = false)
    (hR : pm.mCardResources = h :: rest)
    (hk : h.getReader.keypleReader = true)
    (hrm : StdMap.find svc.mReaderToReaderManagerMap h.getReader = some rm)
    (hlock : ∀ w', (rm.lock env w' h pm.mCardProfile.mCardResourceProfileExtension).1 =
      .ok true) :
    getCardResource env (fuel + 1) w svc name pm =
      (some (.ok (some h)),
       { svc with
         mReaderToReaderManagerMap :=
           StdMap.assign svc.mReaderToReaderManagerMap h.getReader
             (rm.lock env { w with clockReads := w.clockReads + 1 } h
               pm.mCardProfile.mCardResourceProfileExtension).2.1
         mCardProfileNameToCardProfileManagerMap :=
           StdMap.assign svc.mCardProfileNameToCardProfileManagerMap name pm },
       (rm.lock env { w with clockReads := w.clockReads + 1 } h
         pm.mCardProfile.mCardResourceProfileExtension).2.2) := by
  have hreg := getRegularCardResource_head env { w with clockReads := w.clockReads + 1 } svc
    name pm h rest rm hpm horder hR hk hrm (hlock _)
  have hp' : pm.mPlugins.isEmpty = false := by
    cases hq : pm.mPlugins with
    | nil => exact absurd hq hP
    | cons a l => rfl
  have hs : searchOnce env { w with clockReads := w.clockReads + 1 } svc name pm =
      getRegularCardResource env { w with clockReads := w.clockReads + 1 } svc name := by
    rcases hpool with hq | hq
    · simp [searchOnce, hp', hq]
    · cases hpp : pm.mPoolPlugins with
      | nil => simp [searchOnce, hp', hpp]
      | cons a l =>
        simp only [searchOnce, hp', hpp, hq, getRegularOrPoolCardResource, Bool.not_false,
          if_true, Bool.false_eq_true, if_false, List.isEmpty_cons]
        rw [hreg]
  simp only [getCardResource, searchLoop, hs, hreg]

end CardProfileManagerAdapter

namespace CardResourceServiceAdapter

theorem allocate_release_round (env : Env) (fuel : Nat) (w : World)
    (svc : CardResourceServiceAdapter) (name : String) (pm : CardProfileManagerAdapter)
    (h : CardResource) (rest : List CardResource) (rm : ReaderManagerAdapter)
    (hstarted : svc.mIsStarted = true) (hname : name ≠ "")
    (hpm : StdMap.find svc.mCardProfileNameToCardProfileManagerMap name = some pm)
    (hfirst : pm.mGlobalConfiguration.mAllocationStrategy = AllocationStrategy.FIRST)
    (hP : pm.mPlugins ≠ [])
    (hpool : pm.mPoolPlugins = [] ∨ pm.mGlobalConfiguration.mUsePoolFirst = false)
    (hR : pm.mCardResources = h :: rest)
    (hk : h.getReader.keypleReader = true)
    (hrm : StdMap.find svc.mReaderToReaderManagerMap h.getReader = some rm)
    (hfree : rm.mIsBusy = false)
    (hsel : rm.mSelectedCardResource = some h ∨
      ∀ n, ∃ s, env.select n pm.mCardProfile.mCardResourceProfileExtension rm.mReader = some s ∧
        ReaderManagerAdapter.areEquals (some h.getSmartCard) (some s) = true) :
    (call env w svc (ServiceCall.getCardResource name (fuel + 1))).1 = some h ∧
    (call env (call env w svc (ServiceCall.getCardResource name (fuel + 1))).2.2
      (call env w svc (ServiceCall.getCardResource name (fuel + 1))).2.1
      (ServiceCall.releaseCardResource (some h))).1 = none ∧
    (call env (call env w svc (ServiceCall.getCardResource name (fuel + 1))).2.2
      (call env w svc (ServiceCall.getCardResource name (fuel + 1))).2.1
      (ServiceCall.releaseCardResource (some h))).2.1.mIsStarted = true ∧
    StdMap.find (call env (call env w svc (ServiceCall.getCardResource name (fuel + 1))).2.2
      (call env w svc (ServiceCall.getCardResource name (fuel + 1))).2.1
      (ServiceCall.releaseCardResource
        (some h))).2.1.mCardProfileNameToCardProfileManagerMap name = some pm ∧
    ∃ rm', StdMap.find (call env (call env w svc (ServiceCall.getCardResource name
        (fuel + 1))).2.2
      (call env w svc (ServiceCall.getCardResource name (fuel + 1))).2.1
      (ServiceCall.releaseCardResource
        (some h))).2.1.mReaderToReaderManagerMap h.getReader = some rm' ∧
      rm'.mIsBusy = false ∧ rm'.mSelectedCardResource = some h := by
  have hlock : ∀ w', (rm.lock env w' h pm.mCardProfile.mCardResourceProfileExtension).1 =
      .ok true ∧
      (rm.lock env w' h pm.mCardProfile.mCardResourceProfileExtension).2.1.mSelectedCardResource =
        some h := by
    intro w'
    apply ReaderManagerAdapter.lock_of_free env w' rm h _ hfree
    rcases hsel with hs | hs
    · exact Or.inl hs
    · exact Or.inr (hs _)
  have hget := CardProfileManagerAdapter.getCardResource_head env fuel w svc name pm h rest rm
    hpm (fun i => CardProfileManagerAdapter.updateCardResourcesOrder_first env pm i hfirst)
    hP hpool hR hk hrm (fun w' => (hlock w').1)
  have hne : (name == "") = false := by simpa using hname
  have hcall : call env w svc (ServiceCall.getCardResource name (fuel + 1)) =
      (some h,
       { svc with
         mReaderToReaderManagerMap :=
           StdMap.assign svc.mReaderToReaderManagerMap h.getReader
             (rm.lock env { w with clockReads := w.clockReads + 1 } h
               pm.mCardProfile.mCardResourceProfileExtension).2.1
         mCardProfileNameToCardProfileManagerMap :=
           StdMap.assign svc.mCardProfileNameToCardProfileManagerMap name pm },
       (rm.lock env { w with clockReads := w.clockReads + 1 } h
         pm.mCardProfile.mCardResourceProfileExtension).2.2) := by
    simp only [call, getCardResource, hstarted, hne, hpm, hget, Bool.not_true,
      Bool.false_eq_true, if_false]
  rw [hcall]
  have hf := StdMap.find_assign_self svc.mReaderToReaderManagerMap h.getReader
    (rm.lock env { w with clockReads := w.clockReads + 1 } h
      pm.mCardProfile.mCardResourceProfileExtension).2.1 rm hrm
  have hrel := releaseCardResource_of_registered
    (rm.lock env { w with clockReads := w.clockReads + 1 } h
      pm.mCardProfile.mCardResourceProfileExtension).2.2
    { svc with
      mReaderToReaderManagerMap :=
        StdMap.assign svc.mReaderToReaderManagerMap h.getReader
          (rm.lock env { w with clockReads := w.clockReads + 1 } h
            pm.mCardProfile.mCardResourceProfileExtension).2.1
      mCardProfileNameToCardProfileManagerMap :=
        StdMap.assign svc.mCardProfileNameToCardProfileManagerMap name pm }
    h _ hstarted hf
  refine ⟨rfl, rfl, ?_, ?_, ?_⟩
  · simp only [call, hrel]
    exact hstarted
  · simp only [call, hrel]
    exact StdMap.find_assign_self _ _ _ pm hpm
  · simp only [call, hrel]
    refine ⟨_, StdMap.find_assign_self _ _ _ _ hf, rfl, ?_⟩
    exact (hlock _).2

theorem allocate_release_rounds (env : Env) (fuel : Nat) (name : String)
    (pm : CardProfileManagerAdapter) (h : CardResource) (rest : List CardResource)
    (hname : name ≠ "")
    (hfirst : pm.mGlobalConfiguration.mAllocationStrategy = AllocationStrategy.FIRST)
    (hP : pm.mPlugins ≠ [])
    (hpool : pm.mPoolPlugins = [] ∨ pm.mGlobalConfiguration.mUsePoolFirst = false)
    (hR : pm.mCardResources = h :: rest)
    (hk : h.getReader.keypleReader = true) (n : Nat) :
    ∀ (w : World) (svc : CardResourceServiceAdapter) (rm : ReaderManagerAdapter),
      svc.mIsStarted = true →
      StdMap.find svc.mCardProfileNameToCardProfileManagerMap name = some pm →
      StdMap.find svc.mReaderToReaderManagerMap h.getReader = some rm →
      rm.mIsBusy = false →
      (rm.mSelectedCardResource = some h ∨
        ∀ k, ∃ s, env.select k pm.mCardProfile.mCardResourceProfileExtension rm.mReader =
            some s ∧
          ReaderManagerAdapter.areEquals (some h.getSmartCard) (some s) = true) →
      (run env w svc (ServiceCall.allocateAndRelease name (fuel + 1) h n)).1 =
        List.replicate n h := by
  induction n with
  | zero => intro w svc rm _ _ _ _ _; rfl
  | succ n ih =>
    intro w svc rm hstarted hpm hrm hfree hsel
    obtain ⟨a1, a2, a3, a4, rm', a5, a6, a7⟩ := allocate_release_round env fuel w svc name pm h
      rest rm hstarted hname hpm hfirst hP hpool hR hk hrm hfree hsel
    have hrec := ih
      (call env (call env w svc (ServiceCall.getCardResource name (fuel + 1))).2.2
        (call env w svc (ServiceCall.getCardResource name (fuel + 1))).2.1
        (ServiceCall.releaseCardResource (some h))).2.2
      (call env (call env w svc (ServiceCall.getCardResource name (fuel + 1))).2.2
        (call env w svc (ServiceCall.getCardResource name (fuel + 1))).2.1
        (ServiceCall.releaseCardResource (some h))).2.1 rm' a3 a4 a5 a6 (Or.inl a7)
    simp only [ServiceCall.allocateAndRelease, run, a1, a2, hrec, List.replicate_succ]
    rfl

/-- C12, as stated, fails: under `FIRST`, with the head `resourceB` of the list lockable
(reader `X` is registered with a free manager that has `resourceB` selected), a profile
manager that has a pool plugin and asks the pools first returns, at each repetition of
`getCardResource` followed by `releaseCardResource(resourceB)`, a new card resource of
the pool reader and not `resourceB`; the list of the profile is unchanged. -/
theorem pools_asked_first_return_another_resource :
    (Scenario.profileManagerPoolFirst AllocationStrategy.FIRST
      [Scenario.resourceB]).mGlobalConfiguration.mAllocationStrategy =
        AllocationStrategy.FIRST ∧
    StdMap.find (Scenario.servicePoolFirst AllocationStrategy.FIRST
        [(Scenario.readerX, Scenario.managerXOnlyB 100)]
        [Scenario.resourceB]).mReaderToReaderManagerMap Scenario.resourceB.getReader =
      some (Scenario.managerXOnlyB 100) ∧
    (Scenario.managerXOnlyB 100).mIsBusy = false ∧
    (Scenario.managerXOnlyB 100).mSelectedCardResource = some Scenario.resourceB ∧
    (run Scenario.envPool {}
        (Scenario.servicePoolFirst AllocationStrategy.FIRST
          [(Scenario.readerX, Scenario.managerXOnlyB 100)] [Scenario.resourceB])
        (ServiceCall.allocateAndRelease "P1" 1 Scenario.resourceB 2)).1 =
      [{ id := 0, mReader := Scenario.readerPool, mSmartCard := Scenario.cardB },
       { id := 1, mReader := Scenario.readerPool, mSmartCard := Scenario.cardB }] ∧
    ((run Scenario.envPool {}
        (Scenario.servicePoolFirst AllocationStrategy.FIRST
          [(Scenario.readerX, Scenario.managerXOnlyB 100)] [Scenario.resourceB])
        (ServiceCall.allocateAndRelease "P1" 1 Scenario.resourceB
          2)).2.1.mCardProfileNameToCardProfileManagerMap.map
      (fun p => p.2.mCardResources)) = [[Scenario.resourceB]] := by
  refine ⟨rfl, rfl, rfl, rfl, rfl, rfl⟩

/-- C12, amended: order preservation under `FIRST`.  After `getRegularCardResource` the
list of a profile manager that allocates under `FIRST` is a sublist of the former one,
whatever the state: the order is unchanged (only card resources found unusable are
missing).  And when the head `h` of the list is lockable (its reader is registered with
a manager that is free, and `h` is the selected card resource or the extension selects
an equivalent card), in a profile manager that searches the regular readers before the
pools (it has no pool plugin, or `usePoolFirst` is false), `getRegularCardResource`
returns `h` and leaves the profile manager as it is, and `n` repetitions of
`getCardResource` followed by `releaseCardResource(h)` return `h` each time. -/
theorem first_returns_head_again (env : Env) (fuel n : Nat) (w : World)
    (svc : CardResourceServiceAdapter) (name : String) (pm : CardProfileManagerAdapter)
    (hpm : StdMap.find svc.mCardProfileNameToCardProfileManagerMap name = some pm)
    (hfirst : pm.mGlobalConfiguration.mAllocationStrategy = AllocationStrategy.FIRST) :
    (∃ pm', StdMap.find (CardProfileManagerAdapter.getRegularCardResource env w svc
          name).2.1.mCardProfileNameToCardProfileManagerMap name = some pm' ∧
        pm'.mCardResources.Sublist pm.mCardResources) ∧
    (∀ (h : CardResource) (rest : List CardResource) (rm : ReaderManagerAdapter),
      svc.mIsStarted = true → name ≠ "" → pm.mPlugins ≠ [] →
      (pm.mPoolPlugins = [] ∨ pm.mGlobalConfiguration.mUsePoolFirst = false) →
      pm.mCardResources = h :: rest →
      h.getReader.keypleReader = true →
      StdMap.find svc.mReaderToReaderManagerMap h.getReader = some rm →
      rm.mIsBusy = false →
      (rm.mSelectedCardResource = some h ∨
        ∀ k, ∃ s,
          env.select k pm.mCardProfile.mCardResourceProfileExtension rm.mReader = some s ∧
          ReaderManagerAdapter.areEquals (some h.getSmartCard) (some s) = true) →
      (CardProfileManagerAdapter.getRegularCardResource env w svc name).1 = .ok (some h) ∧
      StdMap.find (CardProfileManagerAdapter.getRegularCardResource env w svc
          name).2.1.mCardProfileNameToCardProfileManagerMap name = some pm ∧
      (run env w svc (ServiceCall.allocateAndRelease name (fuel + 1) h n)).1 =
        List.replicate n h) := by
  refine ⟨CardProfileManagerAdapter.getRegularCardResource_order env w svc name pm hpm hfirst,
    ?_⟩
  intro h rest rm hstarted hname hP hpool hR hk hrm hfree hsel
  have hlock := (ReaderManagerAdapter.lock_of_free env w rm h
    pm.mCardProfile.mCardResourceProfileExtension hfree
    (hsel.imp id (fun hs => hs _))).1
  have hreg := CardProfileManagerAdapter.getRegularCardResource_head env w svc name pm h rest
    rm hpm (fun i => CardProfileManagerAdapter.updateCardResourcesOrder_first env pm i hfirst)
    hR hk hrm hlock
  refine ⟨?_, ?_, ?_⟩
  · rw [hreg]
  · rw [hreg]
    exact StdMap.find_assign_self _ _ _ pm hpm
  · exact allocate_release_rounds env fuel name pm h rest hname hfirst hP hpool hR hk n w svc
      rm hstarted hpm hrm hfree hsel

theorem first_returns_head_again_witness :
    (run Scenario.envB {} Scenario.serviceOneReader
        (ServiceCall.allocateAndRelease "P1" 1 Scenario.resourceB 3)).1 =
      [Scenario.resourceB, Scenario.resourceB, Scenario.resourceB] :=
  ((first_returns_head_again Scenario.envB 0 3 {} Scenario.serviceOneReader "P1"
    (Scenario.profileManager AllocationStrategy.FIRST 100 [Scenario.resourceB]) rfl rfl).2
    Scenario.resourceB [] (Scenario.managerXOnlyB 100) rfl (by decide) (by decide)
    (Or.inl rfl) rfl rfl rfl rfl (Or.inl rfl)).2.2

end CardResourceServiceAdapter

/-! ## A reader connected while the service runs -/

namespace ReaderManagerAdapter

theorem activate_atRest (w : World) (rm : ReaderManagerAdapter) (h : rm.AtRest) :
    (rm.activate w).1 = .ok () ∧ (rm.activate w).2.1 = { rm with mIsActive := true } := by
  unfold activate
  cases hspi : rm.mReaderConfiguratorSpi with
  | none => exact absurd hspi h.1
  | some spi =>
    by_cases ha : rm.mIsActive = true
    · simp [ha]
    · simp [ha]

theorem matches_atRest (env : Env) (w : World) (rm : ReaderManagerAdapter) (ext : Nat)
    (h : rm.AtRest) :
    (rm.matches env w ext).2.1.AtRest ∧
    (rm.matches env w ext).2.1.mReader = rm.mReader ∧
    (rm.matches env w ext).2.1.mPlugin = rm.mPlugin ∧
    (rm.matches env w ext).2.1.mIsActive = rm.mIsActive ∧
    (∀ c ∈ rm.mCardResources, c ∈ (rm.matches env w ext).2.1.mCardResources) ∧
    (∀ s, env.select w.selections ext rm.mReader = some s →
      ∃ c, (rm.matches env w ext).1 = some c ∧
        c ∈ (rm.matches env w ext).2.1.mCardResources ∧
        areEquals (some c.getSmartCard) (some s) = true) := by
  obtain ⟨h1, h2, h3⟩ := h
  cases hsel : env.select w.selections ext rm.mReader with
  | none =>
    simp only [ReaderManagerAdapter.matches, hsel, unlock]
    exact ⟨⟨h1, rfl, h3⟩, trivial, trivial, trivial, fun c hc => hc, fun s hs => by cases hs⟩
  | some sc =>
    cases hf : rm.mCardResources.find? (fun c => areEquals (some c.getSmartCard) (some sc)) with
    | some a =>
      simp only [ReaderManagerAdapter.matches, hsel, unlock, getOrCreateCardResource, hf]
      refine ⟨⟨h1, rfl, h3⟩, trivial, trivial, trivial, fun c hc => hc, ?_⟩
      intro s hs
      cases hs
      exact ⟨a, rfl, List.mem_of_find?_eq_some hf, by simpa using List.find?_some hf⟩
    | none =>
      simp only [ReaderManagerAdapter.matches, hsel, unlock, getOrCreateCardResource, hf]
      refine ⟨⟨h1, rfl, ?_⟩, trivial, trivial, trivial, fun c hc => List.mem_append_left _ hc, ?_⟩
      · intro c hc
        rcases List.mem_append.1 hc with hc | hc
        · exact h3 c hc
        · rw [List.mem_singleton.1 hc]
          rfl
      · intro s hs
        cases hs
        refine ⟨_, rfl, List.mem_append_right _ (List.mem_singleton_self _), ?_⟩
        simp [areEquals, CardResource.getSmartCard]

end ReaderManagerAdapter

namespace CardProfileManagerAdapter

theorem initializeCardResource_atRest (env : Env) (w : World)
    (pm : CardProfileManagerAdapter) (rm : ReaderManagerAdapter) (h : rm.AtRest) :
    (initializeCardResource env w pm rm).1 = .ok () ∧
    (initializeCardResource env w pm rm).2.1.2.AtRest ∧
    (initializeCardResource env w pm rm).2.1.2.mReader = rm.mReader ∧
    (initializeCardResource env w pm rm).2.1.2.mPlugin = rm.mPlugin ∧
    (rm.mIsActive = true → (initializeCardResource env w pm rm).2.1.2.mIsActive = true) ∧
    (∀ c ∈ rm.mCardResources, c ∈ (initializeCardResource env w pm rm).2.1.2.mCardResources) := by
  unfold initializeCardResource
  split_ifs with hacc
  · obtain ⟨a1, a2⟩ := ReaderManagerAdapter.activate_atRest w rm h
    generalize rm.activate w = r at a1 a2
    obtain ⟨o, rm1, w1⟩ := r
    simp only at a1 a2
    subst a1 a2
    have hA : ({ rm with mIsActive := true } : ReaderManagerAdapter).AtRest := h
    obtain ⟨m1, m2, m3, m4, m5, _⟩ := ReaderManagerAdapter.matches_atRest env w1 _
      pm.mCardProfile.mCardResourceProfileExtension hA
    dsimp only
    split
    · split_ifs
      · exact ⟨rfl, m1, m2, m3, fun _ => m4, m5⟩
      · exact ⟨rfl, m1, m2, m3, fun _ => m4, m5⟩
    · exact ⟨rfl, m1, m2, m3, fun _ => m4, m5⟩
  · exact ⟨rfl, h, rfl, rfl, id, fun c hc => hc⟩

theorem onReaderConnected_atRest (env : Env) (w : World)
    (pm : CardProfileManagerAdapter) (rm : ReaderManagerAdapter) (h : rm.AtRest) :
    (onReaderConnected env w pm rm).1 = .ok () ∧
    (onReaderConnected env w pm rm).2.1.2.AtRest ∧
    (onReaderConnected env w pm rm).2.1.2.mReader = rm.mReader ∧
    (onReaderConnected env w pm rm).2.1.2.mPlugin = rm.mPlugin ∧
    (rm.mIsActive = true → (onReaderConnected env w pm rm).2.1.2.mIsActive = true) ∧
    (∀ c ∈ rm.mCardResources, c ∈ (onReaderConnected env w pm rm).2.1.2.mCardResources) := by
  unfold onReaderConnected
  split_ifs
  · exact initializeCardResource_atRest env w pm rm h
  · exact ⟨rfl, h, rfl, rfl, id, fun c hc => hc⟩
  · exact initializeCardResource_atRest env w pm rm h

theorem onReaderConnected_accepting (env : Env) (w : World)
    (pm : CardProfileManagerAdapter) (rm : ReaderManagerAdapter) (sc : SmartCard)
    (h : rm.AtRest)
    (hplugin : pm.mCardProfile.mPlugins = [] ∨ rm.mPlugin ∈ pm.mCardProfile.mPlugins)
    (hname : isReaderAccepted env pm rm.mReader = true)
    (hR : pm.mCardResources = [])
    (hsel : ∀ n, env.select n pm.mCardProfile.mCardResourceProfileExtension rm.mReader =
      some sc) :
    ∃ c, (onReaderConnected env w pm rm).2.1.1 = { pm with mCardResources := [c] } ∧
      c ∈ (onReaderConnected env w pm rm).2.1.2.mCardResources ∧
      ReaderManagerAdapter.areEquals (some c.getSmartCard) (some sc) = true ∧
      (onReaderConnected env w pm rm).2.1.2.mIsActive = true := by
  have hon : onReaderConnected env w pm rm = initializeCardResource env w pm rm := by
    unfold onReaderConnected
    split_ifs with h1 h2
    · rfl
    · exfalso
      rcases hplugin with hp | hp
      · simp [hp] at h1
      · exact h2 (List.any_eq_true.2 ⟨_, hp, by simp [ReaderManagerAdapter.getPlugin]⟩)
    · rfl
  rw [hon]
  unfold initializeCardResource
  simp only [ReaderManagerAdapter.getReader, hname, if_true]
  obtain ⟨a1, a2⟩ := ReaderManagerAdapter.activate_atRest w rm h
  generalize rm.activate w = r at a1 a2
  obtain ⟨o, rm1, w1⟩ := r
  simp only at a1 a2
  subst a1 a2
  have hA : ({ rm with mIsActive := true } : ReaderManagerAdapter).AtRest := h
  obtain ⟨_, _, _, m4, _, m6⟩ := ReaderManagerAdapter.matches_atRest env w1 _
    pm.mCardProfile.mCardResourceProfileExtension hA
  obtain ⟨c, c1, c2, c3⟩ := m6 sc (hsel _)
  refine ⟨c, ?_⟩
  simp only [c1, hR, Arrays.contains, List.not_mem_nil, decide_False, Bool.not_false, if_true,
    List.nil_append]
  exact ⟨trivial, c2, c3, m4⟩

end CardProfileManagerAdapter

namespace CardResourceServiceAdapter

theorem notifyReaderConnected_atRest (env : Env)
    (pms : StdMap String CardProfileManagerAdapter) :
    ∀ (rm : ReaderManagerAdapter) (w : World), rm.AtRest →
      (notifyReaderConnected env pms rm w).1 = .ok () ∧
      (notifyReaderConnected env pms rm w).2.2.1.AtRest ∧
      (notifyReaderConnected env pms rm w).2.2.1.mReader = rm.mReader ∧
      (notifyReaderConnected env pms rm w).2.2.1.mPlugin = rm.mPlugin ∧
      (rm.mIsActive = true → (notifyReaderConnected env pms rm w).2.2.1.mIsActive = true) ∧
      (∀ c ∈ rm.mCardResources,
        c ∈ (notifyReaderConnected env pms rm w).2.2.1.mCardResources) := by
  induction pms with
  | nil =>
    intro rm w h
    exact ⟨rfl, h, rfl, rfl, id, fun c hc => hc⟩
  | cons q rest ih =>
    intro rm w h
    obtain ⟨name, pm⟩ := q
    have hs := CardProfileManagerAdapter.onReaderConnected_atRest env w pm rm h
    simp only [notifyReaderConnected]
    generalize pm.onReaderConnected env w rm = r at hs
    obtain ⟨o, ⟨pm1, rm1⟩, w1⟩ := r
    obtain ⟨s1, s2, s3, s4, s5, s6⟩ := hs
    simp only at s1 s2 s3 s4 s5 s6
    subst s1
    obtain ⟨i1, i2, i3, i4, i5, i6⟩ := ih rm1 w1 s2
    exact ⟨i1, i2, i3.trans s3, i4.trans s4, fun ha => i5 (s5 ha), fun c hc => i6 c (s6 c hc)⟩

theorem notifyReaderConnected_accepting (env : Env) (name : String)
    (pm1 : CardProfileManagerAdapter) (reader : CardReader) (plugin : Plugin) (sc : SmartCard)
    (hplugin : pm1.mCardProfile.mPlugins = [] ∨ plugin ∈ pm1.mCardProfile.mPlugins)
    (hname : pm1.isReaderAccepted env reader = true)
    (hR : pm1.mCardResources = [])
    (hsel : ∀ n, env.select n pm1.mCardProfile.mCardResourceProfileExtension reader = some sc)
    (pms : StdMap String CardProfileManagerAdapter) :
    ∀ (rm : ReaderManagerAdapter) (w : World), rm.AtRest → rm.mReader = reader →
      rm.mPlugin = plugin → StdMap.find pms name = some pm1 →
      ∃ c, StdMap.find (notifyReaderConnected env pms rm w).2.1 name =
          some { pm1 with mCardResources := [c] } ∧
        c ∈ (notifyReaderConnected env pms rm w).2.2.1.mCardResources ∧
        ReaderManagerAdapter.areEquals (some c.getSmartCard) (some sc) = true ∧
        (notifyReaderConnected env pms rm w).2.2.1.mIsActive = true := by
  induction pms with
  | nil =>
    intro rm w _ _ _ hfind
    simp [StdMap.find] at hfind
  | cons q rest ih =>
    intro rm w h hr hp hfind
    obtain ⟨k, pm⟩ := q
    have hs := CardProfileManagerAdapter.onReaderConnected_atRest env w pm rm h
    simp only [StdMap.find] at hfind
    by_cases hk : k = name
    · rw [if_pos hk] at hfind
      cases hfind
      obtain ⟨c, c1, c2, c3, c4⟩ := CardProfileManagerAdapter.onReaderConnected_accepting env w
        pm1 rm sc h (hp ▸ hplugin) (hr ▸ hname) hR (hr ▸ hsel)
      simp only [notifyReaderConnected]
      generalize pm1.onReaderConnected env w rm = r at hs c1 c2 c4
      obtain ⟨o, ⟨pm2, rm1⟩, w1⟩ := r
      obtain ⟨s1, s2, s3, s4, s5, s6⟩ := hs
      simp only at s1 s2 s3 s4 s5 s6 c1 c2 c4
      subst s1
      obtain ⟨i1, i2, i3, i4, i5, i6⟩ := notifyReaderConnected_atRest env rest rm1 w1 s2
      refine ⟨c, ?_, i6 c c2, c3, i5 c4⟩
      simp only [StdMap.find, hk, if_true, c1]
    · rw [if_neg hk] at hfind
      simp only [notifyReaderConnected]
      generalize pm.onReaderConnected env w rm = r at hs
      obtain ⟨o, ⟨pm2, rm1⟩, w1⟩ := r
      obtain ⟨s1, s2, s3, s4, s5, s6⟩ := hs
      simp only at s1 s2 s3 s4 s5 s6
      subst s1
      obtain ⟨c, c1, c2, c3, c4⟩ := ih rm1 w1 s2 (s3.trans hr) (s4.trans hp) hfind
      refine ⟨c, ?_, c2, c3, c4⟩
      simp only [StdMap.find, hk, if_false]
      exact c1

end CardResourceServiceAdapter

namespace CardResourceServiceAdapter

theorem onReaderConnected_first_reader (env : Env) (w : World)
    (svc : CardResourceServiceAdapter) (cfg : CardResourceServiceConfiguratorAdapter)
    (reader : CardReader) (plugin : Plugin) (name : String)
    (pm1 : CardProfileManagerAdapter) (sc : SmartCard)
    (hcfg : svc.mConfigurator = some cfg)
    (hempty : svc.mReaderToReaderManagerMap = [])
    (hspi : ∃ cp, cfg.mConfiguredPlugins.find? (fun cp => decide (cp.mPlugin = plugin)) =
      some cp ∧ cp.mReaderConfiguratorSpi ≠ none)
    (hpm : StdMap.find svc.mCardProfileNameToCardProfileManagerMap name = some pm1)
    (hplugin : pm1.mCardProfile.mPlugins = [] ∨ plugin ∈ pm1.mCardProfile.mPlugins)
    (hname : pm1.isReaderAccepted env reader = true)
    (hR : pm1.mCardResources = [])
    (hsel : ∀ n, env.select n pm1.mCardProfile.mCardResourceProfileExtension reader =
      some sc) :
    ∃ c rm, (onReaderConnected env w svc reader plugin).1 = .ok () ∧
      (onReaderConnected env w svc reader plugin).2.1.mReaderToReaderManagerMap =
        [(reader, rm)] ∧
      (onReaderConnected env w svc reader plugin).2.1.mIsStarted = svc.mIsStarted ∧
      StdMap.find (onReaderConnected env w svc reader
          plugin).2.1.mCardProfileNameToCardProfileManagerMap name =
        some { pm1 with mCardResources := [c] } ∧
      rm.AtRest ∧ rm.mReader = reader ∧ rm.mIsActive = true ∧ c ∈ rm.mCardResources ∧
      ReaderManagerAdapter.areEquals (some c.getSmartCard) (some sc) = true := by
  obtain ⟨cp, hcp, hcpspi⟩ := hspi
  have hreg : registerReader cfg svc reader plugin =
      (ReaderManagerAdapter.create reader plugin cp.mReaderConfiguratorSpi
        cfg.mUsageTimeoutMillis,
       { svc with
         mReaderToReaderManagerMap :=
           [(reader, ReaderManagerAdapter.create reader plugin cp.mReaderConfiguratorSpi
             cfg.mUsageTimeoutMillis)]
         mPluginToObservableReadersMap :=
           (registerReader cfg svc reader plugin).2.mPluginToObservableReadersMap }) := by
    simp only [registerReader, hcp, hempty, StdMap.insert]
  have h0 : (ReaderManagerAdapter.create reader plugin cp.mReaderConfiguratorSpi
      cfg.mUsageTimeoutMillis).AtRest :=
    ⟨hcpspi, rfl, fun c hc => by simp [ReaderManagerAdapter.create] at hc⟩
  obtain ⟨n1, n2, n3, _, _, _⟩ := notifyReaderConnected_atRest env
    svc.mCardProfileNameToCardProfileManagerMap _ w h0
  obtain ⟨c, c1, c2, c3, c4⟩ := notifyReaderConnected_accepting env name pm1 reader plugin sc
    hplugin hname hR hsel svc.mCardProfileNameToCardProfileManagerMap _ w h0 rfl rfl hpm
  refine ⟨c, (notifyReaderConnected env svc.mCardProfileNameToCardProfileManagerMap
    (ReaderManagerAdapter.create reader plugin cp.mReaderConfiguratorSpi
      cfg.mUsageTimeoutMillis) w).2.2.1, ?_⟩
  simp only [onReaderConnected, hcfg]
  rw [hreg]
  simp only [hempty, StdMap.find, Option.isSome_none, Bool.false_eq_true, if_false, n1,
    ReaderManagerAdapter.isActive, c4, if_true, StdMap.assign]
  exact ⟨trivial, trivial, trivial, c1, n2, n3, trivial, c2, c3⟩

theorem onPluginEvent_one_reader (env : Env) (w : World) (svc : CardResourceServiceAdapter)
    (event : PluginEvent) (plugin : Plugin) (readerName : String) (reader : CardReader)
    (hstarted : svc.mIsStarted = true)
    (htype : event.type = PluginEventType.READER_CONNECTED)
    (hnames : event.readerNames = [readerName])
    (hplug : env.getPlugin w.pluginQueries event.pluginName = some plugin)
    (hreader : env.pluginGetReader w.readerQueries plugin readerName = some reader)
    (hok : ∀ W, (onReaderConnected env W svc reader plugin).1 = .ok ()) :
    onPluginEvent env w svc event =
      onReaderConnected env
        { w with
          pluginQueries := w.pluginQueries + 1
          readerQueries := w.readerQueries + 1 } svc reader plugin := by
  simp only [onPluginEvent, hstarted, htype, hnames, hplug, connectReaders, hreader,
    Bool.not_true, Bool.false_eq_true, if_false, if_true]
  have h1 := hok { w with
    pluginQueries := w.pluginQueries + 1
    readerQueries := w.readerQueries + 1 }
  generalize onReaderConnected env { w with
    pluginQueries := w.pluginQueries + 1
    readerQueries := w.readerQueries + 1 } svc reader plugin = r at h1 ⊢
  obtain ⟨o, svc1, w2⟩ := r
  simp only at h1
  subst h1
  rfl

/-- C19, as stated, fails: the service is started without any reader, the plugin reports
the reader `X`, which `P1` accepts and which holds a matching card; the event is
handled and `X` is registered with an active manager.  When `P1` has a pool plugin and
asks the pools first, `getCardResource("P1")` returns a card resource of the reader that
the pool plugin allocates, not of `X`.  And under `CYCLIC`, in a world where the
out-of-contract rotation fills the slot with what lay behind the vector, it returns that
stray handle, not a card resource of `X`. -/
theorem hot_plugged_reader_behind_pool_or_cyclic :
    (onPluginEvent Scenario.envHotPlugPool {}
      (Scenario.servicePoolFirst AllocationStrategy.FIRST [] [])
      Scenario.eventReaderXConnected).1 = .ok () ∧
    ((StdMap.find (onPluginEvent Scenario.envHotPlugPool {}
        (Scenario.servicePoolFirst AllocationStrategy.FIRST [] [])
        Scenario.eventReaderXConnected).2.1.mReaderToReaderManagerMap Scenario.readerX).map
      (fun rm => rm.isActive)) = some true ∧
    (getCardResource Scenario.envHotPlugPool 1
      (onPluginEvent Scenario.envHotPlugPool {}
        (Scenario.servicePoolFirst AllocationStrategy.FIRST [] [])
        Scenario.eventReaderXConnected).2.2
      (onPluginEvent Scenario.envHotPlugPool {}
        (Scenario.servicePoolFirst AllocationStrategy.FIRST [] [])
        Scenario.eventReaderXConnected).2.1 "P1").1 =
      some (.ok (some { id := 1, mReader := Scenario.readerPool,
                        mSmartCard := Scenario.cardB })) ∧
    Scenario.readerPool ≠ Scenario.readerX ∧
    (onPluginEvent Scenario.envHotPlugOverrun {}
      (Scenario.service AllocationStrategy.CYCLIC 100 [] [])
      Scenario.eventReaderXConnected).1 = .ok () ∧
    ((StdMap.find (onPluginEvent Scenario.envHotPlugOverrun {}
        (Scenario.service AllocationStrategy.CYCLIC 100 [] [])
        Scenario.eventReaderXConnected).2.1.mReaderToReaderManagerMap Scenario.readerX).map
      (fun rm => rm.isActive)) = some true ∧
    (getCardResource Scenario.envHotPlugOverrun 1
      (onPluginEvent Scenario.envHotPlugOverrun {}
        (Scenario.service AllocationStrategy.CYCLIC 100 [] [])
        Scenario.eventReaderXConnected).2.2
      (onPluginEvent Scenario.envHotPlugOverrun {}
        (Scenario.service AllocationStrategy.CYCLIC 100 [] [])
        Scenario.eventReaderXConnected).2.1 "P1").1 =
      some (.ok (some Scenario.resourceStray)) ∧
    Scenario.resourceStray.getReader ≠ Scenario.readerX := by
  refine ⟨rfl, rfl, rfl, by decide, rfl, rfl, rfl, by decide⟩

/-- C19, amended: hot-plug.  The service is started and has no reader manager.  A
`READER_CONNECTED` plugin event names one reader, which the plugin knows; the plugin
is configured with a reader configurator; the profile registered under the non-empty
name `name` has no candidate yet, accepts the plugin (it is one of its regular plugins,
and the plugin list of the profile is empty or contains it) and the name of the
reader, does not ask the pools first, and allocates under `FIRST` or under `RANDOM`
with a shuffle that permutes; the extension of the profile selects a card on the
reader.  Then the event is handled without exception, afterwards the reader is
registered with an active manager, and `getCardResource(name)` returns a card resource
of that reader. -/
theorem hot_plugged_reader_is_allocated (env : Env) (fuel : Nat) (w : World)
    (svc : CardResourceServiceAdapter) (cfg : CardResourceServiceConfiguratorAdapter)
    (event : PluginEvent) (plugin : Plugin) (readerName : String) (reader : CardReader)
    (name : String) (pm1 : CardProfileManagerAdapter) (sc : SmartCard)
    (hstarted : svc.mIsStarted = true)
    (hcfg : svc.mConfigurator = some cfg)
    (hempty : svc.mReaderToReaderManagerMap = [])
    (htype : event.type = PluginEventType.READER_CONNECTED)
    (hnames : event.readerNames = [readerName])
    (hplug : env.getPlugin w.pluginQueries event.pluginName = some plugin)
    (hreader : env.pluginGetReader w.readerQueries plugin readerName = some reader)
    (hk : reader.keypleReader = true)
    (hspi : ∃ cp, cfg.mConfiguredPlugins.find? (fun cp => decide (cp.mPlugin = plugin)) =
      some cp ∧ cp.mReaderConfiguratorSpi ≠ none)
    (hprofile : name ≠ "")
    (hpm : StdMap.find svc.mCardProfileNameToCardProfileManagerMap name = some pm1)
    (hplugin : pm1.mCardProfile.mPlugins = [] ∨ plugin ∈ pm1.mCardProfile.mPlugins)
    (hregular : plugin ∈ pm1.mPlugins)
    (hname : pm1.isReaderAccepted env reader = true)
    (hR : pm1.mCardResources = [])
    (hpool : pm1.mPoolPlugins = [] ∨ pm1.mGlobalConfiguration.mUsePoolFirst = false)
    (hstrategy : pm1.mGlobalConfiguration.mAllocationStrategy = AllocationStrategy.FIRST ∨
      (pm1.mGlobalConfiguration.mAllocationStrategy = AllocationStrategy.RANDOM ∧
        ∀ l, (env.shuffle l).Perm l))
    (hsel : ∀ n, env.select n pm1.mCardProfile.mCardResourceProfileExtension reader =
      some sc) :
    (onPluginEvent env w svc event).1 = .ok () ∧
    ∃ rm c,
      StdMap.find (onPluginEvent env w svc event).2.1.mReaderToReaderManagerMap reader =
        some rm ∧
      rm.isActive = true ∧
      (getCardResource env (fuel + 1) (onPluginEvent env w svc event).2.2
        (onPluginEvent env w svc event).2.1 name).1 = some (.ok (some c)) ∧
      c.getReader = reader := by
  have key := fun W => onReaderConnected_first_reader env W svc cfg reader plugin name pm1 sc
    hcfg hempty hspi hpm hplugin hname hR hsel
  have hev := onPluginEvent_one_reader env w svc event plugin readerName reader hstarted htype
    hnames hplug hreader (fun W => by obtain ⟨c, rm, k1, _⟩ := key W; exact k1)
  rw [hev]
  obtain ⟨c, rm, k1, k2, k3, k4, k5, k6, k7, k8, k9⟩ := key { w with
    pluginQueries := w.pluginQueries + 1
    readerQueries := w.readerQueries + 1 }
  generalize onReaderConnected env { w with
    pluginQueries := w.pluginQueries + 1
    readerQueries := w.readerQueries + 1 } svc reader plugin = r at k1 k2 k3 k4 ⊢
  obtain ⟨o, svc1, w1⟩ := r
  simp only at k1 k2 k3 k4 ⊢
  have hc : c.getReader = reader := (k5.2.2 c k8).trans k6
  have hfind : StdMap.find svc1.mReaderToReaderManagerMap c.getReader = some rm := by
    rw [k2, hc]
    simp [StdMap.find]
  have horder : ∀ i, CardProfileManagerAdapter.updateCardResourcesOrder env
      { pm1 with mCardResources := [c] } i = { pm1 with mCardResources := [c] } := by
    intro i
    rcases hstrategy with hs | ⟨hs, hperm⟩
    · exact CardProfileManagerAdapter.updateCardResourcesOrder_first env _ i hs
    · have hsh : env.shuffle [c] = [c] := List.perm_singleton.1 (hperm [c])
      simp [CardProfileManagerAdapter.updateCardResourcesOrder, hs, hsh]
  have hlock : ∀ W, (rm.lock env W c pm1.mCardProfile.mCardResourceProfileExtension).1 =
      .ok true := fun W =>
    (ReaderManagerAdapter.lock_of_free env W rm c _ k5.2.1
      (Or.inr ⟨sc, k6 ▸ hsel _, k9⟩)).1
  have hget := CardProfileManagerAdapter.getCardResource_head env fuel w1 svc1 name
    { pm1 with mCardResources := [c] } c [] rm k4 horder
    (List.ne_nil_of_mem hregular) hpool rfl (hc ▸ hk) hfind hlock
  have hne : (name == "") = false := by simpa using hprofile
  refine ⟨k1, rm, c, ?_, k7, ?_, hc⟩
  · rw [k2]
    simp [StdMap.find]
  · simp only [getCardResource, k3, hstarted, hne, k4, hget, Bool.not_true,
      Bool.false_eq_true, if_false]

theorem hot_plugged_reader_is_allocated_witness :
    (onPluginEvent Scenario.envHotPlug {} Scenario.serviceNoReader
      Scenario.eventReaderXConnected).1 = .ok () ∧
    ∃ rm c,
      StdMap.find (onPluginEvent Scenario.envHotPlug {} Scenario.serviceNoReader
        Scenario.eventReaderXConnected).2.1.mReaderToReaderManagerMap Scenario.readerX =
        some rm ∧
      rm.isActive = true ∧
      (getCardResource Scenario.envHotPlug 1
        (onPluginEvent Scenario.envHotPlug {} Scenario.serviceNoReader
          Scenario.eventReaderXConnected).2.2
        (onPluginEvent Scenario.envHotPlug {} Scenario.serviceNoReader
          Scenario.eventReaderXConnected).2.1 "P1").1 = some (.ok (some c)) ∧
      c.getReader = Scenario.readerX :=
  hot_plugged_reader_is_allocated Scenario.envHotPlug 0 {} Scenario.serviceNoReader
    (Scenario.configuration AllocationStrategy.FIRST 100) Scenario.eventReaderXConnected
    Scenario.plugin1 "X" Scenario.readerX "P1"
    (Scenario.profileManager AllocationStrategy.FIRST 100 []) Scenario.cardB
    rfl rfl rfl rfl rfl rfl rfl rfl
    ⟨{ mPlugin := Scenario.plugin1, mReaderConfiguratorSpi := some 1 }, rfl, by decide⟩
    (by decide) rfl (Or.inl rfl) (by decide) rfl rfl (Or.inl rfl) (Or.inl rfl)
    (fun _ => rfl)

end CardResourceServiceAdapter

/-! ## What only `configure`, `start` and `stop` change -/

namespace CardResourceServiceAdapter

theorem releaseCardResource_lifeCycle (w : World) (svc : CardResourceServiceAdapter)
    (c : Option CardResource) :
    (releaseCardResource w svc c).2.1.lifeCycle = svc.lifeCycle := by
  unfold releaseCardResource
  split_ifs
  · rfl
  · split
    · rfl
    · split
      · rfl
      · split <;> rfl

theorem removeCardResource_lifeCycle (w : World) (svc : CardResourceServiceAdapter)
    (c : Option CardResource) :
    (removeCardResource w svc c).2.1.lifeCycle = svc.lifeCycle := by
  have h := releaseCardResource_lifeCycle w svc c
  unfold removeCardResource
  generalize releaseCardResource w svc c = rel at h
  obtain ⟨o, s1, w1⟩ := rel
  cases o with
  | error e => exact h
  | ok u =>
    dsimp only at h ⊢
    split
    · exact h
    · split_ifs
      · exact h
      · split
        · exact h
        · exact h

theorem removeCardResources_lifeCycle (l : List CardResource) :
    ∀ (w : World) (svc : CardResourceServiceAdapter),
      (removeCardResources w svc l).2.1.lifeCycle = svc.lifeCycle := by
  induction l with
  | nil => intro w svc; rfl
  | cons c rest ih =>
    intro w svc
    have h := removeCardResource_lifeCycle w svc (some c)
    simp only [removeCardResources]
    generalize removeCardResource w svc (some c) = rem at h
    obtain ⟨o, s1, w1⟩ := rem
    cases o with
    | error e => exact h
    | ok u =>
      dsimp only at h ⊢
      rw [ih w1 s1]
      exact h

end CardResourceServiceAdapter

namespace CardProfileManagerAdapter

theorem lockFirstAvailable_lifeCycle (env : Env) (ext : Nat) (l : List CardResource) :
    ∀ (i : Nat) (w : World) (svc : CardResourceServiceAdapter) (unusable : List CardResource),
      (lockFirstAvailable env ext l i w svc unusable).2.2.1.lifeCycle = svc.lifeCycle := by
  induction l with
  | nil => intro i w svc unusable; rfl
  | cons c rest ih =>
    intro i w svc unusable
    simp only [lockFirstAvailable]
    split
    · split
      · rfl
      · rw [ih]
        rfl
      · rw [ih]
        rfl
      · rfl
    · exact ih _ _ _ _

theorem getRegularCardResource_lifeCycle (env : Env) (w : World)
    (svc : CardResourceServiceAdapter) (name : String) :
    (getRegularCardResource env w svc name).2.1.lifeCycle = svc.lifeCycle := by
  unfold getRegularCardResource
  split
  · rfl
  · next pm hpm =>
    have hw := lockFirstAvailable_lifeCycle env
      pm.mCardProfile.mCardResourceProfileExtension pm.mCardResources 0 w svc []
    generalize lockFirstAvailable env pm.mCardProfile.mCardResourceProfileExtension
      pm.mCardResources 0 w svc [] = walk at hw
    obtain ⟨found, unusable, svc1, w1⟩ := walk
    dsimp only at hw ⊢
    cases found with
    | error e => exact hw
    | ok found =>
      dsimp only
      have ht : ∀ taken : Option CardResource × CardResourceServiceAdapter,
          taken.2.lifeCycle = svc.lifeCycle →
          (match CardResourceServiceAdapter.removeCardResources w1 taken.2 unusable with
            | (.error e, svc3, w3) =>
              ((.error e, svc3, w3) :
                Except Exception (Option CardResource) × CardResourceServiceAdapter × World)
            | (.ok _, svc3, w3) => (.ok taken.1, svc3, w3)).2.1.lifeCycle = svc.lifeCycle := by
        intro taken htaken
        have hr := CardResourceServiceAdapter.removeCardResources_lifeCycle unusable w1 taken.2
        generalize CardResourceServiceAdapter.removeCardResources w1 taken.2 unusable = rem
          at hr
        obtain ⟨o, s3, w3⟩ := rem
        cases o with
        | error e => exact hr.trans htaken
        | ok u => exact hr.trans htaken
      apply ht
      cases found with
      | none => exact hw
      | some p => exact hw

theorem allocateFromPools_lifeCycle (env : Env) (pm : CardProfileManagerAdapter)
    (l : List Plugin) :
    ∀ (w : World) (svc : CardResourceServiceAdapter),
      (allocateFromPools env pm l w svc).2.1.lifeCycle = svc.lifeCycle := by
  induction l with
  | nil => intro w svc; rfl
  | cons p rest ih =>
    intro w svc
    simp only [allocateFromPools]
    split
    · split
      · rfl
      · exact ih _ _
    · exact ih _ _
    · exact ih _ _

theorem getPoolCardResource_lifeCycle (env : Env) (w : World)
    (svc : CardResourceServiceAdapter) (name : String) :
    (getPoolCardResource env w svc name).2.1.lifeCycle = svc.lifeCycle := by
  unfold getPoolCardResource
  split
  · rfl
  · exact allocateFromPools_lifeCycle env _ _ w svc

theorem getRegularOrPoolCardResource_lifeCycle (env : Env) (w : World)
    (svc : CardResourceServiceAdapter) (name : String) (usePoolFirst : Bool) :
    (getRegularOrPoolCardResource env w svc name usePoolFirst).2.1.lifeCycle =
      svc.lifeCycle := by
  unfold getRegularOrPoolCardResource
  split_ifs
  · have h := getPoolCardResource_lifeCycle env w svc name
    generalize getPoolCardResource env w svc name = r at h
    split
    · next svc1 w1 =>
      rw [getRegularCardResource_lifeCycle]
      exact h
    · exact h
  · have h := getRegularCardResource_lifeCycle env w svc name
    generalize getRegularCardResource env w svc name = r at h
    split
    · next svc1 w1 =>
      rw [getPoolCardResource_lifeCycle]
      exact h
    · exact h

theorem searchOnce_lifeCycle (env : Env) (w : World) (svc : CardResourceServiceAdapter)
    (name : String) (pm : CardProfileManagerAdapter) :
    (searchOnce env w svc name pm).2.1.lifeCycle = svc.lifeCycle := by
  unfold searchOnce
  split_ifs
  · exact getRegularOrPoolCardResource_lifeCycle env w svc name _
  · exact getRegularCardResource_lifeCycle env w svc name
  · exact getPoolCardResource_lifeCycle env w svc name

theorem searchLoop_lifeCycle (env : Env) (name : String) (pm : CardProfileManagerAdapter)
    (maxTime : Nat) (fuel : Nat) :
    ∀ (w : World) (svc : CardResourceServiceAdapter),
      (searchLoop env name pm maxTime fuel w svc).2.1.lifeCycle = svc.lifeCycle := by
  induction fuel with
  | zero => intro w svc; rfl
  | succ fuel ih =>
    intro w svc
    have h := searchOnce_lifeCycle env w svc name pm
    simp only [searchLoop]
    generalize searchOnce env w svc name pm = r at h
    obtain ⟨o, svc1, w1⟩ := r
    cases o with
    | error e => exact h
    | ok found =>
      cases found with
      | some c => exact h
      | none =>
        dsimp only at h ⊢
        split_ifs
        · rw [ih]
          exact h
        · exact h
        · exact h

theorem profileGetCardResource_lifeCycle (env : Env) (fuel : Nat) (w : World)
    (svc : CardResourceServiceAdapter) (name : String) (pm : CardProfileManagerAdapter) :
    (getCardResource env fuel w svc name pm).2.1.lifeCycle = svc.lifeCycle :=
  searchLoop_lifeCycle env name pm _ fuel _ svc

end CardProfileManagerAdapter

namespace CardResourceServiceAdapter

theorem getCardResource_lifeCycle (env : Env) (fuel : Nat) (w : World)
    (svc : CardResourceServiceAdapter) (name : String) :
    (getCardResource env fuel w svc name).2.1.lifeCycle = svc.lifeCycle := by
  unfold getCardResource
  split_ifs
  · rfl
  · rfl
  · split
    · rfl
    · exact CardProfileManagerAdapter.profileGetCardResource_lifeCycle env fuel w svc name _

theorem removeCardResourcesOf_lifeCycle (reader : CardReader) (steps : Nat) :
    ∀ (i : Nat) (w : World) (svc : CardResourceServiceAdapter),
      (removeCardResourcesOf reader steps i w svc).2.1.lifeCycle = svc.lifeCycle := by
  induction steps with
  | zero => intro i w svc; rfl
  | succ steps ih =>
    intro i w svc
    simp only [removeCardResourcesOf]
    split
    · rfl
    · split
      · rfl
      · next cardResource _ =>
        have h := removeCardResource_lifeCycle w svc (some cardResource)
        generalize removeCardResource w svc (some cardResource) = rem at h
        obtain ⟨o, s1, w1⟩ := rem
        cases o with
        | error e => exact h
        | ok u =>
          dsimp only at h ⊢
          rw [ih]
          exact h

theorem onReaderEvent_lifeCycle (env : Env) (w : World) (svc : CardResourceServiceAdapter)
    (readerEvent : CardReaderEvent) :
    (onReaderEvent env w svc readerEvent).2.1.lifeCycle = svc.lifeCycle := by
  unfold onReaderEvent
  by_cases hs : (!svc.mIsStarted) = true
  · rw [if_pos hs]
  · rw [if_neg hs]
    split
    · rfl
    · split
      · rfl
      · by_cases ht : readerEvent.type = CardReaderEventType.CARD_INSERTED ∨
            readerEvent.type = CardReaderEventType.CARD_MATCHED
        · rw [if_pos ht]
          rfl
        · rw [if_neg ht]
          exact removeCardResourcesOf_lifeCycle _ _ _ _ _

theorem unregisterReader_lifeCycle (w : World) (svc : CardResourceServiceAdapter)
    (reader : CardReader) (plugin : Option Plugin) :
    (unregisterReader w svc reader plugin).1.lifeCycle = svc.lifeCycle := by
  unfold unregisterReader
  cases plugin with
  | none => rfl
  | some p =>
    dsimp only
    split
    · rfl
    · split_ifs <;> rfl

theorem onReaderConnected_lifeCycle (env : Env) (w : World) (svc : CardResourceServiceAdapter)
    (reader : CardReader) (plugin : Plugin) :
    (onReaderConnected env w svc reader plugin).2.1.lifeCycle = svc.lifeCycle := by
  unfold onReaderConnected
  cases hc : svc.mConfigurator with
  | none => rfl
  | some cfg =>
    dsimp only
    have hreg : (registerReader cfg svc reader plugin).2.lifeCycle = svc.lifeCycle := rfl
    generalize registerReader cfg svc reader plugin = reg at hreg
    generalize notifyReaderConnected env reg.2.mCardProfileNameToCardProfileManagerMap reg.1
      w = r
    obtain ⟨o, m, rm, w1⟩ := r
    cases o with
    | error e => exact hreg
    | ok u =>
      dsimp only
      by_cases ha : rm.isActive = true
      · rw [if_pos ha]
        exact hreg
      · rw [if_neg ha]
        dsimp only
        rw [unregisterReader_lifeCycle]
        exact hreg

theorem onReaderDisconnected_lifeCycle (w : World) (svc : CardResourceServiceAdapter)
    (reader : CardReader) (plugin : Option Plugin) :
    (onReaderDisconnected w svc reader plugin).2.1.lifeCycle = svc.lifeCycle := by
  unfold onReaderDisconnected
  split
  · rfl
  · next readerManager _ =>
    have h : (onCardRemoved w svc reader readerManager).2.1.lifeCycle = svc.lifeCycle :=
      removeCardResourcesOf_lifeCycle _ _ _ _ _
    generalize onCardRemoved w svc reader readerManager = r at h
    obtain ⟨o, s1, w1⟩ := r
    cases o with
    | error e => exact h
    | ok u =>
      dsimp only at h ⊢
      rw [unregisterReader_lifeCycle]
      exact h

theorem connectReaders_lifeCycle (env : Env) (plugin : Option Plugin) (l : List String) :
    ∀ (w : World) (svc : CardResourceServiceAdapter),
      (connectReaders env plugin l w svc).2.1.lifeCycle = svc.lifeCycle := by
  induction l with
  | nil => intro w svc; rfl
  | cons readerName rest ih =>
    intro w svc
    cases plugin with
    | none => rfl
    | some p =>
      simp only [connectReaders]
      split
      · exact ih _ _
      · next reader _ =>
        have h := onReaderConnected_lifeCycle env
          { w with readerQueries := w.readerQueries + 1 } svc reader p
        generalize onReaderConnected env
          { w with readerQueries := w.readerQueries + 1 } svc reader p = r at h
        obtain ⟨o, s1, w1⟩ := r
        cases o with
        | error e => exact h
        | ok u =>
          dsimp only at h ⊢
          rw [ih]
          exact h

theorem disconnectReaders_lifeCycle (plugin : Option Plugin) (l : List String) :
    ∀ (w : World) (svc : CardResourceServiceAdapter),
      (disconnectReaders plugin l w svc).2.1.lifeCycle = svc.lifeCycle := by
  induction l with
  | nil => intro w svc; rfl
  | cons readerName rest ih =>
    intro w svc
    simp only [disconnectReaders]
    split
    · exact ih _ _
    · next reader _ =>
      have h := onReaderDisconnected_lifeCycle w svc reader plugin
      generalize onReaderDisconnected w svc reader plugin = r at h
      obtain ⟨o, s1, w1⟩ := r
      cases o with
      | error e => exact h
      | ok u =>
        dsimp only at h ⊢
        rw [ih]
        exact h

theorem onPluginEvent_lifeCycle (env : Env) (w : World) (svc : CardResourceServiceAdapter)
    (pluginEvent : PluginEvent) :
    (onPluginEvent env w svc pluginEvent).2.1.lifeCycle = svc.lifeCycle := by
  unfold onPluginEvent
  split_ifs
  · rfl
  · exact connectReaders_lifeCycle _ _ _ _ _
  · exact disconnectReaders_lifeCycle _ _ _ _

end CardResourceServiceAdapter

/-! ## Configuration, start and stop -/

namespace CardProfileManagerAdapter

theorem initializeCardResource_thrown (env : Env) (w : World)
    (pm : CardProfileManagerAdapter) (rm : ReaderManagerAdapter) :
    (initializeCardResource env w pm rm).1 = .ok () ∨
      (initializeCardResource env w pm rm).1 = .error Exception.Undefined := by
  unfold initializeCardResource
  split_ifs
  · have ha : (rm.activate w).1 = .ok () ∨ (rm.activate w).1 = .error Exception.Undefined := by
      unfold ReaderManagerAdapter.activate
      split_ifs
      · split
        · exact Or.inr rfl
        · exact Or.inl rfl
      · exact Or.inl rfl
    generalize rm.activate w = r at ha
    obtain ⟨o, rm1, w1⟩ := r
    cases o with
    | error e =>
      rcases ha with ha | ha
      · cases ha
      · exact Or.inr ha
    | ok u =>
      dsimp only
      split
      · split_ifs <;> exact Or.inl rfl
      · exact Or.inl rfl
  · exact Or.inl rfl

theorem initializeCardResources_spec (env : Env) (l : List CardReader) :
    ∀ (w : World) (svc : CardResourceServiceAdapter) (pm : CardProfileManagerAdapter),
      ((initializeCardResources env l w svc pm).1 = .ok () ∨
        (initializeCardResources env l w svc pm).1 = .error Exception.Undefined) ∧
      (initializeCardResources env l w svc pm).2.1.2.lifeCycle = svc.lifeCycle := by
  induction l with
  | nil => intro w svc pm; exact ⟨Or.inl rfl, rfl⟩
  | cons reader rest ih =>
    intro w svc pm
    simp only [initializeCardResources]
    split
    · exact ⟨Or.inr rfl, rfl⟩
    · next rm _ =>
      have h := initializeCardResource_thrown env w pm rm
      generalize initializeCardResource env w pm rm = r at h
      obtain ⟨o, ⟨pm1, rm1⟩, w1⟩ := r
      cases o with
      | error e => exact ⟨by simpa using h, rfl⟩
      | ok u =>
        dsimp only
        obtain ⟨i1, i2⟩ := ih w1
          { svc with
            mReaderToReaderManagerMap := StdMap.assign svc.mReaderToReaderManagerMap reader rm1 }
          pm1
        exact ⟨i1, i2⟩

theorem initializeCardResourcesUsingProfilePlugins_spec (env : Env) (l : List Plugin) :
    ∀ (w : World) (svc : CardResourceServiceAdapter) (pm : CardProfileManagerAdapter),
      ((initializeCardResourcesUsingProfilePlugins env l w svc pm).1 = .ok () ∨
        (initializeCardResourcesUsingProfilePlugins env l w svc pm).1 =
          .error Exception.Undefined) ∧
      (initializeCardResourcesUsingProfilePlugins env l w svc pm).2.1.2.lifeCycle =
        svc.lifeCycle := by
  induction l with
  | nil => intro w svc pm; exact ⟨Or.inl rfl, rfl⟩
  | cons plugin rest ih =>
    intro w svc pm
    simp only [initializeCardResourcesUsingProfilePlugins]
    split_ifs
    · exact ih _ _ _
    · have h := initializeCardResources_spec env
        (env.pluginGetReaders w.readerListQueries plugin)
        { w with readerListQueries := w.readerListQueries + 1 } svc
        { pm with mPlugins := pm.mPlugins ++ [plugin] }
      generalize initializeCardResources env
        (env.pluginGetReaders w.readerListQueries plugin)
        { w with readerListQueries := w.readerListQueries + 1 } svc
        { pm with mPlugins := pm.mPlugins ++ [plugin] } = r at h
      obtain ⟨o, ⟨pm1, svc1⟩, w1⟩ := r
      cases o with
      | error e => exact h
      | ok u =>
        dsimp only at h ⊢
        obtain ⟨i1, i2⟩ := ih w1 svc1 pm1
        exact ⟨i1, i2.trans h.2⟩

theorem initializeCardResourcesUsingDefaultPlugins_spec (env : Env) (l : List Plugin) :
    ∀ (w : World) (svc : CardResourceServiceAdapter) (pm : CardProfileManagerAdapter),
      ((initializeCardResourcesUsingDefaultPlugins env l w svc pm).1 = .ok () ∨
        (initializeCardResourcesUsingDefaultPlugins env l w svc pm).1 =
          .error Exception.Undefined) ∧
      (initializeCardResourcesUsingDefaultPlugins env l w svc pm).2.1.2.lifeCycle =
        svc.lifeCycle := by
  induction l with
  | nil => intro w svc pm; exact ⟨Or.inl rfl, rfl⟩
  | cons plugin rest ih =>
    intro w svc pm
    simp only [initializeCardResourcesUsingDefaultPlugins]
    have h := initializeCardResources_spec env
      (env.pluginGetReaders w.readerListQueries plugin)
      { w with readerListQueries := w.readerListQueries + 1 } svc
      { pm with mPlugins := pm.mPlugins ++ [plugin] }
    generalize initializeCardResources env
      (env.pluginGetReaders w.readerListQueries plugin)
      { w with readerListQueries := w.readerListQueries + 1 } svc
      { pm with mPlugins := pm.mPlugins ++ [plugin] } = r at h
    obtain ⟨o, ⟨pm1, svc1⟩, w1⟩ := r
    cases o with
    | error e => exact h
    | ok u =>
      dsimp only at h ⊢
      obtain ⟨i1, i2⟩ := ih w1 svc1 pm1
      exact ⟨i1, i2.trans h.2⟩

theorem create_spec (env : Env) (w : World) (svc : CardResourceServiceAdapter)
    (cardProfile : CardResourceProfileConfigurator)
    (cfg : CardResourceServiceConfiguratorAdapter) :
    ((create env w svc cardProfile cfg).1 = .ok () ∨
      (create env w svc cardProfile cfg).1 = .error Exception.Undefined) ∧
    (create env w svc cardProfile cfg).2.1.2.lifeCycle = svc.lifeCycle := by
  unfold create
  dsimp only
  split_ifs
  · exact initializeCardResourcesUsingProfilePlugins_spec env _ _ _ _
  · exact initializeCardResourcesUsingDefaultPlugins_spec env _ _ _ _

end CardProfileManagerAdapter

namespace CardResourceServiceAdapter

theorem initializeCardProfileManagers_spec (env : Env)
    (cfg : CardResourceServiceConfiguratorAdapter)
    (l : List CardResourceProfileConfigurator) :
    ∀ (w : World) (svc : CardResourceServiceAdapter),
      ((initializeCardProfileManagers env cfg l w svc).1 = .ok () ∨
        (initializeCardProfileManagers env cfg l w svc).1 = .error Exception.Undefined) ∧
      (initializeCardProfileManagers env cfg l w svc).2.1.lifeCycle = svc.lifeCycle := by
  induction l with
  | nil => intro w svc; exact ⟨Or.inl rfl, rfl⟩
  | cons profile rest ih =>
    intro w svc
    simp only [initializeCardProfileManagers]
    have h := CardProfileManagerAdapter.create_spec env w svc profile cfg
    generalize CardProfileManagerAdapter.create env w svc profile cfg = r at h
    obtain ⟨o, ⟨pm1, svc1⟩, w1⟩ := r
    cases o with
    | error e => exact h
    | ok u =>
      dsimp only at h ⊢
      obtain ⟨i1, i2⟩ := ih w1
        { svc1 with
          mCardProfileNameToCardProfileManagerMap :=
            StdMap.insert (fun a b => decide (a < b))
              svc1.mCardProfileNameToCardProfileManagerMap profile.mProfileName pm1 }
      exact ⟨i1, i2.trans h.2⟩

theorem registerReaders_lifeCycle (cfg : CardResourceServiceConfiguratorAdapter)
    (plugin : Plugin) (l : List CardReader) :
    ∀ svc : CardResourceServiceAdapter,
      (registerReaders cfg plugin l svc).lifeCycle = svc.lifeCycle := by
  induction l with
  | nil => intro svc; rfl
  | cons reader rest ih =>
    intro svc
    simp only [registerReaders]
    rw [ih]
    rfl

theorem initializeReaderManagers_lifeCycle (env : Env)
    (cfg : CardResourceServiceConfiguratorAdapter) (l : List Plugin) :
    ∀ (w : World) (svc : CardResourceServiceAdapter),
      (initializeReaderManagers env cfg l w svc).1.lifeCycle = svc.lifeCycle := by
  induction l with
  | nil => intro w svc; rfl
  | cons plugin rest ih =>
    intro w svc
    simp only [initializeReaderManagers]
    rw [ih, registerReaders_lifeCycle]

theorem unregisterInactive_lifeCycle (l : List ReaderManagerAdapter) :
    ∀ (w : World) (svc : CardResourceServiceAdapter),
      (unregisterInactive l w svc).1.lifeCycle = svc.lifeCycle := by
  induction l with
  | nil => intro w svc; rfl
  | cons rm rest ih =>
    intro w svc
    simp only [unregisterInactive]
    split_ifs
    · rw [ih, unregisterReader_lifeCycle]
    · exact ih _ _

theorem stop_of_configured (w : World) (svc : CardResourceServiceAdapter)
    (h : svc.mConfigurator ≠ none) :
    (stop w svc).1 = .ok () ∧
    (stop w svc).2.1.mReaderToReaderManagerMap = [] ∧
    (stop w svc).2.1.mCardProfileNameToCardProfileManagerMap = [] ∧
    (stop w svc).2.1.mCardResourceToPoolPluginMap = [] ∧
    (stop w svc).2.1.mPluginToObservableReadersMap = [] ∧
    (stop w svc).2.1.mIsStarted = false ∧
    (stop w svc).2.1.mConfigurator = svc.mConfigurator := by
  unfold stop
  cases hc : svc.mConfigurator with
  | none => exact absurd hc h
  | some cfg =>
    simp only [hc]
    exact ⟨trivial, trivial, trivial, trivial, trivial, trivial, trivial⟩

theorem stop_of_unconfigured (w : World) (svc : CardResourceServiceAdapter)
    (h : svc.mConfigurator = none) : (stop w svc).1 = .error Exception.Undefined := by
  simp [stop, h]

theorem start_spec (env : Env) (w : World) (svc : CardResourceServiceAdapter) :
    (start env w svc).1 = .error Exception.Undefined ∨
    (start env w svc = (.error Exception.IllegalStateException, svc, w) ∧
      svc.mConfigurator = none) ∨
    ((start env w svc).1 = .ok () ∧ (start env w svc).2.1.mIsStarted = true ∧
      (start env w svc).2.1.mConfigurator ≠ none) := by
  unfold start
  cases hc : svc.mConfigurator with
  | none => exact Or.inr (Or.inl ⟨rfl, rfl⟩)
  | some cfg =>
    have hstop : ∀ s : Except Exception Unit × CardResourceServiceAdapter × World,
        s = (if svc.mIsStarted then stop w svc else (.ok (), svc, w)) →
        s.1 = .ok () ∧ s.2.1.mConfigurator = some cfg := by
      intro s hs
      have hne : svc.mConfigurator ≠ none := by rw [hc]; exact Option.some_ne_none cfg
      obtain ⟨a1, _, _, _, _, _, a7⟩ := stop_of_configured w svc hne
      by_cases hst : svc.mIsStarted = true
      · rw [if_pos hst] at hs
        rw [hs]
        exact ⟨a1, a7.trans hc⟩
      · rw [if_neg hst] at hs
        rw [hs]
        exact ⟨rfl, hc⟩
    dsimp only
    have h0 := hstop _ rfl
    generalize (if svc.mIsStarted = true then stop w svc else (.ok (), svc, w)) = s at h0
    obtain ⟨o, svc1, w1⟩ := s
    obtain ⟨h1, h2⟩ := h0
    simp only at h1 h2
    subst h1
    dsimp only
    have hm := initializeReaderManagers_lifeCycle env cfg cfg.mPlugins w1 svc1
    generalize initializeReaderManagers env cfg cfg.mPlugins w1 svc1 = managers at hm
    have hp := initializeCardProfileManagers_spec env cfg cfg.mCardResourceProfileConfigurators
      managers.2 managers.1
    generalize initializeCardProfileManagers env cfg cfg.mCardResourceProfileConfigurators
      managers.2 managers.1 = r at hp
    obtain ⟨o, svc2, w2⟩ := r
    cases o with
    | error e =>
      left
      simpa using hp.1
    | ok u =>
      right
      right
      dsimp only at hp ⊢
      refine ⟨rfl, rfl, ?_⟩
      have hu : (removeUnusedReaderManagers w2 svc2).1.lifeCycle = svc2.lifeCycle :=
        unregisterInactive_lifeCycle _ _ _
      have hall := (hu.trans hp.2).trans hm
      have hcfg : (removeUnusedReaderManagers w2 svc2).1.mConfigurator = svc1.mConfigurator :=
        congrArg Prod.snd hall
      show (removeUnusedReaderManagers w2 svc2).1.mConfigurator ≠ none
      rw [hcfg, h2]
      exact Option.some_ne_none cfg

theorem configure_spec (env : Env) (w : World) (svc : CardResourceServiceAdapter)
    (configurator : CardResourceServiceConfiguratorAdapter) (h : svc.Invariant) :
    (configure env w svc configurator).1 = .error Exception.Undefined ∨
      (configure env w svc configurator).2.1.Invariant := by
  unfold configure
  by_cases hst : svc.mIsStarted = true
  · rw [if_pos hst]
    obtain ⟨a1, a2, a3, a4, a5, a6, a7⟩ := stop_of_configured w svc (h.2 hst)
    generalize stop w svc = r at a1 a2 a3 a4 a5 a6 a7
    obtain ⟨o, svc1, w1⟩ := r
    simp only at a1 a2 a3 a4 a5 a6 a7
    subst a1
    dsimp only
    rcases start_spec env w1 { svc1 with mConfigurator := some configurator } with
      hs | ⟨_, hs⟩ | ⟨_, hs1, hs2⟩
    · exact Or.inl hs
    · cases hs
    · right
      refine ⟨fun hf => ?_, fun _ => hs2⟩
      rw [hs1] at hf
      cases hf
  · rw [if_neg hst]
    right
    have hf : svc.mIsStarted = false := by simpa using hst
    exact ⟨fun _ => h.1 hf, fun ht => absurd ht hst⟩

theorem unchanged_while_not_started (env : Env) (w : World)
    (svc : CardResourceServiceAdapter) (h : svc.mIsStarted = false) :
    (∀ name fuel, (getCardResource env fuel w svc name).2 = (svc, w)) ∧
    (∀ c, (releaseCardResource w svc c).2 = (svc, w)) ∧
    (∀ c, (removeCardResource w svc c).2 = (svc, w)) ∧
    (∀ e, onReaderEvent env w svc e = (.ok (), svc, w)) ∧
    (∀ e, onPluginEvent env w svc e = (.ok (), svc, w)) := by
  refine ⟨?_, ?_, ?_, ?_, ?_⟩
  · intro name fuel
    simp [getCardResource, h]
  · intro c
    simp [releaseCardResource, h]
  · intro c
    simp [removeCardResource, releaseCardResource, h]
  · intro e
    simp [onReaderEvent, h]
  · intro e
    simp [onPluginEvent, h]

theorem invariant_of_lifeCycle (svc svc1 : CardResourceServiceAdapter) (h : svc.Invariant)
    (hl : svc1.lifeCycle = svc.lifeCycle)
    (hu : svc.mIsStarted = false → svc1 = svc) : svc1.Invariant := by
  have h1 : svc1.mIsStarted = svc.mIsStarted := congrArg Prod.fst hl
  have h2 : svc1.mConfigurator = svc.mConfigurator := congrArg Prod.snd hl
  refine ⟨fun hf => ?_, fun ht => ?_⟩
  · have hf1 : svc.mIsStarted = false := h1 ▸ hf
    rw [hu hf1]
    exact h.1 hf1
  · rw [h2]
    exact h.2 (h1 ▸ ht)

theorem perform_invariant (env : Env) (w : World) (svc : CardResourceServiceAdapter)
    (operation : ServiceOperation) (h : svc.Invariant)
    (hd : (perform env w svc operation).1 ≠ some Exception.Undefined) :
    (perform env w svc operation).2.1.Invariant := by
  cases operation with
  | configure configurator =>
    rcases configure_spec env w svc configurator h with hc | hc
    · exact absurd (by simp [perform, hc, Exception.thrown]) hd
    · exact hc
  | start =>
    rcases start_spec env w svc with hs | ⟨hs, _⟩ | ⟨_, hs1, hs2⟩
    · exact absurd (by simp [perform, hs, Exception.thrown]) hd
    · simp only [perform, hs]
      exact h
    · refine ⟨fun hf => ?_, fun _ => hs2⟩
      simp only [perform] at hf
      rw [hs1] at hf
      cases hf
  | stop =>
    cases hc : svc.mConfigurator with
    | none =>
      exact absurd (by simp [perform, stop_of_unconfigured w svc hc, Exception.thrown]) hd
    | some cfg =>
      have hne : svc.mConfigurator ≠ none := by rw [hc]; exact Option.some_ne_none cfg
      obtain ⟨_, a2, a3, a4, a5, a6, _⟩ := stop_of_configured w svc hne
      refine ⟨fun _ => ⟨a2, a3, a4, a5⟩, fun ht => ?_⟩
      simp only [perform] at ht
      rw [a6] at ht
      cases ht
  | getCardResource name fuel =>
    exact invariant_of_lifeCycle svc _ h (getCardResource_lifeCycle env fuel w svc name)
      (fun hf => congrArg Prod.fst ((unchanged_while_not_started env w svc hf).1 name fuel))
  | releaseCardResource c =>
    exact invariant_of_lifeCycle svc _ h (releaseCardResource_lifeCycle w svc c)
      (fun hf => congrArg Prod.fst ((unchanged_while_not_started env w svc hf).2.1 c))
  | removeCardResource c =>
    exact invariant_of_lifeCycle svc _ h (removeCardResource_lifeCycle w svc c)
      (fun hf => congrArg Prod.fst ((unchanged_while_not_started env w svc hf).2.2.1 c))
  | onReaderEvent e =>
    exact invariant_of_lifeCycle svc _ h (onReaderEvent_lifeCycle env w svc e)
      (fun hf => by
        show (onReaderEvent env w svc e).2.1 = svc
        rw [(unchanged_while_not_started env w svc hf).2.2.2.1 e])
  | onPluginEvent e =>
    exact invariant_of_lifeCycle svc _ h (onPluginEvent_lifeCycle env w svc e)
      (fun hf => by
        show (onPluginEvent env w svc e).2.1 = svc
        rw [(unchanged_while_not_started env w svc hf).2.2.2.2 e])

theorem performAll_invariant (env : Env) (operations : List ServiceOperation) :
    ∀ (w : World) (svc : CardResourceServiceAdapter) (s : CardResourceServiceAdapter × World),
      svc.Invariant → performAll env w svc operations = some s → s.1.Invariant := by
  induction operations with
  | nil =>
    intro w svc s h hs
    simp only [performAll, Option.some.injEq] at hs
    rw [← hs]
    exact h
  | cons operation rest ih =>
    intro w svc s h hs
    simp only [performAll] at hs
    split_ifs at hs with hd
    exact ih _ _ s (perform_invariant env w svc operation h hd) hs

/-- C20: the state `svc` is reached from the initial service by operations among
`configure`, `start`, `stop`, `getCardResource`, `releaseCardResource`,
`removeCardResource` and the delivery of reader and plugin events, none of which runs
into undefined behaviour.  Then: if `svc` is not started its four maps are empty; if it
is started it is configured; if it is configured, `stop` returns normally and leaves
the four maps empty and the service not started; and if it is not started, reader
events and plugin events (and the three client calls) leave the service and the world
as they are. -/
theorem not_started_means_empty_maps (env : Env) (operations : List ServiceOperation)
    (w0 w : World) (svc : CardResourceServiceAdapter)
    (hrun : performAll env w0 {} operations = some (svc, w)) :
    (svc.mIsStarted = false →
      svc.mReaderToReaderManagerMap = [] ∧ svc.mCardProfileNameToCardProfileManagerMap = [] ∧
        svc.mCardResourceToPoolPluginMap = [] ∧ svc.mPluginToObservableReadersMap = []) ∧
    (svc.mIsStarted = true → svc.mConfigurator ≠ none) ∧
    (svc.mConfigurator ≠ none →
      (stop w svc).1 = .ok () ∧
      (stop w svc).2.1.mReaderToReaderManagerMap = [] ∧
      (stop w svc).2.1.mCardProfileNameToCardProfileManagerMap = [] ∧
      (stop w svc).2.1.mCardResourceToPoolPluginMap = [] ∧
      (stop w svc).2.1.mPluginToObservableReadersMap = [] ∧
      (stop w svc).2.1.mIsStarted = false) ∧
    (svc.mIsStarted = false →
      (∀ e, onReaderEvent env w svc e = (.ok (), svc, w)) ∧
      (∀ e, onPluginEvent env w svc e = (.ok (), svc, w)) ∧
      (∀ name fuel, (getCardResource env fuel w svc name).2 = (svc, w)) ∧
      (∀ c, (releaseCardResource w svc c).2 = (svc, w)) ∧
      (∀ c, (removeCardResource w svc c).2 = (svc, w))) := by
  have h0 : ({} : CardResourceServiceAdapter).Invariant :=
    ⟨fun _ => ⟨rfl, rfl, rfl, rfl⟩, fun h => by cases h⟩
  have hinv := performAll_invariant env operations w0 {} (svc, w) h0 hrun
  refine ⟨hinv.1, hinv.2, fun hc => ?_, fun hf => ?_⟩
  · obtain ⟨a1, a2, a3, a4, a5, a6, _⟩ := stop_of_configured w svc hc
    exact ⟨a1, a2, a3, a4, a5, a6⟩
  · obtain ⟨b1, b2, b3, b4, b5⟩ := unchanged_while_not_started env w svc hf
    exact ⟨b4, b5, b1, b2, b3⟩

theorem not_started_means_empty_maps_witness :
    performAll Scenario.envStart {} {} Scenario.lifeOperations =
      some (Scenario.serviceAfterLife, Scenario.worldAfterLife) ∧
    (stop Scenario.worldAfterLife Scenario.serviceAfterLife).1 = .ok () :=
  ⟨rfl,
   ((not_started_means_empty_maps Scenario.envStart Scenario.lifeOperations {}
      Scenario.worldAfterLife Scenario.serviceAfterLife rfl).2.2.1 (by decide)).1⟩

end CardResourceServiceAdapter

/-! ## Client calls on a service that is not started, and the profile name -/

namespace CardResourceServiceAdapter

/-- C25: when the service is not started, `getCardResource` (for every profile name),
`releaseCardResource` and `removeCardResource` (for every card resource, null included)
throw `IllegalStateException` and leave the service and the world as they are: no
reader manager, list or map is modified and no pool reader is released. -/
theorem not_started_calls_throw (env : Env) (w : World) (svc : CardResourceServiceAdapter)
    (hstopped : svc.mIsStarted = false) :
    (∀ (name : String) (fuel : Nat),
      getCardResource env fuel w svc name =
        (some (.error Exception.IllegalStateException), svc, w)) ∧
    (∀ c : Option CardResource,
      releaseCardResource w svc c = (.error Exception.IllegalStateException, svc, w)) ∧
    (∀ c : Option CardResource,
      removeCardResource w svc c = (.error Exception.IllegalStateException, svc, w)) := by
  refine ⟨?_, ?_, ?_⟩
  · intro name fuel
    simp [getCardResource, hstopped]
  · intro c
    simp [releaseCardResource, hstopped]
  · intro c
    simp [removeCardResource, releaseCardResource, hstopped]

theorem not_started_calls_throw_witness :
    getCardResource Scenario.envB 1 Scenario.worldAfterLife Scenario.serviceAfterLife "P1" =
      (some (.error Exception.IllegalStateException), Scenario.serviceAfterLife,
        Scenario.worldAfterLife) :=
  (not_started_calls_throw Scenario.envB Scenario.worldAfterLife Scenario.serviceAfterLife
    rfl).1 "P1" 1

end CardResourceServiceAdapter

namespace ReaderManagerAdapter

theorem lock_error (env : Env) (w : World) (rm : ReaderManagerAdapter) (r : CardResource)
    (ext : Nat) (e : Exception) (h : (rm.lock env w r ext).1 = .error e) :
    e = Exception.IllegalStateException := by
  simp only [lock] at h
  split_ifs at h <;> simp only [Except.error.injEq, reduceCtorEq] at h
  all_goals exact h.symm

end ReaderManagerAdapter

namespace CardResourceServiceAdapter

theorem removeCardResource_keyple (w : World) (svc : CardResourceServiceAdapter)
    (c : CardResource) (hstarted : svc.mIsStarted = true) (hk : svc.ListsKeypleReaders)
    (hc : c.getReader.keypleReader = true) :
    (removeCardResource w svc (some c)).1 = .ok () ∧
    (removeCardResource w svc (some c)).2.1.ListsKeypleReaders := by
  cases hm : StdMap.find svc.mReaderToReaderManagerMap c.getReader with
  | some rm =>
    rw [removeCardResource_of_registered w svc c rm hstarted hc hm]
    refine ⟨rfl, ?_⟩
    intro p hp x hx
    obtain ⟨q, hq, rfl⟩ := List.mem_map.1 hp
    exact hk q hq x (List.mem_of_mem_erase hx)
  | none =>
    rw [removeCardResource_of_unregistered w svc c hc hm]
    refine ⟨?_, ?_⟩
    · simp only [releaseCardResource, hstarted, hm, Bool.not_true, Bool.false_eq_true,
        if_false]
      cases StdMap.find svc.mCardResourceToPoolPluginMap c <;> rfl
    · intro p hp
      rw [releaseCardResource_profiles] at hp
      exact hk p hp

theorem removeCardResources_keyple (l : List CardResource) :
    ∀ (w : World) (svc : CardResourceServiceAdapter), svc.mIsStarted = true →
      svc.ListsKeypleReaders → (∀ c ∈ l, c.getReader.keypleReader = true) →
      (removeCardResources w svc l).1 = .ok () ∧
      (removeCardResources w svc l).2.1.ListsKeypleReaders := by
  induction l with
  | nil => intro w svc _ hk _; exact ⟨rfl, hk⟩
  | cons c rest ih =>
    intro w svc hstarted hk hl
    obtain ⟨h1, h2⟩ := removeCardResource_keyple w svc c hstarted hk
      (hl c (List.mem_cons_self _ _))
    have h3 : (removeCardResource w svc (some c)).2.1.mIsStarted = true :=
      (congrArg Prod.fst (removeCardResource_lifeCycle w svc (some c))).trans hstarted
    simp only [removeCardResources]
    generalize removeCardResource w svc (some c) = rem at h1 h2 h3
    obtain ⟨o, s1, w1⟩ := rem
    simp only at h1 h2 h3
    subst h1
    exact ih w1 s1 h3 h2 (fun x hx => hl x (List.mem_cons_of_mem _ hx))

end CardResourceServiceAdapter

namespace CardProfileManagerAdapter

theorem lockFirstAvailable_ok (env : Env) (ext : Nat) (l : List CardResource) :
    ∀ (i : Nat) (w : World) (svc : CardResourceServiceAdapter) (unusable : List CardResource),
      (∀ c ∈ l, c.getReader.keypleReader = true) →
      (∀ c ∈ unusable, c.getReader.keypleReader = true) →
      (∃ found, (lockFirstAvailable env ext l i w svc unusable).1 = .ok found) ∧
      (∀ c ∈ (lockFirstAvailable env ext l i w svc unusable).2.1,
        c.getReader.keypleReader = true) := by
  induction l with
  | nil =>
    intro i w svc unusable _ hu
    exact ⟨⟨none, rfl⟩, hu⟩
  | cons c rest ih =>
    intro i w svc unusable hl hu
    have hrest : ∀ x ∈ rest, x.getReader.keypleReader = true :=
      fun x hx => hl x (List.mem_cons_of_mem _ hx)
    have hu' : ∀ x ∈ unusable ++ [c], x.getReader.keypleReader = true := by
      intro x hx
      rcases List.mem_append.1 hx with hx | hx
      · exact hu x hx
      · rw [List.mem_singleton.1 hx]
        exact hl c (List.mem_cons_self _ _)
    simp only [lockFirstAvailable]
    split
    · next rm _ =>
      have he := ReaderManagerAdapter.lock_error env w rm c ext
      generalize rm.lock env w c ext = lk at he
      obtain ⟨o, rm1, w1⟩ := lk
      cases o with
      | ok b =>
        cases b with
        | true => exact ⟨⟨_, rfl⟩, hu⟩
        | false => exact ih _ _ _ _ hrest hu
      | error e =>
        have := he e rfl
        subst this
        exact ih _ _ _ _ hrest hu'
    · exact ih _ _ _ _ hrest hu'

theorem updateCardResourcesOrder_mem (env : Env) (pm : CardProfileManagerAdapter) (i : Nat)
    (henv : env.ReordersInPlace) (c : CardResource)
    (h : c ∈ (updateCardResourcesOrder env pm i).mCardResources) : c ∈ pm.mCardResources := by
  unfold updateCardResourcesOrder at h
  split_ifs at h
  · exact henv.2 _ _ c h
  · exact henv.1 _ c h
  · exact h

theorem getRegularCardResource_ok (env : Env) (w : World) (svc : CardResourceServiceAdapter)
    (name : String) (hstarted : svc.mIsStarted = true) (hk : svc.ListsKeypleReaders)
    (henv : env.ReordersInPlace) :
    (∃ o, (getRegularCardResource env w svc name).1 = .ok o) ∧
    (getRegularCardResource env w svc name).2.1.ListsKeypleReaders := by
  unfold getRegularCardResource
  split
  · exact ⟨⟨none, rfl⟩, hk⟩
  · next pm hpm =>
    have hpmk : ∀ c ∈ pm.mCardResources, c.getReader.keypleReader = true :=
      hk (name, pm) (StdMap.mem_of_find _ _ _ hpm)
    obtain ⟨⟨found, hfound⟩, hun⟩ := lockFirstAvailable_ok env
      pm.mCardProfile.mCardResourceProfileExtension pm.mCardResources 0 w svc [] hpmk
      (fun c hc => by simp at hc)
    have hprof := lockFirstAvailable_profiles env
      pm.mCardProfile.mCardResourceProfileExtension pm.mCardResources 0 w svc []
    have hlife := lockFirstAvailable_lifeCycle env
      pm.mCardProfile.mCardResourceProfileExtension pm.mCardResources 0 w svc []
    generalize lockFirstAvailable env pm.mCardProfile.mCardResourceProfileExtension
      pm.mCardResources 0 w svc [] = walk at hfound hun hprof hlife
    obtain ⟨o, unusable, svc1, w1⟩ := walk
    simp only at hfound hun hprof hlife
    subst hfound
    have hst1 : svc1.mIsStarted = true := (congrArg Prod.fst hlife).trans hstarted
    have hk1 : svc1.ListsKeypleReaders := by
      intro p hp
      rw [hprof] at hp
      exact hk p hp
    dsimp only
    have ht : ∀ taken : Option CardResource × CardResourceServiceAdapter,
        taken.2.mIsStarted = true → taken.2.ListsKeypleReaders →
        (∃ o, (match CardResourceServiceAdapter.removeCardResources w1 taken.2 unusable with
          | (.error e, svc3, w3) =>
            ((.error e, svc3, w3) :
              Except Exception (Option CardResource) × CardResourceServiceAdapter × World)
          | (.ok _, svc3, w3) => (.ok taken.1, svc3, w3)).1 = .ok o) ∧
        (match CardResourceServiceAdapter.removeCardResources w1 taken.2 unusable with
          | (.error e, svc3, w3) =>
            ((.error e, svc3, w3) :
              Except Exception (Option CardResource) × CardResourceServiceAdapter × World)
          | (.ok _, svc3, w3) => (.ok taken.1, svc3, w3)).2.1.ListsKeypleReaders := by
      intro taken hts htk
      obtain ⟨r1, r2⟩ := CardResourceServiceAdapter.removeCardResources_keyple unusable w1
        taken.2 hts htk hun
      generalize CardResourceServiceAdapter.removeCardResources w1 taken.2 unusable = rem
        at r1 r2
      obtain ⟨o, s3, w3⟩ := rem
      simp only at r1 r2
      subst r1
      exact ⟨⟨_, rfl⟩, r2⟩
    apply ht
    · cases found with
      | none => exact hst1
      | some p => exact hst1
    · cases found with
      | none => exact hk1
      | some p =>
        obtain ⟨i, cardResource⟩ := p
        intro q hq
        rcases StdMap.mem_assign _ _ _ q hq with hq | hq
        · exact hk1 q hq
        · subst hq
          intro c hc
          exact hpmk c (updateCardResourcesOrder_mem env pm _ henv c hc)

theorem allocateFromPools_profiles (env : Env) (pm : CardProfileManagerAdapter)
    (l : List Plugin) :
    ∀ (w : World) (svc : CardResourceServiceAdapter),
      (allocateFromPools env pm l w svc).2.1.mCardProfileNameToCardProfileManagerMap =
        svc.mCardProfileNameToCardProfileManagerMap := by
  induction l with
  | nil => intro w svc; rfl
  | cons p rest ih =>
    intro w svc
    simp only [allocateFromPools]
    split
    · split
      · rfl
      · exact ih _ _
    · exact ih _ _
    · exact ih _ _

theorem getPoolCardResource_ok (env : Env) (w : World) (svc : CardResourceServiceAdapter)
    (name : String) (hk : svc.ListsKeypleReaders) :
    (∃ o, (getPoolCardResource env w svc name).1 = .ok o) ∧
    (getPoolCardResource env w svc name).2.1.ListsKeypleReaders := by
  unfold getPoolCardResource
  split
  · exact ⟨⟨none, rfl⟩, hk⟩
  · next pm _ =>
    refine ⟨⟨_, rfl⟩, ?_⟩
    intro p hp
    have := allocateFromPools_profiles env pm pm.mPoolPlugins w svc
    simp only at hp
    rw [this] at hp
    exact hk p hp

theorem searchOnce_ok (env : Env) (w : World) (svc : CardResourceServiceAdapter)
    (name : String) (pm : CardProfileManagerAdapter) (hstarted : svc.mIsStarted = true)
    (hk : svc.ListsKeypleReaders) (henv : env.ReordersInPlace) :
    (∃ o, (searchOnce env w svc name pm).1 = .ok o) ∧
    (searchOnce env w svc name pm).2.1.ListsKeypleReaders := by
  have hreg := fun w' svc' (h1 : svc'.mIsStarted = true) (h2 : svc'.ListsKeypleReaders) =>
    getRegularCardResource_ok env w' svc' name h1 h2 henv
  have hpool := fun w' svc' (h2 : svc'.ListsKeypleReaders) =>
    getPoolCardResource_ok env w' svc' name h2
  unfold searchOnce
  split_ifs
  · unfold getRegularOrPoolCardResource
    split_ifs
    · obtain ⟨⟨o, h1⟩, h2⟩ := hpool w svc hk
      have h3 : (getPoolCardResource env w svc name).2.1.mIsStarted = true :=
        (congrArg Prod.fst (getPoolCardResource_lifeCycle env w svc name)).trans hstarted
      generalize getPoolCardResource env w svc name = r at h1 h2 h3
      obtain ⟨o', svc1, w1⟩ := r
      simp only at h1 h2 h3
      subst h1
      cases o with
      | none => exact hreg w1 svc1 h3 h2
      | some c => exact ⟨⟨_, rfl⟩, h2⟩
    · obtain ⟨⟨o, h1⟩, h2⟩ := hreg w svc hstarted hk
      generalize getRegularCardResource env w svc name = r at h1 h2
      obtain ⟨o', svc1, w1⟩ := r
      simp only at h1 h2
      subst h1
      cases o with
      | none => exact hpool w1 svc1 h2
      | some c => exact ⟨⟨_, rfl⟩, h2⟩
  · exact hreg w svc hstarted hk
  · exact hpool w svc hk

theorem searchLoop_ok (env : Env) (name : String) (pm : CardProfileManagerAdapter)
    (maxTime : Nat) (henv : env.ReordersInPlace) (fuel : Nat) :
    ∀ (w : World) (svc : CardResourceServiceAdapter), svc.mIsStarted = true →
      svc.ListsKeypleReaders →
      ∀ e, (searchLoop env name pm maxTime fuel w svc).1 ≠ some (.error e) := by
  induction fuel with
  | zero =>
    intro w svc _ _ e h
    simp [searchLoop] at h
  | succ fuel ih =>
    intro w svc hstarted hk e
    obtain ⟨⟨o, h1⟩, h2⟩ := searchOnce_ok env w svc name pm hstarted hk henv
    have h3 : (searchOnce env w svc name pm).2.1.mIsStarted = true :=
      (congrArg Prod.fst (searchOnce_lifeCycle env w svc name pm)).trans hstarted
    simp only [searchLoop]
    generalize searchOnce env w svc name pm = r at h1 h2 h3
    obtain ⟨o', svc1, w1⟩ := r
    simp only at h1 h2 h3
    subst h1
    cases o with
    | some c => simp
    | none =>
      dsimp only
      split_ifs
      · exact ih _ svc1 h3 h2 e
      · simp
      · simp

end CardProfileManagerAdapter

namespace CardResourceServiceAdapter

/-- C26: on a started service, `getCardResource(name)` throws
`IllegalArgumentException` and changes nothing when `name` is empty or is not the name
of a registered profile manager; otherwise it is the call of `getCardResource` of that
profile manager: same result, same service and world afterwards.  That call throws no
exception when the card resources listed by the profile managers are those of Keyple
readers and the reorderings bring no new element into a list, so that
`IllegalArgumentException` is thrown exactly when the name is empty or unknown. -/
theorem getCardResource_by_name (env : Env) (fuel : Nat) (w : World)
    (svc : CardResourceServiceAdapter) (name : String) (hstarted : svc.mIsStarted = true) :
    (name = "" ∨ StdMap.find svc.mCardProfileNameToCardProfileManagerMap name = none →
      getCardResource env fuel w svc name =
        (some (.error Exception.IllegalArgumentException), svc, w)) ∧
    (∀ pm, name ≠ "" →
      StdMap.find svc.mCardProfileNameToCardProfileManagerMap name = some pm →
      getCardResource env fuel w svc name =
        CardProfileManagerAdapter.getCardResource env fuel w svc name pm) ∧
    (svc.ListsKeypleReaders → env.ReordersInPlace →
      ((getCardResource env fuel w svc name).1 =
          some (.error Exception.IllegalArgumentException) ↔
        name = "" ∨ StdMap.find svc.mCardProfileNameToCardProfileManagerMap name = none)) := by
  have ha : name = "" ∨ StdMap.find svc.mCardProfileNameToCardProfileManagerMap name = none →
      getCardResource env fuel w svc name =
        (some (.error Exception.IllegalArgumentException), svc, w) := by
    intro h
    by_cases hn : name = ""
    · simp [getCardResource, hstarted, hn]
    · rcases h with h | h
      · exact absurd h hn
      · simp [getCardResource, hstarted, hn, h]
  have hb : ∀ pm, name ≠ "" →
      StdMap.find svc.mCardProfileNameToCardProfileManagerMap name = some pm →
      getCardResource env fuel w svc name =
        CardProfileManagerAdapter.getCardResource env fuel w svc name pm := by
    intro pm hn hpm
    simp [getCardResource, hstarted, hn, hpm]
  refine ⟨ha, hb, ?_⟩
  intro hk henv
  constructor
  · intro h
    by_cases hn : name = ""
    · exact Or.inl hn
    · cases hpm : StdMap.find svc.mCardProfileNameToCardProfileManagerMap name with
      | none => exact Or.inr rfl
      | some pm =>
        rw [hb pm hn hpm] at h
        exact absurd h (CardProfileManagerAdapter.searchLoop_ok env name pm _ henv fuel _ svc
          hstarted hk _)
  · intro h
    rw [ha h]

theorem getCardResource_by_name_witness :
    getCardResource Scenario.envB 1 {} Scenario.serviceOneReader "P2" =
      (some (.error Exception.IllegalArgumentException), Scenario.serviceOneReader, {}) :=
  (getCardResource_by_name Scenario.envB 1 {} Scenario.serviceOneReader "P2" rfl).1
    (Or.inr (by decide))

end CardResourceServiceAdapter

/-! ## Activation and selection of one reader manager -/

namespace ReaderManagerAdapter

theorem activate_of_active (w : World) (rm : ReaderManagerAdapter) (h : rm.mIsActive = true) :
    rm.activate w = (.ok (), rm, w) := by
  obtain ⟨a, b, c, d, e, f, g, i, j⟩ := rm
  simp only at h
  subst h
  simp [activate]

theorem call_active (env : Env) (w : World) (rm : ReaderManagerAdapter)
    (c : ReaderManagerCall) (h : rm.mIsActive = true) : (rm.call env w c).1.mIsActive = true := by
  match c with
  | ReaderManagerCall.activate =>
    simp only [call, activate_of_active w rm h]
    exact h
  | ReaderManagerCall.matches ext =>
    simp only [call, ReaderManagerAdapter.matches, unlock, getOrCreateCardResource]
    split
    · split <;> exact h
    · exact h
  | ReaderManagerCall.lock r ext =>
    simp only [call, (lock_frame env w rm r ext).2.2.2.1]
    exact h
  | ReaderManagerCall.unlock => exact h
  | ReaderManagerCall.removeCardResource r =>
    simp only [call, removeCardResource]
    split_ifs <;> exact h

theorem run_active (env : Env) (calls : List ReaderManagerCall) :
    ∀ (w : World) (rm : ReaderManagerAdapter), rm.mIsActive = true →
      (run env w rm calls).1.mIsActive = true := by
  induction calls with
  | nil => intro w rm h; exact h
  | cons c rest ih =>
    intro w rm h
    simp only [run]
    exact ih _ _ (call_active env w rm c h)

theorem run_activate_of_active (env : Env) (n : Nat) (w : World) (rm : ReaderManagerAdapter)
    (h : rm.mIsActive = true) :
    run env w rm (List.replicate n ReaderManagerCall.activate) = (rm, w) := by
  induction n with
  | zero => rfl
  | succ n ih =>
    simp only [List.replicate_succ, run, call, activate_of_active w rm h]
    exact ih

/-- C28: `activate()` is idempotent.  On a manager that has a reader configurator and
is not active, the first `activate()` returns normally, sets `mIsActive` and invokes
`setupReader` on the reader; an `activate()` on an active manager returns normally and
changes nothing.  So after `n >= 1` calls the manager is the former one with
`mIsActive = true` (busy flag, selected card resource and card resources unchanged) and
`setupReader` has been invoked exactly once.  No call of `activate`, `matches`, `lock`,
`unlock` or `removeCardResource`, and no sequence of them, resets `mIsActive`. -/
theorem activate_idempotent (env : Env) (w : World) (rm : ReaderManagerAdapter) (n : Nat)
    (hspi : rm.mReaderConfiguratorSpi ≠ none) (hinactive : rm.mIsActive = false)
    (hn : 1 ≤ n) :
    rm.activate w =
      (.ok (), { rm with mIsActive := true },
       { w with setupReaderLog := w.setupReaderLog ++ [rm.mReader] }) ∧
    (∀ (rm' : ReaderManagerAdapter) (w' : World), rm'.mIsActive = true →
      rm'.activate w' = (.ok (), rm', w')) ∧
    run env w rm (List.replicate n ReaderManagerCall.activate) =
      ({ rm with mIsActive := true },
       { w with setupReaderLog := w.setupReaderLog ++ [rm.mReader] }) ∧
    (run env w rm (List.replicate n ReaderManagerCall.activate)).1.isActive = true ∧
    (∀ (calls : List ReaderManagerCall) (rm' : ReaderManagerAdapter) (w' : World),
      rm'.mIsActive = true → (run env w' rm' calls).1.mIsActive = true) := by
  have h1 : rm.activate w =
      (.ok (), { rm with mIsActive := true },
       { w with setupReaderLog := w.setupReaderLog ++ [rm.mReader] }) := by
    cases hs : rm.mReaderConfiguratorSpi with
    | none => exact absurd hs hspi
    | some spi => simp [activate, hinactive, hs]
  have h3 : run env w rm (List.replicate n ReaderManagerCall.activate) =
      ({ rm with mIsActive := true },
       { w with setupReaderLog := w.setupReaderLog ++ [rm.mReader] }) := by
    obtain ⟨m, rfl⟩ : ∃ m, n = m + 1 := ⟨n - 1, by omega⟩
    simp only [List.replicate_succ, run, call, h1]
    exact run_activate_of_active env m _ _ rfl
  refine ⟨h1, fun rm' w' h => activate_of_active w' rm' h, h3, ?_,
    fun calls rm' w' h => run_active env calls w' rm' h⟩
  rw [h3]
  rfl

theorem activate_idempotent_witness :
    run Scenario.envB {}
        (create Scenario.readerX Scenario.plugin1 (some 1) 100)
        (List.replicate 3 ReaderManagerCall.activate) =
      ({ create Scenario.readerX Scenario.plugin1 (some 1) 100 with mIsActive := true },
       { setupReaderLog := [Scenario.readerX] }) :=
  (activate_idempotent Scenario.envB {}
    (create Scenario.readerX Scenario.plugin1 (some 1) 100) 3 (by decide) rfl
    (by decide)).2.2.1

/-- C30, as stated, fails: after a selection on a new manager of reader `X`, the removal
of the card resource created by it and a `lock` for that card resource (the card is
still in the reader), the selected card resource is the removed one and the list of the
manager is empty. -/
theorem selected_resource_not_owned_after_lock_of_removed :
    (run Scenario.envB {} (create Scenario.readerX Scenario.plugin1 (some 1) 100)
        Scenario.callsLockRemoved).1.mSelectedCardResource = some Scenario.resourceFirst ∧
    (run Scenario.envB {} (create Scenario.readerX Scenario.plugin1 (some 1) 100)
        Scenario.callsLockRemoved).1.mCardResources = [] := by
  refine ⟨rfl, rfl⟩

theorem lock_selected (env : Env) (w : World) (rm : ReaderManagerAdapter) (r : CardResource)
    (ext : Nat) :
    (rm.lock env w r ext).2.1.mSelectedCardResource = rm.mSelectedCardResource ∨
    (rm.lock env w r ext).2.1.mSelectedCardResource = none ∨
    (rm.lock env w r ext).2.1.mSelectedCardResource = some r := by
  simp only [lock]
  split_ifs <;> simp

theorem call_selected_owned (env : Env) (w : World) (rm : ReaderManagerAdapter)
    (c : ReaderManagerCall)
    (h : ∀ s, rm.mSelectedCardResource = some s → s ∈ rm.mCardResources)
    (hown : ∀ r ext, c = ReaderManagerCall.lock r ext → r ∈ rm.mCardResources) :
    ∀ s, (rm.call env w c).1.mSelectedCardResource = some s →
      s ∈ (rm.call env w c).1.mCardResources := by
  match c, hown with
  | ReaderManagerCall.activate, _ =>
    simp only [call, activate]
    split
    · split <;> exact h
    · exact h
  | ReaderManagerCall.matches ext, _ =>
    cases hsel : env.select w.selections ext rm.mReader with
    | none =>
      simp only [call, ReaderManagerAdapter.matches, hsel, unlock]
      exact h
    | some sc =>
      have hf := getOrCreateCardResource_find { w with selections := w.selections + 1 } rm sc
      simp only [call, ReaderManagerAdapter.matches, hsel, unlock]
      intro s hs
      simp only [Option.some.injEq] at hs
      rw [← hs]
      exact List.mem_of_find?_eq_some hf
  | ReaderManagerCall.lock r ext, hown =>
    have hr := hown r ext rfl
    simp only [call, (lock_frame env w rm r ext).1]
    intro s hs
    rcases lock_selected env w rm r ext with hl | hl | hl
    · exact h s (hl ▸ hs)
    · rw [hl] at hs
      cases hs
    · rw [hl] at hs
      cases hs
      exact hr
  | ReaderManagerCall.unlock, _ => exact h
  | ReaderManagerCall.removeCardResource r, _ =>
    simp only [call, removeCardResource, Arrays.remove]
    split_ifs with hr
    · intro s hs
      simp at hs
    · intro s hs
      have hne : s ≠ r := fun he => hr (he ▸ hs)
      exact (List.mem_erase_of_ne hne).2 (h s hs)

theorem run_selected_owned (env : Env) (calls : List ReaderManagerCall) :
    ∀ (w : World) (rm : ReaderManagerAdapter),
      (∀ s, rm.mSelectedCardResource = some s → s ∈ rm.mCardResources) →
      LocksOwn env w rm calls →
      ∀ s, (run env w rm calls).1.mSelectedCardResource = some s →
        s ∈ (run env w rm calls).1.mCardResources := by
  induction calls with
  | nil => intro w rm h _; exact h
  | cons c rest ih =>
    intro w rm h hown
    simp only [LocksOwn] at hown
    simp only [run]
    refine ih _ _ (call_selected_owned env w rm c h ?_) hown.2
    intro r ext hc
    subst hc
    exact hown.1

/-- C30, amended: in every state that a new reader manager reaches by a sequence of
`activate`, `matches`, `lock`, `unlock` and `removeCardResource` calls, whatever the
outside world answers, in which every `lock` is given a card resource owned by the
manager when the call is made, the selected card resource is null or one of the card
resources of the manager. -/
theorem selected_resource_is_owned (env : Env) (w : World) (reader : CardReader)
    (plugin : Plugin) (spi : Option Nat) (usageTimeoutMillis : Nat)
    (calls : List ReaderManagerCall)
    (hown : LocksOwn env w (create reader plugin spi usageTimeoutMillis) calls) :
    (run env w (create reader plugin spi usageTimeoutMillis) calls).1.mSelectedCardResource =
        none ∨
      ∃ s, (run env w (create reader plugin spi usageTimeoutMillis)
          calls).1.mSelectedCardResource = some s ∧
        s ∈ (run env w (create reader plugin spi usageTimeoutMillis) calls).1.mCardResources := by
  have h := run_selected_owned env calls w (create reader plugin spi usageTimeoutMillis)
    (fun s hs => by simp [create] at hs) hown
  cases hs : (run env w (create reader plugin spi usageTimeoutMillis)
      calls).1.mSelectedCardResource with
  | none => exact Or.inl rfl
  | some s => exact Or.inr ⟨s, rfl, h s hs⟩

theorem selected_resource_is_owned_witness :
    (run Scenario.envB {} (create Scenario.readerX Scenario.plugin1 (some 1) 100)
        Scenario.callsLockOwned).1.mSelectedCardResource = none ∨
      ∃ s, (run Scenario.envB {} (create Scenario.readerX Scenario.plugin1 (some 1) 100)
          Scenario.callsLockOwned).1.mSelectedCardResource = some s ∧
        s ∈ (run Scenario.envB {} (create Scenario.readerX Scenario.plugin1 (some 1) 100)
          Scenario.callsLockOwned).1.mCardResources :=
  selected_resource_is_owned Scenario.envB {} Scenario.readerX Scenario.plugin1 (some 1) 100
    Scenario.callsLockOwned (by
      simp only [LocksOwn, Scenario.callsLockOwned]
      decide)

end ReaderManagerAdapter

namespace CardResourceServiceAdapter

/-! ## Stop and the pool card resources -/

theorem stopMonitoring_releaseReaderLog (cfg : CardResourceServiceConfiguratorAdapter)
    (svc : CardResourceServiceAdapter) (l : List ConfiguredPlugin) :
    ∀ w : World, (stopMonitoring cfg svc l w).releaseReaderLog = w.releaseReaderLog := by
  induction l with
  | nil => intro w; rfl
  | cons cp rest ih =>
    intro w
    simp only [stopMonitoring]
    rw [ih]
    split
    · split_ifs <;> rfl
    · split_ifs <;> rfl

/-- C21, evaluated: `stop()` never invokes `releaseReader` (the log of these calls is
after it what it was before, whatever the service holds) and clears
`cardResourceToPoolPlugin`.  In `Scenario.envPool`, after the service has been
configured with pool plugins, started and has allocated the pool card resource
`resourcePoolFirst`, this resource is registered in the map; `stop()` then leaves the
map empty and no `releaseReader` call has been made, whereas
`releaseCardResource(resourcePoolFirst)` before `stop()` gives the reader back to its
pool plugin. -/
theorem stop_releases_no_pool_reader :
    (∀ (w : World) (svc : CardResourceServiceAdapter),
      (stop w svc).2.2.releaseReaderLog = w.releaseReaderLog) ∧
    (performAll Scenario.envPool {} {} Scenario.lifeWithPoolResource).map
        (fun s => s.1.mCardResourceToPoolPluginMap) =
      some [(Scenario.resourcePoolFirst, Scenario.poolPlugin)] ∧
    (performAll Scenario.envPool {} {}
        (Scenario.lifeWithPoolResource ++ [ServiceOperation.stop])).map
        (fun s => (s.1.mCardResourceToPoolPluginMap, s.2.releaseReaderLog)) =
      some ([], []) ∧
    (performAll Scenario.envPool {} {}
        (Scenario.lifeWithPoolResource ++
          [ServiceOperation.releaseCardResource (some Scenario.resourcePoolFirst),
           ServiceOperation.stop])).map
        (fun s => (s.1.mCardResourceToPoolPluginMap, s.2.releaseReaderLog)) =
      some ([], [(Scenario.poolPlugin, Scenario.readerPool)]) := by
  refine ⟨?_, rfl, rfl, rfl⟩
  intro w svc
  unfold stop
  dsimp only
  split
  · rfl
  · exact stopMonitoring_releaseReaderLog _ _ _ _

end CardResourceServiceAdapter

/-! ## The builders and the setters of the configuration -/

namespace CardResourceProfileConfigurator

/-- C27, evaluated: `builder(profileName, extension)` throws
`IllegalArgumentException` for a null extension, whatever the name, but accepts the
empty profile name with a non-null extension, and the profile built then has an empty
`getProfileName()`. -/
theorem builder_accepts_empty_name :
    (∀ profileName : String, builder profileName none =
      .error Exception.IllegalArgumentException) ∧
    builder "" (some 7) = .ok { mProfileName := "", mCardResourceProfileExtension := 7 } ∧
    (∀ (extension : Nat) (b : Builder), builder "" (some extension) = .ok b →
      b.build.getProfileName = "") := by
  refine ⟨fun _ => rfl, rfl, ?_⟩
  intro extension b h
  simp only [builder, Except.ok.injEq] at h
  rw [← h]
  rfl

end CardResourceProfileConfigurator

theorem PluginsConfigurator.Builder.build_plugins (b : PluginsConfigurator.Builder)
    (pc : PluginsConfigurator) (h : b.build = .ok pc) : pc.mPlugins.isEmpty = false := by
  unfold PluginsConfigurator.Builder.build at h
  by_cases he : b.mPlugins.isEmpty = true
  · rw [if_pos he] at h
    cases h
  · rw [if_neg he] at h
    simp only [Except.ok.injEq] at h
    rw [← h]
    simpa using he

theorem PoolPluginsConfigurator.Builder.build_poolPlugins (b : PoolPluginsConfigurator.Builder)
    (ppc : PoolPluginsConfigurator) (h : b.build = .ok ppc) :
    ppc.mPoolPlugins.isEmpty = false := by
  unfold PoolPluginsConfigurator.Builder.build at h
  by_cases he : b.mPoolPlugins.isEmpty = true
  · rw [if_pos he] at h
    cases h
  · rw [if_neg he] at h
    simp only [Except.ok.injEq] at h
    rw [← h]
    simpa using he

namespace CardResourceServiceConfiguratorAdapter

theorem addCardResourceProfiles_of_some (l : List CardResourceProfileConfigurator) :
    ∀ cfg : CardResourceServiceConfiguratorAdapter,
      addCardResourceProfiles cfg (l.map some) =
        (.ok (),
         { cfg with
           mCardResourceProfileConfigurators := cfg.mCardResourceProfileConfigurators ++ l }) := by
  induction l with
  | nil =>
    intro cfg
    simp [addCardResourceProfiles]
  | cons p rest ih =>
    intro cfg
    simp only [List.map_cons, addCardResourceProfiles, ih, List.append_assoc,
      List.singleton_append]

/-- C24, evaluated: a second `withPlugins`, `withPoolPlugins` or
`withBlockingAllocationMode` with valid arguments throws `IllegalStateException` and
leaves the configurator as the first one left it, and so does a second
`withCardResourceProfiles` when the first one was given at least one profile.  But
after `withCardResourceProfiles` with an empty list of profiles, a second
`withCardResourceProfiles` is accepted and sets the profiles. -/
theorem second_withCardResourceProfiles_after_empty_list :
    withCardResourceProfiles {} [] = (.ok (), {}) ∧
    withCardResourceProfiles (withCardResourceProfiles {} []).2 [some Scenario.profile1] =
      (.ok (), { mCardResourceProfileConfigurators := [Scenario.profile1] }) ∧
    (∀ (cfg : CardResourceServiceConfiguratorAdapter)
        (l l' : List CardResourceProfileConfigurator),
      cfg.mCardResourceProfileConfigurators = [] → l ≠ [] →
      (withCardResourceProfiles cfg (l.map some)).1 = .ok () ∧
      withCardResourceProfiles (withCardResourceProfiles cfg (l.map some)).2 (l'.map some) =
        (.error Exception.IllegalStateException,
         (withCardResourceProfiles cfg (l.map some)).2)) ∧
    (∀ (cfg : CardResourceServiceConfiguratorAdapter) (b b' : PluginsConfigurator.Builder)
        (pc pc' : PluginsConfigurator),
      cfg.mPlugins = [] → b.build = .ok pc → b'.build = .ok pc' →
      (withPlugins cfg (some pc)).1 = .ok () ∧
      withPlugins (withPlugins cfg (some pc)).2 (some pc') =
        (.error Exception.IllegalStateException, (withPlugins cfg (some pc)).2)) ∧
    (∀ (cfg : CardResourceServiceConfiguratorAdapter) (b b' : PoolPluginsConfigurator.Builder)
        (ppc ppc' : PoolPluginsConfigurator),
      cfg.mPoolPlugins = [] → b.build = .ok ppc → b'.build = .ok ppc' →
      (withPoolPlugins cfg (some ppc)).1 = .ok () ∧
      withPoolPlugins (withPoolPlugins cfg (some ppc)).2 (some ppc') =
        (.error Exception.IllegalStateException, (withPoolPlugins cfg (some ppc)).2)) ∧
    (∀ (cfg : CardResourceServiceConfiguratorAdapter) (cycle timeout cycle' timeout' : Int),
      cfg.mIsBlockingAllocationMode = false → 1 ≤ cycle → 1 ≤ timeout → 1 ≤ cycle' →
      1 ≤ timeout' →
      (withBlockingAllocationMode cfg cycle timeout).1 = .ok () ∧
      withBlockingAllocationMode (withBlockingAllocationMode cfg cycle timeout).2 cycle'
          timeout' =
        (.error Exception.IllegalStateException,
         (withBlockingAllocationMode cfg cycle timeout).2)) := by
  refine ⟨rfl, rfl, ?_, ?_, ?_, ?_⟩
  · intro cfg l l' hcfg hl
    have h1 : withCardResourceProfiles cfg (l.map some) =
        (.ok (), { cfg with mCardResourceProfileConfigurators := l }) := by
      simp [withCardResourceProfiles, hcfg, addCardResourceProfiles_of_some]
    rw [h1]
    refine ⟨rfl, ?_⟩
    cases l with
    | nil => exact absurd rfl hl
    | cons p rest => simp [withCardResourceProfiles]
  · intro cfg b b' pc pc' hcfg hb hb'
    have hne : pc.mPlugins.isEmpty = false := b.build_plugins pc hb
    have h1 : withPlugins cfg (some pc) =
        (.ok (),
         { cfg with
           mPlugins := pc.mPlugins
           mConfiguredPlugins := pc.mConfiguredPlugins
           mAllocationStrategy := pc.mAllocationStrategy
           mUsageTimeoutMillis := pc.mUsageTimeoutMillis }) := by
      simp [withPlugins, hcfg]
    rw [h1]
    refine ⟨rfl, ?_⟩
    simp [withPlugins, hne]
  · intro cfg b b' ppc ppc' hcfg hb hb'
    have hne : ppc.mPoolPlugins.isEmpty = false := b.build_poolPlugins ppc hb
    have h1 : withPoolPlugins cfg (some ppc) =
        (.ok (),
         { cfg with mPoolPlugins := ppc.mPoolPlugins, mUsePoolFirst := ppc.mUsePoolFirst }) := by
      simp [withPoolPlugins, hcfg]
    rw [h1]
    refine ⟨rfl, ?_⟩
    simp [withPoolPlugins, hne]
  · intro cfg cycle timeout cycle' timeout' hcfg h1 h2 h3 h4
    have hc : ¬ (cycle < 1 ∨ timeout < 1) := by omega
    have hc' : ¬ (cycle' < 1 ∨ timeout' < 1) := by omega
    have h : withBlockingAllocationMode cfg cycle timeout =
        (.ok (),
         { cfg with
           mIsBlockingAllocationMode := true
           mCycleDurationMillis := cycle.toNat
           mTimeoutMillis := timeout.toNat }) := by
      simp [withBlockingAllocationMode, hc, hcfg]
    rw [h]
    refine ⟨rfl, ?_⟩
    simp [withBlockingAllocationMode, hc']

end CardResourceServiceConfiguratorAdapter

namespace CardResourceServiceAdapter

theorem configure_thrown (env : Env) (w : World) (svc : CardResourceServiceAdapter)
    (configurator : CardResourceServiceConfiguratorAdapter) :
    (configure env w svc configurator).1 = .ok () ∨
      (configure env w svc configurator).1 = .error Exception.Undefined := by
  unfold configure
  by_cases hst : svc.mIsStarted = true
  · rw [if_pos hst]
    cases hc : svc.mConfigurator with
    | none =>
      right
      simp [stop, hc]
    | some cfg =>
      have hne : svc.mConfigurator ≠ none := by rw [hc]; exact Option.some_ne_none cfg
      obtain ⟨a1, _⟩ := stop_of_configured w svc hne
      generalize stop w svc = r at a1
      obtain ⟨o, svc1, w1⟩ := r
      simp only at a1
      subst a1
      dsimp only
      rcases start_spec env w1 { svc1 with mConfigurator := some configurator } with
        hs | ⟨_, hs⟩ | ⟨hs, _⟩
      · exact Or.inr hs
      · cases hs
      · exact Or.inl hs
  · rw [if_neg hst]
    exact Or.inl rfl

end CardResourceServiceAdapter

namespace CardResourceServiceConfiguratorAdapter

theorem checkProfiles_thrown (allPlugins : List Plugin)
    (l : List CardResourceProfileConfigurator) :
    ∀ names : List String, checkProfiles allPlugins l names = .ok () ∨
      checkProfiles allPlugins l names = .error Exception.IllegalStateException := by
  induction l with
  | nil => intro names; exact Or.inl rfl
  | cons p rest ih =>
    intro names
    simp only [checkProfiles]
    split_ifs
    · exact Or.inr rfl
    · exact Or.inr rfl
    · exact ih _

theorem checkProfiles_ok_iff (allPlugins : List Plugin)
    (l : List CardResourceProfileConfigurator) :
    ∀ names : List String, checkProfiles allPlugins l names = .ok () ↔
      (∀ p ∈ l, ∀ x ∈ p.mPlugins, x ∈ allPlugins) ∧
      (l.map CardResourceProfileConfigurator.getProfileName).Nodup ∧
      (∀ p ∈ l, p.getProfileName ∉ names) := by
  induction l with
  | nil =>
    intro names
    simp [checkProfiles]
  | cons p rest ih =>
    intro names
    simp only [checkProfiles]
    by_cases h1 : p.getProfileName ∈ names
    · simp only [h1, decide_True, if_true, reduceCtorEq, false_iff]
      intro h
      exact h.2.2 p (List.mem_cons_self _ _) h1
    · by_cases h2 : Arrays.containsAll allPlugins p.mPlugins = true
      · simp only [h1, decide_False, Bool.false_eq_true, if_false, h2, Bool.not_true]
        rw [ih]
        have h2' : ∀ x ∈ p.mPlugins, x ∈ allPlugins := by
          simpa [Arrays.containsAll] using h2
        constructor
        · rintro ⟨a, b, c⟩
          refine ⟨?_, ?_, ?_⟩
          · intro q hq
            rcases List.mem_cons.1 hq with hq | hq
            · rw [hq]
              exact h2'
            · exact a q hq
          · rw [List.map_cons, List.nodup_cons]
            refine ⟨?_, b⟩
            intro hm
            obtain ⟨q, hq, hqn⟩ := List.mem_map.1 hm
            exact c q hq (by rw [hqn]; simp)
          · intro q hq
            rcases List.mem_cons.1 hq with hq | hq
            · rw [hq]
              exact h1
            · exact fun hn => c q hq (List.mem_append_left _ hn)
        · rintro ⟨a, b, c⟩
          rw [List.map_cons, List.nodup_cons] at b
          refine ⟨fun q hq => a q (List.mem_cons_of_mem _ hq), b.2, ?_⟩
          intro q hq hn
          rcases List.mem_append.1 hn with hn | hn
          · exact c q (List.mem_cons_of_mem _ hq) hn
          · rw [List.mem_singleton] at hn
            exact b.1 (List.mem_map.2 ⟨q, hq, hn⟩)
      · simp only [h1, decide_False, Bool.false_eq_true, if_false, h2, Bool.not_false, if_true,
          reduceCtorEq, false_iff]
        intro h
        apply h2
        have := h.1 p (List.mem_cons_self _ _)
        simpa [Arrays.containsAll] using this

end CardResourceServiceConfiguratorAdapter

namespace CardResourceServiceConfiguratorAdapter

/-- C23: `configure()` throws `IllegalStateException` exactly when no regular plugin and
no pool plugin is configured, or no profile is configured, or two profiles have the
same name, or some profile lists a plugin that is in neither global list; and then the
configurator, the service (its installed configuration and its started flag with it)
and the world are left as they were. -/
theorem configure_throws_iff (env : Env) (w : World) (svc : CardResourceServiceAdapter)
    (cfg : CardResourceServiceConfiguratorAdapter) :
    ((configure env w svc cfg).1 = .error Exception.IllegalStateException ↔
      (cfg.mPlugins = [] ∧ cfg.mPoolPlugins = []) ∨
      cfg.mCardResourceProfileConfigurators = [] ∨
      ¬ (cfg.mCardResourceProfileConfigurators.map
          CardResourceProfileConfigurator.getProfileName).Nodup ∨
      ∃ profile ∈ cfg.mCardResourceProfileConfigurators, ∃ plugin ∈ profile.mPlugins,
        plugin ∉ cfg.mPlugins ∧ plugin ∉ cfg.mPoolPlugins) ∧
    ((configure env w svc cfg).1 = .error Exception.IllegalStateException →
      configure env w svc cfg = (.error Exception.IllegalStateException, (cfg, svc), w)) := by
  have hall : Arrays.addAll (Arrays.addAll [] cfg.mPlugins) cfg.mPoolPlugins =
      cfg.mPlugins ++ cfg.mPoolPlugins := by simp [Arrays.addAll]
  have hcheck := checkProfiles_ok_iff (cfg.mPlugins ++ cfg.mPoolPlugins)
    cfg.mCardResourceProfileConfigurators []
  have hthrown := checkProfiles_thrown (cfg.mPlugins ++ cfg.mPoolPlugins)
    cfg.mCardResourceProfileConfigurators []
  unfold configure
  rw [hall]
  by_cases hA : (cfg.mPlugins ++ cfg.mPoolPlugins).isEmpty = true
  · simp only [hA, if_true, true_iff, implies_true, and_true]
    left
    simpa using hA
  · by_cases hP : cfg.mCardResourceProfileConfigurators.isEmpty = true
    · simp only [hA, Bool.false_eq_true, if_false, hP, if_true, true_iff, implies_true,
        and_true]
      right
      left
      simpa using hP
    · simp only [hA, Bool.false_eq_true, if_false, hP]
      have hA' : ¬ (cfg.mPlugins = [] ∧ cfg.mPoolPlugins = []) := by
        simpa using hA
      have hP' : ¬ cfg.mCardResourceProfileConfigurators = [] := by simpa using hP
      rcases hthrown with hok | herr
      · rw [hok]
        dsimp only
        have hsvc := CardResourceServiceAdapter.configure_thrown env w svc
          cfg.withoutUnusedPlugins
        obtain ⟨c1, c2, _⟩ := hcheck.1 hok
        have hno : ¬ ((CardResourceServiceAdapter.configure env w svc
            cfg.withoutUnusedPlugins).1 = .error Exception.IllegalStateException) := by
          rcases hsvc with h | h <;> rw [h] <;> simp
        refine ⟨⟨fun h => absurd h hno, ?_⟩, fun h => absurd h hno⟩
        rintro (h | h | h | ⟨profile, hp, plugin, hpl, hn1, hn2⟩)
        · exact absurd h hA'
        · exact absurd h hP'
        · exact absurd c2 h
        · have := c1 profile hp plugin hpl
          rcases List.mem_append.1 this with hm | hm
          · exact absurd hm hn1
          · exact absurd hm hn2
      · rw [herr]
        simp only [true_iff, implies_true, and_true]
        by_contra hcon
        have hnot : ¬ checkProfiles (cfg.mPlugins ++ cfg.mPoolPlugins)
            cfg.mCardResourceProfileConfigurators [] = .ok () := by
          rw [herr]
          simp
        apply hnot
        rw [hcheck]
        refine ⟨?_, ?_, fun p _ => by simp⟩
        · intro profile hp plugin hpl
          by_contra hm
          apply hcon
          right
          right
          right
          exact ⟨profile, hp, plugin, hpl, fun h => hm (List.mem_append_left _ h),
            fun h => hm (List.mem_append_right _ h)⟩
        · by_contra hnd
          exact hcon (Or.inr (Or.inr (Or.inl hnd)))

theorem configure_throws_iff_witness :
    configure Scenario.envB {} Scenario.serviceOneReader Scenario.configuratorNoProfile =
      (.error Exception.IllegalStateException,
        (Scenario.configuratorNoProfile, Scenario.serviceOneReader), {}) :=
  (configure_throws_iff Scenario.envB {} Scenario.serviceOneReader
    Scenario.configuratorNoProfile).2
    ((configure_throws_iff Scenario.envB {} Scenario.serviceOneReader
      Scenario.configuratorNoProfile).1.2 (Or.inr (Or.inl rfl)))

/-- C22, evaluated: the removal of the unused plugins is skipped whenever the list of
the plugins of the profiles, repetitions included, is as long as the list of the
configured plugins.  With the regular plugins `plugin1` and `plugin2` and two profiles
that both list `plugin1` only (a configurator that the builders and setters produce),
`usedPlugins` is `[plugin1, plugin1]`, `configure()` succeeds and installs the
configuration with `plugin2` and its configured plugin entry still in it, though no
profile lists `plugin2`.  With the first profile alone `plugin2` is removed. -/
theorem unused_plugin_kept_when_sizes_agree :
    (((PluginsConfigurator.Builder.addPlugin {} (some Scenario.plugin1) (some 1)).bind
        (fun b => b.addPlugin (some Scenario.plugin2) (some 2))).bind
        PluginsConfigurator.Builder.build = .ok Scenario.pluginsConfiguratorTwo ∧
      withPlugins {} (some Scenario.pluginsConfiguratorTwo) =
        (.ok (), Scenario.configuratorTwoPlugins []) ∧
      withCardResourceProfiles (Scenario.configuratorTwoPlugins [])
          [some Scenario.profileOnPlugin1, some Scenario.profile2OnPlugin1] =
        (.ok (), Scenario.configuratorTwoPlugins
          [Scenario.profileOnPlugin1, Scenario.profile2OnPlugin1])) ∧
    computeUsedPlugins
        (Scenario.configuratorTwoPlugins [Scenario.profileOnPlugin1, Scenario.profile2OnPlugin1])
        [Scenario.plugin1, Scenario.plugin2] = [Scenario.plugin1, Scenario.plugin1] ∧
    configure Scenario.envB {} {}
        (Scenario.configuratorTwoPlugins [Scenario.profileOnPlugin1, Scenario.profile2OnPlugin1]) =
      (.ok (),
       (Scenario.configuratorTwoPlugins [Scenario.profileOnPlugin1, Scenario.profile2OnPlugin1],
        { mConfigurator := some (Scenario.configuratorTwoPlugins
            [Scenario.profileOnPlugin1, Scenario.profile2OnPlugin1]) }), {}) ∧
    (∀ profile ∈ [Scenario.profileOnPlugin1, Scenario.profile2OnPlugin1],
      Scenario.plugin2 ∉ profile.mPlugins) ∧
    ((configure Scenario.envB {} {}
        (Scenario.configuratorTwoPlugins [Scenario.profileOnPlugin1])).2.1.2.mConfigurator.map
      (fun cfg => (cfg.mPlugins, cfg.mConfiguredPlugins.map (fun cp => cp.mPlugin)))) =
      some ([Scenario.plugin1], [Scenario.plugin1]) := by
  refine ⟨⟨rfl, rfl, rfl⟩, rfl, rfl, by decide, rfl⟩

end CardResourceServiceConfiguratorAdapter

/-! ## Release of the card resource of a registered reader -/

namespace StdMap

variable {κ ν : Type} [DecidableEq κ]

theorem keys_assign (m : StdMap κ ν) (k : κ) (v : ν) :
    (assign m k v).map Prod.fst = m.map Prod.fst := by
  induction m with
  | nil => rfl
  | cons p m ih =>
    obtain ⟨a, b⟩ := p
    simp only [assign]
    split_ifs <;> simp only [List.map_cons, ih]

end StdMap

namespace CardResourceServiceAdapter

/-- C38: on a started service, releasing a card resource `r` whose reader is
registered succeeds, whatever the selected resource and the resource list of the
manager are: afterwards the manager of that reader is the same manager with `mIsBusy`
false (selection, resource list, deadline and activity as before), every other reader
maps to the manager it had, the readers registered are the same, the profile managers,
the pool map, the map of observed readers, the configuration and the started flag are
unchanged and nothing happened in the outside world (no `releaseReader`). -/
theorem release_of_registered_only_unlocks (w : World) (svc : CardResourceServiceAdapter)
    (r : CardResource) (rm : ReaderManagerAdapter) (hstarted : svc.mIsStarted = true)
    (hm : StdMap.find svc.mReaderToReaderManagerMap r.getReader = some rm) :
    (releaseCardResource w svc (some r)).1 = .ok () ∧
    (releaseCardResource w svc (some r)).2.2 = w ∧
    StdMap.find (releaseCardResource w svc (some r)).2.1.mReaderToReaderManagerMap r.getReader =
      some { rm with mIsBusy := false } ∧
    (∀ x, x ≠ r.getReader →
      StdMap.find (releaseCardResource w svc (some r)).2.1.mReaderToReaderManagerMap x =
        StdMap.find svc.mReaderToReaderManagerMap x) ∧
    (releaseCardResource w svc (some r)).2.1.mReaderToReaderManagerMap.map Prod.fst =
      svc.mReaderToReaderManagerMap.map Prod.fst ∧
    (releaseCardResource w svc (some r)).2.1.mCardProfileNameToCardProfileManagerMap =
      svc.mCardProfileNameToCardProfileManagerMap ∧
    (releaseCardResource w svc (some r)).2.1.mCardResourceToPoolPluginMap =
      svc.mCardResourceToPoolPluginMap ∧
    (releaseCardResource w svc (some r)).2.1.mPluginToObservableReadersMap =
      svc.mPluginToObservableReadersMap ∧
    (releaseCardResource w svc (some r)).2.1.mConfigurator = svc.mConfigurator ∧
    (releaseCardResource w svc (some r)).2.1.mIsStarted = true := by
  rw [releaseCardResource_of_registered w svc r rm hstarted hm]
  refine ⟨rfl, rfl, ?_, ?_, ?_, rfl, rfl, rfl, rfl, hstarted⟩
  · exact StdMap.find_assign_self _ _ _ rm hm
  · intro x hx
    exact StdMap.find_assign_ne _ _ _ _ (fun e => hx e.symm)
  · exact StdMap.keys_assign _ _ _

theorem release_of_registered_only_unlocks_witness :
    Scenario.resourceA ∉ Scenario.managerXHeld.mCardResources ∧
    Scenario.managerXHeld.mSelectedCardResource ≠ some Scenario.resourceA ∧
    StdMap.find (releaseCardResource {} Scenario.serviceHeld
        (some Scenario.resourceA)).2.1.mReaderToReaderManagerMap Scenario.readerX =
      some { Scenario.managerXHeld with mIsBusy := false } ∧
    (releaseCardResource {} Scenario.serviceHeld (some Scenario.resourceA)).2.2 = {} :=
  ⟨by decide, by decide,
   (release_of_registered_only_unlocks {} Scenario.serviceHeld Scenario.resourceA
      Scenario.managerXHeld rfl rfl).2.2.1,
   (release_of_registered_only_unlocks {} Scenario.serviceHeld Scenario.resourceA
      Scenario.managerXHeld rfl rfl).2.1⟩

end CardResourceServiceAdapter

/-! ## A pool reader whose card does not match -/

namespace CardProfileManagerAdapter

theorem allocateFromPools_after_no_offer (env : Env) (pm : CardProfileManagerAdapter)
    (l : List Plugin) (pre : List Plugin) :
    ∀ (w : World) (svc : CardResourceServiceAdapter),
      (∀ pre' q rest, pre = pre' ++ q :: rest →
        poolOffer env pm (afterPoolTurns env pm w pre') q = none) →
      allocateFromPools env pm (pre ++ l) w svc =
        allocateFromPools env pm l (afterPoolTurns env pm w pre) svc := by
  induction pre with
  | nil => intro w svc _; rfl
  | cons q pre ih =>
    intro w svc hpre
    have hq : poolOffer env pm w q = none := hpre [] q pre rfl
    rw [List.cons_append, allocateFromPools_of_no_offer env pm w svc q _ hq]
    apply ih
    intro pre' q' rest he
    exact hpre (q :: pre') q' rest (by rw [he]; rfl)

theorem afterPoolTurns_releaseReaderLog (env : Env) (pm : CardProfileManagerAdapter)
    (l : List Plugin) :
    ∀ w : World, (afterPoolTurns env pm w l).releaseReaderLog = w.releaseReaderLog := by
  induction l with
  | nil => intro w; rfl
  | cons q l ih =>
    intro w
    simp only [afterPoolTurns, ih]
    unfold afterPoolTurn
    split <;> rfl

theorem allocateFromPools_releaseReaderLog (env : Env) (pm : CardProfileManagerAdapter)
    (l : List Plugin) :
    ∀ (w : World) (svc : CardResourceServiceAdapter),
      (allocateFromPools env pm l w svc).2.2.releaseReaderLog = w.releaseReaderLog := by
  induction l with
  | nil => intro w svc; rfl
  | cons p rest ih =>
    intro w svc
    simp only [allocateFromPools]
    split
    · split
      · rfl
      · exact (ih _ _).trans rfl
    · exact (ih _ _).trans rfl
    · exact (ih _ _).trans rfl

/-- C39: let the loop of `getPoolCardResource` reach the pool plugin `p` (the plugins
`pre` before it offered nothing) and let `allocateReader` of `p` return a reader on
which the extension of the profile selects no card.  Then the search moves on: the
call gives what the loop over the remaining plugins `post` gives when it is run on the
service as it was before the call (so with the same `cardResourceToPoolPlugin`) and in
a world in which `p` has only been asked to allocate and the card to match; no
`releaseReader` call has been logged at that point, none is logged by the whole call,
and when no plugin of `post` offers a resource the service is left as it was. -/
theorem unmatched_pool_reader_is_skipped (env : Env) (w : World)
    (svc : CardResourceServiceAdapter) (name : String) (pm : CardProfileManagerAdapter)
    (pre : List Plugin) (p : Plugin) (post : List Plugin) (reader : CardReader)
    (hpm : StdMap.find svc.mCardProfileNameToCardProfileManagerMap name = some pm)
    (hpools : pm.mPoolPlugins = pre ++ p :: post)
    (hpre : ∀ pre' q rest, pre = pre' ++ q :: rest →
      poolOffer env pm (afterPoolTurns env pm w pre') q = none)
    (halloc : env.allocateReader (afterPoolTurns env pm w pre).poolAllocations p
      pm.mCardProfile.mReaderGroupReference = Allocation.reader reader)
    (hselect : env.select (afterPoolTurns env pm w pre).selections
      pm.mCardProfile.mCardResourceProfileExtension reader = none) :
    getPoolCardResource env w svc name =
      (.ok (allocateFromPools env pm post
          { afterPoolTurns env pm w pre with
            poolAllocations := (afterPoolTurns env pm w pre).poolAllocations + 1
            selections := (afterPoolTurns env pm w pre).selections + 1 } svc).1,
       (allocateFromPools env pm post
          { afterPoolTurns env pm w pre with
            poolAllocations := (afterPoolTurns env pm w pre).poolAllocations + 1
            selections := (afterPoolTurns env pm w pre).selections + 1 } svc).2.1,
       (allocateFromPools env pm post
          { afterPoolTurns env pm w pre with
            poolAllocations := (afterPoolTurns env pm w pre).poolAllocations + 1
            selections := (afterPoolTurns env pm w pre).selections + 1 } svc).2.2) ∧
    (afterPoolTurns env pm w pre).releaseReaderLog = w.releaseReaderLog ∧
    (getPoolCardResource env w svc name).2.2.releaseReaderLog = w.releaseReaderLog ∧
    ((∀ post' q rest, post = post' ++ q :: rest →
        poolOffer env pm (afterPoolTurns env pm
          { afterPoolTurns env pm w pre with
            poolAllocations := (afterPoolTurns env pm w pre).poolAllocations + 1
            selections := (afterPoolTurns env pm w pre).selections + 1 } post') q = none) →
      (getPoolCardResource env w svc name).1 = .ok none ∧
      (getPoolCardResource env w svc name).2.1 = svc) := by
  have hget : getPoolCardResource env w svc name =
      (.ok (allocateFromPools env pm pm.mPoolPlugins w svc).1,
       (allocateFromPools env pm pm.mPoolPlugins w svc).2.1,
       (allocateFromPools env pm pm.mPoolPlugins w svc).2.2) := by
    simp only [getPoolCardResource, hpm]
  have hstep : allocateFromPools env pm pm.mPoolPlugins w svc =
      allocateFromPools env pm post
        { afterPoolTurns env pm w pre with
          poolAllocations := (afterPoolTurns env pm w pre).poolAllocations + 1
          selections := (afterPoolTurns env pm w pre).selections + 1 } svc := by
    rw [hpools, allocateFromPools_after_no_offer env pm (p :: post) pre w svc hpre]
    simp only [allocateFromPools, halloc, hselect]
  refine ⟨?_, afterPoolTurns_releaseReaderLog env pm pre w, ?_, ?_⟩
  · rw [hget, hstep]
  · rw [hget]
    exact allocateFromPools_releaseReaderLog env pm _ w svc
  · intro hpost
    rw [hget, hstep, allocateFromPools_no_offer env pm post _ svc hpost]
    exact ⟨rfl, rfl⟩

theorem unmatched_pool_reader_is_skipped_witness :
    Scenario.envPoolMismatch.allocateReader 0 Scenario.poolPluginFailing "" =
      Allocation.reader Scenario.readerStray ∧
    (getPoolCardResource Scenario.envPoolMismatch {} Scenario.servicePools "P1").1 =
      .ok (some { id := 0, mReader := Scenario.readerPool, mSmartCard := Scenario.cardB }) ∧
    (getPoolCardResource Scenario.envPoolMismatch {} Scenario.servicePools
      "P1").2.1.mCardResourceToPoolPluginMap =
      [({ id := 0, mReader := Scenario.readerPool, mSmartCard := Scenario.cardB },
        Scenario.poolPlugin)] ∧
    (getPoolCardResource Scenario.envPoolMismatch {} Scenario.servicePools
      "P1").2.2.releaseReaderLog = [] :=
  have h := unmatched_pool_reader_is_skipped Scenario.envPoolMismatch {} Scenario.servicePools
    "P1" Scenario.profileManagerPools [] Scenario.poolPluginFailing [Scenario.poolPlugin]
    Scenario.readerStray rfl rfl
    (by
      intro pre' q rest he
      cases pre' <;> simp at he)
    rfl rfl
  ⟨rfl, (congrArg Prod.fst h.1).trans rfl,
   (congrArg (fun r => r.2.1.mCardResourceToPoolPluginMap) h.1).trans rfl, h.2.2.1⟩

end CardProfileManagerAdapter

/-! ## The card resources of a reader manager are pairwise not equivalent -/

namespace ReaderManagerAdapter

theorem areEquals_self (s : Option SmartCard) : areEquals s s = true := by
  simp [areEquals]

theorem areEquals_some_comm (a b : SmartCard) :
    areEquals (some a) (some b) = areEquals (some b) (some a) := by
  have h1 := areEquals_some_iff a b
  have h2 := areEquals_some_iff b a
  cases hab : areEquals (some a) (some b) with
  | true =>
    have := h1.1 hab
    exact (h2.2 ⟨this.1.symm, this.2.symm⟩).symm
  | false =>
    cases hba : areEquals (some b) (some a) with
    | false => rfl
    | true =>
      have := h2.1 hba
      rw [h1.2 ⟨this.1.symm, this.2.symm⟩] at hab
      cases hab

theorem getOrCreateCardResource_unequivalent (w : World) (rm : ReaderManagerAdapter)
    (s : SmartCard) (h : Unequivalent rm.mCardResources) :
    Unequivalent (getOrCreateCardResource w rm s).2.1.mCardResources := by
  unfold getOrCreateCardResource
  split
  · exact h
  · next hnone =>
    simp only [Unequivalent, List.pairwise_append, List.pairwise_singleton, true_and,
      List.mem_singleton]
    refine ⟨h, ?_⟩
    intro a ha b hb
    subst hb
    have := List.find?_eq_none.1 hnone a ha
    simpa [CardResource.getSmartCard] using this

theorem call_unequivalent (env : Env) (w : World) (rm : ReaderManagerAdapter)
    (c : ReaderManagerCall) (h : Unequivalent rm.mCardResources) :
    Unequivalent (rm.call env w c).1.mCardResources := by
  cases c with
  | activate =>
    simp only [call, activate]
    split_ifs
    · split <;> exact h
    · exact h
  | «matches» ext =>
    simp only [call, ReaderManagerAdapter.matches]
    split
    · exact getOrCreateCardResource_unequivalent _ rm _ h
    · exact h
  | lock r ext =>
    simp only [call]
    rw [(lock_frame env w rm r ext).1]
    exact h
  | unlock => exact h
  | removeCardResource r =>
    simp only [call, removeCardResource, Arrays.remove]
    split_ifs <;> exact List.Pairwise.sublist (List.erase_sublist _ _) h

theorem run_unequivalent (env : Env) (calls : List ReaderManagerCall) :
    ∀ (w : World) (rm : ReaderManagerAdapter), Unequivalent rm.mCardResources →
      Unequivalent (run env w rm calls).1.mCardResources := by
  induction calls with
  | nil => intro w rm h; exact h
  | cons c rest ih =>
    intro w rm h
    exact ih _ _ (call_unequivalent env w rm c h)

theorem nodup_of_unequivalent (l : List CardResource) (h : Unequivalent l) : l.Nodup := by
  refine List.Pairwise.imp ?_ h
  intro a b hab e
  subst e
  rw [areEquals_self] at hab
  cases hab

theorem unequivalent_of_ne (l : List CardResource) (h : Unequivalent l) :
    ∀ a ∈ l, ∀ b ∈ l, a ≠ b →
      areEquals (some a.getSmartCard) (some b.getSmartCard) = false := by
  intro a ha b hb hab
  have hsymm : Symmetric (fun a b : CardResource =>
      areEquals (some a.getSmartCard) (some b.getSmartCard) = false) := by
    intro x y hxy
    rw [areEquals_some_comm]
    exact hxy
  exact List.Pairwise.forall hsymm h ha hb hab

/-- C36: in the state that a reader manager reaches from its construction by any
sequence of `activate`, `matches`, `lock`, `unlock` and `removeCardResource` calls, in
any world, two distinct elements of `cardResources` never carry smart cards that
`areEquals` holds equivalent, and no element occurs twice in `cardResources`. -/
theorem cardResources_pairwise_unequivalent (env : Env) (w : World) (reader : CardReader)
    (plugin : Plugin) (readerConfiguratorSpi : Option Nat) (usageTimeoutMillis : Nat)
    (calls : List ReaderManagerCall) :
    (∀ a ∈ (run env w (create reader plugin readerConfiguratorSpi usageTimeoutMillis)
          calls).1.mCardResources,
      ∀ b ∈ (run env w (create reader plugin readerConfiguratorSpi usageTimeoutMillis)
          calls).1.mCardResources,
      a ≠ b → areEquals (some a.getSmartCard) (some b.getSmartCard) = false) ∧
    (run env w (create reader plugin readerConfiguratorSpi usageTimeoutMillis)
      calls).1.mCardResources.Nodup := by
  have h : Unequivalent (run env w (create reader plugin readerConfiguratorSpi
      usageTimeoutMillis) calls).1.mCardResources :=
    run_unequivalent env calls w _ List.Pairwise.nil
  exact ⟨unequivalent_of_ne _ h, nodup_of_unequivalent _ h⟩

end ReaderManagerAdapter

/-! ## The waiting loop of `getCardResource` -/

namespace World

theorem followsAwake_refl (w : World) : FollowsAwake w w := ⟨rfl, Nat.le_refl _⟩

theorem followsAwake_trans {w1 w2 w3 : World} (h12 : FollowsAwake w1 w2)
    (h23 : FollowsAwake w2 w3) : FollowsAwake w1 w3 :=
  ⟨h23.1.trans h12.1, Nat.le_trans h12.2 h23.2⟩

end World

namespace ReaderManagerAdapter

theorem lock_awake (env : Env) (w : World) (rm : ReaderManagerAdapter)
    (r : CardResource) (ext : Nat) : World.FollowsAwake w (rm.lock env w r ext).2.2 := by
  simp only [lock, World.FollowsAwake]
  split_ifs <;> refine ⟨rfl, ?_⟩ <;> simp only [] <;> omega

end ReaderManagerAdapter

namespace CardResourceServiceAdapter

theorem releaseCardResource_awake (w : World) (svc : CardResourceServiceAdapter)
    (c : Option CardResource) : World.FollowsAwake w (releaseCardResource w svc c).2.2 := by
  unfold releaseCardResource
  split_ifs
  · exact World.followsAwake_refl w
  · split
    · exact World.followsAwake_refl w
    · split
      · exact World.followsAwake_refl w
      · split
        · exact ⟨rfl, Nat.le_refl _⟩
        · exact World.followsAwake_refl w

theorem removeCardResource_awake (w : World) (svc : CardResourceServiceAdapter)
    (c : Option CardResource) : World.FollowsAwake w (removeCardResource w svc c).2.2 := by
  have h := releaseCardResource_awake w svc c
  unfold removeCardResource
  generalize releaseCardResource w svc c = rel at h
  obtain ⟨o, s1, w1⟩ := rel
  cases o with
  | error e => exact h
  | ok u =>
    dsimp only at h ⊢
    split
    · exact h
    · split_ifs
      · exact h
      · split <;> exact h

theorem removeCardResources_awake (l : List CardResource) :
    ∀ (w : World) (svc : CardResourceServiceAdapter),
      World.FollowsAwake w (removeCardResources w svc l).2.2 := by
  induction l with
  | nil => intro w svc; exact World.followsAwake_refl w
  | cons c rest ih =>
    intro w svc
    have h := removeCardResource_awake w svc (some c)
    simp only [removeCardResources]
    generalize removeCardResource w svc (some c) = rem at h
    obtain ⟨o, s1, w1⟩ := rem
    cases o with
    | error e => exact h
    | ok u =>
      dsimp only at h ⊢
      exact World.followsAwake_trans h (ih w1 s1)

end CardResourceServiceAdapter

namespace CardProfileManagerAdapter

theorem lockFirstAvailable_awake (env : Env) (ext : Nat) (l : List CardResource) :
    ∀ (i : Nat) (w : World) (svc : CardResourceServiceAdapter) (unusable : List CardResource),
      World.FollowsAwake w (lockFirstAvailable env ext l i w svc unusable).2.2.2 := by
  induction l with
  | nil => intro i w svc unusable; exact World.followsAwake_refl w
  | cons c rest ih =>
    intro i w svc unusable
    simp only [lockFirstAvailable]
    split
    · next rm hrm =>
      have hl := ReaderManagerAdapter.lock_awake env w rm c ext
      split
      · exact hl
      · exact World.followsAwake_trans hl (ih _ _ _ _)
      · exact World.followsAwake_trans hl (ih _ _ _ _)
      · exact hl
    · exact ih _ _ _ _

theorem getRegularCardResource_awake (env : Env) (w : World)
    (svc : CardResourceServiceAdapter) (name : String) :
    World.FollowsAwake w (getRegularCardResource env w svc name).2.2 := by
  unfold getRegularCardResource
  split
  · exact World.followsAwake_refl w
  · next pm hpm =>
    have hw := lockFirstAvailable_awake env
      pm.mCardProfile.mCardResourceProfileExtension pm.mCardResources 0 w svc []
    generalize lockFirstAvailable env pm.mCardProfile.mCardResourceProfileExtension
      pm.mCardResources 0 w svc [] = walk at hw
    obtain ⟨found, unusable, svc1, w1⟩ := walk
    dsimp only at hw ⊢
    cases found with
    | error e => exact hw
    | ok found =>
      dsimp only
      cases found with
      | none =>
        dsimp only
        have hr := CardResourceServiceAdapter.removeCardResources_awake unusable w1 svc1
        generalize CardResourceServiceAdapter.removeCardResources w1 svc1 unusable = rem at hr
        obtain ⟨o, s3, w3⟩ := rem
        cases o with
        | error e => exact World.followsAwake_trans hw hr
        | ok u => exact World.followsAwake_trans hw hr
      | some p =>
        obtain ⟨i, cardResource⟩ := p
        dsimp only
        generalize ({ svc1 with
              mCardProfileNameToCardProfileManagerMap :=
                StdMap.assign svc1.mCardProfileNameToCardProfileManagerMap name
                  (updateCardResourcesOrder env pm
                    (Arrays.indexOf pm.mCardResources cardResource)) } :
              CardResourceServiceAdapter) = svc2
        have hr := CardResourceServiceAdapter.removeCardResources_awake unusable w1 svc2
        generalize CardResourceServiceAdapter.removeCardResources w1 svc2 unusable = rem at hr
        obtain ⟨o, s3, w3⟩ := rem
        cases o with
        | error e => exact World.followsAwake_trans hw hr
        | ok u => exact World.followsAwake_trans hw hr

theorem allocateFromPools_awake (env : Env) (pm : CardProfileManagerAdapter)
    (l : List Plugin) :
    ∀ (w : World) (svc : CardResourceServiceAdapter),
      World.FollowsAwake w (allocateFromPools env pm l w svc).2.2 := by
  induction l with
  | nil => intro w svc; exact World.followsAwake_refl w
  | cons p rest ih =>
    intro w svc
    simp only [allocateFromPools]
    split
    · split
      · exact ⟨rfl, Nat.le_refl _⟩
      · exact World.followsAwake_trans ⟨rfl, Nat.le_refl _⟩ (ih _ _)
    · exact World.followsAwake_trans ⟨rfl, Nat.le_refl _⟩ (ih _ _)
    · exact World.followsAwake_trans ⟨rfl, Nat.le_refl _⟩ (ih _ _)

theorem getPoolCardResource_awake (env : Env) (w : World)
    (svc : CardResourceServiceAdapter) (name : String) :
    World.FollowsAwake w (getPoolCardResource env w svc name).2.2 := by
  unfold getPoolCardResource
  split
  · exact World.followsAwake_refl w
  · exact allocateFromPools_awake env _ _ w svc

theorem getRegularOrPoolCardResource_awake (env : Env) (w : World)
    (svc : CardResourceServiceAdapter) (name : String) (usePoolFirst : Bool) :
    World.FollowsAwake w (getRegularOrPoolCardResource env w svc name usePoolFirst).2.2 := by
  unfold getRegularOrPoolCardResource
  split_ifs
  · have h := getPoolCardResource_awake env w svc name
    generalize getPoolCardResource env w svc name = r at h
    split
    · next s1 w1 =>
      exact World.followsAwake_trans h (getRegularCardResource_awake env w1 s1 name)
    · exact h
  · have h := getRegularCardResource_awake env w svc name
    generalize getRegularCardResource env w svc name = r at h
    split
    · next s1 w1 =>
      exact World.followsAwake_trans h (getPoolCardResource_awake env w1 s1 name)
    · exact h

theorem searchOnce_awake (env : Env) (w : World) (svc : CardResourceServiceAdapter)
    (name : String) (pm : CardProfileManagerAdapter) :
    World.FollowsAwake w (searchOnce env w svc name pm).2.2 := by
  unfold searchOnce
  split_ifs
  · exact getRegularOrPoolCardResource_awake env w svc name _
  · exact getRegularCardResource_awake env w svc name
  · exact getPoolCardResource_awake env w svc name

end CardProfileManagerAdapter

namespace CardProfileManagerAdapter

theorem idleUntil_shift (env : Env) (name : String) (pm : CardProfileManagerAdapter)
    (maxTime : Nat) (s : CardResourceServiceAdapter × World) (n : Nat)
    (h : IdleUntil env name pm maxTime s (n + 1)) :
    IdleUntil env name pm maxTime (afterIdleTurn env name pm s) n := by
  intro k hk
  exact h (k + 1) (by omega)

theorem afterIdleTurns_succ (env : Env) (name : String) (pm : CardProfileManagerAdapter)
    (n : Nat) :
    ∀ s : CardResourceServiceAdapter × World,
      afterIdleTurns env name pm (n + 1) s =
        afterIdleTurn env name pm (afterIdleTurns env name pm n s) := by
  induction n with
  | zero => intro s; rfl
  | succ n ih =>
    intro s
    exact ih (afterIdleTurn env name pm s)

theorem searchLoop_idle_turn (env : Env) (name : String) (pm : CardProfileManagerAdapter)
    (maxTime fuel : Nat) (w : World) (svc : CardResourceServiceAdapter)
    (hblocking : pm.mGlobalConfiguration.mIsBlockingAllocationMode = true)
    (hnone : (searchOnce env w svc name pm).1 = .ok none)
    (hclock : env.clock (searchOnce env w svc name pm).2.2.clockReads ≤ maxTime) :
    searchLoop env name pm maxTime (fuel + 1) w svc =
      searchLoop env name pm maxTime fuel (afterIdleTurn env name pm (svc, w)).2
        (afterIdleTurn env name pm (svc, w)).1 := by
  simp only [searchLoop, afterIdleTurn]
  generalize searchOnce env w svc name pm = r at hnone hclock
  obtain ⟨o, s1, w1⟩ := r
  dsimp only at hnone hclock
  subst hnone
  simp only [hblocking, if_true, hclock]

theorem searchLoop_idle (env : Env) (name : String) (pm : CardProfileManagerAdapter)
    (maxTime fuel : Nat)
    (hblocking : pm.mGlobalConfiguration.mIsBlockingAllocationMode = true) (n : Nat) :
    ∀ s : CardResourceServiceAdapter × World, IdleUntil env name pm maxTime s n →
      searchLoop env name pm maxTime (n + fuel) s.2 s.1 =
        searchLoop env name pm maxTime fuel (afterIdleTurns env name pm n s).2
          (afterIdleTurns env name pm n s).1 := by
  induction n with
  | zero =>
    intro s _
    simp only [Nat.zero_add, afterIdleTurns]
  | succ n ih =>
    intro s h
    have h0 := h 0 (by omega)
    simp only [afterIdleTurns] at h0
    have e : n + 1 + fuel = (n + fuel) + 1 := by omega
    rw [e, searchLoop_idle_turn env name pm maxTime (n + fuel) s.2 s.1 hblocking h0.1 h0.2]
    exact ih _ (idleUntil_shift env name pm maxTime s n h)

theorem searchLoop_of_result (env : Env) (name : String) (pm : CardProfileManagerAdapter)
    (maxTime fuel : Nat) (w : World) (svc : CardResourceServiceAdapter)
    (h : (searchOnce env w svc name pm).1 ≠ .ok none) :
    searchLoop env name pm maxTime (fuel + 1) w svc =
      (some (searchOnce env w svc name pm).1, (searchOnce env w svc name pm).2.1,
       (searchOnce env w svc name pm).2.2) := by
  simp only [searchLoop]
  generalize searchOnce env w svc name pm = r at h
  obtain ⟨o, s1, w1⟩ := r
  cases o with
  | error e => rfl
  | ok c =>
    cases c with
    | none => exact absurd rfl h
    | some c => rfl

theorem searchLoop_of_timeout (env : Env) (name : String) (pm : CardProfileManagerAdapter)
    (maxTime fuel : Nat) (w : World) (svc : CardResourceServiceAdapter)
    (hblocking : pm.mGlobalConfiguration.mIsBlockingAllocationMode = true)
    (hnone : (searchOnce env w svc name pm).1 = .ok none)
    (hclock : maxTime < env.clock (searchOnce env w svc name pm).2.2.clockReads) :
    searchLoop env name pm maxTime (fuel + 1) w svc =
      (some (.ok none), (afterIdleTurn env name pm (svc, w)).1,
       (afterIdleTurn env name pm (svc, w)).2) := by
  simp only [searchLoop, afterIdleTurn]
  generalize searchOnce env w svc name pm = r at hnone hclock
  obtain ⟨o, s1, w1⟩ := r
  dsimp only at hnone hclock
  subst hnone
  have : ¬ env.clock w1.clockReads ≤ maxTime := by omega
  simp only [hblocking, if_true, this, if_false]

theorem searchLoop_of_non_blocking (env : Env) (name : String)
    (pm : CardProfileManagerAdapter) (maxTime fuel : Nat) (w : World)
    (svc : CardResourceServiceAdapter)
    (hblocking : pm.mGlobalConfiguration.mIsBlockingAllocationMode = false) :
    searchLoop env name pm maxTime (fuel + 1) w svc =
      (some (searchOnce env w svc name pm).1, (searchOnce env w svc name pm).2.1,
       (searchOnce env w svc name pm).2.2) := by
  simp only [searchLoop]
  generalize searchOnce env w svc name pm = r
  obtain ⟨o, s1, w1⟩ := r
  cases o with
  | error e => rfl
  | ok c =>
    cases c with
    | none => simp only [hblocking, Bool.false_eq_true, if_false]
    | some c => rfl

theorem searchLoop_trace (env : Env) (name : String) (pm : CardProfileManagerAdapter)
    (maxTime : Nat)
    (hblocking : pm.mGlobalConfiguration.mIsBlockingAllocationMode = true) (fuel : Nat) :
    ∀ (s : CardResourceServiceAdapter × World) (res : Except Exception (Option CardResource)),
      (searchLoop env name pm maxTime fuel s.2 s.1).1 = some res →
      ∃ n, n < fuel ∧ IdleUntil env name pm maxTime s n ∧
        ((res ≠ .ok none ∧
          searchOnce env (afterIdleTurns env name pm n s).2 (afterIdleTurns env name pm n s).1
              name pm =
            (res, (searchLoop env name pm maxTime fuel s.2 s.1).2.1,
             (searchLoop env name pm maxTime fuel s.2 s.1).2.2)) ∨
         (res = .ok none ∧
          (searchOnce env (afterIdleTurns env name pm n s).2 (afterIdleTurns env name pm n s).1
              name pm).1 = .ok none ∧
          maxTime < env.clock (searchOnce env (afterIdleTurns env name pm n s).2
              (afterIdleTurns env name pm n s).1 name pm).2.2.clockReads ∧
          afterIdleTurns env name pm (n + 1) s =
            ((searchLoop env name pm maxTime fuel s.2 s.1).2.1,
             (searchLoop env name pm maxTime fuel s.2 s.1).2.2))) := by
  induction fuel with
  | zero =>
    intro s res h
    simp [searchLoop] at h
  | succ fuel ih =>
    intro s res h
    by_cases hr : (searchOnce env s.2 s.1 name pm).1 = .ok none
    · by_cases hc : env.clock (searchOnce env s.2 s.1 name pm).2.2.clockReads ≤ maxTime
      · rw [searchLoop_idle_turn env name pm maxTime fuel s.2 s.1 hblocking hr hc] at h ⊢
        obtain ⟨n, hn, hidle, hcases⟩ := ih (afterIdleTurn env name pm s) res h
        refine ⟨n + 1, by omega, ?_, ?_⟩
        · intro k hk
          cases k with
          | zero => exact ⟨hr, hc⟩
          | succ k => exact hidle k (by omega)
        · exact hcases
      · have hc2 : maxTime < env.clock (searchOnce env s.2 s.1 name pm).2.2.clockReads := by
          omega
        rw [searchLoop_of_timeout env name pm maxTime fuel s.2 s.1 hblocking hr hc2] at h ⊢
        simp only [Option.some.injEq] at h
        refine ⟨0, by omega, fun k hk => absurd hk (by omega), Or.inr ⟨h.symm, hr, hc2, rfl⟩⟩
    · rw [searchLoop_of_result env name pm maxTime fuel s.2 s.1 hr] at h ⊢
      simp only [Option.some.injEq] at h
      refine ⟨0, by omega, fun k hk => absurd hk (by omega), Or.inl ⟨?_, ?_⟩⟩
      · rw [← h]
        exact hr
      · rw [← h]
        rfl

theorem searchLoop_ends (env : Env) (name : String) (pm : CardProfileManagerAdapter)
    (maxTime N : Nat) (hlate : ∀ m, N ≤ m → maxTime < env.clock m) (fuel : Nat) :
    ∀ (w : World) (svc : CardResourceServiceAdapter), N ≤ w.clockReads + fuel →
      (searchLoop env name pm maxTime (fuel + 1) w svc).1 ≠ none := by
  induction fuel with
  | zero =>
    intro w svc hN
    have ha := searchOnce_awake env w svc name pm
    simp only [searchLoop]
    generalize searchOnce env w svc name pm = r at ha
    obtain ⟨o, s1, w1⟩ := r
    cases o with
    | error e => simp
    | ok c =>
      cases c with
      | some c => simp
      | none =>
        dsimp only
        have hc : ¬ env.clock w1.clockReads ≤ maxTime := by
          have := hlate w1.clockReads (by have := ha.2; simp only [] at this; omega)
          omega
        split_ifs <;> simp
  | succ fuel ih =>
    intro w svc hN
    have ha := searchOnce_awake env w svc name pm
    rw [searchLoop]
    generalize searchOnce env w svc name pm = r at ha
    obtain ⟨o, s1, w1⟩ := r
    cases o with
    | error e => simp
    | ok c =>
      cases c with
      | some c => simp
      | none =>
        dsimp only
        split_ifs
        · apply ih
          have := ha.2
          simp only [] at this ⊢
          omega
        · simp
        · simp

end CardProfileManagerAdapter

namespace CardProfileManagerAdapter

/-- C35: `getCardResource` of a profile manager reads the clock once (`maxTime` is that
reading plus the timeout) and then runs its search passes.  In non-blocking mode it
returns after one pass, with the result, the service and the world of that pass, and
the log of sleeps is the one before the call.  In blocking mode, a call that returns
`res` has run `n + 1` passes for some `n`, the first `n` of which found nothing and
were each followed by a clock reading not after `maxTime`; either `res` is not null and
is what pass `n + 1` gave (found resource or exception), or `res` is null, pass `n + 1`
found nothing and the clock reading that followed it was after `maxTime`.  Conversely
the first pass that gives something else than null ends the call with its result, and a
pass that finds nothing followed by a reading after `maxTime` ends it with null.  The
call returns as soon as the clock readings are after `maxTime` from some rank on. -/
theorem getCardResource_passes (env : Env) (fuel : Nat) (w : World)
    (svc : CardResourceServiceAdapter) (name : String) (pm : CardProfileManagerAdapter) :
    (pm.mGlobalConfiguration.mIsBlockingAllocationMode = false →
      getCardResource env (fuel + 1) w svc name pm =
        (some (searchOnce env { w with clockReads := w.clockReads + 1 } svc name pm).1,
         (searchOnce env { w with clockReads := w.clockReads + 1 } svc name pm).2.1,
         (searchOnce env { w with clockReads := w.clockReads + 1 } svc name pm).2.2) ∧
      (getCardResource env (fuel + 1) w svc name pm).2.2.sleepLog = w.sleepLog) ∧
    (pm.mGlobalConfiguration.mIsBlockingAllocationMode = true →
      (∀ res, (getCardResource env fuel w svc name pm).1 = some res →
        ∃ n, n < fuel ∧
          IdleUntil env name pm
            (env.clock w.clockReads + pm.mGlobalConfiguration.mTimeoutMillis)
            (svc, { w with clockReads := w.clockReads + 1 }) n ∧
          ((res ≠ .ok none ∧
            searchOnce env
                (afterIdleTurns env name pm n
                  (svc, { w with clockReads := w.clockReads + 1 })).2
                (afterIdleTurns env name pm n
                  (svc, { w with clockReads := w.clockReads + 1 })).1 name pm =
              (res, (getCardResource env fuel w svc name pm).2.1,
               (getCardResource env fuel w svc name pm).2.2)) ∨
           (res = .ok none ∧
            (searchOnce env
                (afterIdleTurns env name pm n
                  (svc, { w with clockReads := w.clockReads + 1 })).2
                (afterIdleTurns env name pm n
                  (svc, { w with clockReads := w.clockReads + 1 })).1 name pm).1 = .ok none ∧
            env.clock w.clockReads + pm.mGlobalConfiguration.mTimeoutMillis <
              env.clock (searchOnce env
                (afterIdleTurns env name pm n
                  (svc, { w with clockReads := w.clockReads + 1 })).2
                (afterIdleTurns env name pm n
                  (svc, { w with clockReads := w.clockReads + 1 })).1 name
                pm).2.2.clockReads ∧
            afterIdleTurns env name pm (n + 1)
                (svc, { w with clockReads := w.clockReads + 1 }) =
              ((getCardResource env fuel w svc name pm).2.1,
               (getCardResource env fuel w svc name pm).2.2)))) ∧
      (∀ n, n < fuel →
        IdleUntil env name pm
          (env.clock w.clockReads + pm.mGlobalConfiguration.mTimeoutMillis)
          (svc, { w with clockReads := w.clockReads + 1 }) n →
        ((searchOnce env
            (afterIdleTurns env name pm n (svc, { w with clockReads := w.clockReads + 1 })).2
            (afterIdleTurns env name pm n (svc, { w with clockReads := w.clockReads + 1 })).1
            name pm).1 ≠ .ok none →
          getCardResource env fuel w svc name pm =
            (some (searchOnce env
                (afterIdleTurns env name pm n
                  (svc, { w with clockReads := w.clockReads + 1 })).2
                (afterIdleTurns env name pm n
                  (svc, { w with clockReads := w.clockReads + 1 })).1 name pm).1,
             (searchOnce env
                (afterIdleTurns env name pm n
                  (svc, { w with clockReads := w.clockReads + 1 })).2
                (afterIdleTurns env name pm n
                  (svc, { w with clockReads := w.clockReads + 1 })).1 name pm).2.1,
             (searchOnce env
                (afterIdleTurns env name pm n
                  (svc, { w with clockReads := w.clockReads + 1 })).2
                (afterIdleTurns env name pm n
                  (svc, { w with clockReads := w.clockReads + 1 })).1 name pm).2.2)) ∧
        ((searchOnce env
            (afterIdleTurns env name pm n (svc, { w with clockReads := w.clockReads + 1 })).2
            (afterIdleTurns env name pm n (svc, { w with clockReads := w.clockReads + 1 })).1
            name pm).1 = .ok none →
          env.clock w.clockReads + pm.mGlobalConfiguration.mTimeoutMillis <
            env.clock (searchOnce env
              (afterIdleTurns env name pm n
                (svc, { w with clockReads := w.clockReads + 1 })).2
              (afterIdleTurns env name pm n
                (svc, { w with clockReads := w.clockReads + 1 })).1 name
              pm).2.2.clockReads →
          getCardResource env fuel w svc name pm =
            (some (.ok none),
             (afterIdleTurns env name pm (n + 1)
               (svc, { w with clockReads := w.clockReads + 1 })).1,
             (afterIdleTurns env name pm (n + 1)
               (svc, { w with clockReads := w.clockReads + 1 })).2)))) ∧
    (∀ N, (∀ m, N ≤ m →
        env.clock w.clockReads + pm.mGlobalConfiguration.mTimeoutMillis < env.clock m) →
      N ≤ w.clockReads + fuel →
      (getCardResource env (fuel + 1) w svc name pm).1 ≠ none) := by
  refine ⟨?_, ?_, ?_⟩
  · intro hb
    have he := searchLoop_of_non_blocking env name pm
      (env.clock w.clockReads + pm.mGlobalConfiguration.mTimeoutMillis) fuel
      { w with clockReads := w.clockReads + 1 } svc hb
    refine ⟨he, ?_⟩
    have ha := searchOnce_awake env { w with clockReads := w.clockReads + 1 } svc name pm
    simp only [getCardResource]
    rw [he]
    exact ha.1
  · intro hb
    refine ⟨?_, ?_⟩
    · intro res hres
      exact searchLoop_trace env name pm _ hb fuel
        (svc, { w with clockReads := w.clockReads + 1 }) res hres
    · intro n hn hidle
      obtain ⟨k, rfl⟩ : ∃ k, fuel = n + (k + 1) := ⟨fuel - n - 1, by omega⟩
      have hstep := searchLoop_idle env name pm
        (env.clock w.clockReads + pm.mGlobalConfiguration.mTimeoutMillis) (k + 1) hb n
        (svc, { w with clockReads := w.clockReads + 1 }) hidle
      refine ⟨?_, ?_⟩
      · intro hr
        simp only [getCardResource]
        rw [hstep]
        exact searchLoop_of_result env name pm _ k _ _ hr
      · intro hr hc
        simp only [getCardResource]
        rw [hstep, afterIdleTurns_succ]
        exact searchLoop_of_timeout env name pm _ k _ _ hb hr hc
  · intro N hlate hN
    simp only [getCardResource]
    exact searchLoop_ends env name pm _ N hlate fuel _ svc (by simp only []; omega)

theorem getCardResource_passes_witness :
    Scenario.profileManagerBlocking.mGlobalConfiguration.mIsBlockingAllocationMode = true ∧
    getCardResource Scenario.envSlowClock 3 {} Scenario.serviceBlocking "P1"
        Scenario.profileManagerBlocking =
      (some (.ok none), Scenario.serviceBlocking, { clockReads := 3, sleepLog := [50, 50] }) :=
  ⟨rfl,
   (((getCardResource_passes Scenario.envSlowClock 3 {} Scenario.serviceBlocking "P1"
      Scenario.profileManagerBlocking).2.1 rfl).2 1 (by decide)
      (by
        intro k hk
        have hk0 : k = 0 := by omega
        subst hk0
        exact ⟨rfl, by decide⟩)).2 rfl (by decide)⟩

end CardProfileManagerAdapter

/-! ## Removal of the unused plugins by `configure` -/

namespace PluginsConfigurator.Builder

theorem addPluginWithMonitoring_aligned (b b1 : Builder) (plugin : Option Plugin)
    (readerConfiguratorSpi pluginHandler readerHandler : Option Nat)
    (haligned : b.mConfiguredPlugins.map (fun cp => cp.mPlugin) = b.mPlugins)
    (hok : addPluginWithMonitoring b plugin readerConfiguratorSpi pluginHandler readerHandler =
      .ok b1) :
    b1.mConfiguredPlugins.map (fun cp => cp.mPlugin) = b1.mPlugins := by
  unfold addPluginWithMonitoring at hok
  split at hok
  · split_ifs at hok
    simp only [Except.ok.injEq] at hok
    rw [← hok]
    simp only [List.map_append, haligned, List.map_cons, List.map_nil, ConfiguredPlugin.create]
  · cases hok

theorem build_aligned (b : Builder) (pc : PluginsConfigurator)
    (haligned : b.mConfiguredPlugins.map (fun cp => cp.mPlugin) = b.mPlugins)
    (hok : build b = .ok pc) :
    pc.mConfiguredPlugins.map (fun cp => cp.mPlugin) = pc.mPlugins := by
  unfold build at hok
  by_cases he : b.mPlugins.isEmpty = true
  · rw [if_pos he] at hok
    cases hok
  · rw [if_neg he] at hok
    simp only [Except.ok.injEq] at hok
    rw [← hok]
    exact haligned

end PluginsConfigurator.Builder

namespace CardResourceServiceConfiguratorAdapter

theorem withPlugins_aligned (cfg : CardResourceServiceConfiguratorAdapter)
    (pc : PluginsConfigurator)
    (hpc : pc.mConfiguredPlugins.map (fun cp => cp.mPlugin) = pc.mPlugins)
    (haligned : cfg.mConfiguredPlugins.map (fun cp => cp.mPlugin) = cfg.mPlugins) :
    (withPlugins cfg (some pc)).2.mConfiguredPlugins.map (fun cp => cp.mPlugin) =
      (withPlugins cfg (some pc)).2.mPlugins := by
  unfold withPlugins
  dsimp only
  split_ifs
  · exact haligned
  · exact hpc

end CardResourceServiceConfiguratorAdapter

namespace CardResourceServiceAdapter

theorem start_configurator (env : Env) (w : World) (svc : CardResourceServiceAdapter) :
    (start env w svc).2.1.mConfigurator = svc.mConfigurator := by
  unfold start
  cases hc : svc.mConfigurator with
  | none => exact hc
  | some cfg =>
    have hstop : ∀ s : Except Exception Unit × CardResourceServiceAdapter × World,
        s = (if svc.mIsStarted then stop w svc else (.ok (), svc, w)) →
        s.1 = .ok () ∧ s.2.1.mConfigurator = some cfg := by
      intro s hs
      have hne : svc.mConfigurator ≠ none := by rw [hc]; exact Option.some_ne_none cfg
      obtain ⟨a1, _, _, _, _, _, a7⟩ := stop_of_configured w svc hne
      by_cases hst : svc.mIsStarted = true
      · rw [if_pos hst] at hs
        rw [hs]
        exact ⟨a1, a7.trans hc⟩
      · rw [if_neg hst] at hs
        rw [hs]
        exact ⟨rfl, hc⟩
    dsimp only
    have h0 := hstop _ rfl
    generalize (if svc.mIsStarted = true then stop w svc else (.ok (), svc, w)) = s at h0
    obtain ⟨o, svc1, w1⟩ := s
    obtain ⟨h1, h2⟩ := h0
    simp only at h1 h2
    subst h1
    dsimp only
    have hm := initializeReaderManagers_lifeCycle env cfg cfg.mPlugins w1 svc1
    generalize initializeReaderManagers env cfg cfg.mPlugins w1 svc1 = managers at hm
    have hp := initializeCardProfileManagers_spec env cfg cfg.mCardResourceProfileConfigurators
      managers.2 managers.1
    generalize initializeCardProfileManagers env cfg cfg.mCardResourceProfileConfigurators
      managers.2 managers.1 = r at hp
    obtain ⟨o, svc2, w2⟩ := r
    cases o with
    | error e =>
      dsimp only at hp ⊢
      exact (congrArg Prod.snd (hp.2.trans hm)).trans h2
    | ok u =>
      dsimp only at hp ⊢
      have hu : (removeUnusedReaderManagers w2 svc2).1.lifeCycle = svc2.lifeCycle :=
        unregisterInactive_lifeCycle _ _ _
      have hall := (hu.trans hp.2).trans hm
      exact (congrArg Prod.snd hall).trans h2

theorem configure_installs (env : Env) (w : World) (svc : CardResourceServiceAdapter)
    (configurator : CardResourceServiceConfiguratorAdapter)
    (hok : (configure env w svc configurator).1 = .ok ()) :
    (configure env w svc configurator).2.1.mConfigurator = some configurator := by
  unfold configure at hok ⊢
  by_cases hst : svc.mIsStarted = true
  · rw [if_pos hst] at hok ⊢
    generalize stop w svc = r at hok ⊢
    obtain ⟨o, svc1, w1⟩ := r
    cases o with
    | error e => cases hok
    | ok u =>
      dsimp only
      exact start_configurator env w1 { svc1 with mConfigurator := some configurator }
  · rw [if_neg hst]

end CardResourceServiceAdapter

namespace CardResourceServiceConfiguratorAdapter

theorem usedPluginsFrom_spec (allPlugins : List Plugin)
    (l : List CardResourceProfileConfigurator) :
    ∀ usedPlugins : List Plugin,
      usedPluginsFrom allPlugins l usedPlugins = allPlugins ∨
      ((∀ p ∈ usedPlugins, p ∈ usedPluginsFrom allPlugins l usedPlugins) ∧
        ∀ profile ∈ l, ∀ p ∈ profile.mPlugins,
          p ∈ usedPluginsFrom allPlugins l usedPlugins) := by
  induction l with
  | nil =>
    intro usedPlugins
    right
    exact ⟨fun p hp => hp, fun profile hprofile => by simp at hprofile⟩
  | cons profile rest ih =>
    intro usedPlugins
    simp only [usedPluginsFrom]
    split_ifs
    · rcases ih (Arrays.addAll usedPlugins profile.mPlugins) with h | ⟨h1, h2⟩
      · exact Or.inl h
      · right
        refine ⟨fun p hp => h1 p ?_, ?_⟩
        · simp only [Arrays.addAll, List.mem_append]
          exact Or.inl hp
        · intro q hq p hp
          rcases List.mem_cons.1 hq with hq | hq
          · apply h1
            simp only [Arrays.addAll, List.mem_append]
            rw [hq] at hp
            exact Or.inr hp
          · exact h2 q hq p hp
    · exact Or.inl rfl

theorem withoutUnusedPlugins_spec (cfg : CardResourceServiceConfiguratorAdapter)
    (hcheck : ∀ profile ∈ cfg.mCardResourceProfileConfigurators, ∀ p ∈ profile.mPlugins,
      p ∈ cfg.mPlugins ++ cfg.mPoolPlugins)
    (haligned : cfg.mConfiguredPlugins.map (fun cp => cp.mPlugin) = cfg.mPlugins) :
    cfg.withoutUnusedPlugins.mCardResourceProfileConfigurators =
      cfg.mCardResourceProfileConfigurators ∧
    (∀ profile ∈ cfg.mCardResourceProfileConfigurators, ∀ p ∈ profile.mPlugins,
      p ∈ cfg.withoutUnusedPlugins.mPlugins ∨ p ∈ cfg.withoutUnusedPlugins.mPoolPlugins) ∧
    cfg.withoutUnusedPlugins.mPlugins.Sublist cfg.mPlugins ∧
    cfg.withoutUnusedPlugins.mPoolPlugins.Sublist cfg.mPoolPlugins ∧
    cfg.withoutUnusedPlugins.mConfiguredPlugins.Sublist cfg.mConfiguredPlugins ∧
    cfg.withoutUnusedPlugins.mConfiguredPlugins.map (fun cp => cp.mPlugin) =
      cfg.withoutUnusedPlugins.mPlugins := by
  have hall : Arrays.addAll (Arrays.addAll [] cfg.mPlugins) cfg.mPoolPlugins =
      cfg.mPlugins ++ cfg.mPoolPlugins := by simp [Arrays.addAll]
  unfold withoutUnusedPlugins
  simp only [hall]
  by_cases hsize : (cfg.computeUsedPlugins (cfg.mPlugins ++ cfg.mPoolPlugins)).length =
      (cfg.mPlugins ++ cfg.mPoolPlugins).length
  · rw [if_neg (fun h => h hsize)]
    refine ⟨rfl, ?_, List.Sublist.refl _, List.Sublist.refl _, List.Sublist.refl _, haligned⟩
    intro profile hprofile p hp
    exact List.mem_append.1 (hcheck profile hprofile p hp)
  · rw [if_pos hsize]
    have hused : ∀ profile ∈ cfg.mCardResourceProfileConfigurators, ∀ p ∈ profile.mPlugins,
        p ∈ cfg.computeUsedPlugins (cfg.mPlugins ++ cfg.mPoolPlugins) := by
      rcases usedPluginsFrom_spec (cfg.mPlugins ++ cfg.mPoolPlugins)
        cfg.mCardResourceProfileConfigurators [] with h | ⟨_, h⟩
      · exact absurd (congrArg List.length h) hsize
      · exact h
    refine ⟨rfl, ?_, List.filter_sublist _, List.filter_sublist _, List.filter_sublist _, ?_⟩
    · intro profile hprofile p hp
      have hu := hused profile hprofile p hp
      rcases List.mem_append.1 (hcheck profile hprofile p hp) with h | h
      · left
        simp only [Arrays.removeAll, List.mem_filter, decide_eq_true_eq]
        exact ⟨h, fun hc => hc.2 hu⟩
      · right
        simp only [Arrays.removeAll, List.mem_filter, decide_eq_true_eq, extractPoolPlugins]
        exact ⟨h, fun hc => hc.1.2 hu⟩
    · dsimp only
      rw [← haligned]
      simp only [Arrays.removeAll, getConfiguredPluginsOf, Arrays.contains, List.filter_map]
      congr 1
      apply List.filter_congr
      intro cp hcp
      simp only [List.mem_filter, decide_eq_true_eq, Function.comp, hcp, true_and, haligned]

/-- C37: let the configured-plugin entries of the configurator be those of its regular
plugins, in order (the builder adds both together), and let `configure` succeed.  Then
the configuration installed in the service is the configurator after the removal of the
unused plugins; its profiles are the configured ones; every plugin listed by a profile
is in its regular or in its pool plugin list; its regular plugins, pool plugins and
configured-plugin entries are sublists of the configured ones (same relative order);
and the plugins of its configured-plugin entries are its regular plugins, in order. -/
theorem configure_keeps_listed_plugins (env : Env) (w : World)
    (svc : CardResourceServiceAdapter) (cfg : CardResourceServiceConfiguratorAdapter)
    (haligned : cfg.mConfiguredPlugins.map (fun cp => cp.mPlugin) = cfg.mPlugins)
    (hok : (configure env w svc cfg).1 = .ok ()) :
    (configure env w svc cfg).2.1.2.mConfigurator = some (configure env w svc cfg).2.1.1 ∧
    (configure env w svc cfg).2.1.1.mCardResourceProfileConfigurators =
      cfg.mCardResourceProfileConfigurators ∧
    (∀ profile ∈ cfg.mCardResourceProfileConfigurators, ∀ p ∈ profile.mPlugins,
      p ∈ (configure env w svc cfg).2.1.1.mPlugins ∨
        p ∈ (configure env w svc cfg).2.1.1.mPoolPlugins) ∧
    (configure env w svc cfg).2.1.1.mPlugins.Sublist cfg.mPlugins ∧
    (configure env w svc cfg).2.1.1.mPoolPlugins.Sublist cfg.mPoolPlugins ∧
    (configure env w svc cfg).2.1.1.mConfiguredPlugins.Sublist cfg.mConfiguredPlugins ∧
    (configure env w svc cfg).2.1.1.mConfiguredPlugins.map (fun cp => cp.mPlugin) =
      (configure env w svc cfg).2.1.1.mPlugins := by
  have hall : Arrays.addAll (Arrays.addAll [] cfg.mPlugins) cfg.mPoolPlugins =
      cfg.mPlugins ++ cfg.mPoolPlugins := by simp [Arrays.addAll]
  have hcheck := checkProfiles_ok_iff (cfg.mPlugins ++ cfg.mPoolPlugins)
    cfg.mCardResourceProfileConfigurators []
  unfold configure at hok ⊢
  rw [hall] at hok ⊢
  dsimp only at hok ⊢
  by_cases hA : (cfg.mPlugins ++ cfg.mPoolPlugins).isEmpty = true
  · rw [if_pos hA] at hok
    cases hok
  · rw [if_neg hA] at hok ⊢
    by_cases hP : cfg.mCardResourceProfileConfigurators.isEmpty = true
    · rw [if_pos hP] at hok
      cases hok
    · rw [if_neg hP] at hok ⊢
      cases hc : checkProfiles (cfg.mPlugins ++ cfg.mPoolPlugins)
          cfg.mCardResourceProfileConfigurators [] with
      | error e =>
        rw [hc] at hok
        cases hok
      | ok u =>
        rw [hc] at hok
        dsimp only at hok ⊢
        obtain ⟨a1, a2, a3, a4, a5, a6⟩ :=
          withoutUnusedPlugins_spec cfg (hcheck.1 hc).1 haligned
        exact ⟨CardResourceServiceAdapter.configure_installs env w svc _ hok,
          a1, a2, a3, a4, a5, a6⟩

theorem configure_keeps_listed_plugins_witness :
    (configure Scenario.envB {} {}
        (Scenario.configuratorTwoPlugins [Scenario.profileOnPlugin1])).1 = .ok () ∧
    ((configure Scenario.envB {} {}
        (Scenario.configuratorTwoPlugins [Scenario.profileOnPlugin1])).2.1.2.mConfigurator.map
      (fun cfg => (cfg.mPlugins, cfg.mConfiguredPlugins.map (fun cp => cp.mPlugin)))) =
      some ([Scenario.plugin1], [Scenario.plugin1]) ∧
    (configure Scenario.envB {} {}
        (Scenario.configuratorTwoPlugins
          [Scenario.profileOnPlugin1])).2.1.1.mConfiguredPlugins.map (fun cp => cp.mPlugin) =
      (configure Scenario.envB {} {}
        (Scenario.configuratorTwoPlugins [Scenario.profileOnPlugin1])).2.1.1.mPlugins :=
  ⟨rfl, rfl,
   (configure_keeps_listed_plugins Scenario.envB {} {}
      (Scenario.configuratorTwoPlugins [Scenario.profileOnPlugin1]) rfl rfl).2.2.2.2.2.2⟩

end CardResourceServiceConfiguratorAdapter

/-! ## Properties of the maps kept by every operation of the service -/

namespace ReaderManagerAdapter

theorem reaches_trans {a b c : ReaderManagerAdapter} (hab : Reaches a b) (hbc : Reaches b c) :
    Reaches a c := by
  induction hbc with
  | refl => exact hab
  | step env w call _ ih => exact Reaches.step env w call (ih hab)

theorem reaches_activate (w : World) (rm : ReaderManagerAdapter) :
    Reaches rm (rm.activate w).2.1 :=
  Reaches.step Scenario.envB w ReaderManagerCall.activate (Reaches.refl rm)

theorem reaches_matches (env : Env) (w : World) (rm : ReaderManagerAdapter) (ext : Nat) :
    Reaches rm (rm.matches env w ext).2.1 :=
  Reaches.step env w (ReaderManagerCall.matches ext) (Reaches.refl rm)

theorem reaches_lock (env : Env) (w : World) (rm : ReaderManagerAdapter) (c : CardResource)
    (ext : Nat) : Reaches rm (rm.lock env w c ext).2.1 :=
  Reaches.step env w (ReaderManagerCall.lock c ext) (Reaches.refl rm)

theorem reaches_unlock (rm : ReaderManagerAdapter) : Reaches rm rm.unlock :=
  Reaches.step Scenario.envB {} ReaderManagerCall.unlock (Reaches.refl rm)

theorem reaches_removeCardResource (rm : ReaderManagerAdapter) (c : CardResource) :
    Reaches rm (rm.removeCardResource c) :=
  Reaches.step Scenario.envB {} (ReaderManagerCall.removeCardResource c) (Reaches.refl rm)

theorem call_reader (env : Env) (w : World) (rm : ReaderManagerAdapter)
    (c : ReaderManagerCall) : (rm.call env w c).1.mReader = rm.mReader := by
  cases c with
  | activate =>
    simp only [call, activate]
    split_ifs
    · split <;> rfl
    · rfl
  | «matches» ext => exact matches_reader env w rm ext
  | lock r ext => exact (lock_frame env w rm r ext).2.1
  | unlock => rfl
  | removeCardResource r =>
    simp only [call, removeCardResource]
    split_ifs <;> rfl

theorem call_owns (env : Env) (w : World) (rm : ReaderManagerAdapter)
    (c : ReaderManagerCall) (h : rm.Owns) : (rm.call env w c).1.Owns := by
  intro x hx
  rw [call_reader]
  cases c with
  | activate =>
    simp only [call, activate] at hx
    split_ifs at hx
    · split at hx <;> exact h x hx
    · exact h x hx
  | «matches» ext =>
    simp only [call, ReaderManagerAdapter.matches] at hx
    split at hx
    · simp only [unlock, getOrCreateCardResource] at hx
      split at hx
      · exact h x hx
      · simp only [List.mem_append, List.mem_singleton] at hx
        rcases hx with hx | hx
        · exact h x hx
        · rw [hx]
          rfl
    · exact h x hx
  | lock r ext =>
    simp only [call] at hx
    rw [(lock_frame env w rm r ext).1] at hx
    exact h x hx
  | unlock => exact h x hx
  | removeCardResource r =>
    simp only [call, removeCardResource, Arrays.remove] at hx
    split_ifs at hx <;> exact h x (List.mem_of_mem_erase hx)

theorem reaches_reader {a b : ReaderManagerAdapter} (h : Reaches a b) :
    b.mReader = a.mReader := by
  induction h with
  | refl => rfl
  | step env w c _ ih => rw [call_reader, ih]

theorem reaches_owns {a b : ReaderManagerAdapter} (h : Reaches a b) (ha : a.Owns) :
    b.Owns := by
  induction h with
  | refl => exact ha
  | step env w c _ ih => exact call_owns env w _ c (ih ha)

theorem create_owns (reader : CardReader) (plugin : Plugin) (spi : Option Nat)
    (usageTimeoutMillis : Nat) : (create reader plugin spi usageTimeoutMillis).Owns := by
  intro c hc
  simp [create] at hc

theorem matches_mem (env : Env) (w : World) (rm : ReaderManagerAdapter) (ext : Nat)
    (c : CardResource) (h : (rm.matches env w ext).1 = some c) :
    c ∈ (rm.matches env w ext).2.1.mCardResources := by
  simp only [ReaderManagerAdapter.matches] at h ⊢
  split at h
  · simp only [Option.some.injEq] at h
    simp only [unlock]
    rw [← h]
    simp only [getOrCreateCardResource]
    split
    · next found hfound => exact List.mem_of_find?_eq_some hfound
    · simp
  · cases h

end ReaderManagerAdapter

namespace CardProfileManagerAdapter

theorem initializeCardResource_preserved (env : Env)
    {Q : StdMap CardReader ReaderManagerAdapter → Prop}
    {L : CardResourceProfileConfigurator → List CardResource → Prop}
    (hP : CardResourceServiceAdapter.Preserved env Q L) (w : World)
    (pm : CardProfileManagerAdapter) (rm : ReaderManagerAdapter) (hown : rm.Owns)
    (hL : L pm.mCardProfile pm.mCardResources) :
    L (initializeCardResource env w pm rm).2.1.1.mCardProfile
      (initializeCardResource env w pm rm).2.1.1.mCardResources ∧
    ReaderManagerAdapter.Reaches rm (initializeCardResource env w pm rm).2.1.2 := by
  unfold initializeCardResource
  by_cases hacc : isReaderAccepted env pm rm.getReader = true
  · rw [if_pos hacc]
    have hra := ReaderManagerAdapter.reaches_activate w rm
    generalize rm.activate w = a at hra
    obtain ⟨o, rm1, w1⟩ := a
    cases o with
    | error e => exact ⟨hL, hra⟩
    | ok u =>
      dsimp only at hra ⊢
      have hrm := ReaderManagerAdapter.reaches_matches env w1 rm1
        pm.mCardProfile.mCardResourceProfileExtension
      have hmem := ReaderManagerAdapter.matches_mem env w1 rm1
        pm.mCardProfile.mCardResourceProfileExtension
      generalize rm1.matches env w1 pm.mCardProfile.mCardResourceProfileExtension = m
        at hrm hmem
      obtain ⟨found, rm2, w2⟩ := m
      dsimp only at hrm hmem ⊢
      have hreach := ReaderManagerAdapter.reaches_trans hra hrm
      cases found with
      | none => exact ⟨hL, hreach⟩
      | some c =>
        dsimp only
        by_cases hin : Arrays.contains pm.mCardResources c = true
        · simp only [hin, Bool.not_true, Bool.false_eq_true, if_false]
          exact ⟨hL, hreach⟩
        · simp only [hin, Bool.not_false, if_true]
          refine ⟨?_, hreach⟩
          have hc : c.getReader = rm.mReader := by
            rw [← ReaderManagerAdapter.reaches_reader hreach]
            exact ReaderManagerAdapter.reaches_owns hreach hown c (hmem c rfl)
          apply hP.added _ _ _ hL
          · simp only [isReaderAccepted, ReaderManagerAdapter.getReader, Bool.or_eq_true,
              beq_iff_eq] at hacc
            rw [hc]
            exact hacc
          · simpa [Arrays.contains] using hin
  · rw [if_neg hacc]
    exact ⟨hL, ReaderManagerAdapter.Reaches.refl rm⟩

theorem onReaderConnected_preserved (env : Env)
    {Q : StdMap CardReader ReaderManagerAdapter → Prop}
    {L : CardResourceProfileConfigurator → List CardResource → Prop}
    (hP : CardResourceServiceAdapter.Preserved env Q L) (w : World)
    (pm : CardProfileManagerAdapter) (rm : ReaderManagerAdapter) (hown : rm.Owns)
    (hL : L pm.mCardProfile pm.mCardResources) :
    L (onReaderConnected env w pm rm).2.1.1.mCardProfile
      (onReaderConnected env w pm rm).2.1.1.mCardResources ∧
    ReaderManagerAdapter.Reaches rm (onReaderConnected env w pm rm).2.1.2 := by
  unfold onReaderConnected
  split_ifs
  · exact initializeCardResource_preserved env hP w pm rm hown hL
  · exact ⟨hL, ReaderManagerAdapter.Reaches.refl rm⟩
  · exact initializeCardResource_preserved env hP w pm rm hown hL

theorem updateCardResourcesOrder_preserved (env : Env)
    {Q : StdMap CardReader ReaderManagerAdapter → Prop}
    {L : CardResourceProfileConfigurator → List CardResource → Prop}
    (hP : CardResourceServiceAdapter.Preserved env Q L)
    (pm : CardProfileManagerAdapter) (i : Nat) (hL : L pm.mCardProfile pm.mCardResources) :
    L (updateCardResourcesOrder env pm i).mCardProfile
      (updateCardResourcesOrder env pm i).mCardResources := by
  unfold updateCardResourcesOrder
  split_ifs
  · exact hP.rotated _ _ _ hL
  · exact hP.shuffled _ _ hL
  · exact hL

end CardProfileManagerAdapter

namespace CardResourceServiceAdapter

theorem releaseCardResource_sound (env : Env)
    {Q : StdMap CardReader ReaderManagerAdapter → Prop}
    {L : CardResourceProfileConfigurator → List CardResource → Prop}
    (hP : Preserved env Q L) (w : World) (svc : CardResourceServiceAdapter)
    (c : Option CardResource) (h : svc.Sound Q L) :
    (releaseCardResource w svc c).2.1.Sound Q L := by
  unfold releaseCardResource
  split_ifs
  · exact h
  · split
    · exact h
    · split
      · next rm hrm =>
        exact ⟨hP.called _ _ rm _ h.1 (StdMap.mem_of_find _ _ _ hrm)
          (ReaderManagerAdapter.reaches_unlock rm), h.2⟩
      · split
        · exact ⟨h.1, h.2⟩
        · exact h

theorem removeCardResource_sound (env : Env)
    {Q : StdMap CardReader ReaderManagerAdapter → Prop}
    {L : CardResourceProfileConfigurator → List CardResource → Prop}
    (hP : Preserved env Q L) (w : World) (svc : CardResourceServiceAdapter)
    (c : Option CardResource) (h : svc.Sound Q L) :
    (removeCardResource w svc c).2.1.Sound Q L := by
  have hr := releaseCardResource_sound env hP w svc c h
  unfold removeCardResource
  generalize releaseCardResource w svc c = rel at hr
  obtain ⟨o, s1, w1⟩ := rel
  cases o with
  | error e => exact hr
  | ok u =>
    dsimp only at hr ⊢
    split
    · exact hr
    · next c =>
      split_ifs
      · exact hr
      · split
        · next rm hrm =>
          refine ⟨hP.called _ _ rm _ hr.1 (StdMap.mem_of_find _ _ _ hrm)
            (ReaderManagerAdapter.reaches_removeCardResource rm c), ?_⟩
          intro p hp
          simp only [List.mem_map] at hp
          obtain ⟨q, hq, rfl⟩ := hp
          exact hP.removed _ _ c (hr.2 q hq)
        · exact hr

theorem removeCardResources_sound (env : Env)
    {Q : StdMap CardReader ReaderManagerAdapter → Prop}
    {L : CardResourceProfileConfigurator → List CardResource → Prop}
    (hP : Preserved env Q L) (l : List CardResource) :
    ∀ (w : World) (svc : CardResourceServiceAdapter), svc.Sound Q L →
      (removeCardResources w svc l).2.1.Sound Q L := by
  induction l with
  | nil => intro w svc h; exact h
  | cons c rest ih =>
    intro w svc h
    have hr := removeCardResource_sound env hP w svc (some c) h
    simp only [removeCardResources]
    generalize removeCardResource w svc (some c) = rem at hr
    obtain ⟨o, s1, w1⟩ := rem
    cases o with
    | error e => exact hr
    | ok u => exact ih w1 s1 hr

end CardResourceServiceAdapter

namespace CardProfileManagerAdapter

theorem lockFirstAvailable_sound (env : Env)
    {Q : StdMap CardReader ReaderManagerAdapter → Prop}
    {L : CardResourceProfileConfigurator → List CardResource → Prop}
    (hP : CardResourceServiceAdapter.Preserved env Q L) (ext : Nat) (l : List CardResource) :
    ∀ (i : Nat) (w : World) (svc : CardResourceServiceAdapter) (unusable : List CardResource),
      svc.Sound Q L →
      (lockFirstAvailable env ext l i w svc unusable).2.2.1.Sound Q L ∧
      (lockFirstAvailable env ext l i w svc
          unusable).2.2.1.mCardProfileNameToCardProfileManagerMap =
        svc.mCardProfileNameToCardProfileManagerMap := by
  induction l with
  | nil => intro i w svc unusable h; exact ⟨h, rfl⟩
  | cons c rest ih =>
    intro i w svc unusable h
    simp only [lockFirstAvailable]
    split
    · next rm hrm =>
      have hfind : StdMap.find svc.mReaderToReaderManagerMap c.getReader = some rm := by
        unfold CardResourceServiceAdapter.getReaderManager at hrm
        split_ifs at hrm
        exact hrm
      have h1 : CardResourceServiceAdapter.Sound Q L
          { svc with
            mReaderToReaderManagerMap :=
              StdMap.assign svc.mReaderToReaderManagerMap c.getReader
                (rm.lock env w c ext).2.1 } :=
        ⟨hP.called _ _ rm _ h.1 (StdMap.mem_of_find _ _ _ hfind)
          (ReaderManagerAdapter.reaches_lock env w rm c ext), h.2⟩
      split
      · exact ⟨h1, rfl⟩
      · exact ih _ _ _ _ h1
      · exact ih _ _ _ _ h1
      · exact ⟨h1, rfl⟩
    · exact ih _ _ _ _ h

theorem getRegularCardResource_sound (env : Env)
    {Q : StdMap CardReader ReaderManagerAdapter → Prop}
    {L : CardResourceProfileConfigurator → List CardResource → Prop}
    (hP : CardResourceServiceAdapter.Preserved env Q L) (w : World)
    (svc : CardResourceServiceAdapter) (name : String) (h : svc.Sound Q L) :
    (getRegularCardResource env w svc name).2.1.Sound Q L := by
  unfold getRegularCardResource
  split
  · exact h
  · next pm hpm =>
    have hw := lockFirstAvailable_sound env hP
      pm.mCardProfile.mCardResourceProfileExtension pm.mCardResources 0 w svc [] h
    generalize lockFirstAvailable env pm.mCardProfile.mCardResourceProfileExtension
      pm.mCardResources 0 w svc [] = walk at hw
    obtain ⟨found, unusable, svc1, w1⟩ := walk
    dsimp only at hw ⊢
    cases found with
    | error e => exact hw.1
    | ok found =>
      dsimp only
      cases found with
      | none =>
        dsimp only
        have hr := CardResourceServiceAdapter.removeCardResources_sound env hP unusable w1
          svc1 hw.1
        generalize CardResourceServiceAdapter.removeCardResources w1 svc1 unusable = rem at hr
        obtain ⟨o, s3, w3⟩ := rem
        cases o with
        | error e => exact hr
        | ok u => exact hr
      | some p =>
        obtain ⟨i, cardResource⟩ := p
        dsimp only
        have h2 : CardResourceServiceAdapter.Sound Q L
            ({ svc1 with
              mCardProfileNameToCardProfileManagerMap :=
                StdMap.assign svc1.mCardProfileNameToCardProfileManagerMap name
                  (updateCardResourcesOrder env pm
                    (Arrays.indexOf pm.mCardResources cardResource)) } :
              CardResourceServiceAdapter) := by
          refine ⟨hw.1.1, ?_⟩
          intro q hq
          rcases StdMap.mem_assign _ _ _ _ hq with hq | hq
          · exact hw.1.2 q hq
          · rw [hq]
            apply updateCardResourcesOrder_preserved env hP
            exact h.2 (name, pm) (StdMap.mem_of_find _ _ _ hpm)
        generalize ({ svc1 with
              mCardProfileNameToCardProfileManagerMap :=
                StdMap.assign svc1.mCardProfileNameToCardProfileManagerMap name
                  (updateCardResourcesOrder env pm
                    (Arrays.indexOf pm.mCardResources cardResource)) } :
              CardResourceServiceAdapter) = svc2 at h2
        have hr := CardResourceServiceAdapter.removeCardResources_sound env hP unusable w1
          svc2 h2
        generalize CardResourceServiceAdapter.removeCardResources w1 svc2 unusable = rem at hr
        obtain ⟨o, s3, w3⟩ := rem
        cases o with
        | error e => exact hr
        | ok u => exact hr

theorem allocateFromPools_sound
    {Q : StdMap CardReader ReaderManagerAdapter → Prop}
    {L : CardResourceProfileConfigurator → List CardResource → Prop}
    (env : Env) (pm : CardProfileManagerAdapter) (l : List Plugin) :
    ∀ (w : World) (svc : CardResourceServiceAdapter), svc.Sound Q L →
      (allocateFromPools env pm l w svc).2.1.Sound Q L := by
  induction l with
  | nil => intro w svc h; exact h
  | cons p rest ih =>
    intro w svc h
    simp only [allocateFromPools]
    split
    · split
      · exact ⟨h.1, h.2⟩
      · exact ih _ _ h
    · exact ih _ _ h
    · exact ih _ _ h

theorem getPoolCardResource_sound
    {Q : StdMap CardReader ReaderManagerAdapter → Prop}
    {L : CardResourceProfileConfigurator → List CardResource → Prop}
    (env : Env) (w : World) (svc : CardResourceServiceAdapter) (name : String)
    (h : svc.Sound Q L) : (getPoolCardResource env w svc name).2.1.Sound Q L := by
  unfold getPoolCardResource
  split
  · exact h
  · exact allocateFromPools_sound env _ _ w svc h

theorem getRegularOrPoolCardResource_sound (env : Env)
    {Q : StdMap CardReader ReaderManagerAdapter → Prop}
    {L : CardResourceProfileConfigurator → List CardResource → Prop}
    (hP : CardResourceServiceAdapter.Preserved env Q L) (w : World)
    (svc : CardResourceServiceAdapter) (name : String) (usePoolFirst : Bool)
    (h : svc.Sound Q L) :
    (getRegularOrPoolCardResource env w svc name usePoolFirst).2.1.Sound Q L := by
  unfold getRegularOrPoolCardResource
  split_ifs
  · have h1 := getPoolCardResource_sound env w svc name h
    generalize getPoolCardResource env w svc name = r at h1
    split
    · next s1 w1 => exact getRegularCardResource_sound env hP w1 s1 name h1
    · exact h1
  · have h1 := getRegularCardResource_sound env hP w svc name h
    generalize getRegularCardResource env w svc name = r at h1
    split
    · next s1 w1 => exact getPoolCardResource_sound env w1 s1 name h1
    · exact h1

theorem searchOnce_sound (env : Env)
    {Q : StdMap CardReader ReaderManagerAdapter → Prop}
    {L : CardResourceProfileConfigurator → List CardResource → Prop}
    (hP : CardResourceServiceAdapter.Preserved env Q L) (w : World)
    (svc : CardResourceServiceAdapter) (name : String) (pm : CardProfileManagerAdapter)
    (h : svc.Sound Q L) : (searchOnce env w svc name pm).2.1.Sound Q L := by
  unfold searchOnce
  split_ifs
  · exact getRegularOrPoolCardResource_sound env hP w svc name _ h
  · exact getRegularCardResource_sound env hP w svc name h
  · exact getPoolCardResource_sound env w svc name h

theorem searchLoop_sound (env : Env)
    {Q : StdMap CardReader ReaderManagerAdapter → Prop}
    {L : CardResourceProfileConfigurator → List CardResource → Prop}
    (hP : CardResourceServiceAdapter.Preserved env Q L) (name : String)
    (pm : CardProfileManagerAdapter) (maxTime : Nat) (fuel : Nat) :
    ∀ (w : World) (svc : CardResourceServiceAdapter), svc.Sound Q L →
      (searchLoop env name pm maxTime fuel w svc).2.1.Sound Q L := by
  induction fuel with
  | zero => intro w svc h; exact h
  | succ fuel ih =>
    intro w svc h
    have h1 := searchOnce_sound env hP w svc name pm h
    simp only [searchLoop]
    generalize searchOnce env w svc name pm = r at h1
    obtain ⟨o, s1, w1⟩ := r
    cases o with
    | error e => exact h1
    | ok c =>
      cases c with
      | some c => exact h1
      | none =>
        dsimp only
        split_ifs
        · exact ih _ _ h1
        · exact h1
        · exact h1

theorem profileGetCardResource_sound (env : Env)
    {Q : StdMap CardReader ReaderManagerAdapter → Prop}
    {L : CardResourceProfileConfigurator → List CardResource → Prop}
    (hP : CardResourceServiceAdapter.Preserved env Q L) (fuel : Nat) (w : World)
    (svc : CardResourceServiceAdapter) (name : String) (pm : CardProfileManagerAdapter)
    (h : svc.Sound Q L) : (getCardResource env fuel w svc name pm).2.1.Sound Q L :=
  searchLoop_sound env hP name pm _ fuel _ svc h

end CardProfileManagerAdapter

namespace CardResourceServiceAdapter

theorem getCardResource_sound (env : Env)
    {Q : StdMap CardReader ReaderManagerAdapter → Prop}
    {L : CardResourceProfileConfigurator → List CardResource → Prop}
    (hP : Preserved env Q L) (fuel : Nat) (w : World)
    (svc : CardResourceServiceAdapter) (name : String) (h : svc.Sound Q L) :
    (getCardResource env fuel w svc name).2.1.Sound Q L := by
  unfold getCardResource
  split_ifs
  · exact h
  · exact h
  · split
    · exact h
    · exact CardProfileManagerAdapter.profileGetCardResource_sound env hP fuel w svc name _ h

end CardResourceServiceAdapter

namespace CardResourceServiceAdapter

theorem notifyReaderConnected_preserved (env : Env)
    {Q : StdMap CardReader ReaderManagerAdapter → Prop}
    {L : CardResourceProfileConfigurator → List CardResource → Prop}
    (hP : Preserved env Q L) (pms : StdMap String CardProfileManagerAdapter) :
    ∀ (rm : ReaderManagerAdapter) (w : World), rm.Owns →
      (∀ p ∈ pms, L p.2.mCardProfile p.2.mCardResources) →
      (∀ p ∈ (notifyReaderConnected env pms rm w).2.1,
        L p.2.mCardProfile p.2.mCardResources) ∧
      ReaderManagerAdapter.Reaches rm (notifyReaderConnected env pms rm w).2.2.1 := by
  induction pms with
  | nil =>
    intro rm w _ hL
    exact ⟨hL, ReaderManagerAdapter.Reaches.refl rm⟩
  | cons q rest ih =>
    intro rm w hown hL
    obtain ⟨name, pm⟩ := q
    have h1 := CardProfileManagerAdapter.onReaderConnected_preserved env hP w pm rm hown
      (hL (name, pm) (List.mem_cons_self _ _))
    simp only [notifyReaderConnected]
    generalize CardProfileManagerAdapter.onReaderConnected env w pm rm = r at h1
    obtain ⟨o, ⟨pm1, rm1⟩, w1⟩ := r
    dsimp only at h1
    have hrest : ∀ p ∈ rest, L p.2.mCardProfile p.2.mCardResources :=
      fun p hp => hL p (List.mem_cons_of_mem _ hp)
    cases o with
    | error e =>
      dsimp only
      refine ⟨?_, h1.2⟩
      intro p hp
      rcases List.mem_cons.1 hp with hp | hp
      · rw [hp]
        exact h1.1
      · exact hrest p hp
    | ok u =>
      dsimp only
      obtain ⟨a, b⟩ := ih rm1 w1 (ReaderManagerAdapter.reaches_owns h1.2 hown) hrest
      refine ⟨?_, ReaderManagerAdapter.reaches_trans h1.2 b⟩
      intro p hp
      rcases List.mem_cons.1 hp with hp | hp
      · rw [hp]
        exact h1.1
      · exact a p hp

theorem onCardInserted_sound (env : Env)
    {Q : StdMap CardReader ReaderManagerAdapter → Prop}
    {L : CardResourceProfileConfigurator → List CardResource → Prop}
    (hP : Preserved env Q L) (w : World) (svc : CardResourceServiceAdapter)
    (reader : CardReader) (rm : ReaderManagerAdapter)
    (hrm : (reader, rm) ∈ svc.mReaderToReaderManagerMap) (h : svc.Sound Q L) :
    (onCardInserted env w svc reader rm).2.1.Sound Q L := by
  unfold onCardInserted
  rw [notifyCardInserted_eq]
  obtain ⟨a, b⟩ := notifyReaderConnected_preserved env hP
    svc.mCardProfileNameToCardProfileManagerMap rm w (hP.owned _ h.1 _ hrm) h.2
  exact ⟨hP.called _ _ rm _ h.1 hrm b, a⟩

theorem removeCardResourcesOf_sound (env : Env)
    {Q : StdMap CardReader ReaderManagerAdapter → Prop}
    {L : CardResourceProfileConfigurator → List CardResource → Prop}
    (hP : Preserved env Q L) (reader : CardReader) (steps : Nat) :
    ∀ (i : Nat) (w : World) (svc : CardResourceServiceAdapter), svc.Sound Q L →
      (removeCardResourcesOf reader steps i w svc).2.1.Sound Q L := by
  induction steps with
  | zero => intro i w svc h; exact h
  | succ steps ih =>
    intro i w svc h
    simp only [removeCardResourcesOf]
    split
    · exact h
    · split
      · exact h
      · next c _ =>
        have hr := removeCardResource_sound env hP w svc (some c) h
        generalize removeCardResource w svc (some c) = rem at hr
        obtain ⟨o, s1, w1⟩ := rem
        cases o with
        | error e => exact hr
        | ok u => exact ih _ _ _ hr

theorem onReaderEvent_sound (env : Env)
    {Q : StdMap CardReader ReaderManagerAdapter → Prop}
    {L : CardResourceProfileConfigurator → List CardResource → Prop}
    (hP : Preserved env Q L) (w : World) (svc : CardResourceServiceAdapter)
    (readerEvent : CardReaderEvent) (h : svc.Sound Q L) :
    (onReaderEvent env w svc readerEvent).2.1.Sound Q L := by
  unfold onReaderEvent
  by_cases hst : (!svc.mIsStarted) = true
  · rw [if_pos hst]
    exact h
  · rw [if_neg hst]
    split
    · exact h
    · next reader _ =>
      split
      · exact h
      · next rm hrm =>
        by_cases ht : readerEvent.type = CardReaderEventType.CARD_INSERTED ∨
            readerEvent.type = CardReaderEventType.CARD_MATCHED
        · rw [if_pos ht]
          exact onCardInserted_sound env hP w svc reader rm (StdMap.mem_of_find _ _ _ hrm) h
        · rw [if_neg ht]
          exact removeCardResourcesOf_sound env hP reader _ 0 w svc h

theorem registerReader_sound (env : Env)
    {Q : StdMap CardReader ReaderManagerAdapter → Prop}
    {L : CardResourceProfileConfigurator → List CardResource → Prop}
    (_ : Preserved env Q L) (hreg : Registers Q)
    (cfg : CardResourceServiceConfiguratorAdapter)
    (svc : CardResourceServiceAdapter) (reader : CardReader) (plugin : Plugin)
    (h : svc.Sound Q L) : (registerReader cfg svc reader plugin).2.Sound Q L := by
  unfold registerReader
  exact ⟨hreg _ _ _ _ _ h.1, h.2⟩

theorem unregisterReader_sound (env : Env)
    {Q : StdMap CardReader ReaderManagerAdapter → Prop}
    {L : CardResourceProfileConfigurator → List CardResource → Prop}
    (hP : Preserved env Q L) (w : World) (svc : CardResourceServiceAdapter)
    (reader : CardReader) (plugin : Option Plugin) (h : svc.Sound Q L) :
    (unregisterReader w svc reader plugin).1.Sound Q L := by
  have h1 : Sound Q L { svc with
      mReaderToReaderManagerMap := StdMap.erase svc.mReaderToReaderManagerMap reader } :=
    ⟨hP.unregistered _ _ h.1, h.2⟩
  unfold unregisterReader
  dsimp only
  split
  · exact h1
  · split
    · exact h1
    · split_ifs
      · exact ⟨h1.1, h1.2⟩
      · exact h1

theorem onReaderConnected_sound (env : Env)
    {Q : StdMap CardReader ReaderManagerAdapter → Prop}
    {L : CardResourceProfileConfigurator → List CardResource → Prop}
    (hP : Preserved env Q L) (hreg : Registers Q)
    (w : World) (svc : CardResourceServiceAdapter)
    (reader : CardReader) (plugin : Plugin) (h : svc.Sound Q L) :
    (onReaderConnected env w svc reader plugin).2.1.Sound Q L := by
  unfold onReaderConnected
  cases hc : svc.mConfigurator with
  | none => exact h
  | some cfg =>
    dsimp only
    have hregd := registerReader_sound env hP hreg cfg svc reader plugin h
    have hnew : (registerReader cfg svc reader plugin).1.Owns := by
      unfold registerReader
      exact ReaderManagerAdapter.create_owns _ _ _ _
    have hmap : (registerReader cfg svc reader plugin).2.mReaderToReaderManagerMap =
        StdMap.insert CardReader.lt svc.mReaderToReaderManagerMap reader
          (registerReader cfg svc reader plugin).1 := rfl
    have hpms : (registerReader cfg svc reader plugin).2.mCardProfileNameToCardProfileManagerMap
        = svc.mCardProfileNameToCardProfileManagerMap := rfl
    generalize registerReader cfg svc reader plugin = reg at hregd hnew hmap hpms
    obtain ⟨a, b⟩ := notifyReaderConnected_preserved env hP
      reg.2.mCardProfileNameToCardProfileManagerMap reg.1 w hnew hregd.2
    generalize notifyReaderConnected env reg.2.mCardProfileNameToCardProfileManagerMap
      reg.1 w = r at a b
    have h2 : Sound Q L
        { reg.2 with
          mCardProfileNameToCardProfileManagerMap := r.2.1
          mReaderToReaderManagerMap :=
            if (StdMap.find svc.mReaderToReaderManagerMap reader).isSome then
              reg.2.mReaderToReaderManagerMap
            else StdMap.assign reg.2.mReaderToReaderManagerMap reader r.2.2.1 } := by
      refine ⟨?_, a⟩
      dsimp only
      split_ifs with hsome
      · exact hregd.1
      · apply hP.called _ _ reg.1 _ hregd.1 _ b
        have hnone : StdMap.find svc.mReaderToReaderManagerMap reader = none := by
          simpa using hsome
        rw [hmap]
        exact StdMap.mem_of_find _ _ _ (CardProfileManagerAdapter.find_insert_of_absent _ _ _ _ hnone)
    generalize ({ reg.2 with
          mCardProfileNameToCardProfileManagerMap := r.2.1
          mReaderToReaderManagerMap :=
            if (StdMap.find svc.mReaderToReaderManagerMap reader).isSome then
              reg.2.mReaderToReaderManagerMap
            else StdMap.assign reg.2.mReaderToReaderManagerMap reader r.2.2.1 } :
          CardResourceServiceAdapter) = svc2 at h2
    split
    · exact h2
    · split_ifs
      · exact h2
      · exact unregisterReader_sound env hP _ svc2 reader (some plugin) h2

theorem onReaderDisconnected_sound (env : Env)
    {Q : StdMap CardReader ReaderManagerAdapter → Prop}
    {L : CardResourceProfileConfigurator → List CardResource → Prop}
    (hP : Preserved env Q L) (w : World) (svc : CardResourceServiceAdapter)
    (reader : CardReader) (plugin : Option Plugin) (h : svc.Sound Q L) :
    (onReaderDisconnected w svc reader plugin).2.1.Sound Q L := by
  unfold onReaderDisconnected
  split
  · exact h
  · next rm _ =>
    have h1 : (onCardRemoved w svc reader rm).2.1.Sound Q L :=
      removeCardResourcesOf_sound env hP reader _ 0 w svc h
    generalize onCardRemoved w svc reader rm = r at h1
    obtain ⟨o, s1, w1⟩ := r
    cases o with
    | error e => exact h1
    | ok u => exact unregisterReader_sound env hP w1 s1 reader plugin h1

theorem connectReaders_sound (env : Env)
    {Q : StdMap CardReader ReaderManagerAdapter → Prop}
    {L : CardResourceProfileConfigurator → List CardResource → Prop}
    (hP : Preserved env Q L) (hreg : Registers Q)
    (plugin : Option Plugin) (l : List String) :
    ∀ (w : World) (svc : CardResourceServiceAdapter), svc.Sound Q L →
      (connectReaders env plugin l w svc).2.1.Sound Q L := by
  induction l with
  | nil => intro w svc h; exact h
  | cons name rest ih =>
    intro w svc h
    simp only [connectReaders]
    split
    · exact h
    · next p =>
      split
      · exact ih _ _ h
      · next reader _ =>
        have h1 := onReaderConnected_sound env hP hreg
          { w with readerQueries := w.readerQueries + 1 } svc reader p h
        generalize onReaderConnected env { w with readerQueries := w.readerQueries + 1 }
          svc reader p = r at h1
        obtain ⟨o, s1, w1⟩ := r
        cases o with
        | error e => exact h1
        | ok u => exact ih _ _ h1

theorem disconnectReaders_sound (env : Env)
    {Q : StdMap CardReader ReaderManagerAdapter → Prop}
    {L : CardResourceProfileConfigurator → List CardResource → Prop}
    (hP : Preserved env Q L) (plugin : Option Plugin) (l : List String) :
    ∀ (w : World) (svc : CardResourceServiceAdapter), svc.Sound Q L →
      (disconnectReaders plugin l w svc).2.1.Sound Q L := by
  induction l with
  | nil => intro w svc h; exact h
  | cons name rest ih =>
    intro w svc h
    simp only [disconnectReaders]
    split
    · exact ih _ _ h
    · next reader _ =>
      have h1 := onReaderDisconnected_sound env hP w svc reader plugin h
      generalize onReaderDisconnected w svc reader plugin = r at h1
      obtain ⟨o, s1, w1⟩ := r
      cases o with
      | error e => exact h1
      | ok u => exact ih _ _ h1

theorem onPluginEvent_sound (env : Env)
    {Q : StdMap CardReader ReaderManagerAdapter → Prop}
    {L : CardResourceProfileConfigurator → List CardResource → Prop}
    (hP : Preserved env Q L) (hreg : Registers Q)
    (w : World) (svc : CardResourceServiceAdapter)
    (pluginEvent : PluginEvent) (h : svc.Sound Q L) :
    (onPluginEvent env w svc pluginEvent).2.1.Sound Q L := by
  unfold onPluginEvent
  split_ifs
  · exact h
  · exact connectReaders_sound env hP hreg _ _ _ svc h
  · exact disconnectReaders_sound env hP _ _ _ svc h

end CardResourceServiceAdapter

namespace CardProfileManagerAdapter

theorem initializeCardResources_sound (env : Env)
    {Q : StdMap CardReader ReaderManagerAdapter → Prop}
    {L : CardResourceProfileConfigurator → List CardResource → Prop}
    (hP : CardResourceServiceAdapter.Preserved env Q L) (l : List CardReader) :
    ∀ (w : World) (svc : CardResourceServiceAdapter) (pm : CardProfileManagerAdapter),
      svc.Sound Q L → L pm.mCardProfile pm.mCardResources →
      (initializeCardResources env l w svc pm).2.1.2.Sound Q L ∧
      L (initializeCardResources env l w svc pm).2.1.1.mCardProfile
        (initializeCardResources env l w svc pm).2.1.1.mCardResources := by
  induction l with
  | nil => intro w svc pm h hL; exact ⟨h, hL⟩
  | cons reader rest ih =>
    intro w svc pm h hL
    simp only [initializeCardResources]
    split
    · exact ⟨h, hL⟩
    · next rm hrm =>
      have hfind : StdMap.find svc.mReaderToReaderManagerMap reader = some rm := by
        unfold CardResourceServiceAdapter.getReaderManager at hrm
        split_ifs at hrm
        exact hrm
      have hmem := StdMap.mem_of_find _ _ _ hfind
      obtain ⟨a, b⟩ := initializeCardResource_preserved env hP w pm rm
        (hP.owned _ h.1 _ hmem) hL
      have h1 : CardResourceServiceAdapter.Sound Q L
          { svc with
            mReaderToReaderManagerMap :=
              StdMap.assign svc.mReaderToReaderManagerMap reader
                (initializeCardResource env w pm rm).2.1.2 } :=
        ⟨hP.called _ _ rm _ h.1 hmem b, h.2⟩
      split
      · exact ih _ _ _ h1 a
      · exact ⟨h1, a⟩

theorem initializeCardResourcesUsingProfilePlugins_sound (env : Env)
    {Q : StdMap CardReader ReaderManagerAdapter → Prop}
    {L : CardResourceProfileConfigurator → List CardResource → Prop}
    (hP : CardResourceServiceAdapter.Preserved env Q L) (l : List Plugin) :
    ∀ (w : World) (svc : CardResourceServiceAdapter) (pm : CardProfileManagerAdapter),
      svc.Sound Q L → L pm.mCardProfile pm.mCardResources →
      (initializeCardResourcesUsingProfilePlugins env l w svc pm).2.1.2.Sound Q L ∧
      L (initializeCardResourcesUsingProfilePlugins env l w svc pm).2.1.1.mCardProfile
        (initializeCardResourcesUsingProfilePlugins env l w svc pm).2.1.1.mCardResources := by
  induction l with
  | nil => intro w svc pm h hL; exact ⟨h, hL⟩
  | cons plugin rest ih =>
    intro w svc pm h hL
    simp only [initializeCardResourcesUsingProfilePlugins]
    split_ifs
    · exact ih _ _ _ h hL
    · have h1 := initializeCardResources_sound env hP
        (env.pluginGetReaders w.readerListQueries plugin)
        { w with readerListQueries := w.readerListQueries + 1 } svc
        { pm with mPlugins := pm.mPlugins ++ [plugin] } h hL
      generalize initializeCardResources env (env.pluginGetReaders w.readerListQueries plugin)
        { w with readerListQueries := w.readerListQueries + 1 } svc
        { pm with mPlugins := pm.mPlugins ++ [plugin] } = r at h1
      obtain ⟨o, ⟨pm1, svc1⟩, w2⟩ := r
      cases o with
      | error e => exact h1
      | ok u => exact ih _ _ _ h1.1 h1.2

theorem initializeCardResourcesUsingDefaultPlugins_sound (env : Env)
    {Q : StdMap CardReader ReaderManagerAdapter → Prop}
    {L : CardResourceProfileConfigurator → List CardResource → Prop}
    (hP : CardResourceServiceAdapter.Preserved env Q L) (l : List Plugin) :
    ∀ (w : World) (svc : CardResourceServiceAdapter) (pm : CardProfileManagerAdapter),
      svc.Sound Q L → L pm.mCardProfile pm.mCardResources →
      (initializeCardResourcesUsingDefaultPlugins env l w svc pm).2.1.2.Sound Q L ∧
      L (initializeCardResourcesUsingDefaultPlugins env l w svc pm).2.1.1.mCardProfile
        (initializeCardResourcesUsingDefaultPlugins env l w svc pm).2.1.1.mCardResources := by
  induction l with
  | nil => intro w svc pm h hL; exact ⟨h, hL⟩
  | cons plugin rest ih =>
    intro w svc pm h hL
    simp only [initializeCardResourcesUsingDefaultPlugins]
    have h1 := initializeCardResources_sound env hP
      (env.pluginGetReaders w.readerListQueries plugin)
      { w with readerListQueries := w.readerListQueries + 1 } svc
      { pm with mPlugins := pm.mPlugins ++ [plugin] } h hL
    generalize initializeCardResources env (env.pluginGetReaders w.readerListQueries plugin)
      { w with readerListQueries := w.readerListQueries + 1 } svc
      { pm with mPlugins := pm.mPlugins ++ [plugin] } = r at h1
    obtain ⟨o, ⟨pm1, svc1⟩, w2⟩ := r
    cases o with
    | error e => exact h1
    | ok u => exact ih _ _ _ h1.1 h1.2

theorem create_sound (env : Env)
    {Q : StdMap CardReader ReaderManagerAdapter → Prop}
    {L : CardResourceProfileConfigurator → List CardResource → Prop}
    (hP : CardResourceServiceAdapter.Preserved env Q L) (w : World)
    (svc : CardResourceServiceAdapter) (cardProfile : CardResourceProfileConfigurator)
    (cfg : CardResourceServiceConfiguratorAdapter) (h : svc.Sound Q L) :
    (create env w svc cardProfile cfg).2.1.2.Sound Q L ∧
    L (create env w svc cardProfile cfg).2.1.1.mCardProfile
      (create env w svc cardProfile cfg).2.1.1.mCardResources := by
  unfold create
  dsimp only
  split_ifs
  · exact initializeCardResourcesUsingProfilePlugins_sound env hP _ _ _ _ h
      (hP.emptyList cardProfile)
  · exact initializeCardResourcesUsingDefaultPlugins_sound env hP _ _ _ _ h
      (hP.emptyList cardProfile)

end CardProfileManagerAdapter

namespace CardResourceServiceAdapter

theorem stop_sound (env : Env)
    {Q : StdMap CardReader ReaderManagerAdapter → Prop}
    {L : CardResourceProfileConfigurator → List CardResource → Prop}
    (hP : Preserved env Q L) (w : World) (svc : CardResourceServiceAdapter)
    (h : svc.Sound Q L) : (stop w svc).2.1.Sound Q L := by
  unfold stop
  dsimp only
  split
  · exact ⟨h.1, h.2⟩
  · exact ⟨hP.emptyMap, fun p hp => by simp at hp⟩

theorem registerReaders_sound (env : Env)
    {Q : StdMap CardReader ReaderManagerAdapter → Prop}
    {L : CardResourceProfileConfigurator → List CardResource → Prop}
    (hP : Preserved env Q L) (hreg : Registers Q)
    (cfg : CardResourceServiceConfiguratorAdapter)
    (plugin : Plugin) (l : List CardReader) :
    ∀ svc : CardResourceServiceAdapter, svc.Sound Q L →
      (registerReaders cfg plugin l svc).Sound Q L := by
  induction l with
  | nil => intro svc h; exact h
  | cons reader rest ih =>
    intro svc h
    simp only [registerReaders]
    exact ih _ (registerReader_sound env hP hreg cfg svc reader plugin h)

theorem initializeReaderManagers_sound (env : Env)
    {Q : StdMap CardReader ReaderManagerAdapter → Prop}
    {L : CardResourceProfileConfigurator → List CardResource → Prop}
    (hP : Preserved env Q L) (hreg : Registers Q)
    (cfg : CardResourceServiceConfiguratorAdapter)
    (l : List Plugin) :
    ∀ (w : World) (svc : CardResourceServiceAdapter), svc.Sound Q L →
      (initializeReaderManagers env cfg l w svc).1.Sound Q L := by
  induction l with
  | nil => intro w svc h; exact h
  | cons plugin rest ih =>
    intro w svc h
    simp only [initializeReaderManagers]
    exact ih _ _ (registerReaders_sound env hP hreg cfg plugin _ svc h)

theorem initializeCardProfileManagers_sound (env : Env)
    {Q : StdMap CardReader ReaderManagerAdapter → Prop}
    {L : CardResourceProfileConfigurator → List CardResource → Prop}
    (hP : Preserved env Q L) (cfg : CardResourceServiceConfiguratorAdapter)
    (l : List CardResourceProfileConfigurator) :
    ∀ (w : World) (svc : CardResourceServiceAdapter), svc.Sound Q L →
      (initializeCardProfileManagers env cfg l w svc).2.1.Sound Q L := by
  induction l with
  | nil => intro w svc h; exact h
  | cons profile rest ih =>
    intro w svc h
    simp only [initializeCardProfileManagers]
    have h1 := CardProfileManagerAdapter.create_sound env hP w svc profile cfg h
    generalize CardProfileManagerAdapter.create env w svc profile cfg = r at h1
    obtain ⟨o, ⟨pm1, svc1⟩, w1⟩ := r
    cases o with
    | error e => exact h1.1
    | ok u =>
      dsimp only at h1 ⊢
      apply ih
      refine ⟨h1.1.1, ?_⟩
      intro p hp
      rcases StdMap.mem_insert _ _ _ _ _ hp with hp | hp
      · exact h1.1.2 p hp
      · rw [hp]
        exact h1.2

theorem unregisterInactive_sound (env : Env)
    {Q : StdMap CardReader ReaderManagerAdapter → Prop}
    {L : CardResourceProfileConfigurator → List CardResource → Prop}
    (hP : Preserved env Q L) (l : List ReaderManagerAdapter) :
    ∀ (w : World) (svc : CardResourceServiceAdapter), svc.Sound Q L →
      (unregisterInactive l w svc).1.Sound Q L := by
  induction l with
  | nil => intro w svc h; exact h
  | cons rm rest ih =>
    intro w svc h
    simp only [unregisterInactive]
    split_ifs
    · exact ih _ _ (unregisterReader_sound env hP w svc _ _ h)
    · exact ih _ _ h

theorem start_sound (env : Env)
    {Q : StdMap CardReader ReaderManagerAdapter → Prop}
    {L : CardResourceProfileConfigurator → List CardResource → Prop}
    (hP : Preserved env Q L) (hreg : Registers Q)
    (w : World) (svc : CardResourceServiceAdapter)
    (h : svc.Sound Q L) : (start env w svc).2.1.Sound Q L := by
  unfold start
  split
  · exact h
  · next cfg _ =>
    dsimp only
    have h0 : (if svc.mIsStarted = true then stop w svc else (.ok (), svc, w)).2.1.Sound Q L := by
      split_ifs
      · exact stop_sound env hP w svc h
      · exact h
    generalize (if svc.mIsStarted = true then stop w svc else (.ok (), svc, w)) = s at h0
    obtain ⟨o, svc1, w1⟩ := s
    cases o with
    | error e => exact h0
    | ok u =>
      dsimp only at h0 ⊢
      have hm := initializeReaderManagers_sound env hP hreg cfg cfg.mPlugins w1 svc1 h0
      generalize initializeReaderManagers env cfg cfg.mPlugins w1 svc1 = managers at hm
      have hp := initializeCardProfileManagers_sound env hP cfg
        cfg.mCardResourceProfileConfigurators managers.2 managers.1 hm
      generalize initializeCardProfileManagers env cfg cfg.mCardResourceProfileConfigurators
        managers.2 managers.1 = r at hp
      obtain ⟨o, svc2, w2⟩ := r
      cases o with
      | error e => exact hp
      | ok u =>
        dsimp only at hp ⊢
        have hu : (removeUnusedReaderManagers w2 svc2).1.Sound Q L :=
          unregisterInactive_sound env hP _ w2 svc2 hp
        exact ⟨hu.1, hu.2⟩

theorem configure_sound (env : Env)
    {Q : StdMap CardReader ReaderManagerAdapter → Prop}
    {L : CardResourceProfileConfigurator → List CardResource → Prop}
    (hP : Preserved env Q L) (hreg : Registers Q)
    (w : World) (svc : CardResourceServiceAdapter)
    (configurator : CardResourceServiceConfiguratorAdapter) (h : svc.Sound Q L) :
    (configure env w svc configurator).2.1.Sound Q L := by
  unfold configure
  split_ifs
  · have h1 := stop_sound env hP w svc h
    generalize stop w svc = r at h1
    obtain ⟨o, svc1, w1⟩ := r
    cases o with
    | error e => exact h1
    | ok u => exact start_sound env hP hreg w1 _ ⟨h1.1, h1.2⟩
  · exact ⟨h.1, h.2⟩

theorem perform_sound (env : Env)
    {Q : StdMap CardReader ReaderManagerAdapter → Prop}
    {L : CardResourceProfileConfigurator → List CardResource → Prop}
    (hP : Preserved env Q L) (hreg : Registers Q)
    (w : World) (svc : CardResourceServiceAdapter)
    (operation : ServiceOperation) (h : svc.Sound Q L) :
    (perform env w svc operation).2.1.Sound Q L := by
  cases operation with
  | configure configurator => exact configure_sound env hP hreg w svc configurator h
  | start => exact start_sound env hP hreg w svc h
  | stop => exact stop_sound env hP w svc h
  | getCardResource name fuel => exact getCardResource_sound env hP fuel w svc name h
  | releaseCardResource c => exact releaseCardResource_sound env hP w svc c h
  | removeCardResource c => exact removeCardResource_sound env hP w svc c h
  | onReaderEvent e => exact onReaderEvent_sound env hP w svc e h
  | onPluginEvent e => exact onPluginEvent_sound env hP hreg w svc e h

theorem performAll_sound (env : Env)
    {Q : StdMap CardReader ReaderManagerAdapter → Prop}
    {L : CardResourceProfileConfigurator → List CardResource → Prop}
    (hP : Preserved env Q L) (hreg : Registers Q)
    (operations : List ServiceOperation) :
    ∀ (w : World) (svc : CardResourceServiceAdapter) (s : CardResourceServiceAdapter × World),
      svc.Sound Q L → performAll env w svc operations = some s → s.1.Sound Q L := by
  induction operations with
  | nil =>
    intro w svc s h hs
    simp only [performAll, Option.some.injEq] at hs
    rw [← hs]
    exact h
  | cons operation rest ih =>
    intro w svc s h hs
    simp only [performAll] at hs
    split_ifs at hs with hd
    exact ih _ _ s (perform_sound env hP hreg w svc operation h) hs

end CardResourceServiceAdapter

/-! ## Reader managers, their readers and their card resources -/

namespace StdMap

variable {κ ν : Type} [DecidableEq κ]

theorem keys_insert (lt : κ → κ → Bool) (m : StdMap κ ν) (k : κ) (v : ν) :
    ∀ x, x ∈ (insert lt m k v).map Prod.fst → x ∈ m.map Prod.fst ∨ x = k := by
  intro x hx
  obtain ⟨p, hp, rfl⟩ := List.mem_map.1 hx
  rcases mem_insert lt m k v p hp with h | h
  · exact Or.inl (List.mem_map.2 ⟨p, h, rfl⟩)
  · exact Or.inr (by rw [h])

theorem keys_erase (m : StdMap κ ν) (k : κ) :
    ((erase m k).map Prod.fst).Sublist (m.map Prod.fst) := by
  induction m with
  | nil => exact List.Sublist.refl _
  | cons q m ih =>
    obtain ⟨a, b⟩ := q
    simp only [erase]
    split_ifs
    · exact List.Sublist.cons _ ih
    · exact List.Sublist.cons₂ _ ih

theorem mem_erase_ne (m : StdMap κ ν) (k : κ) (p : κ × ν) (h : p ∈ erase m k) : p.1 ≠ k := by
  induction m with
  | nil => simp [erase] at h
  | cons q m ih =>
    obtain ⟨a, b⟩ := q
    simp only [erase] at h
    split_ifs at h with hak
    · exact ih h
    · rcases List.mem_cons.1 h with h | h
      · rw [h]
        exact hak
      · exact ih h

theorem mem_erase_of_ne (m : StdMap κ ν) (k : κ) (p : κ × ν) (h : p ∈ m) (hne : p.1 ≠ k) :
    p ∈ erase m k := by
  induction m with
  | nil => simp at h
  | cons q m ih =>
    obtain ⟨a, b⟩ := q
    simp only [erase]
    rcases List.mem_cons.1 h with h | h
    · have hak : ¬ a = k := by
        intro e
        apply hne
        rw [h]
        exact e
      rw [if_neg hak, h]
      exact List.mem_cons_self _ _
    · split_ifs
      · exact ih h
      · exact List.mem_cons_of_mem _ (ih h)

theorem find_of_mem_nodup (m : StdMap κ ν) (k : κ) (v : ν) (h : (k, v) ∈ m)
    (hn : (m.map Prod.fst).Nodup) : find m k = some v := by
  induction m with
  | nil => simp at h
  | cons q m ih =>
    obtain ⟨a, b⟩ := q
    simp only [List.map_cons, List.nodup_cons] at hn
    simp only [find]
    rcases List.mem_cons.1 h with h | h
    · simp only [Prod.mk.injEq] at h
      rw [if_pos h.1.symm, h.2]
    · have hak : ¬ a = k := by
        intro e
        apply hn.1
        rw [e]
        exact List.mem_map.2 ⟨(k, v), h, rfl⟩
      rw [if_neg hak]
      exact ih h hn.2

end StdMap

namespace CardResourceServiceAdapter

theorem wellKeyed_nil : WellKeyed [] :=
  ⟨fun p hp => by simp at hp, List.Pairwise.nil, List.nodup_nil⟩

theorem wellKeyed_called (m : StdMap CardReader ReaderManagerAdapter) (k : CardReader)
    (u v : ReaderManagerAdapter) (h : WellKeyed m) (hu : (k, u) ∈ m)
    (hreach : ReaderManagerAdapter.Reaches u v) : WellKeyed (StdMap.assign m k v) := by
  refine ⟨?_, ?_, ?_⟩
  · intro p hp
    rcases StdMap.mem_assign _ _ _ _ hp with hp | hp
    · exact h.1 p hp
    · rw [hp]
      have hk := h.1 (k, u) hu
      exact ⟨(ReaderManagerAdapter.reaches_reader hreach).trans hk.1,
        ReaderManagerAdapter.reaches_owns hreach hk.2⟩
  · rw [StdMap.keys_assign]
    exact h.2.1
  · rw [StdMap.keys_assign]
    exact h.2.2

theorem wellKeyed_unregistered (m : StdMap CardReader ReaderManagerAdapter) (k : CardReader)
    (h : WellKeyed m) : WellKeyed (StdMap.erase m k) :=
  ⟨fun p hp => h.1 p (StdMap.mem_erase _ _ _ hp),
   List.Pairwise.sublist (StdMap.keys_erase m k) h.2.1,
   List.Nodup.sublist (StdMap.keys_erase m k) h.2.2⟩

theorem wellKeyed_registers : Registers WellKeyed := by
  intro m k plugin spi t h
  refine ⟨?_, ?_, ?_⟩
  · intro p hp
    rcases StdMap.mem_insert _ _ _ _ _ hp with hp | hp
    · exact h.1 p hp
    · rw [hp]
      exact ⟨rfl, ReaderManagerAdapter.create_owns _ _ _ _⟩
  · obtain ⟨h1, hs, hn⟩ := h
    clear h1 hn
    generalize ReaderManagerAdapter.create k plugin spi t = v
    induction m with
    | nil => simp [StdMap.insert]
    | cons q m ih =>
      obtain ⟨a, b⟩ := q
      simp only [List.map_cons, List.pairwise_cons] at hs
      simp only [StdMap.insert]
      split_ifs with h1 h2
      · simp only [List.map_cons, List.pairwise_cons]
        exact hs
      · simp only [List.map_cons, List.pairwise_cons, List.mem_cons, forall_eq_or_imp]
        have hlt : k.id < a.id := by simpa [CardReader.lt] using h2
        refine ⟨⟨Nat.le_of_lt hlt, ?_⟩, hs⟩
        intro x hx
        exact Nat.le_trans (Nat.le_of_lt hlt) (hs.1 x hx)
      · simp only [List.map_cons, List.pairwise_cons]
        refine ⟨?_, ih hs.2⟩
        intro x hx
        rcases StdMap.keys_insert _ m k v x hx with hx | hx
        · exact hs.1 x hx
        · rw [hx]
          have : ¬ k.id < a.id := by simpa [CardReader.lt] using h2
          omega
  · obtain ⟨h1, hs, hn⟩ := h
    clear h1
    generalize ReaderManagerAdapter.create k plugin spi t = v
    induction m with
    | nil => simp [StdMap.insert]
    | cons q m ih =>
      obtain ⟨a, b⟩ := q
      simp only [List.map_cons, List.pairwise_cons] at hs
      simp only [List.map_cons, List.nodup_cons] at hn
      simp only [StdMap.insert]
      split_ifs with h1 h2
      · simp only [List.map_cons, List.nodup_cons]
        exact hn
      · simp only [List.map_cons, List.nodup_cons, List.mem_cons, not_or]
        have hlt : k.id < a.id := by simpa [CardReader.lt] using h2
        refine ⟨⟨fun e => h1 e.symm, ?_⟩, hn⟩
        intro hk
        have := hs.1 k hk
        omega
      · simp only [List.map_cons, List.nodup_cons]
        refine ⟨?_, ih hs.2 hn.2⟩
        intro ha
        rcases StdMap.keys_insert _ m k v a ha with ha | ha
        · exact hn.1 ha
        · exact h1 ha

theorem wellKeyed_preserved (env : Env)
    (L : CardResourceProfileConfigurator → List CardResource → Prop)
    (hnil : ∀ profile, L profile [])
    (hadded : ∀ profile l (c : CardResource), L profile l →
      (profile.mReaderNameRegex = "" ∨
        env.regexMatches profile.mReaderNameRegex c.getReader.name = true) →
      c ∉ l → L profile (l ++ [c]))
    (hremoved : ∀ profile l (c : CardResource), L profile l → L profile (l.erase c))
    (hshuffled : ∀ profile l, L profile l → L profile (env.shuffle l))
    (hrotated : ∀ profile l k, L profile l → L profile (env.rotateBeforeBegin l k)) :
    Preserved env WellKeyed L :=
  { emptyMap := wellKeyed_nil
    called := wellKeyed_called
    unregistered := wellKeyed_unregistered
    owned := fun _ h p hp => (h.1 p hp).2
    emptyList := hnil
    added := hadded
    removed := hremoved
    shuffled := hshuffled
    rotated := hrotated }

theorem sound_initial
    (L : CardResourceProfileConfigurator → List CardResource → Prop) :
    Sound WellKeyed L {} :=
  ⟨wellKeyed_nil, fun p hp => by simp at hp⟩

/-- C34: in every state that the service reaches from its initial state by `configure`,
`start`, `stop`, client calls and reader and plugin events (none running into undefined
behaviour), every registered manager is the manager of the reader it is registered
for and every card resource of its `cardResources` has that reader as its reader; no
reader is registered twice; and a card resource that is an element of the
`cardResources` of two registered managers makes them the same entry of the map, so no
card resource belongs to two different managers. -/
theorem resources_belong_to_one_manager (env : Env) (operations : List ServiceOperation)
    (w0 w : World) (svc : CardResourceServiceAdapter)
    (hrun : performAll env w0 {} operations = some (svc, w)) :
    (∀ p ∈ svc.mReaderToReaderManagerMap,
      p.2.mReader = p.1 ∧ ∀ c ∈ p.2.mCardResources, c.getReader = p.2.mReader) ∧
    (svc.mReaderToReaderManagerMap.map Prod.fst).Nodup ∧
    (∀ p ∈ svc.mReaderToReaderManagerMap, ∀ q ∈ svc.mReaderToReaderManagerMap,
      ∀ c, c ∈ p.2.mCardResources → c ∈ q.2.mCardResources → p = q) ∧
    (∀ (reader1 reader2 : CardReader) (rm1 rm2 : ReaderManagerAdapter) (c : CardResource),
      svc.getReaderManager reader1 = some rm1 → svc.getReaderManager reader2 = some rm2 →
      c ∈ rm1.mCardResources → c ∈ rm2.mCardResources → reader1 = reader2 ∧ rm1 = rm2) := by
  have hP := wellKeyed_preserved env (fun _ _ => True) (fun _ => trivial)
    (fun _ _ _ _ _ _ => trivial) (fun _ _ _ _ => trivial) (fun _ _ _ => trivial)
    (fun _ _ _ _ => trivial)
  have h := (performAll_sound env hP wellKeyed_registers operations w0 {} (svc, w)
    (sound_initial _) hrun).1
  obtain ⟨h1, _, h3⟩ := h
  have hsame : ∀ p ∈ svc.mReaderToReaderManagerMap, ∀ q ∈ svc.mReaderToReaderManagerMap,
      ∀ c, c ∈ p.2.mCardResources → c ∈ q.2.mCardResources → p = q := by
    intro p hp q hq c hcp hcq
    have hk : p.1 = q.1 := by
      rw [← (h1 p hp).1, ← (h1 q hq).1, ← (h1 p hp).2 c hcp, ← (h1 q hq).2 c hcq]
    obtain ⟨pk, pv⟩ := p
    obtain ⟨qk, qv⟩ := q
    simp only at hk
    subst hk
    have e1 := StdMap.find_of_mem_nodup _ _ _ hp h3
    have e2 := StdMap.find_of_mem_nodup _ _ _ hq h3
    rw [e1] at e2
    simp only [Option.some.injEq] at e2
    rw [e2]
  refine ⟨fun p hp => ⟨(h1 p hp).1, (h1 p hp).2⟩, h3, hsame, ?_⟩
  intro reader1 reader2 rm1 rm2 c hr1 hr2 hc1 hc2
  have hf1 : StdMap.find svc.mReaderToReaderManagerMap reader1 = some rm1 := by
    unfold getReaderManager at hr1
    split_ifs at hr1
    exact hr1
  have hf2 : StdMap.find svc.mReaderToReaderManagerMap reader2 = some rm2 := by
    unfold getReaderManager at hr2
    split_ifs at hr2
    exact hr2
  have := hsame _ (StdMap.mem_of_find _ _ _ hf1) _ (StdMap.mem_of_find _ _ _ hf2) c hc1 hc2
  simp only [Prod.mk.injEq] at this
  exact this

theorem resources_belong_to_one_manager_witness :
    performAll Scenario.envStart {} {} Scenario.lifeStarted =
      some (Scenario.serviceStartedOnX, Scenario.worldStartedOnX) ∧
    Scenario.resourceFirst ∈ Scenario.managerXAllocated.mCardResources ∧
    ∀ c ∈ Scenario.managerXAllocated.mCardResources, c.getReader = Scenario.readerX :=
  ⟨rfl, by decide,
   ((resources_belong_to_one_manager Scenario.envStart Scenario.lifeStarted {}
      Scenario.worldStartedOnX Scenario.serviceStartedOnX rfl).1
      (Scenario.readerX, Scenario.managerXAllocated) (by decide)).2⟩

end CardResourceServiceAdapter

/-! ## Reader name filter, and duplicates in the list of a profile -/

namespace CardResourceServiceAdapter

end CardResourceServiceAdapter

namespace CardProfileManagerAdapter

/-- C33, evaluated: the list of a profile manager holds no card resource twice in any
state that the service reaches from its initial state, provided the two reorderings
leave a permutation of the list; the reordering of `FIRST` is the identity, that of
`RANDOM` is the `std::shuffle` of the list, but that of `CYCLIC` is what
`std::rotate(begin, begin - i - 1, end)` leaves, a call whose middle iterator precedes
`begin` and that `std::rotate` does not define as a permutation.  In a world where that
call overwrites the second slot with the first (`Scenario.envRotateOverrun`), one
`getCardResource` on `Scenario.serviceCyclic` leaves `resourceB` twice in the list. -/
theorem cyclic_reordering_is_no_permutation :
    (∀ (env : Env) (operations : List ServiceOperation) (w0 w : World)
        (svc : CardResourceServiceAdapter),
      (∀ l, (env.shuffle l).Perm l) → (∀ l k, (env.rotateBeforeBegin l k).Perm l) →
      CardResourceServiceAdapter.performAll env w0 {} operations = some (svc, w) →
      ∀ p ∈ svc.mCardProfileNameToCardProfileManagerMap, p.2.mCardResources.Nodup) ∧
    (∀ (env : Env) (pm : CardProfileManagerAdapter) (i : Nat),
      (pm.mGlobalConfiguration.mAllocationStrategy = AllocationStrategy.FIRST →
        updateCardResourcesOrder env pm i = pm) ∧
      (pm.mGlobalConfiguration.mAllocationStrategy = AllocationStrategy.RANDOM →
        (updateCardResourcesOrder env pm i).mCardResources = env.shuffle pm.mCardResources) ∧
      (pm.mGlobalConfiguration.mAllocationStrategy = AllocationStrategy.CYCLIC →
        (updateCardResourcesOrder env pm i).mCardResources =
          env.rotateBeforeBegin pm.mCardResources (i + 1))) ∧
    ((CardResourceServiceAdapter.run Scenario.envRotateOverrun {} Scenario.serviceCyclic
        [ServiceCall.getCardResource "P1" 1]).2.1.mCardProfileNameToCardProfileManagerMap.map
      (fun p => p.2.mCardResources)) = [[Scenario.resourceB, Scenario.resourceB]] ∧
    ¬ [Scenario.resourceB, Scenario.resourceB].Nodup := by
  refine ⟨?_, ?_, rfl, by decide⟩
  · intro env operations w0 w svc hshuffle hrotate hrun
    have hP : CardResourceServiceAdapter.Preserved env CardResourceServiceAdapter.WellKeyed
        (fun _ l => l.Nodup) := by
      apply CardResourceServiceAdapter.wellKeyed_preserved
      · intro _
        exact List.nodup_nil
      · intro profile l c hl _ hnew
        exact List.Nodup.append hl (List.nodup_singleton c)
          (by
            intro x hx hx1
            simp only [List.mem_singleton] at hx1
            rw [hx1] at hx
            exact hnew hx)
      · intro profile l c hl
        exact List.Nodup.erase c hl
      · intro profile l hl
        exact (List.Perm.nodup_iff (hshuffle l)).2 hl
      · intro profile l k hl
        exact (List.Perm.nodup_iff (hrotate l k)).2 hl
    exact (CardResourceServiceAdapter.performAll_sound env hP
      CardResourceServiceAdapter.wellKeyed_registers operations w0 {} (svc, w)
      (CardResourceServiceAdapter.sound_initial _) hrun).2
  · intro env pm i
    refine ⟨?_, ?_, ?_⟩
    · intro h
      simp [updateCardResourcesOrder, h]
    · intro h
      simp [updateCardResourcesOrder, h]
    · intro h
      simp [updateCardResourcesOrder, h]

end CardProfileManagerAdapter

/-! ## The registered managers are active -/

namespace ReaderManagerAdapter

theorem reaches_active {a b : ReaderManagerAdapter} (h : Reaches a b)
    (ha : a.mIsActive = true) : b.mIsActive = true := by
  induction h with
  | refl => exact ha
  | step env w c _ ih => exact call_active env w _ c (ih ha)

theorem call_plugin (env : Env) (w : World) (rm : ReaderManagerAdapter)
    (c : ReaderManagerCall) : (rm.call env w c).1.mPlugin = rm.mPlugin := by
  cases c with
  | activate =>
    simp only [call, activate]
    split_ifs
    · split <;> rfl
    · rfl
  | «matches» ext =>
    simp only [call, ReaderManagerAdapter.matches, unlock, getOrCreateCardResource]
    split
    · split <;> rfl
    · rfl
  | lock r ext => exact (lock_frame env w rm r ext).2.2.1
  | unlock => rfl
  | removeCardResource r =>
    simp only [call, removeCardResource]
    split_ifs <;> rfl

theorem reaches_plugin {a b : ReaderManagerAdapter} (h : Reaches a b) :
    b.mPlugin = a.mPlugin := by
  induction h with
  | refl => rfl
  | step env w c _ ih => rw [call_plugin, ih]

theorem matches_isActive (env : Env) (w : World) (rm : ReaderManagerAdapter) (ext : Nat) :
    (rm.matches env w ext).2.1.mIsActive = rm.mIsActive := by
  simp only [ReaderManagerAdapter.matches, unlock, getOrCreateCardResource]
  split
  · split <;> rfl
  · rfl

end ReaderManagerAdapter

namespace StdMap

variable {κ ν : Type} [DecidableEq κ]

theorem mem_assign_key (m : StdMap κ ν) (k : κ) (v : ν) (p : κ × ν) (h : p ∈ assign m k v)
    (hk : p.1 = k) : p.2 = v := by
  induction m with
  | nil => simp [assign] at h
  | cons q m ih =>
    obtain ⟨a, b⟩ := q
    simp only [assign] at h
    split_ifs at h with hak
    · rcases List.mem_cons.1 h with h | h
      · rw [h]
      · exact ih h
    · rcases List.mem_cons.1 h with h | h
      · rw [h] at hk
        exact absurd hk hak
      · exact ih h

theorem mem_assign_other (m : StdMap κ ν) (k : κ) (v : ν) (p : κ × ν) (h : p ∈ assign m k v)
    (hk : p.1 ≠ k) : p ∈ m := by
  rcases mem_assign m k v p h with h | h
  · exact h
  · rw [h] at hk
    exact absurd rfl hk

end StdMap

namespace CardResourceServiceAdapter

theorem insert_of_registered (m : StdMap CardReader ReaderManagerAdapter) (k : CardReader)
    (v u : ReaderManagerAdapter)
    (hs : (m.map Prod.fst).Pairwise (fun a b => a.id ≤ b.id))
    (h : StdMap.find m k = some u) : StdMap.insert CardReader.lt m k v = m := by
  induction m with
  | nil => simp [StdMap.find] at h
  | cons q m ih =>
    obtain ⟨a, b⟩ := q
    simp only [List.map_cons, List.pairwise_cons] at hs
    simp only [StdMap.find] at h
    simp only [StdMap.insert]
    split_ifs at h ⊢ with hak hlt
    · rfl
    · have hk : k ∈ m.map Prod.fst :=
        List.mem_map.2 ⟨(k, u), StdMap.mem_of_find _ _ _ h, rfl⟩
      have h1 := hs.1 k hk
      have h2 : k.id < a.id := by simpa [CardReader.lt] using hlt
      omega
    · rw [ih hs.2 h]

theorem active_preserved (env : Env) : Preserved env Active (fun _ _ => True) :=
  { emptyMap := ⟨wellKeyed_nil, fun p hp => by simp at hp⟩
    called := by
      intro m k u v h hu hreach
      refine ⟨wellKeyed_called m k u v h.1 hu hreach, ?_⟩
      intro p hp
      rcases StdMap.mem_assign _ _ _ _ hp with hp | hp
      · exact h.2 p hp
      · rw [hp]
        exact ReaderManagerAdapter.reaches_active hreach (h.2 _ hu)
    unregistered := fun m k h =>
      ⟨wellKeyed_unregistered m k h.1, fun p hp => h.2 p (StdMap.mem_erase _ _ _ hp)⟩
    owned := fun _ h p hp => (h.1.1 p hp).2
    emptyList := fun _ => trivial
    added := fun _ _ _ _ _ _ => trivial
    removed := fun _ _ _ _ => trivial
    shuffled := fun _ _ _ => trivial
    rotated := fun _ _ _ _ => trivial }

theorem wellKeyed_preserved_plain (env : Env) : Preserved env WellKeyed (fun _ _ => True) :=
  wellKeyed_preserved env (fun _ _ => True) (fun _ => trivial)
    (fun _ _ _ _ _ _ => trivial) (fun _ _ _ _ => trivial) (fun _ _ _ => trivial)
    (fun _ _ _ _ => trivial)

end CardResourceServiceAdapter

namespace StdMap

variable {κ ν : Type} [DecidableEq κ]

theorem mem_insert_of_mem (lt : κ → κ → Bool) (m : StdMap κ ν) (k : κ) (v : ν) (p : κ × ν)
    (h : p ∈ m) : p ∈ insert lt m k v := by
  induction m with
  | nil => simp at h
  | cons q m ih =>
    obtain ⟨a, b⟩ := q
    simp only [insert]
    split_ifs
    · exact h
    · exact List.mem_cons_of_mem _ h
    · rcases List.mem_cons.1 h with h | h
      · rw [h]
        exact List.mem_cons_self _ _
      · exact List.mem_cons_of_mem _ (ih h)

theorem mem_assign_of_ne (m : StdMap κ ν) (k : κ) (v : ν) (p : κ × ν) (h : p ∈ m)
    (hne : p.1 ≠ k) : p ∈ assign m k v := by
  induction m with
  | nil => simp at h
  | cons q m ih =>
    obtain ⟨a, b⟩ := q
    simp only [assign]
    rcases List.mem_cons.1 h with h | h
    · have hak : ¬ a = k := by
        intro e
        apply hne
        rw [h]
        exact e
      rw [if_neg hak, h]
      exact List.mem_cons_self _ _
    · split_ifs
      · exact List.mem_cons_of_mem _ (ih h)
      · exact List.mem_cons_of_mem _ (ih h)

end StdMap

namespace CardProfileManagerAdapter

theorem initializeCardResource_active (env : Env) (w : World)
    (pm : CardProfileManagerAdapter) (rm : ReaderManagerAdapter)
    (hok : (initializeCardResource env w pm rm).1 = .ok ()) :
    (initializeCardResource env w pm rm).2.1.2.mIsActive =
      (rm.mIsActive || isReaderAccepted env pm rm.getReader) := by
  unfold initializeCardResource at hok ⊢
  by_cases hacc : isReaderAccepted env pm rm.getReader = true
  · rw [if_pos hacc] at hok ⊢
    rw [hacc, Bool.or_true]
    have ha : (rm.activate w).1 = .ok () → (rm.activate w).2.1.mIsActive = true := by
      unfold ReaderManagerAdapter.activate
      split_ifs
      · split
        · intro h
          cases h
        · intro _
          rfl
      · intro _
        rfl
    generalize rm.activate w = a at ha hok
    obtain ⟨o, rm1, w1⟩ := a
    cases o with
    | error e => cases hok
    | ok u =>
      dsimp only at ha hok ⊢
      have hm := ReaderManagerAdapter.matches_isActive env w1 rm1
        pm.mCardProfile.mCardResourceProfileExtension
      generalize rm1.matches env w1 pm.mCardProfile.mCardResourceProfileExtension = m at hm
      obtain ⟨found, rm2, w2⟩ := m
      dsimp only at hm ⊢
      have h2 : rm2.mIsActive = true := hm.trans (ha rfl)
      cases found with
      | none => exact h2
      | some c =>
        dsimp only
        split_ifs <;> exact h2
  · rw [if_neg hacc]
    have hacc2 : isReaderAccepted env pm rm.getReader = false := by simpa using hacc
    rw [hacc2, Bool.or_false]

theorem onReaderConnected_active (env : Env) (w : World)
    (pm : CardProfileManagerAdapter) (rm : ReaderManagerAdapter)
    (hok : (onReaderConnected env w pm rm).1 = .ok ()) :
    (onReaderConnected env w pm rm).2.1.2.mIsActive =
      (rm.mIsActive || pm.actsOn env rm.mReader rm.mPlugin) := by
  unfold onReaderConnected at hok ⊢
  unfold actsOn
  by_cases he : pm.mCardProfile.mPlugins.isEmpty = true
  · simp only [he, Bool.not_true, Bool.false_eq_true, if_false, Bool.true_or,
      Bool.true_and] at hok ⊢
    exact initializeCardResource_active env w pm rm hok
  · have he2 : pm.mCardProfile.mPlugins.isEmpty = false := by simpa using he
    simp only [he2, Bool.not_false, if_true, Bool.false_or] at hok ⊢
    by_cases hany : pm.mCardProfile.mPlugins.any
        (fun profilePlugin => decide (profilePlugin = rm.getPlugin)) = true
    · rw [if_pos hany] at hok ⊢
      have hany2 : pm.mCardProfile.mPlugins.any
          (fun profilePlugin => decide (profilePlugin = rm.mPlugin)) = true := hany
      rw [hany2, Bool.true_and]
      exact initializeCardResource_active env w pm rm hok
    · rw [if_neg hany]
      have hany2 : pm.mCardProfile.mPlugins.any
          (fun profilePlugin => decide (profilePlugin = rm.mPlugin)) = false :=
        Bool.eq_false_iff.2 hany
      rw [hany2, Bool.false_and, Bool.or_false]

theorem profileOnReaderConnected_thrown (env : Env) (w : World)
    (pm : CardProfileManagerAdapter) (rm : ReaderManagerAdapter) :
    (onReaderConnected env w pm rm).1 = .ok () ∨
      (onReaderConnected env w pm rm).1 = .error Exception.Undefined := by
  unfold onReaderConnected
  split_ifs
  · exact initializeCardResource_thrown env w pm rm
  · exact Or.inl rfl
  · exact initializeCardResource_thrown env w pm rm

end CardProfileManagerAdapter

namespace CardResourceServiceAdapter

theorem notifyReaderConnected_active (env : Env)
    (pms : StdMap String CardProfileManagerAdapter) :
    ∀ (rm : ReaderManagerAdapter) (w : World),
      ((notifyReaderConnected env pms rm w).1 = .ok () ∨
        (notifyReaderConnected env pms rm w).1 = .error Exception.Undefined) ∧
      ((notifyReaderConnected env pms rm w).1 = .ok () →
        (notifyReaderConnected env pms rm w).2.2.1.mIsActive =
          (rm.mIsActive || pms.any (fun p => p.2.actsOn env rm.mReader rm.mPlugin))) := by
  induction pms with
  | nil =>
    intro rm w
    exact ⟨Or.inl rfl, fun _ => by simp [notifyReaderConnected]⟩
  | cons q rest ih =>
    intro rm w
    obtain ⟨name, pm⟩ := q
    have ht := CardProfileManagerAdapter.profileOnReaderConnected_thrown env w pm rm
    have ha := CardProfileManagerAdapter.onReaderConnected_active env w pm rm
    have hr : ReaderManagerAdapter.Reaches rm
        (CardProfileManagerAdapter.onReaderConnected env w pm rm).2.1.2 := by
      unfold CardProfileManagerAdapter.onReaderConnected
      unfold CardProfileManagerAdapter.initializeCardResource
      split_ifs
      all_goals first
        | exact ReaderManagerAdapter.Reaches.refl rm
        | (have h1 := ReaderManagerAdapter.reaches_activate w rm
           generalize rm.activate w = a at h1
           obtain ⟨o, rm1, w1⟩ := a
           cases o with
           | error e => exact h1
           | ok u =>
             dsimp only at h1 ⊢
             have h2 := ReaderManagerAdapter.reaches_matches env w1 rm1
               pm.mCardProfile.mCardResourceProfileExtension
             generalize rm1.matches env w1 pm.mCardProfile.mCardResourceProfileExtension = m
               at h2
             obtain ⟨found, rm2, w2⟩ := m
             cases found with
             | none => exact ReaderManagerAdapter.reaches_trans h1 h2
             | some c =>
               dsimp only
               split_ifs <;> exact ReaderManagerAdapter.reaches_trans h1 h2)
    simp only [notifyReaderConnected]
    generalize CardProfileManagerAdapter.onReaderConnected env w pm rm = r at ht ha hr
    obtain ⟨o, ⟨pm1, rm1⟩, w1⟩ := r
    cases o with
    | error e =>
      dsimp only at ht ⊢
      rcases ht with ht | ht
      · cases ht
      · exact ⟨Or.inr ht, fun h => by rw [ht] at h; cases h⟩
    | ok u =>
      dsimp only at ha hr ⊢
      obtain ⟨b1, b2⟩ := ih rm1 w1
      refine ⟨b1, ?_⟩
      intro hok
      rw [b2 hok, ha rfl, ReaderManagerAdapter.reaches_reader hr,
        ReaderManagerAdapter.reaches_plugin hr, List.any_cons, Bool.or_assoc]

end CardResourceServiceAdapter

namespace CardResourceServiceAdapter

theorem sound_wellKeyed_of_active
    {L : CardResourceProfileConfigurator → List CardResource → Prop}
    (svc : CardResourceServiceAdapter) (h : svc.Sound Active L) : svc.Sound WellKeyed L :=
  ⟨h.1.1, h.2⟩

theorem unregisterReader_readers (w : World) (svc : CardResourceServiceAdapter)
    (reader : CardReader) (plugin : Option Plugin) :
    (unregisterReader w svc reader plugin).1.mReaderToReaderManagerMap =
      StdMap.erase svc.mReaderToReaderManagerMap reader := by
  unfold unregisterReader
  dsimp only
  split
  · rfl
  · split
    · rfl
    · split_ifs <;> rfl

theorem onReaderConnected_kept (env : Env) (w : World) (svc : CardResourceServiceAdapter)
    (cfg : CardResourceServiceConfiguratorAdapter) (reader : CardReader) (plugin : Plugin)
    (hcfg : svc.mConfigurator = some cfg)
    (hw : WellKeyed svc.mReaderToReaderManagerMap)
    (hok : (onReaderConnected env w svc reader plugin).1 = .ok ()) :
    ((StdMap.find (onReaderConnected env w svc reader plugin).2.1.mReaderToReaderManagerMap
        reader).isSome =
      (notifyReaderConnected env svc.mCardProfileNameToCardProfileManagerMap
        (registerReader cfg svc reader plugin).1 w).2.2.1.mIsActive) ∧
    (∀ p ∈ (onReaderConnected env w svc reader plugin).2.1.mReaderToReaderManagerMap,
      p ∈ svc.mReaderToReaderManagerMap ∨
        (p.1 = reader ∧ p.2.mIsActive = true ∧
          StdMap.find svc.mReaderToReaderManagerMap reader = none)) ∧
    (∀ p ∈ svc.mReaderToReaderManagerMap, p.1 ≠ reader →
      p ∈ (onReaderConnected env w svc reader plugin).2.1.mReaderToReaderManagerMap) := by
  unfold onReaderConnected at hok ⊢
  simp only [hcfg] at hok ⊢
  have hmap : (registerReader cfg svc reader plugin).2.mReaderToReaderManagerMap =
      StdMap.insert CardReader.lt svc.mReaderToReaderManagerMap reader
        (registerReader cfg svc reader plugin).1 := rfl
  have hpms : (registerReader cfg svc reader plugin).2.mCardProfileNameToCardProfileManagerMap
      = svc.mCardProfileNameToCardProfileManagerMap := rfl
  generalize registerReader cfg svc reader plugin = reg at hmap hpms hok ⊢
  rw [hpms] at hok ⊢
  generalize notifyReaderConnected env svc.mCardProfileNameToCardProfileManagerMap reg.1 w = r
    at hok ⊢
  obtain ⟨o, pms1, rmF, w1⟩ := r
  cases o with
  | error e => cases hok
  | ok u =>
    dsimp only at hok ⊢
    cases hreg : StdMap.find svc.mReaderToReaderManagerMap reader with
    | some old =>
      have hins : reg.2.mReaderToReaderManagerMap = svc.mReaderToReaderManagerMap := by
        rw [hmap]
        exact insert_of_registered _ _ _ old hw.2.1 hreg
      simp only [Option.isSome_some, if_true]
      by_cases hact : rmF.isActive = true
      · rw [if_pos hact]
        dsimp only
        rw [hins, hreg]
        exact ⟨hact.symm, fun p hp => Or.inl hp, fun p hp _ => hp⟩
      · rw [if_neg hact]
        rw [unregisterReader_readers]
        dsimp only
        rw [hins, StdMap.find_erase_self]
        have hact2 : rmF.mIsActive = false := by simpa [ReaderManagerAdapter.isActive] using hact
        exact ⟨hact2.symm, fun p hp => Or.inl (StdMap.mem_erase _ _ _ hp),
          fun p hp hne => StdMap.mem_erase_of_ne _ _ _ hp hne⟩
    | none =>
      simp only [Option.isSome_none, Bool.false_eq_true, if_false]
      have hnew : StdMap.find reg.2.mReaderToReaderManagerMap reader = some reg.1 := by
        rw [hmap]
        exact CardProfileManagerAdapter.find_insert_of_absent _ _ _ _ hreg
      have hentries : ∀ p ∈ StdMap.assign reg.2.mReaderToReaderManagerMap reader rmF,
          (p.1 ≠ reader → p ∈ svc.mReaderToReaderManagerMap) ∧ (p.1 = reader → p.2 = rmF) := by
        intro p hp
        refine ⟨fun hne => ?_, fun he => StdMap.mem_assign_key _ _ _ _ hp he⟩
        have h1 := StdMap.mem_assign_other _ _ _ _ hp hne
        rw [hmap] at h1
        rcases StdMap.mem_insert _ _ _ _ _ h1 with h1 | h1
        · exact h1
        · rw [h1] at hne
          exact absurd rfl hne
      have hold : ∀ p ∈ svc.mReaderToReaderManagerMap, p.1 ≠ reader →
          p ∈ StdMap.assign reg.2.mReaderToReaderManagerMap reader rmF := by
        intro p hp hne
        have h1 : p ∈ reg.2.mReaderToReaderManagerMap := by
          rw [hmap]
          exact StdMap.mem_insert_of_mem _ _ _ _ _ hp
        exact StdMap.mem_assign_of_ne _ _ _ _ h1 hne
      by_cases hact : rmF.isActive = true
      · rw [if_pos hact]
        dsimp only
        rw [StdMap.find_assign_self _ _ _ _ hnew]
        refine ⟨hact.symm, ?_, hold⟩
        intro p hp
        by_cases hk : p.1 = reader
        · right
          refine ⟨hk, ?_, trivial⟩
          rw [(hentries p hp).2 hk]
          exact hact
        · exact Or.inl ((hentries p hp).1 hk)
      · rw [if_neg hact]
        rw [unregisterReader_readers]
        dsimp only
        rw [StdMap.find_erase_self]
        have hact2 : rmF.mIsActive = false := by simpa [ReaderManagerAdapter.isActive] using hact
        refine ⟨hact2.symm, ?_, ?_⟩
        · intro p hp
          exact Or.inl ((hentries p (StdMap.mem_erase _ _ _ hp)).1
            (StdMap.mem_erase_ne _ _ _ hp))
        · intro p hp hne
          exact StdMap.mem_erase_of_ne _ _ _ (hold p hp hne) hne

end CardResourceServiceAdapter

namespace CardResourceServiceAdapter

theorem onReaderConnected_thrown (env : Env) (w : World) (svc : CardResourceServiceAdapter)
    (reader : CardReader) (plugin : Plugin) :
    (onReaderConnected env w svc reader plugin).1 = .ok () ∨
      (onReaderConnected env w svc reader plugin).1 = .error Exception.Undefined := by
  unfold onReaderConnected
  cases hc : svc.mConfigurator with
  | none => exact Or.inr rfl
  | some cfg =>
    dsimp only
    generalize registerReader cfg svc reader plugin = reg
    have ht := (notifyReaderConnected_active env
      reg.2.mCardProfileNameToCardProfileManagerMap reg.1 w).1
    generalize notifyReaderConnected env reg.2.mCardProfileNameToCardProfileManagerMap
      reg.1 w = r at ht
    obtain ⟨o, pms1, rmF, w1⟩ := r
    cases o with
    | error e =>
      dsimp only at ht ⊢
      rcases ht with ht | ht
      · cases ht
      · exact Or.inr ht
    | ok u =>
      dsimp only
      by_cases hact : rmF.isActive = true
      · rw [if_pos hact]
        exact Or.inl rfl
      · rw [if_neg hact]
        exact Or.inl rfl

theorem onReaderConnected_activeSound (env : Env) (w : World)
    (svc : CardResourceServiceAdapter) (reader : CardReader) (plugin : Plugin)
    (h : svc.Sound Active (fun _ _ => True)) :
    (onReaderConnected env w svc reader plugin).1 = .error Exception.Undefined ∨
      (onReaderConnected env w svc reader plugin).2.1.Sound Active (fun _ _ => True) := by
  rcases onReaderConnected_thrown env w svc reader plugin with hok | herr
  · right
    have hw := onReaderConnected_sound env (wellKeyed_preserved_plain env) wellKeyed_registers
      w svc reader plugin (sound_wellKeyed_of_active svc h)
    refine ⟨⟨hw.1, ?_⟩, fun _ _ => trivial⟩
    cases hc : svc.mConfigurator with
    | none =>
      simp [onReaderConnected, hc] at hok
    | some cfg =>
      intro p hp
      rcases (onReaderConnected_kept env w svc cfg reader plugin hc h.1.1 hok).2.1 p hp
        with hp | hp
      · exact h.1.2 p hp
      · exact hp.2.1
  · exact Or.inl herr

theorem connectReaders_activeSound (env : Env) (plugin : Option Plugin) (l : List String) :
    ∀ (w : World) (svc : CardResourceServiceAdapter), svc.Sound Active (fun _ _ => True) →
      (connectReaders env plugin l w svc).1 = .error Exception.Undefined ∨
        (connectReaders env plugin l w svc).2.1.Sound Active (fun _ _ => True) := by
  induction l with
  | nil => intro w svc h; exact Or.inr h
  | cons name rest ih =>
    intro w svc h
    simp only [connectReaders]
    split
    · exact Or.inl rfl
    · next p =>
      split
      · exact ih _ _ h
      · next reader _ =>
        have h1 := onReaderConnected_activeSound env
          { w with readerQueries := w.readerQueries + 1 } svc reader p h
        generalize onReaderConnected env { w with readerQueries := w.readerQueries + 1 }
          svc reader p = r at h1
        obtain ⟨o, s1, w1⟩ := r
        cases o with
        | error e =>
          dsimp only at h1 ⊢
          exact h1
        | ok u =>
          dsimp only at h1 ⊢
          rcases h1 with h1 | h1
          · cases h1
          · exact ih _ _ h1

theorem onPluginEvent_activeSound (env : Env) (w : World) (svc : CardResourceServiceAdapter)
    (pluginEvent : PluginEvent) (h : svc.Sound Active (fun _ _ => True)) :
    (onPluginEvent env w svc pluginEvent).1 = .error Exception.Undefined ∨
      (onPluginEvent env w svc pluginEvent).2.1.Sound Active (fun _ _ => True) := by
  unfold onPluginEvent
  split_ifs
  · exact Or.inr h
  · exact connectReaders_activeSound env _ _ _ svc h
  · exact Or.inr (disconnectReaders_sound env (active_preserved env) _ _ _ svc h)

theorem unregisterInactive_spec (l : List ReaderManagerAdapter) :
    ∀ (w : World) (svc : CardResourceServiceAdapter),
      WellKeyed svc.mReaderToReaderManagerMap →
      WellKeyed (unregisterInactive l w svc).1.mReaderToReaderManagerMap ∧
      (unregisterInactive l w svc).1.mCardProfileNameToCardProfileManagerMap =
        svc.mCardProfileNameToCardProfileManagerMap ∧
      (∀ p ∈ (unregisterInactive l w svc).1.mReaderToReaderManagerMap,
        p ∈ svc.mReaderToReaderManagerMap ∧ (p.2 ∈ l → p.2.mIsActive = true)) := by
  induction l with
  | nil =>
    intro w svc hw
    exact ⟨hw, rfl, fun p hp => ⟨hp, fun h => by simp at h⟩⟩
  | cons rm rest ih =>
    intro w svc hw
    simp only [unregisterInactive]
    by_cases hact : rm.isActive = true
    · simp only [hact, Bool.not_true, Bool.false_eq_true, if_false]
      obtain ⟨a, b, c⟩ := ih w svc hw
      refine ⟨a, b, fun p hp => ⟨(c p hp).1, fun hmem => ?_⟩⟩
      rcases List.mem_cons.1 hmem with hmem | hmem
      · rw [hmem]
        exact hact
      · exact (c p hp).2 hmem
    · simp only [hact, Bool.not_false, if_true]
      have hmap := unregisterReader_readers w svc rm.getReader (some rm.getPlugin)
      have hpms : (unregisterReader w svc rm.getReader
          (some rm.getPlugin)).1.mCardProfileNameToCardProfileManagerMap =
          svc.mCardProfileNameToCardProfileManagerMap := by
        unfold unregisterReader
        dsimp only
        split
        · rfl
        · split_ifs <;> rfl
      generalize unregisterReader w svc rm.getReader (some rm.getPlugin) = u at hmap hpms
      have hw1 : WellKeyed u.1.mReaderToReaderManagerMap := by
        rw [hmap]
        exact wellKeyed_unregistered _ _ hw
      obtain ⟨a, b, c⟩ := ih u.2 u.1 hw1
      refine ⟨a, b.trans hpms, fun p hp => ?_⟩
      have hp1 := (c p hp).1
      rw [hmap] at hp1
      refine ⟨StdMap.mem_erase _ _ _ hp1, fun hmem => ?_⟩
      rcases List.mem_cons.1 hmem with hmem | hmem
      · exfalso
        apply StdMap.mem_erase_ne _ _ _ hp1
        rw [← (hw.1 p (StdMap.mem_erase _ _ _ hp1)).1, hmem]
        rfl
      · exact (c p hp).2 hmem

theorem unregisterInactive_keeps (l : List ReaderManagerAdapter) :
    ∀ (w : World) (svc : CardResourceServiceAdapter),
      (∀ rm ∈ l, rm.mIsActive = false → ∀ p ∈ svc.mReaderToReaderManagerMap,
        p.1 = rm.mReader → p.2.mIsActive = false) →
      ∀ p ∈ svc.mReaderToReaderManagerMap, p.2.mIsActive = true →
        p ∈ (unregisterInactive l w svc).1.mReaderToReaderManagerMap := by
  induction l with
  | nil => intro w svc _ p hp _; exact hp
  | cons rm rest ih =>
    intro w svc hl p hp hact
    simp only [unregisterInactive]
    by_cases hrm : rm.isActive = true
    · simp only [hrm, Bool.not_true, Bool.false_eq_true, if_false]
      exact ih w svc (fun r hr => hl r (List.mem_cons_of_mem _ hr)) p hp hact
    · simp only [hrm, Bool.not_false, if_true]
      have hrm2 : rm.mIsActive = false := by simpa [ReaderManagerAdapter.isActive] using hrm
      have hmap := unregisterReader_readers w svc rm.getReader (some rm.getPlugin)
      generalize unregisterReader w svc rm.getReader (some rm.getPlugin) = u at hmap
      apply ih u.2 u.1
      · intro r hr hri q hq hqk
        rw [hmap] at hq
        exact hl r (List.mem_cons_of_mem _ hr) hri q (StdMap.mem_erase _ _ _ hq) hqk
      · rw [hmap]
        apply StdMap.mem_erase_of_ne _ _ _ hp
        intro hk
        have := hl rm (List.mem_cons_self _ _) hrm2 p hp hk
        rw [this] at hact
        cases hact
      · exact hact

theorem removeUnusedReaderManagers_spec (w : World) (svc : CardResourceServiceAdapter)
    (h : WellKeyed svc.mReaderToReaderManagerMap) (p : CardReader × ReaderManagerAdapter) :
    p ∈ (removeUnusedReaderManagers w svc).1.mReaderToReaderManagerMap ↔
      p ∈ svc.mReaderToReaderManagerMap ∧ p.2.mIsActive = true := by
  obtain ⟨_, _, c⟩ := unregisterInactive_spec
    (svc.mReaderToReaderManagerMap.map (fun pair => pair.2)) w svc h
  constructor
  · intro hp
    exact ⟨(c p hp).1, (c p hp).2 (List.mem_map.2 ⟨p, (c p hp).1, rfl⟩)⟩
  · intro hp
    apply unregisterInactive_keeps _ w svc _ p hp.1 hp.2
    intro rm hrm hinactive q hq hqk
    obtain ⟨r, hr, hr2⟩ := List.mem_map.1 hrm
    have hkey : q.1 = r.1 := by
      rw [hqk, ← hr2]
      exact (h.1 r hr).1
    obtain ⟨qk, qv⟩ := q
    obtain ⟨rk, rv⟩ := r
    simp only at hkey hr2
    subst hkey
    have e1 := StdMap.find_of_mem_nodup _ _ _ hq h.2.2
    have e2 := StdMap.find_of_mem_nodup _ _ _ hr h.2.2
    rw [e1] at e2
    simp only [Option.some.injEq] at e2
    simp only
    rw [e2, hr2]
    exact hinactive

theorem removeUnusedReaderManagers_active (w : World) (svc : CardResourceServiceAdapter)
    {L : CardResourceProfileConfigurator → List CardResource → Prop}
    (h : svc.Sound WellKeyed L) :
    (removeUnusedReaderManagers w svc).1.Sound Active L := by
  obtain ⟨a, b, c⟩ := unregisterInactive_spec
    (svc.mReaderToReaderManagerMap.map (fun pair => pair.2)) w svc h.1
  refine ⟨⟨a, fun p hp => (c p hp).2 (List.mem_map.2 ⟨p, (c p hp).1, rfl⟩)⟩, ?_⟩
  unfold removeUnusedReaderManagers
  rw [b]
  exact h.2

theorem start_activeSound (env : Env) (w : World) (svc : CardResourceServiceAdapter)
    (h : svc.Sound Active (fun _ _ => True)) :
    (start env w svc).1 = .error Exception.Undefined ∨
      (start env w svc).2.1.Sound Active (fun _ _ => True) := by
  unfold start
  split
  · exact Or.inr h
  · next cfg _ =>
    dsimp only
    have h0 : (if svc.mIsStarted = true then stop w svc else (.ok (), svc, w)).2.1.Sound
        Active (fun _ _ => True) := by
      split_ifs
      · exact stop_sound env (active_preserved env) w svc h
      · exact h
    have ht : (if svc.mIsStarted = true then stop w svc else (.ok (), svc, w)).1 = .ok () ∨
        (if svc.mIsStarted = true then stop w svc else (.ok (), svc, w)).1 =
          .error Exception.Undefined := by
      split_ifs
      · unfold stop
        dsimp only
        split
        · exact Or.inr rfl
        · exact Or.inl rfl
      · exact Or.inl rfl
    generalize (if svc.mIsStarted = true then stop w svc else (.ok (), svc, w)) = s at h0 ht
    obtain ⟨o, svc1, w1⟩ := s
    cases o with
    | error e =>
      dsimp only at ht ⊢
      rcases ht with ht | ht
      · cases ht
      · exact Or.inl ht
    | ok u =>
      dsimp only at h0 ⊢
      have hm := initializeReaderManagers_sound env (wellKeyed_preserved_plain env)
        wellKeyed_registers cfg cfg.mPlugins w1 svc1 (sound_wellKeyed_of_active svc1 h0)
      generalize initializeReaderManagers env cfg cfg.mPlugins w1 svc1 = managers at hm
      have hp := initializeCardProfileManagers_sound env (wellKeyed_preserved_plain env) cfg
        cfg.mCardResourceProfileConfigurators managers.2 managers.1 hm
      have hpt := (initializeCardProfileManagers_spec env cfg
        cfg.mCardResourceProfileConfigurators managers.2 managers.1).1
      generalize initializeCardProfileManagers env cfg cfg.mCardResourceProfileConfigurators
        managers.2 managers.1 = r at hp hpt
      obtain ⟨o, svc2, w2⟩ := r
      cases o with
      | error e =>
        dsimp only at hpt ⊢
        rcases hpt with hpt | hpt
        · cases hpt
        · exact Or.inl hpt
      | ok u =>
        dsimp only at hp ⊢
        have hu := removeUnusedReaderManagers_active w2 svc2 hp
        exact Or.inr ⟨hu.1, hu.2⟩

theorem configure_activeSound (env : Env) (w : World) (svc : CardResourceServiceAdapter)
    (configurator : CardResourceServiceConfiguratorAdapter)
    (h : svc.Sound Active (fun _ _ => True)) :
    (configure env w svc configurator).1 = .error Exception.Undefined ∨
      (configure env w svc configurator).2.1.Sound Active (fun _ _ => True) := by
  unfold configure
  split_ifs
  · have h1 := stop_sound env (active_preserved env) w svc h
    have ht : (stop w svc).1 = .ok () ∨ (stop w svc).1 = .error Exception.Undefined := by
      unfold stop
      dsimp only
      split
      · exact Or.inr rfl
      · exact Or.inl rfl
    generalize stop w svc = r at h1 ht
    obtain ⟨o, svc1, w1⟩ := r
    cases o with
    | error e =>
      dsimp only at ht ⊢
      rcases ht with ht | ht
      · cases ht
      · exact Or.inl ht
    | ok u => exact start_activeSound env w1 _ ⟨h1.1, h1.2⟩
  · exact Or.inr ⟨h.1, h.2⟩

theorem perform_activeSound (env : Env) (w : World) (svc : CardResourceServiceAdapter)
    (operation : ServiceOperation) (h : svc.Sound Active (fun _ _ => True))
    (hd : (perform env w svc operation).1 ≠ some Exception.Undefined) :
    (perform env w svc operation).2.1.Sound Active (fun _ _ => True) := by
  cases operation with
  | configure configurator =>
    rcases configure_activeSound env w svc configurator h with hc | hc
    · exact absurd (by simp [perform, hc, Exception.thrown]) hd
    · exact hc
  | start =>
    rcases start_activeSound env w svc h with hc | hc
    · exact absurd (by simp [perform, hc, Exception.thrown]) hd
    · exact hc
  | stop => exact stop_sound env (active_preserved env) w svc h
  | getCardResource name fuel =>
    exact getCardResource_sound env (active_preserved env) fuel w svc name h
  | releaseCardResource c => exact releaseCardResource_sound env (active_preserved env) w svc c h
  | removeCardResource c => exact removeCardResource_sound env (active_preserved env) w svc c h
  | onReaderEvent e => exact onReaderEvent_sound env (active_preserved env) w svc e h
  | onPluginEvent e =>
    rcases onPluginEvent_activeSound env w svc e h with hc | hc
    · exact absurd (by simp [perform, hc, Exception.thrown]) hd
    · exact hc

theorem performAll_activeSound (env : Env) (operations : List ServiceOperation) :
    ∀ (w : World) (svc : CardResourceServiceAdapter) (s : CardResourceServiceAdapter × World),
      svc.Sound Active (fun _ _ => True) → performAll env w svc operations = some s →
      s.1.Sound Active (fun _ _ => True) := by
  induction operations with
  | nil =>
    intro w svc s h hs
    simp only [performAll, Option.some.injEq] at hs
    rw [← hs]
    exact h
  | cons operation rest ih =>
    intro w svc s h hs
    simp only [performAll] at hs
    split_ifs at hs with hd
    exact ih _ _ s (perform_activeSound env w svc operation h hd) hs

end CardResourceServiceAdapter

namespace CardResourceServiceAdapter

/-- C31: in every state that the service reaches from its initial state by `configure`,
`start`, `stop`, client calls and reader and plugin events (none running into undefined
behaviour), so after every `start` that returns and after every `READER_CONNECTED`
event that has been handled, every registered reader manager is active.
`removeUnusedReaderManagers`, the last step of `start` on the map, keeps exactly the
entries whose manager is active.  And when `onReaderConnected` returns normally for a
reader, the reader is registered afterwards if and only if the manager handed to the
profile managers has been activated, which is the case if and only if some profile
manager acts on the reader (its plugin is among the plugins of the profile when the
profile lists some, and its name passes the filter of the profile); the other readers
stay registered. -/
theorem registered_managers_are_active (env : Env) (operations : List ServiceOperation)
    (w0 w : World) (svc : CardResourceServiceAdapter)
    (hrun : performAll env w0 {} operations = some (svc, w)) :
    (∀ p ∈ svc.mReaderToReaderManagerMap, p.2.isActive = true) ∧
    (∀ (w1 : World) (svc1 : CardResourceServiceAdapter)
        (p : CardReader × ReaderManagerAdapter),
      WellKeyed svc1.mReaderToReaderManagerMap →
      (p ∈ (removeUnusedReaderManagers w1 svc1).1.mReaderToReaderManagerMap ↔
        p ∈ svc1.mReaderToReaderManagerMap ∧ p.2.isActive = true)) ∧
    (∀ (w1 : World) (cfg : CardResourceServiceConfiguratorAdapter) (reader : CardReader)
        (plugin : Plugin),
      svc.mConfigurator = some cfg →
      (onReaderConnected env w1 svc reader plugin).1 = .ok () →
      ((StdMap.find (onReaderConnected env w1 svc reader
            plugin).2.1.mReaderToReaderManagerMap reader).isSome =
          (notifyReaderConnected env svc.mCardProfileNameToCardProfileManagerMap
            (registerReader cfg svc reader plugin).1 w1).2.2.1.isActive) ∧
      ((notifyReaderConnected env svc.mCardProfileNameToCardProfileManagerMap
            (registerReader cfg svc reader plugin).1 w1).2.2.1.isActive =
          svc.mCardProfileNameToCardProfileManagerMap.any
            (fun p => p.2.actsOn env reader plugin)) ∧
      (∀ p ∈ svc.mReaderToReaderManagerMap, p.1 ≠ reader →
        p ∈ (onReaderConnected env w1 svc reader plugin).2.1.mReaderToReaderManagerMap)) := by
  have h := performAll_activeSound env operations w0 {} (svc, w)
    ⟨⟨wellKeyed_nil, fun p hp => by simp at hp⟩, fun p hp => by simp at hp⟩ hrun
  refine ⟨h.1.2, ?_, ?_⟩
  · intro w1 svc1 p hw
    exact removeUnusedReaderManagers_spec w1 svc1 hw p
  · intro w1 cfg reader plugin hcfg hok
    obtain ⟨a, _, c⟩ := onReaderConnected_kept env w1 svc cfg reader plugin hcfg h.1.1 hok
    refine ⟨a, ?_, c⟩
    have hnotify : (notifyReaderConnected env svc.mCardProfileNameToCardProfileManagerMap
        (registerReader cfg svc reader plugin).1 w1).1 = .ok () := by
      rcases (notifyReaderConnected_active env svc.mCardProfileNameToCardProfileManagerMap
        (registerReader cfg svc reader plugin).1 w1).1 with hn | hn
      · exact hn
      · exfalso
        have herr : (onReaderConnected env w1 svc reader plugin).1 =
            .error Exception.Undefined := by
          unfold onReaderConnected
          simp only [hcfg]
          have hpms : (registerReader cfg svc reader
              plugin).2.mCardProfileNameToCardProfileManagerMap =
              svc.mCardProfileNameToCardProfileManagerMap := rfl
          rw [hpms]
          generalize notifyReaderConnected env svc.mCardProfileNameToCardProfileManagerMap
            (registerReader cfg svc reader plugin).1 w1 = r at hn
          obtain ⟨o, pms1, rmF, w2⟩ := r
          dsimp only at hn
          subst hn
          rfl
        rw [herr] at hok
        cases hok
    have hact := (notifyReaderConnected_active env
      svc.mCardProfileNameToCardProfileManagerMap
      (registerReader cfg svc reader plugin).1 w1).2 hnotify
    rw [ReaderManagerAdapter.isActive, hact]
    rfl

theorem registered_managers_are_active_witness :
    performAll Scenario.envRegex {} {} Scenario.lifeRegex =
      some (Scenario.serviceRegexStarted, Scenario.worldRegexStarted) ∧
    Scenario.managerXStarted.isActive = true ∧
    StdMap.find Scenario.serviceRegexStarted.mReaderToReaderManagerMap Scenario.readerY = none ∧
    (StdMap.find (onReaderConnected Scenario.envRegex Scenario.worldRegexStarted
        Scenario.serviceRegexStarted Scenario.readerY
        Scenario.plugin1).2.1.mReaderToReaderManagerMap Scenario.readerY).isSome = false :=
  have h := registered_managers_are_active Scenario.envRegex Scenario.lifeRegex {}
    Scenario.worldRegexStarted Scenario.serviceRegexStarted rfl
  ⟨rfl, h.1 (Scenario.readerX, Scenario.managerXStarted) (by decide), rfl,
   ((h.2.2 Scenario.worldRegexStarted Scenario.configurationRegex Scenario.readerY
      Scenario.plugin1 rfl rfl).1).trans rfl⟩

end CardResourceServiceAdapter

end Keyple
